import Mathlib

/-!
# Dispatcher of the concolic-testing cluster: `lib/cluster/dispatch.cpp`

A shallow embedding of the three state machines of `dispatch.cpp` (the per-VM-worker
machine, the per-SVM-worker machine and the top-level Dispatch machine), of the
dispatcher's helper functions and of the protocol primitives defined in that file.

Conventions of the embedding.

* A Boost.MSM transition table is kept as data (`transition_table : List Row`), one
  `Row` per `Row<...>` of the source, with the guard as an expression tree over
  `And_`, `Or_`, `Not_` and the action as the list of an `ActionSequence_`.
  Boost.MSM tries the rows of one (state, event) pair from the bottom of the table
  to the top and fires the first one whose guard holds; an event for which the
  current state has no row at all reaches `no_transition` (an assertion failure),
  and an exception thrown by an action reaches `exception_caught` (an assertion
  failure as well).  Both are `Fault`s here.
* A worker handle (`NodeRegistrar::Node`) is shared between the registrar and one
  worker machine; here the registrar owns the list and a machine refers to its
  handle by position.
* Socket traffic: what the dispatcher writes to a worker is appended to
  `Server.written`; what the worker answers is read off `Server.remote`.
  Transport failures are outside the model.
* The wall clock is an input, in nanoseconds.  `fsm.process_event` gives every guard
  evaluation and every action of one event the same reading `now`;
  `fsm.process_event_clocked` gives each evaluation of `is_target_expired`, which reads
  the clock through `elapsed_time`, a reading of its own.
-/

namespace crete
namespace cluster

/-! ## Faults -/

/-- Abnormal ends of an event: assertion failures, exceptions, undefined behaviour. -/
inductive Fault where
  | no_transition
  | file_missing (p : List String)
  | file_create (p : List String)
  | file_open_failed (p : List String)
  | front_of_empty_queue
  | node_type_not_recognized
  deriving DecidableEq, Repr

/-! ## Guard expressions, rows and the row-selection rule of Boost.MSM -/

/-- Guard of a row: `none`, a guard functor, or a combination by the eUML operators. -/
inductive GuardExpr (G : Type) where
  | none : GuardExpr G
  | atom : G → GuardExpr G
  | Not_ : GuardExpr G → GuardExpr G
  | And_ : GuardExpr G → GuardExpr G → GuardExpr G
  | Or_ : GuardExpr G → GuardExpr G → GuardExpr G
  deriving DecidableEq, Repr

/-- One `Row<Source, Event, Target, Action, Guard>` of a transition table. -/
structure Row (S T G A : Type) where
  source : S
  event : T
  target : S
  action : List A
  guard : GuardExpr G
  deriving DecidableEq, Repr

/-- Evaluation of a guard expression.  A guard functor may change the machine (one of
them caches a reply), so the context is threaded; `And_` and `Or_` short-circuit like
the C++ operators they expand to. -/
def GuardExpr.eval {G C : Type} (atom : G → C → Bool × C) : GuardExpr G → C → Bool × C
  | GuardExpr.none, c => (true, c)
  | GuardExpr.atom g, c => atom g c
  | GuardExpr.Not_ e, c => let r := e.eval atom c; (!r.1, r.2)
  | GuardExpr.And_ a b, c =>
      let r := a.eval atom c
      if r.1 then b.eval atom r.2 else (false, r.2)
  | GuardExpr.Or_ a b, c =>
      let r := a.eval atom c
      if r.1 then (true, r.2) else b.eval atom r.2

/-- The rows a machine in state `s` has for the event tagged `t`, in the order in which
Boost.MSM tries them: last declared first. -/
def candidate_rows {S T G A : Type} [DecidableEq S] [DecidableEq T]
    (table : List (Row S T G A)) (s : S) (t : T) : List (Row S T G A) :=
  (table.filter (fun r => decide (r.source = s) && decide (r.event = t))).reverse

/-- Tries the candidate rows in order and returns the first row whose guard holds
(none when every guard rejects), with the context as the guards left it. -/
def select_row {S T G A C : Type} (atom : G → C → Bool × C) :
    List (Row S T G A) → C → Option (Row S T G A) × C
  | [], c => (Option.none, c)
  | r :: rs, c =>
      let g := r.guard.eval atom c
      if g.1 then (some r, g.2) else select_row atom rs g.2

/-- Runs the actions of an `ActionSequence_` from left to right. -/
def run_actions {A C : Type} (exec : A → C → Except Fault C) : List A → C → Except Fault C
  | [], c => Except.ok c
  | a :: as, c =>
      match exec a c with
      | Except.ok c1 => run_actions exec as c1
      | Except.error e => Except.error e

/-! ## Domain objects (declared in headers outside `dispatch.cpp`) -/

/-- A filesystem path, as the list of its components. -/
abbrev Path := List String

/-- Packet types named by `dispatch.cpp`, and any other code a packet may carry. -/
inductive packet_type where
  | cluster_request_vm_node
  | cluster_request_svm_node
  | cluster_config
  | cluster_image_info_request
  | cluster_image_info
  | cluster_image
  | cluster_commence
  | cluster_status_request
  | cluster_status
  | cluster_trace_request
  | cluster_trace
  | cluster_test_case_request
  | cluster_test_case
  | cluster_error_log_request
  | cluster_reset
  | cluster_next_target
  | other (code : Nat)
  deriving DecidableEq, Repr

/-- Fingerprint of an OS image; `dispatch.cpp` reads `file_name_` and compares whole
values. -/
structure ImageInfo where
  file_name_ : String
  size_ : Nat
  hash_ : Nat
  deriving DecidableEq, Repr

/-- Payload of an OS image. -/
structure OSImage where
  data : Nat
  deriving DecidableEq, Repr

/-- A trace; `dispatch.cpp` reads `uuid_`, kept here in its canonical textual form (what
`boost::uuids::to_string` returns). -/
structure Trace where
  uuid_ : String
  data : Nat
  deriving DecidableEq, Repr

/-- A test case. -/
structure TestCase where
  data : Nat
  deriving DecidableEq, Repr

namespace log
/-- An error reported by a worker; `dispatch.cpp` reads `log`. -/
structure NodeError where
  log : String
  deriving DecidableEq, Repr
end log

/-- Status a worker reports about itself. -/
structure NodeStatus where
  id : Nat
  active : Bool
  trace_count : Nat
  test_case_count : Nat
  error_count : Nat
  deriving DecidableEq, Repr

namespace option
/-- Rotation thresholds `options.test.interval`. -/
structure Interval where
  trace : Nat
  tc : Nat
  time : Nat
  deriving DecidableEq, Repr

/-- Section `options.test`. -/
structure Test where
  items : List String
  interval : Interval
  deriving DecidableEq, Repr

/-- Section `options.vm.image`. -/
structure Image where
  path : Path
  update : Bool
  deriving DecidableEq, Repr

/-- Section `options.vm`. -/
structure VM where
  image : Image
  deriving DecidableEq, Repr

/-- Section `options.mode`. -/
structure Mode where
  distributed : Bool
  deriving DecidableEq, Repr

/-- Section `options.profile`. -/
structure Profile where
  interval : Nat
  deriving DecidableEq, Repr

/-- The dispatcher's options, `option::Dispatch`, as far as `dispatch.cpp` reads them. -/
structure Dispatch where
  mode : Mode
  test : Test
  vm : VM
  profile : Profile
  deriving DecidableEq, Repr
end option

/-- What travels behind a `PacketInfo`. -/
inductive Payload where
  | empty
  | options (o : option.Dispatch)
  | image_info (ii : ImageInfo)
  | image (im : OSImage)
  | traces (ts : List Trace)
  | tests (ts : List TestCase)
  | target (t : String)
  deriving DecidableEq, Repr

/-- A packet the dispatcher writes: the `id` and `type` of its `PacketInfo` and the
serialized object (the `size` field is fixed by the serialization and not kept). -/
structure Packet where
  id : Nat
  type : packet_type
  payload : Payload
  deriving DecidableEq, Repr

/-- The worker behind a connection: what it answers to each kind of request. -/
structure Remote where
  status : NodeStatus
  traces : List Trace
  tests : List TestCase
  errors : List log.NodeError
  image_info : ImageInfo
  deriving DecidableEq, Repr

/-- The dispatcher's end of a worker connection: the packets written so far (oldest
first), the packet types the replies read so far were checked against (oldest first),
and the worker at the other end. -/
structure Server where
  written : List Packet
  expected : List packet_type
  remote : Remote
  deriving DecidableEq, Repr

/-- A worker handle, as held under its lock. -/
structure NodeData where
  type : packet_type
  status : NodeStatus
  server : Server
  deriving DecidableEq, Repr

/-- What `display_status` prints, before it is laid out in columns: one heading per
worker (its running number and whether it is a VM worker), the elapsed seconds, the
test pool's and the trace pool's `count_next` and total, and per worker its
`test_case_count` and `trace_count`. -/
structure StatusTable where
  heading : List (Nat × Bool)
  etime : Nat
  test : Nat × Nat
  trace : Nat × Nat
  nodes : List (Nat × Nat)
  deriving DecidableEq, Repr

/-- Content of a regular file written or read by the dispatcher. -/
inductive FileContent where
  | trace (t : Trace)
  | text (s : String)
  | status (t : StatusTable)
  | rows (r : List (List Nat))
  deriving DecidableEq, Repr

/-- The filesystem as the dispatcher sees it.  `image_info_of p` is what the
constructor `ImageInfo{p}` computes and `from_image_file p` what the function of that
name loads; both live outside `dispatch.cpp`. -/
structure FileSystem where
  dirs : List Path
  files : List (Path × FileContent)
  symlinks : List (Path × Path)
  image_info_of : Path → ImageInfo
  from_image_file : Path → OSImage

namespace FileSystem

/-- Test `fs::exists(p)`. -/
def fs_exists (d : FileSystem) (p : Path) : Bool :=
  d.dirs.contains p || (d.files.map Prod.fst).contains p || (d.symlinks.map Prod.fst).contains p

/-- Call `fs::remove(p)`: removes the file or symlink `p`, or the directory `p`. -/
def remove (d : FileSystem) (p : Path) : FileSystem :=
  { d with
    dirs := d.dirs.filter (fun q => !decide (q = p))
    files := d.files.filter (fun q => !decide (q.1 = p))
    symlinks := d.symlinks.filter (fun q => !decide (q.1 = p)) }

/-- Call `fs::remove_all(p)`: removes `p` and everything below it. -/
def remove_all (d : FileSystem) (p : Path) : FileSystem :=
  { d with
    dirs := d.dirs.filter (fun q => !p.isPrefixOf q)
    files := d.files.filter (fun q => !p.isPrefixOf q.1)
    symlinks := d.symlinks.filter (fun q => !p.isPrefixOf q.1) }

/-- Whether `p` is a directory; the empty path is the working directory. -/
def is_dir (d : FileSystem) (p : Path) : Bool :=
  p.isEmpty || d.dirs.contains p

/-- Whether an output stream opened on `p` is `good()`: the parent directory is there
and `p` itself is not a directory. -/
def can_open (d : FileSystem) (p : Path) : Bool :=
  d.is_dir p.dropLast && !d.is_dir p

/-- Call `fs::create_directories(p)`: creates `p` and its missing ancestors; the
result tells whether `p` was created. -/
def create_directories (d : FileSystem) (p : Path) : Bool × FileSystem :=
  if d.is_dir p then (false, d)
  else (true, { d with dirs := d.dirs ++ (p.inits.filter (fun q => !d.is_dir q)) })

/-- Call `fs::create_symlink(target, link)`. -/
def create_symlink (d : FileSystem) (target link : Path) : FileSystem :=
  { d with symlinks := d.symlinks ++ [(link, target)] }

/-- Writes a regular file, replacing what was there. -/
def write_file (d : FileSystem) (p : Path) (c : FileContent) : FileSystem :=
  { d with files := d.files.filter (fun q => !decide (q.1 = p)) ++ [(p, c)] }

/-- Content of the regular file `p`, when there is one. -/
def read_file (d : FileSystem) (p : Path) : Option FileContent :=
  (d.files.find? (fun q => decide (q.1 = p))).map Prod.snd

end FileSystem

/-- The file name without its extension, as `fs::path::stem` cuts it: everything before
the last dot, the names `.` and `..` being left alone. -/
def stem_chars (cs : List Char) : List Char :=
  if cs = ['.'] ∨ cs = ['.', '.'] then cs
  else
    match cs.reverse.dropWhile (fun c => !decide (c = '.')) with
    | [] => cs
    | _ :: rest => rest.reverse

/-- Call `p.replace_extension(ext)` of `fs::path`. -/
def replace_extension (p : Path) (ext : String) : Path :=
  match p.reverse with
  | [] => []
  | f :: rest => (String.mk (stem_chars f.data ++ ext.data) :: rest).reverse

/-- The shared objects a worker machine acts on: the worker handles of the registrar
and the filesystem. -/
structure Sys where
  nodes : List NodeData
  disk : FileSystem

/-- A handle that stands for nothing; read only where a position is out of range. -/
def NodeData.blank : NodeData :=
  { type := packet_type.other 0
    status := { id := 0, active := false, trace_count := 0, test_case_count := 0, error_count := 0 }
    server := { written := [], expected := []
                remote := { status := { id := 0, active := false, trace_count := 0,
                                        test_case_count := 0, error_count := 0 }
                            traces := [], tests := [], errors := []
                            image_info := { file_name_ := "", size_ := 0, hash_ := 0 } } } }

/-- Replaces the element at position `i` by its image under `f`. -/
def update_at {α : Type} (f : α → α) : Nat → List α → List α
  | _, [] => []
  | 0, x :: xs => f x :: xs
  | i + 1, x :: xs => x :: update_at f i xs

/-- The handle at position `i`, as `node->acquire()` gives access to it. -/
def Sys.acquire (sys : Sys) (i : Nat) : NodeData :=
  sys.nodes.getD i NodeData.blank

/-- Applies `f` to the handle at position `i`, under its lock. -/
def Sys.with_node (sys : Sys) (i : Nat) (f : NodeData → NodeData) : Sys :=
  { sys with nodes := update_at f i sys.nodes }

/-- Writes a packet of type `t` carrying `pl` to the worker; the packet id is the
handle's `status.id`. -/
def NodeData.write (n : NodeData) (t : packet_type) (pl : Payload) : NodeData :=
  { n with server := { n.server with written := n.server.written ++ [⟨n.status.id, t, pl⟩] } }

/-- Reads one reply, to be checked against the packet type `t`. -/
def NodeData.read (n : NodeData) (t : packet_type) : NodeData :=
  { n with server := { n.server with expected := n.server.expected ++ [t] } }

/-! ## Protocol primitives -/

/-- Function `receive_traces`. -/
def receive_traces (sys : Sys) (node : Nat) : List Trace × Sys :=
  ((sys.acquire node).server.remote.traces,
   sys.with_node node (fun n =>
     (n.write packet_type.cluster_trace_request Payload.empty).read packet_type.cluster_trace))

/-- Function `receive_tests`. -/
def receive_tests (sys : Sys) (node : Nat) : List TestCase × Sys :=
  ((sys.acquire node).server.remote.tests,
   sys.with_node node (fun n =>
     (n.write packet_type.cluster_test_case_request Payload.empty).read
       packet_type.cluster_test_case))

/-- Function `receive_errors`. -/
def receive_errors (sys : Sys) (node : Nat) : List log.NodeError × Sys :=
  ((sys.acquire node).server.remote.errors,
   sys.with_node node (fun n =>
     (n.write packet_type.cluster_error_log_request Payload.empty).read
       packet_type.cluster_test_case))

/-- Function `receive_image_info`. -/
def receive_image_info (sys : Sys) (node : Nat) : ImageInfo × Sys :=
  ((sys.acquire node).server.remote.image_info,
   sys.with_node node (fun n =>
     (n.write packet_type.cluster_image_info_request Payload.empty).read
       packet_type.cluster_image_info))

/-- Function `transmit_traces`. -/
def transmit_traces (sys : Sys) (node : Nat) (traces : List Trace) : Sys :=
  if traces.isEmpty then sys
  else sys.with_node node (fun n => n.write packet_type.cluster_trace (Payload.traces traces))

/-- Function `transmit_tests`. -/
def transmit_tests (sys : Sys) (node : Nat) (tcs : List TestCase) : Sys :=
  if tcs.isEmpty then sys
  else sys.with_node node (fun n => n.write packet_type.cluster_test_case (Payload.tests tcs))

/-- Function `transmit_commencement`. -/
def transmit_commencement (sys : Sys) (node : Nat) : Sys :=
  sys.with_node node (fun n => n.write packet_type.cluster_commence Payload.empty)

/-- Function `transmit_image_info`. -/
def transmit_image_info (sys : Sys) (node : Nat) (ii : ImageInfo) : Sys :=
  sys.with_node node (fun n => n.write packet_type.cluster_image_info (Payload.image_info ii))

/-- Function `transmit_config`. -/
def transmit_config (sys : Sys) (node : Nat) (options : option.Dispatch) : Sys :=
  sys.with_node node (fun n => n.write packet_type.cluster_config (Payload.options options))

/-- Modelled from the spec: the primitive `cluster::poll` (row "poll (rx_status)" of the
protocol table), which is declared outside `dispatch.cpp`: it sends a
`cluster_status_request`, reads a `cluster_status` reply and stores the reported
status in the handle. -/
def poll (sys : Sys) (node : Nat) : Sys :=
  sys.with_node node (fun n =>
    let n1 := (n.write packet_type.cluster_status_request Payload.empty).read
      packet_type.cluster_status
    { n1 with status := n1.server.remote.status })

/-! ## The VM worker machine -/

namespace vm

/-- Flags of namespace `vm::flag`. -/
inductive Flag where
  | tx_config | image | trace_rxed | tx_test | error_rxed | guest_data_rxed | status_rxed
  | error
  deriving DecidableEq, Repr

/-- Events of the VM worker machine, with their members. -/
inductive Event where
  | start (node_ : Nat) (first_ update_image_ distributed_ : Bool)
  | config (options_ : option.Dispatch)
  | poll
  | image (image_path_ : Path)
  | trace
  | test (tests_ : List TestCase)
  deriving DecidableEq, Repr

/-- The event types, by which rows are keyed. -/
inductive EventTag where
  | start | config | poll | image | trace | test
  deriving DecidableEq, Repr

/-- Type of an event. -/
def Event.tag : Event → EventTag
  | Event.start _ _ _ _ => EventTag.start
  | Event.config _ => EventTag.config
  | Event.poll => EventTag.poll
  | Event.image _ => EventTag.image
  | Event.trace => EventTag.trace
  | Event.test _ => EventTag.test

/-- States of `VMNodeFSM_`. -/
inductive State where
  | Start | TxConfig | ValidateImage | RxGuestData | GuestDataRxed | UpdateImage | Commence
  | RxStatus | StatusRxed | RxTrace | TxTest | TraceRxed | TestTxed | ErrorRxed | Error
  deriving DecidableEq, Repr

/-- Actions of `VMNodeFSM_`. -/
inductive Action where
  | init | tx_config | update_image_info | update_image | rx_guest_data | commence
  | rx_status | rx_trace | tx_test | rx_error
  deriving DecidableEq, Repr

/-- Guards of `VMNodeFSM_`. -/
inductive Guard where
  | is_distributed | do_update | is_first | is_image_valid | has_trace | has_error
  deriving DecidableEq, Repr

/-- The `flag_list` of each state. -/
def flag_list : State → List Flag
  | State.TxConfig => [Flag.tx_config]
  | State.ValidateImage => [Flag.image]
  | State.GuestDataRxed => [Flag.guest_data_rxed]
  | State.UpdateImage => [Flag.image]
  | State.StatusRxed => [Flag.status_rxed]
  | State.TxTest => [Flag.tx_test]
  | State.TraceRxed => [Flag.trace_rxed]
  | State.ErrorRxed => [Flag.error_rxed]
  | State.Error => [Flag.error]
  | _ => []

/-- Row type of the VM table. -/
abbrev TRow := Row State EventTag Guard Action

/-- The table `VMNodeFSM_::transition_table`, row by row in source order. -/
def transition_table : List TRow :=
  [ ⟨State.Start, EventTag.start, State.TxConfig, [Action.init], GuardExpr.none⟩,
    ⟨State.TxConfig, EventTag.config, State.ValidateImage, [Action.tx_config],
      GuardExpr.And_ (GuardExpr.atom Guard.is_distributed) (GuardExpr.atom Guard.do_update)⟩,
    ⟨State.TxConfig, EventTag.config, State.RxGuestData, [Action.tx_config],
      GuardExpr.And_ (GuardExpr.Not_ (GuardExpr.atom Guard.do_update))
        (GuardExpr.atom Guard.is_first)⟩,
    ⟨State.TxConfig, EventTag.config, State.Commence, [Action.tx_config],
      GuardExpr.And_ (GuardExpr.Not_ (GuardExpr.atom Guard.do_update))
        (GuardExpr.Not_ (GuardExpr.atom Guard.is_first))⟩,
    ⟨State.ValidateImage, EventTag.image, State.UpdateImage, [],
      GuardExpr.Not_ (GuardExpr.atom Guard.is_image_valid)⟩,
    ⟨State.ValidateImage, EventTag.image, State.RxGuestData, [],
      GuardExpr.And_ (GuardExpr.atom Guard.is_image_valid) (GuardExpr.atom Guard.is_first)⟩,
    ⟨State.ValidateImage, EventTag.image, State.Commence, [],
      GuardExpr.And_ (GuardExpr.atom Guard.is_image_valid)
        (GuardExpr.Not_ (GuardExpr.atom Guard.is_first))⟩,
    ⟨State.UpdateImage, EventTag.image, State.RxGuestData,
      [Action.update_image_info, Action.update_image], GuardExpr.atom Guard.is_first⟩,
    ⟨State.UpdateImage, EventTag.image, State.Commence,
      [Action.update_image_info, Action.update_image],
      GuardExpr.Not_ (GuardExpr.atom Guard.is_first)⟩,
    ⟨State.RxGuestData, EventTag.poll, State.GuestDataRxed, [Action.rx_guest_data],
      GuardExpr.none⟩,
    ⟨State.GuestDataRxed, EventTag.poll, State.Commence, [], GuardExpr.none⟩,
    ⟨State.Commence, EventTag.poll, State.RxStatus, [Action.commence], GuardExpr.none⟩,
    ⟨State.RxStatus, EventTag.poll, State.StatusRxed, [Action.rx_status], GuardExpr.none⟩,
    ⟨State.StatusRxed, EventTag.poll, State.RxTrace, [], GuardExpr.none⟩,
    ⟨State.RxTrace, EventTag.poll, State.TxTest, [],
      GuardExpr.Not_ (GuardExpr.atom Guard.has_trace)⟩,
    ⟨State.RxTrace, EventTag.poll, State.TraceRxed, [Action.rx_trace],
      GuardExpr.atom Guard.has_trace⟩,
    ⟨State.TraceRxed, EventTag.trace, State.TxTest, [], GuardExpr.none⟩,
    ⟨State.TxTest, EventTag.test, State.TestTxed, [Action.tx_test, Action.rx_status],
      GuardExpr.none⟩,
    ⟨State.TestTxed, EventTag.poll, State.RxStatus, [],
      GuardExpr.Not_ (GuardExpr.atom Guard.has_error)⟩,
    ⟨State.TestTxed, EventTag.poll, State.ErrorRxed, [Action.rx_error],
      GuardExpr.atom Guard.has_error⟩,
    ⟨State.ErrorRxed, EventTag.poll, State.RxStatus, [], GuardExpr.none⟩ ]

/-- The members of `VMNodeFSM_`.  `node_` is the position of the worker handle in the
registrar; it is assigned by `init` on the only row that leaves `Start`, and no row
whose source is `Start` reads it. -/
structure VMNodeFSM_ where
  node_ : Nat
  first_ : Bool
  traces_ : List Trace
  errors_ : List log.NodeError
  image_info_ : Option ImageInfo
  update_image_ : Bool
  distributed_ : Bool
  deriving DecidableEq, Repr

/-- What guards and actions of a VM machine work on: the machine's members and the
shared objects. -/
abbrev Ctx := VMNodeFSM_ × Sys

/-- Guard `is_image_valid`: asks the worker for its image info on the first evaluation
only, then compares it with the info of the dispatcher's image. -/
def is_image_valid (image_path_ : Path) (c : Ctx) : Bool × Ctx :=
  let c1 : Ctx :=
    match c.1.image_info_ with
    | some _ => c
    | Option.none =>
        let r := receive_image_info c.2 c.1.node_
        ({ c.1 with image_info_ := some r.1 }, r.2)
  let dispatch_image_info := c1.2.disk.image_info_of image_path_
  match c1.1.image_info_ with
  | some ii =>
      if ii.file_name_.isEmpty then (false, c1)
      else if dispatch_image_info ≠ ii then (false, c1)
      else (true, c1)
  | Option.none => (false, c1)

/-- The guard functors.  `is_image_valid` stands on rows of the `image` event only. -/
def guard (ev : Event) (g : Guard) (c : Ctx) : Bool × Ctx :=
  match g with
  | Guard.is_distributed => (c.1.distributed_, c)
  | Guard.do_update => (c.1.update_image_, c)
  | Guard.is_first => (c.1.first_, c)
  | Guard.is_image_valid =>
      match ev with
      | Event.image p => is_image_valid p c
      | _ => (false, c)
  | Guard.has_trace => (decide ((c.2.acquire c.1.node_).status.trace_count > 0), c)
  | Guard.has_error => (decide ((c.2.acquire c.1.node_).status.error_count > 0), c)

/-- Action `update_image`. -/
def update_image (image_path_ : Path) (c : Ctx) : Except Fault Ctx :=
  if !c.2.disk.fs_exists image_path_ then Except.error (Fault.file_missing image_path_)
  else
    let tared_path := replace_extension image_path_ ".tar.gz"
    let disk1 := if c.2.disk.fs_exists tared_path then c.2.disk.remove tared_path else c.2.disk
    let image := disk1.from_image_file image_path_
    let sys1 : Sys := { c.2 with disk := disk1 }
    Except.ok (c.1, sys1.with_node c.1.node_
      (fun n => n.write packet_type.cluster_image (Payload.image image)))

/-- The action functors.  Each stands only on rows of the event whose members it
reads. -/
def exec (ev : Event) (a : Action) (c : Ctx) : Except Fault Ctx :=
  match a, ev with
  | Action.init, Event.start node first update_image distributed =>
      Except.ok ({ c.1 with node_ := node, first_ := first, update_image_ := update_image,
                            distributed_ := distributed }, c.2)
  | Action.tx_config, Event.config options => Except.ok (c.1, transmit_config c.2 c.1.node_ options)
  | Action.update_image_info, Event.image p =>
      Except.ok (c.1, transmit_image_info c.2 c.1.node_ (c.2.disk.image_info_of p))
  | Action.update_image, Event.image p => update_image p c
  | Action.rx_guest_data, _ => Except.ok c
  | Action.commence, _ => Except.ok (c.1, transmit_commencement c.2 c.1.node_)
  | Action.rx_status, _ => Except.ok (c.1, cluster.poll c.2 c.1.node_)
  | Action.rx_trace, _ =>
      let r := receive_traces c.2 c.1.node_
      Except.ok ({ c.1 with traces_ := r.1 }, r.2)
  | Action.tx_test, Event.test tests =>
      if tests.isEmpty then Except.ok c else Except.ok (c.1, transmit_tests c.2 c.1.node_ tests)
  | Action.rx_error, _ =>
      let r := receive_errors c.2 c.1.node_
      Except.ok ({ c.1 with errors_ := r.1 }, r.2)
  | _, _ => Except.ok c

/-- The back-end `vm::NodeFSM`: the front end and the current state. -/
structure NodeFSM extends VMNodeFSM_ where
  state : State
  deriving DecidableEq, Repr

/-- A machine as `std::make_shared<vm::NodeFSM>()` and `start()` leave it. -/
def NodeFSM.fresh : NodeFSM :=
  { node_ := 0, first_ := false, traces_ := [], errors_ := [], image_info_ := Option.none,
    update_image_ := false, distributed_ := false, state := State.Start }

/-- Member `is_flag_active`. -/
def NodeFSM.is_flag_active (m : NodeFSM) (f : Flag) : Bool :=
  (flag_list m.state).contains f

/-- Member `node_status`. -/
def NodeFSM.node_status (m : NodeFSM) (sys : Sys) : NodeStatus :=
  (sys.acquire m.node_).status

/-- The row that fires when the machine processes `ev`, if any, and the context after
the guards were evaluated. -/
def fired_row (ev : Event) (m : NodeFSM) (sys : Sys) : Option TRow × Ctx :=
  select_row (guard ev) (candidate_rows transition_table m.state ev.tag) (m.toVMNodeFSM_, sys)

/-- Member `process_event` of the back end. -/
def process_event (ev : Event) (m : NodeFSM) (sys : Sys) : Except Fault (NodeFSM × Sys) :=
  if (candidate_rows transition_table m.state ev.tag).isEmpty then
    Except.error Fault.no_transition
  else
    let sel := fired_row ev m sys
    match sel.1 with
    | Option.none => Except.ok ({ m with toVMNodeFSM_ := sel.2.1 }, sel.2.2)
    | some r =>
        match run_actions (exec ev) r.action sel.2 with
        | Except.ok c => Except.ok ({ toVMNodeFSM_ := c.1, state := r.target }, c.2)
        | Except.error e => Except.error e

end vm

/-! ## The SVM worker machine -/

namespace svm

/-- Flags an SVM state can carry: those of namespace `svm::flag` (where `status_rxed`
is the VM flag of that name) and the VM flags of the states taken over from the VM
machine. -/
inductive Flag where
  | vm (f : vm.Flag)
  | test_rxed | tx_trace | error
  deriving DecidableEq, Repr

/-- Events of the SVM worker machine; `config` is `vm::config`. -/
inductive Event where
  | start (node_ : Nat)
  | config (options_ : option.Dispatch)
  | poll
  | trace (traces_ : List Trace)
  | test
  deriving DecidableEq, Repr

/-- The event types, by which rows are keyed. -/
inductive EventTag where
  | start | config | poll | trace | test
  deriving DecidableEq, Repr

/-- Type of an event. -/
def Event.tag : Event → EventTag
  | Event.start _ => EventTag.start
  | Event.config _ => EventTag.config
  | Event.poll => EventTag.poll
  | Event.trace _ => EventTag.trace
  | Event.test => EventTag.test

/-- States of `SVMNodeFSM_`; `TxConfig`, `RxStatus`, `StatusRxed` and `ErrorRxed` are the
state types of the VM machine. -/
inductive State where
  | Start | TxConfig | Commence | RxStatus | StatusRxed | TxTrace | TraceTxed | RxTest
  | TestRxed | ErrorRxed | Error
  deriving DecidableEq, Repr

/-- Actions of `SVMNodeFSM_`; `tx_config`, `rx_status` and `rx_error` are the VM
functors. -/
inductive Action where
  | init | tx_config | commence | tx_trace | rx_test | rx_status | rx_error
  deriving DecidableEq, Repr

/-- Guards of `SVMNodeFSM_`; `has_error` is the VM functor. -/
inductive Guard where
  | has_tests | has_error
  deriving DecidableEq, Repr

/-- The `flag_list` of each state. -/
def flag_list : State → List Flag
  | State.TxConfig => [Flag.vm vm.Flag.tx_config]
  | State.StatusRxed => [Flag.vm vm.Flag.status_rxed]
  | State.TxTrace => [Flag.tx_trace]
  | State.TestRxed => [Flag.test_rxed]
  | State.ErrorRxed => [Flag.vm vm.Flag.error_rxed]
  | State.Error => [Flag.error]
  | _ => []

/-- Row type of the SVM table. -/
abbrev TRow := Row State EventTag Guard Action

/-- The table `SVMNodeFSM_::transition_table`, row by row in source order. -/
def transition_table : List TRow :=
  [ ⟨State.Start, EventTag.start, State.TxConfig, [Action.init], GuardExpr.none⟩,
    ⟨State.TxConfig, EventTag.config, State.Commence, [Action.tx_config], GuardExpr.none⟩,
    ⟨State.Commence, EventTag.poll, State.RxStatus, [Action.commence], GuardExpr.none⟩,
    ⟨State.RxStatus, EventTag.poll, State.StatusRxed, [Action.rx_status], GuardExpr.none⟩,
    ⟨State.StatusRxed, EventTag.poll, State.TxTrace, [], GuardExpr.none⟩,
    ⟨State.TxTrace, EventTag.trace, State.TraceTxed, [Action.tx_trace, Action.rx_status],
      GuardExpr.none⟩,
    ⟨State.TraceTxed, EventTag.poll, State.RxTest, [], GuardExpr.none⟩,
    ⟨State.RxTest, EventTag.poll, State.RxStatus, [],
      GuardExpr.And_ (GuardExpr.Not_ (GuardExpr.atom Guard.has_tests))
        (GuardExpr.Not_ (GuardExpr.atom Guard.has_error))⟩,
    ⟨State.RxTest, EventTag.poll, State.ErrorRxed, [Action.rx_error],
      GuardExpr.And_ (GuardExpr.Not_ (GuardExpr.atom Guard.has_tests))
        (GuardExpr.atom Guard.has_error)⟩,
    ⟨State.RxTest, EventTag.poll, State.TestRxed, [Action.rx_test],
      GuardExpr.atom Guard.has_tests⟩,
    ⟨State.TestRxed, EventTag.test, State.RxStatus, [],
      GuardExpr.Not_ (GuardExpr.atom Guard.has_error)⟩,
    ⟨State.TestRxed, EventTag.test, State.ErrorRxed, [Action.rx_error],
      GuardExpr.atom Guard.has_error⟩,
    ⟨State.ErrorRxed, EventTag.poll, State.RxStatus, [], GuardExpr.none⟩ ]

/-- The members of `SVMNodeFSM_`; `node_` as in the VM machine. -/
structure SVMNodeFSM_ where
  node_ : Nat
  tests_ : List TestCase
  errors_ : List log.NodeError
  deriving DecidableEq, Repr

/-- What guards and actions of an SVM machine work on. -/
abbrev Ctx := SVMNodeFSM_ × Sys

/-- The guard functors. -/
def guard (_ev : Event) (g : Guard) (c : Ctx) : Bool × Ctx :=
  match g with
  | Guard.has_tests => (decide ((c.2.acquire c.1.node_).status.test_case_count > 0), c)
  | Guard.has_error => (decide ((c.2.acquire c.1.node_).status.error_count > 0), c)

/-- The action functors.  Each stands only on rows of the event whose members it
reads. -/
def exec (ev : Event) (a : Action) (c : Ctx) : Except Fault Ctx :=
  match a, ev with
  | Action.init, Event.start node => Except.ok ({ c.1 with node_ := node }, c.2)
  | Action.tx_config, Event.config options => Except.ok (c.1, transmit_config c.2 c.1.node_ options)
  | Action.commence, _ => Except.ok (c.1, transmit_commencement c.2 c.1.node_)
  | Action.tx_trace, Event.trace traces =>
      if traces.isEmpty then Except.ok c else Except.ok (c.1, transmit_traces c.2 c.1.node_ traces)
  | Action.rx_test, _ =>
      let r := receive_tests c.2 c.1.node_
      Except.ok ({ c.1 with tests_ := r.1 }, r.2)
  | Action.rx_status, _ => Except.ok (c.1, cluster.poll c.2 c.1.node_)
  | Action.rx_error, _ =>
      let r := receive_errors c.2 c.1.node_
      Except.ok ({ c.1 with errors_ := r.1 }, r.2)
  | _, _ => Except.ok c

/-- The back-end `svm::NodeFSM`: the front end and the current state. -/
structure NodeFSM extends SVMNodeFSM_ where
  state : State
  deriving DecidableEq, Repr

/-- A machine as `std::make_shared<svm::NodeFSM>()` and `start()` leave it. -/
def NodeFSM.fresh : NodeFSM :=
  { node_ := 0, tests_ := [], errors_ := [], state := State.Start }

/-- Member `is_flag_active`. -/
def NodeFSM.is_flag_active (m : NodeFSM) (f : Flag) : Bool :=
  (flag_list m.state).contains f

/-- Member `node_status`. -/
def NodeFSM.node_status (m : NodeFSM) (sys : Sys) : NodeStatus :=
  (sys.acquire m.node_).status

/-- The row that fires when the machine processes `ev`, if any, and the context after
the guards were evaluated. -/
def fired_row (ev : Event) (m : NodeFSM) (sys : Sys) : Option TRow × Ctx :=
  select_row (guard ev) (candidate_rows transition_table m.state ev.tag) (m.toSVMNodeFSM_, sys)

/-- Member `process_event` of the back end. -/
def process_event (ev : Event) (m : NodeFSM) (sys : Sys) : Except Fault (NodeFSM × Sys) :=
  if (candidate_rows transition_table m.state ev.tag).isEmpty then
    Except.error Fault.no_transition
  else
    let sel := fired_row ev m sys
    match sel.1 with
    | Option.none => Except.ok ({ m with toSVMNodeFSM_ := sel.2.1 }, sel.2.2)
    | some r =>
        match run_actions (exec ev) r.action sel.2 with
        | Except.ok c => Except.ok ({ toSVMNodeFSM_ := c.1, state := r.target }, c.2)
        | Except.error e => Except.error e

end svm

/-! ## Pools, loggers, names and constants (declared outside `dispatch.cpp`) -/

/-- Modelled from the spec: the class `TracePool`, which is declared outside
`dispatch.cpp`: a set of traces under the FIFO strategy.  `all_` holds the unique
insertions of the pool's lifetime, `next_` what is still to be dispensed. -/
structure TracePool where
  all_ : List Path
  next_ : List Path
  deriving DecidableEq, Repr

namespace TracePool

/-- Modelled from the spec: a newly constructed `TracePool{options, "fifo"}`. -/
def fresh : TracePool := { all_ := [], next_ := [] }

/-- Modelled from the spec: `TracePool::insert`; a trace already inserted is not
inserted again. -/
def insert (tp : TracePool) (p : Path) : TracePool :=
  if tp.all_.contains p then tp else { all_ := tp.all_ ++ [p], next_ := tp.next_ ++ [p] }

/-- Modelled from the spec: `TracePool::next`, first in first out. -/
def next (tp : TracePool) : Option Path × TracePool :=
  match tp.next_ with
  | [] => (Option.none, tp)
  | p :: rest => (some p, { tp with next_ := rest })

/-- Modelled from the spec: `TracePool::count_next`. -/
def count_next (tp : TracePool) : Nat := tp.next_.length

/-- Modelled from the spec: `TracePool::count_all_unique`. -/
def count_all_unique (tp : TracePool) : Nat := tp.all_.length

end TracePool

/-- Modelled from the spec: the class `TestPool`, which is declared outside
`dispatch.cpp`: a set of test cases dispensed first in first out. -/
structure TestPool where
  root : Path
  all_ : List TestCase
  next_ : List TestCase
  deriving DecidableEq, Repr

namespace TestPool

/-- Modelled from the spec: a newly constructed `TestPool{root}`. -/
def fresh (root : Path) : TestPool := { root := root, all_ := [], next_ := [] }

/-- Insertion of one test case; a test case already inserted is not inserted again. -/
def insert_one (tp : TestPool) (tc : TestCase) : TestPool :=
  if tp.all_.contains tc then tp else { tp with all_ := tp.all_ ++ [tc], next_ := tp.next_ ++ [tc] }

/-- Modelled from the spec: `TestPool::insert` of a vector of test cases. -/
def insert (tp : TestPool) (tcs : List TestCase) : TestPool :=
  tcs.foldl insert_one tp

/-- Modelled from the spec: `TestPool::next`, first in first out. -/
def next (tp : TestPool) : Option TestCase × TestPool :=
  match tp.next_ with
  | [] => (Option.none, tp)
  | t :: rest => (some t, { tp with next_ := rest })

/-- Modelled from the spec: `TestPool::count_next`. -/
def count_next (tp : TestPool) : Nat := tp.next_.length

/-- Modelled from the spec: `TestPool::count_all`. -/
def count_all (tp : TestPool) : Nat := tp.all_.length

end TestPool

namespace log
/-- What the dispatcher streams into a logger: the diagnostic information of a caught
exception (followed by file and line), or `Target: ` with the target name, a line
break, the log of a worker's error and a line break. -/
inductive Entry where
  | exception (e : Fault)
  | node_error (target : String) (log : String)
  deriving DecidableEq, Repr

/-- A `crete::log::Logger`: its sinks, its auto-flush switch and what was streamed into
it, oldest first. -/
structure Logger where
  sinks : List Path
  auto_flush : Bool
  entries : List Entry
  deriving DecidableEq, Repr
end log

/-- The constants `vm_test_multiplier` and `vm_trace_multiplier`, declared in a header
outside `dispatch.cpp`. -/
structure Constants where
  vm_test_multiplier : Nat
  vm_trace_multiplier : Nat
  deriving DecidableEq, Repr

/-- Modelled from the spec: directory `dispatch-root`. -/
def dispatch_root_dir_name : String := "dispatch-root"
/-- Modelled from the spec: symlink `last`. -/
def dispatch_last_root_symlink : String := "last"
/-- Modelled from the spec: directory `log`. -/
def log_dir_name : String := "log"
/-- Modelled from the spec: file `exception.log`. -/
def exception_log_file_name : String := "exception.log"
/-- Modelled from the spec: file `node-error.log`. -/
def dispatch_node_error_log_file_name : String := "node-error.log"
/-- Modelled from the spec: directory `trace`. -/
def dispatch_trace_dir_name : String := "trace"
/-- Modelled from the spec: directory `test-case`. -/
def dispatch_test_case_dir_name : String := "test-case"
/-- Modelled from the spec: directory `profile`. -/
def dispatch_profile_dir_name : String := "profile"
/-- Modelled from the spec: directory `vm` of the log directory. -/
def dispatch_log_vm_dir_name : String := "vm"
/-- Modelled from the spec: directory `svm` of the log directory. -/
def dispatch_log_svm_dir_name : String := "svm"
/-- Modelled from the spec: file `finish` of the log directory. -/
def dispatch_log_finish_file_name : String := "finish"

/-- Member `filename` of `fs::path`. -/
def filename (p : Path) : Path :=
  match p.getLast? with
  | some c => [c]
  | Option.none => []

/-- Member `parent_path` of `fs::path`. -/
def parent_path (p : Path) : Path := p.dropLast

/-- The expression `fs::path{s}.filename()` for a string `s`: what follows the last
slash; `.` when `s` ends in a slash, and `/` when `s` consists of slashes. -/
def string_filename (s : String) : Path :=
  let seg := (s.data.reverse.takeWhile (fun c => !decide (c = '/'))).reverse
  if seg.isEmpty then
    if s.data.isEmpty then []
    else if s.data.all (fun c => decide (c = '/')) then ["/"]
    else ["."]
  else [String.mk seg]

/-- Function `make_dispatch_root`; `s` is the local time as `to_simple_string` prints
it. -/
def make_dispatch_root (s : String) : Path :=
  [dispatch_root_dir_name,
   String.mk (s.data.map (fun c => if c = ' ' then '_' else if c = ':' then '.' else c))]

/-! ## The Dispatch machine: members and helper functions -/

namespace fsm

/-- The members of `DispatchFSM_`, the two function-local statics of
`write_statistics` (`prev_time`, `print_pg`), and the world the dispatcher acts on:
the filesystem and what was printed on the terminal. -/
structure DispatchFSM_ where
  options_ : option.Dispatch
  node_registrar_ : List NodeData
  root_ : Path
  test_pool_ : TestPool
  trace_pool_ : TracePool
  vm_node_fsms_ : List vm.NodeFSM
  svm_node_fsms_ : List svm.NodeFSM
  master_port_ : Nat
  exception_log_ : log.Logger
  node_error_log_ : log.Logger
  start_time_ : Int
  first_ : Bool
  next_target_queue_ : List String
  target_ : String
  prev_time : Nat
  print_pg : Bool
  disk : FileSystem
  console : List StatusTable

/-- The shared objects handed to a worker machine. -/
def DispatchFSM_.sys (d : DispatchFSM_) : Sys :=
  { nodes := d.node_registrar_, disk := d.disk }

/-- Stores the shared objects back after a worker machine acted on them. -/
def DispatchFSM_.with_sys (d : DispatchFSM_) (sys : Sys) : DispatchFSM_ :=
  { d with node_registrar_ := sys.nodes, disk := sys.disk }

/-- Member `to_trace_pool` for one trace.  `to_file` writes the trace when its stream
can be opened. -/
def to_trace_pool_one (d : DispatchFSM_) (trace : Trace) : Except Fault DispatchFSM_ :=
  let p := d.root_ ++ [dispatch_trace_dir_name, trace.uuid_]
  let disk1 := if d.disk.can_open p then d.disk.write_file p (FileContent.trace trace) else d.disk
  if !disk1.fs_exists p then Except.error (Fault.file_missing p)
  else Except.ok { d with disk := disk1, trace_pool_ := d.trace_pool_.insert p }

/-- Member `to_trace_pool` for a vector of traces. -/
def to_trace_pool : DispatchFSM_ → List Trace → Except Fault DispatchFSM_
  | d, [] => Except.ok d
  | d, t :: ts =>
      match to_trace_pool_one d t with
      | Except.ok d1 => to_trace_pool d1 ts
      | Except.error e => Except.error e

/-- Function `from_trace_file`: throws when there is no trace file at `p`. -/
def from_trace_file (disk : FileSystem) (p : Path) : Except Fault Trace :=
  match disk.read_file p with
  | some (FileContent.trace t) => Except.ok t
  | _ => Except.error (Fault.file_missing p)

/-- Member `next_trace`: the pool has moved on also when loading the file throws. -/
def next_trace (d : DispatchFSM_) : Except Fault (Option Trace) × DispatchFSM_ :=
  let r := d.trace_pool_.next
  let d1 := { d with trace_pool_ := r.2 }
  match r.1 with
  | Option.none => (Except.ok Option.none, d1)
  | some p =>
      match from_trace_file d.disk p with
      | Except.ok t => (Except.ok (some t), d1)
      | Except.error e => (Except.error e, d1)

/-- Member `next_test`. -/
def next_test (d : DispatchFSM_) : Option TestCase × DispatchFSM_ :=
  let r := d.test_pool_.next
  (r.1, { d with test_pool_ := r.2 })

/-- Member `elapsed_time`: the whole seconds between `start_time_` and the clock reading
`now` (both in nanoseconds), returned as a `uint64_t`. -/
def elapsed_time (d : DispatchFSM_) (now : Int) : Nat :=
  (Int.tdiv (now - d.start_time_) 1000000000 % (2 ^ 64 : Int)).toNat

/-- The loop of `are_node_queues_empty`. -/
def are_node_queues_empty_loop : List NodeData → Bool
  | [] => true
  | n :: ns =>
      if n.status.test_case_count ≠ 0 ∨ n.status.trace_count ≠ 0 then false
      else are_node_queues_empty_loop ns

/-- Member `are_node_queues_empty`. -/
def are_node_queues_empty (d : DispatchFSM_) : Bool :=
  are_node_queues_empty_loop d.node_registrar_

/-- Member `are_all_queues_empty`. -/
def are_all_queues_empty (d : DispatchFSM_) : Bool :=
  are_node_queues_empty d
    && decide (d.test_pool_.count_next = 0)
    && decide (d.trace_pool_.count_next = 0)

/-- The loop of `are_nodes_inactive`. -/
def are_nodes_inactive_loop : List NodeData → Bool
  | [] => true
  | n :: ns => if n.status.active then false else are_nodes_inactive_loop ns

/-- Member `are_nodes_inactive`. -/
def are_nodes_inactive (d : DispatchFSM_) : Bool :=
  are_nodes_inactive_loop d.node_registrar_

/-- Member `is_converged`. -/
def is_converged (d : DispatchFSM_) : Bool :=
  are_all_queues_empty d && are_nodes_inactive d

/-- The search of `write_target_log` for the first number `i >= 1` such that `p / i`
does not exist.  At most `n` names exist below `p`, so the search ends by `n + 1`. -/
def first_unused (disk : FileSystem) (p : Path) : Nat → Nat → Nat
  | 0, i => i
  | fuel + 1, i => if disk.fs_exists (p ++ [toString i]) then first_unused disk p fuel (i + 1) else i

/-- Member `write_target_log`. -/
def write_target_log (d : DispatchFSM_) (ne : log.NodeError) (subdir : String) :
    Except Fault DispatchFSM_ :=
  let dir := d.root_ ++ [log_dir_name, subdir]
  let n := d.disk.dirs.length + d.disk.files.length + d.disk.symlinks.length
  let p := dir ++ [toString (first_unused d.disk dir n 1)]
  if !d.disk.can_open p then Except.error (Fault.file_open_failed p)
  else Except.ok { d with disk := d.disk.write_file p (FileContent.text ne.log) }

/-- The directory-creating closure of `set_up_root_dir`. -/
def create_dirs (root : Path) : List String → FileSystem → Except Fault FileSystem
  | [], disk => Except.ok disk
  | e :: es, disk =>
      let r := disk.create_directories (root ++ [e])
      if !r.1 then Except.error (Fault.file_create (root ++ [e]))
      else create_dirs root es r.2

/-- Member `set_up_root_dir`.  Reading the front of an empty target queue is undefined
behaviour. -/
def set_up_root_dir (d : DispatchFSM_) : Except Fault DispatchFSM_ :=
  let named : Except Fault (Path × Path) :=
    if d.options_.mode.distributed then
      match d.next_target_queue_ with
      | [] => Except.error Fault.front_of_empty_queue
      | front :: _ =>
          let target := string_filename front
          if filename (parent_path d.root_) = [dispatch_root_dir_name] then
            Except.ok (filename d.root_, d.root_ ++ target)
          else
            Except.ok (filename (parent_path d.root_), parent_path d.root_ ++ target)
    else Except.ok (filename d.root_, d.root_)
  match named with
  | Except.error e => Except.error e
  | Except.ok (timestamp_root, root) =>
      let made : Except Fault FileSystem :=
        if !d.disk.fs_exists root then
          match create_dirs root [dispatch_trace_dir_name, dispatch_test_case_dir_name,
                                  dispatch_profile_dir_name] d.disk with
          | Except.ok disk1 =>
              create_dirs (root ++ [log_dir_name])
                [dispatch_log_vm_dir_name, dispatch_log_svm_dir_name] disk1
          | Except.error e => Except.error e
        else Except.ok d.disk
      match made with
      | Except.error e => Except.error e
      | Except.ok disk2 =>
          let last_symlink := [dispatch_root_dir_name, dispatch_last_root_symlink]
          Except.ok { d with
            root_ := root
            disk := (disk2.remove last_symlink).create_symlink timestamp_root last_symlink }

/-- The headings `display_status` prints, one per worker, numbered from `count`. -/
def status_heading : List NodeData → Nat → List (Nat × Bool)
  | [], _ => []
  | n :: ns, count =>
      (count, decide (n.type = packet_type.cluster_request_vm_node)) :: status_heading ns (count + 1)

/-- The table member `display_status` prints. -/
def status_table (d : DispatchFSM_) (now : Int) : StatusTable :=
  { heading := status_heading d.node_registrar_ 1
    etime := elapsed_time d now
    test := (d.test_pool_.count_next, d.test_pool_.count_all)
    trace := (d.trace_pool_.count_next, d.trace_pool_.count_all_unique)
    nodes := d.node_registrar_.map (fun n => (n.status.test_case_count, n.status.trace_count)) }

/-- The script written to `stat.pg` (its first line; the plot commands follow). -/
def stat_pg_script : String := "#!/usr/bin/gnuplot"

/-- Appends one row to the file `p` when the stream opens. -/
def append_row (disk : FileSystem) (p : Path) (row : List Nat) : FileSystem :=
  if !disk.can_open p then disk
  else
    match disk.read_file p with
    | some (FileContent.rows r) => disk.write_file p (FileContent.rows (r ++ [row]))
    | _ => disk.write_file p (FileContent.rows [row])

/-- Member `write_statistics`; the difference `time - prev_time` is taken on `uint64_t`. -/
def write_statistics (d : DispatchFSM_) (now : Int) : DispatchFSM_ :=
  let time := elapsed_time d now
  let dir := d.root_ ++ [dispatch_profile_dir_name]
  if (time + 2 ^ 64 - d.prev_time) % 2 ^ 64 ≥ d.options_.profile.interval then
    let d1 := { d with prev_time := time }
    let d2 :=
      if d1.print_pg then
        { d1 with
          print_pg := false
          disk := if d1.disk.can_open (dir ++ ["stat.pg"])
                  then d1.disk.write_file (dir ++ ["stat.pg"]) (FileContent.text stat_pg_script)
                  else d1.disk }
      else d1
    { d2 with
      disk := append_row d2.disk (dir ++ ["stat.dat"])
        [time, d2.test_pool_.count_next, d2.test_pool_.count_all,
         d2.trace_pool_.count_next, d2.trace_pool_.count_all_unique] }
  else d

end fsm

/-- Function `register_node_fsm`, on the handle at position `node` of the registrar.
The first component is the shared objects as the call leaves them, also when it
throws. -/
def register_node_fsm (node : Nat) (options : option.Dispatch)
    (sys : Sys) (vm_node_fsms : List vm.NodeFSM) (svm_node_fsms : List svm.NodeFSM) :
    Sys × Except Fault (List vm.NodeFSM × List svm.NodeFSM) :=
  let sys1 := sys.with_node node (fun n => { n with status := { n.status with active := true } })
  match (sys1.acquire node).type with
  | packet_type.cluster_request_vm_node =>
      match vm.process_event
          (vm.Event.start node false options.vm.image.update options.mode.distributed)
          vm.NodeFSM.fresh sys1 with
      | Except.ok r => (r.2, Except.ok (vm_node_fsms ++ [r.1], svm_node_fsms))
      | Except.error e => (sys1, Except.error e)
  | packet_type.cluster_request_svm_node =>
      match svm.process_event (svm.Event.start node) svm.NodeFSM.fresh sys1 with
      | Except.ok r => (r.2, Except.ok (vm_node_fsms, svm_node_fsms ++ [r.1]))
      | Except.error e => (sys1, Except.error e)
  | _ => (sys1, Except.error Fault.node_type_not_recognized)

/-! ## The Dispatch machine: table, guards, actions -/

namespace fsm

/-- Flags of namespace `fsm::flag`. -/
inductive Flag where
  | terminated
  deriving DecidableEq, Repr

/-- Events of the Dispatch machine. -/
inductive Event where
  | start (master_port_ : Nat) (options_ : option.Dispatch)
  | poll
  deriving DecidableEq, Repr

/-- The event types, by which rows are keyed. -/
inductive EventTag where
  | start | poll
  deriving DecidableEq, Repr

/-- Type of an event. -/
def Event.tag : Event → EventTag
  | Event.start _ _ => EventTag.start
  | Event.poll => EventTag.poll

/-- States of `DispatchFSM_`. -/
inductive State where
  | Start | SpecCheck | NextTarget | Dispatch | Terminate | Terminated
  deriving DecidableEq, Repr

/-- Actions of `DispatchFSM_`. -/
inductive Action where
  | init | reset | assign_next_target | dispatch | finish | next_target_clean | terminate
  deriving DecidableEq, Repr

/-- Guards of `DispatchFSM_`. -/
inductive Guard where
  | is_first | is_dev_mode | have_next_target | is_target_expired
  deriving DecidableEq, Repr

/-- Row type of the Dispatch table. -/
abbrev TRow := Row State EventTag Guard Action

/-- The table `DispatchFSM_::transition_table`, row by row in source order. -/
def transition_table : List TRow :=
  [ ⟨State.Start, EventTag.start, State.SpecCheck, [Action.init], GuardExpr.none⟩,
    ⟨State.SpecCheck, EventTag.poll, State.NextTarget, [],
      GuardExpr.And_ (GuardExpr.Not_ (GuardExpr.atom Guard.is_dev_mode))
        (GuardExpr.Or_ (GuardExpr.atom Guard.is_first)
          (GuardExpr.And_ (GuardExpr.atom Guard.is_target_expired)
            (GuardExpr.atom Guard.have_next_target)))⟩,
    ⟨State.SpecCheck, EventTag.poll, State.Dispatch, [],
      GuardExpr.Or_ (GuardExpr.atom Guard.is_dev_mode)
        (GuardExpr.And_ (GuardExpr.Not_ (GuardExpr.atom Guard.is_first))
          (GuardExpr.Not_ (GuardExpr.atom Guard.is_target_expired)))⟩,
    ⟨State.SpecCheck, EventTag.poll, State.Terminate, [Action.next_target_clean],
      GuardExpr.And_ (GuardExpr.atom Guard.is_target_expired)
        (GuardExpr.Not_ (GuardExpr.atom Guard.have_next_target))⟩,
    ⟨State.NextTarget, EventTag.poll, State.Dispatch,
      [Action.finish, Action.next_target_clean, Action.reset, Action.assign_next_target],
      GuardExpr.none⟩,
    ⟨State.Dispatch, EventTag.poll, State.SpecCheck, [Action.dispatch], GuardExpr.none⟩,
    ⟨State.Terminate, EventTag.poll, State.Terminated, [Action.finish, Action.terminate],
      GuardExpr.none⟩ ]

/-- Guard `is_first`. -/
def is_first (d : DispatchFSM_) : Bool := d.first_

/-- Guard `is_dev_mode`. -/
def is_dev_mode (d : DispatchFSM_) : Bool := !d.options_.mode.distributed

/-- Guard `have_next_target`. -/
def have_next_target (d : DispatchFSM_) : Bool := !d.next_target_queue_.isEmpty

/-- Guard `is_target_expired`. -/
def is_target_expired (d : DispatchFSM_) (now : Int) : Bool :=
  let elapsed_time_count := elapsed_time d now
  let converged := is_converged d
  let trace_exceeded := decide (d.trace_pool_.count_all_unique ≥ d.options_.test.interval.trace)
  let tc_exceeded := decide (d.test_pool_.count_all ≥ d.options_.test.interval.tc)
  let time_exceeded := decide (elapsed_time_count ≥ d.options_.test.interval.time)
  converged || trace_exceeded || tc_exceeded || time_exceeded

/-- The guard functors; none of them changes the machine.  All evaluations made while one
event is processed see the same clock reading `now`; `fsm.guard_clocked` takes a reading
at every evaluation of `is_target_expired`, as `elapsed_time` does. -/
def guard (now : Int) (g : Guard) (d : DispatchFSM_) : Bool × DispatchFSM_ :=
  match g with
  | Guard.is_first => (is_first d, d)
  | Guard.is_dev_mode => (is_dev_mode d, d)
  | Guard.have_next_target => (have_next_target d, d)
  | Guard.is_target_expired => (is_target_expired d now, d)

/-- Action `init`.  `launch_node_registrar` starts the registrar thread, whose effect is
the registration of workers (`register`, below). -/
def init (master_port_ : Nat) (options_ : option.Dispatch) (d : DispatchFSM_) :
    Except Fault DispatchFSM_ :=
  let d1 : DispatchFSM_ :=
    { d with
      exception_log_ := { d.exception_log_ with
        sinks := d.exception_log_.sinks ++ [d.root_ ++ [log_dir_name, exception_log_file_name]]
        auto_flush := true }
      node_error_log_ := { d.node_error_log_ with
        sinks := d.node_error_log_.sinks ++
          [d.root_ ++ [log_dir_name, dispatch_node_error_log_file_name]]
        auto_flush := true }
      master_port_ := master_port_
      options_ := options_
      next_target_queue_ := options_.test.items
      trace_pool_ := TracePool.fresh }
  if !d1.options_.mode.distributed then set_up_root_dir d1 else Except.ok d1

/-- The loop of action `reset` over the registrar's handles, by position. -/
def reset_loop : List Nat → DispatchFSM_ → Except Fault DispatchFSM_
  | [], d => Except.ok d
  | node :: rest, d =>
      let sys1 := d.sys.with_node node (fun n => n.write packet_type.cluster_reset Payload.empty)
      let r := register_node_fsm node d.options_ sys1 d.vm_node_fsms_ d.svm_node_fsms_
      match r.2 with
      | Except.ok l =>
          reset_loop rest { d.with_sys r.1 with vm_node_fsms_ := l.1, svm_node_fsms_ := l.2 }
      | Except.error e => Except.error e

/-- Action `reset`. -/
def reset (now : Int) (d : DispatchFSM_) : Except Fault DispatchFSM_ :=
  match set_up_root_dir d with
  | Except.error e => Except.error e
  | Except.ok d1 =>
      reset_loop (List.range d1.node_registrar_.length)
        { d1 with
          test_pool_ := TestPool.fresh d1.root_
          trace_pool_ := TracePool.fresh
          vm_node_fsms_ := []
          svm_node_fsms_ := []
          start_time_ := now }

/-- The loop of action `assign_next_target` over the registrar's handles, by position.
Reading the front of an empty target queue is undefined behaviour. -/
def assign_next_target_loop : List Nat → DispatchFSM_ → Except Fault DispatchFSM_
  | [], d => Except.ok d
  | node :: rest, d =>
      if (d.sys.acquire node).type ≠ packet_type.cluster_request_vm_node then
        assign_next_target_loop rest d
      else
        match d.next_target_queue_ with
        | [] => Except.error Fault.front_of_empty_queue
        | front :: queue =>
            assign_next_target_loop rest
              { d.with_sys (d.sys.with_node node
                  (fun n => n.write packet_type.cluster_next_target (Payload.target front))) with
                target_ := front
                next_target_queue_ := queue }

/-- Action `assign_next_target`. -/
def assign_next_target (d : DispatchFSM_) : Except Fault DispatchFSM_ :=
  assign_next_target_loop (List.range d.node_registrar_.length) d

/-- Action `next_target_clean`. -/
def next_target_clean (d : DispatchFSM_) : DispatchFSM_ :=
  { d with disk := d.disk.remove_all (d.root_ ++ [dispatch_trace_dir_name]) }

/-- Action `finish`. -/
def finish (now : Int) (d : DispatchFSM_) : Except Fault DispatchFSM_ :=
  let p := d.root_ ++ [log_dir_name]
  if !d.disk.fs_exists p then Except.ok d
  else
    let p1 := p ++ [dispatch_log_finish_file_name]
    if !d.disk.can_open p1 then Except.error (Fault.file_open_failed p1)
    else Except.ok { d with disk := d.disk.write_file p1 (FileContent.status (status_table d now)) }

/-- The top-up loop of the `tx_test` branch: `while(tc_count < 1*vm_test_multiplier)`.
Every pass increments `tc_count`, so `vm_test_multiplier` passes are enough; `fuel`
counts the passes left. -/
def top_up_tests (k : Constants) : Nat → Nat → List TestCase → DispatchFSM_ →
    List TestCase × DispatchFSM_
  | 0, _, tests, d => (tests, d)
  | fuel + 1, tc_count, tests, d =>
      if tc_count < 1 * k.vm_test_multiplier then
        let r := next_test d
        match r.1 with
        | Option.none => (tests, r.2)
        | some next => top_up_tests k fuel (tc_count + 1) (tests ++ [next]) r.2
      else (tests, d)

/-- The top-up loop of the `tx_trace` branch: `while(trace_count < 1*vm_trace_multiplier)`
around a `try` block.  Every pass takes one entry from the trace pool or leaves the
loop, so `count_next + 1` passes are enough; `fuel` counts the passes left. -/
def top_up_traces (k : Constants) : Nat → Nat → List Trace → DispatchFSM_ →
    List Trace × DispatchFSM_
  | 0, _, traces, d => (traces, d)
  | fuel + 1, trace_count, traces, d =>
      if trace_count < 1 * k.vm_trace_multiplier then
        let r := next_trace d
        match r.1 with
        | Except.ok Option.none => (traces, r.2)
        | Except.ok (some next) => top_up_traces k fuel (trace_count + 1) (traces ++ [next]) r.2
        | Except.error e =>
            top_up_traces k fuel trace_count traces
              { r.2 with exception_log_ := { r.2.exception_log_ with
                  entries := r.2.exception_log_.entries ++ [log.Entry.exception e] } }
      else (traces, d)

/-- Member `pop_error` of both worker machines, on the error buffer.  Reading the front
of an empty buffer is undefined behaviour. -/
def pop_error (errors_ : List log.NodeError) : Except Fault (log.NodeError × List log.NodeError) :=
  match errors_ with
  | [] => Except.error Fault.front_of_empty_queue
  | e :: rest => Except.ok (e, rest)

/-- The loop `while(!nfsm->errors().empty())` of the `error_rxed` branches.  Every pass
pops one error, so as many passes as the buffer has entries are enough; `fuel` counts
the passes left. -/
def drain_errors (subdir : String) : Nat → List log.NodeError → DispatchFSM_ →
    Except Fault (List log.NodeError × DispatchFSM_)
  | 0, errors_, d => Except.ok (errors_, d)
  | fuel + 1, errors_, d =>
      if !errors_.isEmpty then
        match pop_error errors_ with
        | Except.error e => Except.error e
        | Except.ok (err, rest) =>
            match write_target_log d err subdir with
            | Except.error e => Except.error e
            | Except.ok d1 =>
                drain_errors subdir fuel rest
                  { d1 with node_error_log_ := { d1.node_error_log_ with
                      entries := d1.node_error_log_.entries ++
                        [log.Entry.node_error d1.target_ err.log] } }
      else Except.ok (errors_, d)

/-- The part of the VM lambda of action `dispatch` that precedes `process_event`: the
work of the branch chosen by the machine's flag, and the event the branch delivers. -/
def dispatch_vm_event (k : Constants) (d : DispatchFSM_) (nfsm : vm.NodeFSM) :
    Except Fault (vm.Event × vm.NodeFSM × DispatchFSM_) :=
  if nfsm.is_flag_active vm.Flag.trace_rxed then
    match to_trace_pool d nfsm.traces_ with
    | Except.ok d1 => Except.ok (vm.Event.trace, nfsm, d1)
    | Except.error e => Except.error e
  else if nfsm.is_flag_active vm.Flag.tx_test then
    let r := top_up_tests k k.vm_test_multiplier (nfsm.node_status d.sys).test_case_count [] d
    Except.ok (vm.Event.test r.1, nfsm, r.2)
  else if nfsm.is_flag_active vm.Flag.error_rxed then
    match drain_errors dispatch_log_vm_dir_name nfsm.errors_.length nfsm.errors_ d with
    | Except.ok r => Except.ok (vm.Event.poll, { nfsm with errors_ := r.1 }, r.2)
    | Except.error e => Except.error e
  else if nfsm.is_flag_active vm.Flag.tx_config then
    Except.ok (vm.Event.config d.options_, nfsm, d)
  else if nfsm.is_flag_active vm.Flag.image then
    Except.ok (vm.Event.image d.options_.vm.image.path, nfsm, d)
  else Except.ok (vm.Event.poll, nfsm, d)

/-- The VM lambda of action `dispatch`, applied to one machine. -/
def dispatch_vm (k : Constants) (d : DispatchFSM_) (nfsm : vm.NodeFSM) :
    Except Fault (vm.NodeFSM × DispatchFSM_) :=
  match dispatch_vm_event k d nfsm with
  | Except.error e => Except.error e
  | Except.ok (ev, nfsm1, d1) =>
      match vm.process_event ev nfsm1 d1.sys with
      | Except.ok r => Except.ok (r.1, d1.with_sys r.2)
      | Except.error e => Except.error e

/-- The part of the SVM lambda of action `dispatch` that precedes `process_event`. -/
def dispatch_svm_event (k : Constants) (d : DispatchFSM_) (nfsm : svm.NodeFSM) :
    Except Fault (svm.Event × svm.NodeFSM × DispatchFSM_) :=
  if nfsm.is_flag_active svm.Flag.test_rxed then
    Except.ok (svm.Event.test, nfsm, { d with test_pool_ := d.test_pool_.insert nfsm.tests_ })
  else if nfsm.is_flag_active svm.Flag.tx_trace then
    let r := top_up_traces k (d.trace_pool_.count_next + 1)
      (nfsm.node_status d.sys).trace_count [] d
    Except.ok (svm.Event.trace r.1, nfsm, r.2)
  else if nfsm.is_flag_active (svm.Flag.vm vm.Flag.error_rxed) then
    match drain_errors dispatch_log_svm_dir_name nfsm.errors_.length nfsm.errors_ d with
    | Except.ok r => Except.ok (svm.Event.poll, { nfsm with errors_ := r.1 }, r.2)
    | Except.error e => Except.error e
  else if nfsm.is_flag_active (svm.Flag.vm vm.Flag.tx_config) then
    Except.ok (svm.Event.config d.options_, nfsm, d)
  else Except.ok (svm.Event.poll, nfsm, d)

/-- The SVM lambda of action `dispatch`, applied to one machine. -/
def dispatch_svm (k : Constants) (d : DispatchFSM_) (nfsm : svm.NodeFSM) :
    Except Fault (svm.NodeFSM × DispatchFSM_) :=
  match dispatch_svm_event k d nfsm with
  | Except.error e => Except.error e
  | Except.ok (ev, nfsm1, d1) =>
      match svm.process_event ev nfsm1 d1.sys with
      | Except.ok r => Except.ok (r.1, d1.with_sys r.2)
      | Except.error e => Except.error e

/-- The `std::for_each` over the VM machines: `done` are the machines already visited. -/
def dispatch_vm_loop (k : Constants) : List vm.NodeFSM → List vm.NodeFSM → DispatchFSM_ →
    Except Fault (List vm.NodeFSM × DispatchFSM_)
  | [], done, d => Except.ok (done, d)
  | nfsm :: rest, done, d =>
      match dispatch_vm k d nfsm with
      | Except.ok r => dispatch_vm_loop k rest (done ++ [r.1]) r.2
      | Except.error e => Except.error e

/-- The `std::for_each` over the SVM machines: `done` are the machines already visited. -/
def dispatch_svm_loop (k : Constants) : List svm.NodeFSM → List svm.NodeFSM → DispatchFSM_ →
    Except Fault (List svm.NodeFSM × DispatchFSM_)
  | [], done, d => Except.ok (done, d)
  | nfsm :: rest, done, d =>
      match dispatch_svm k d nfsm with
      | Except.ok r => dispatch_svm_loop k rest (done ++ [r.1]) r.2
      | Except.error e => Except.error e

/-- Action `dispatch`. -/
def dispatch (k : Constants) (now : Int) (d : DispatchFSM_) : Except Fault DispatchFSM_ :=
  match dispatch_vm_loop k d.vm_node_fsms_ [] d with
  | Except.error e => Except.error e
  | Except.ok (vms, d1) =>
      let d2 := { d1 with vm_node_fsms_ := vms }
      match dispatch_svm_loop k d2.svm_node_fsms_ [] d2 with
      | Except.error e => Except.error e
      | Except.ok (svms, d3) =>
          let d4 := { d3 with svm_node_fsms_ := svms, first_ := false }
          let d5 := { d4 with console := d4.console ++ [status_table d4 now] }
          Except.ok (write_statistics d5 now)

/-- Action `terminate`. -/
def terminate (d : DispatchFSM_) : DispatchFSM_ := d

/-- The action functors. -/
def exec (k : Constants) (now : Int) (ev : Event) (a : Action) (d : DispatchFSM_) :
    Except Fault DispatchFSM_ :=
  match a with
  | Action.init =>
      match ev with
      | Event.start master_port options => init master_port options d
      | Event.poll => Except.ok d
  | Action.reset => reset now d
  | Action.assign_next_target => assign_next_target d
  | Action.dispatch => dispatch k now d
  | Action.finish => finish now d
  | Action.next_target_clean => Except.ok (next_target_clean d)
  | Action.terminate => Except.ok (terminate d)

/-- The back-end `fsm::DispatchFSM`: the front end and the current state. -/
structure DispatchFSM extends DispatchFSM_ where
  state : State

/-- The row that fires when the machine processes `ev`, if any. -/
def fired_row (now : Int) (ev : Event) (m : DispatchFSM) : Option TRow × DispatchFSM_ :=
  select_row (guard now) (candidate_rows transition_table m.state ev.tag) m.toDispatchFSM_

/-- Member `process_event` of the back end.  `Terminated` is a `terminate_state`: once
it is active the back end handles no event any more. -/
def process_event (k : Constants) (now : Int) (ev : Event) (m : DispatchFSM) :
    Except Fault DispatchFSM :=
  if m.state = State.Terminated then Except.ok m
  else if (candidate_rows transition_table m.state ev.tag).isEmpty then
    Except.error Fault.no_transition
  else
    let sel := fired_row now ev m
    match sel.1 with
    | Option.none => Except.ok { m with toDispatchFSM_ := sel.2 }
    | some r =>
        match run_actions (exec k now ev) r.action sel.2 with
        | Except.ok d => Except.ok { toDispatchFSM_ := d, state := r.target }
        | Except.error e => Except.error e

end fsm

/-! ## Class `Dispatch` -/

/-- The machine a `Dispatch` object is constructed with: the members of `DispatchFSM_`
as their initializers leave them, in state `Start`.  `defaults` is a default-constructed
`option::Dispatch`, `timestamp` the local time the root directory is named after, `now`
the clock reading, `disk` the filesystem found. -/
def fsm.DispatchFSM.construct (defaults : option.Dispatch) (timestamp : String) (now : Int)
    (disk : FileSystem) : fsm.DispatchFSM :=
  { options_ := defaults
    node_registrar_ := []
    root_ := make_dispatch_root timestamp
    test_pool_ := TestPool.fresh (make_dispatch_root timestamp)
    trace_pool_ := TracePool.fresh
    vm_node_fsms_ := []
    svm_node_fsms_ := []
    master_port_ := 0
    exception_log_ := { sinks := [], auto_flush := false, entries := [] }
    node_error_log_ := { sinks := [], auto_flush := false, entries := [] }
    start_time_ := now
    first_ := true
    next_target_queue_ := []
    target_ := ""
    prev_time := 0
    print_pg := true
    disk := disk
    console := []
    state := fsm.State.Start }

/-- Member `Dispatch::start_FSM`. -/
def Dispatch.start_FSM (k : Constants) (now : Int) (master : Nat) (options : option.Dispatch)
    (m : fsm.DispatchFSM) : Except Fault fsm.DispatchFSM :=
  fsm.process_event k now (fsm.Event.start master options) m

/-- Member `Dispatch::has_nodes`. -/
def Dispatch.has_nodes (m : fsm.DispatchFSM) : Bool :=
  !m.node_registrar_.isEmpty

/-- Member `Dispatch::run`. -/
def Dispatch.run (k : Constants) (now : Int) (m : fsm.DispatchFSM) : Except Fault fsm.DispatchFSM :=
  if !Dispatch.has_nodes m then Except.ok m
  else fsm.process_event k now fsm.Event.poll m

/-- Modelled from the spec: the registrar driver `NodeRegistrarDriver`, which is declared
outside `dispatch.cpp`: for a worker that connects it builds a handle, appends it to
the registrar and invokes the callback given by `launch_node_registrar`, which calls
`register_node_fsm`. -/
def Dispatch.register (handle : NodeData) (m : fsm.DispatchFSM) : Except Fault fsm.DispatchFSM :=
  let sys1 : Sys := { nodes := m.node_registrar_ ++ [handle], disk := m.disk }
  let r := register_node_fsm m.node_registrar_.length m.options_ sys1
    m.vm_node_fsms_ m.svm_node_fsms_
  match r.2 with
  | Except.ok l =>
      Except.ok { m with
        node_registrar_ := r.1.nodes
        disk := r.1.disk
        vm_node_fsms_ := l.1
        svm_node_fsms_ := l.2 }
  | Except.error e => Except.error e

/-- Calls `Dispatch::run` once per clock reading of `nows`, in order. -/
def Dispatch.runs (k : Constants) : List Int → fsm.DispatchFSM → Except Fault fsm.DispatchFSM
  | [], m => Except.ok m
  | now :: rest, m =>
      match Dispatch.run k now m with
      | Except.ok m1 => Dispatch.runs k rest m1
      | Except.error e => Except.error e

/-! ## Rows enabled for an event -/

/-- The rows of the VM table whose source is the machine's state, whose event is the
type of `ev` and whose guard holds for the machine as it stands. -/
def vm.enabled_rows (ev : vm.Event) (m : vm.NodeFSM) (sys : Sys) : List vm.TRow :=
  (candidate_rows vm.transition_table m.state ev.tag).filter
    (fun r => (r.guard.eval (vm.guard ev) (m.toVMNodeFSM_, sys)).1)

/-- The rows of the SVM table whose source is the machine's state, whose event is the
type of `ev` and whose guard holds for the machine as it stands. -/
def svm.enabled_rows (ev : svm.Event) (m : svm.NodeFSM) (sys : Sys) : List svm.TRow :=
  (candidate_rows svm.transition_table m.state ev.tag).filter
    (fun r => (r.guard.eval (svm.guard ev) (m.toSVMNodeFSM_, sys)).1)

/-- The rows of the Dispatch table whose source is the machine's state, whose event is
the type of `ev` and whose guard holds for the machine as it stands. -/
def fsm.enabled_rows (now : Int) (ev : fsm.Event) (m : fsm.DispatchFSM) : List fsm.TRow :=
  (candidate_rows fsm.transition_table m.state ev.tag).filter
    (fun r => (r.guard.eval (fsm.guard now) m.toDispatchFSM_).1)

/-! ## Concrete objects used in examples -/

namespace scenario

/-- An empty disk; every image path has the info `img/1/2` and the payload `7`. -/
def disk0 : FileSystem :=
  { dirs := [], files := [], symlinks := []
    image_info_of := fun _ => { file_name_ := "img", size_ := 1, hash_ := 2 }
    from_image_file := fun _ => { data := 7 } }

/-- The disk `disk0` with an image file at `img`. -/
def disk_with_image : FileSystem :=
  { disk0 with files := [(["img"], FileContent.text "image")] }

/-- The multipliers used in the examples. -/
def k0 : Constants := { vm_test_multiplier := 2, vm_trace_multiplier := 2 }

/-- Options with the given mode and image-update switch, the target list `items`, and
thresholds 100 traces, 100 test cases, 1000 seconds. -/
def opts (distributed update : Bool) (items : List String) : option.Dispatch :=
  { mode := { distributed := distributed }
    test := { items := items, interval := { trace := 100, tc := 100, time := 1000 } }
    vm := { image := { path := ["img"], update := update } }
    profile := { interval := 1 } }

/-- A worker that reports one pending trace and hands out the trace `u1`. -/
def remote0 : Remote :=
  { status := { id := 5, active := true, trace_count := 1, test_case_count := 0, error_count := 0 }
    traces := [{ uuid_ := "u1", data := 3 }], tests := [], errors := []
    image_info := { file_name_ := "a", size_ := 1, hash_ := 1 } }

/-- A handle of type `t` as the registrar builds it for the worker `remote0`. -/
def handle (t : packet_type) : NodeData :=
  { type := t
    status := { id := 5, active := false, trace_count := 0, test_case_count := 0, error_count := 0 }
    server := { written := [], expected := [], remote := remote0 } }

/-- A dispatcher's members in mode `distributed`, with image update `update`, the target
queue `queue` and the handles `nodes`, no worker machine attached. -/
def members (distributed update : Bool) (queue : List String) (nodes : List NodeData) :
    fsm.DispatchFSM_ :=
  { options_ := opts distributed update queue
    node_registrar_ := nodes
    root_ := ["dispatch-root", "ts"]
    test_pool_ := TestPool.fresh ["dispatch-root", "ts"]
    trace_pool_ := TracePool.fresh
    vm_node_fsms_ := []
    svm_node_fsms_ := []
    master_port_ := 0
    exception_log_ := { sinks := [], auto_flush := true, entries := [] }
    node_error_log_ := { sinks := [], auto_flush := true, entries := [] }
    start_time_ := 0
    first_ := true
    next_target_queue_ := queue
    target_ := ""
    prev_time := 0
    print_pg := true
    disk := disk0
    console := [] }

/-- A VM machine on handle 0 in state `s` with the given flags and empty buffers. -/
def vm_in (s : vm.State) (first update distributed : Bool) : vm.NodeFSM :=
  { node_ := 0, first_ := first, traces_ := [], errors_ := [], image_info_ := Option.none,
    update_image_ := update, distributed_ := distributed, state := s }

/-- An SVM machine on handle 0 in state `s` with empty buffers. -/
def svm_in (s : svm.State) : svm.NodeFSM :=
  { node_ := 0, tests_ := [], errors_ := [], state := s }

/-- A handle of type `t` whose stored status has the counts `tr`, `tc`, `er` and the
activity flag `active`. -/
def handle_with (t : packet_type) (active : Bool) (tr tc er : Nat) : NodeData :=
  { type := t
    status := { id := 5, active := active, trace_count := tr, test_case_count := tc,
                error_count := er }
    server := { written := [], expected := [], remote := remote0 } }

/-- The Dispatch machine with members `d` in state `s`. -/
def machine (s : fsm.State) (d : fsm.DispatchFSM_) : fsm.DispatchFSM :=
  { toDispatchFSM_ := d, state := s }

/-- The dispatcher right after construction and `start_FSM` with the dev-mode options
`opts false false items`, on the empty disk at clock reading 0. -/
def started (items : List String) : fsm.DispatchFSM :=
  match Dispatch.start_FSM k0 0 1234 (opts false false items)
      (fsm.DispatchFSM.construct (opts false false []) "2016-Jan-01 10:00:00" 0 disk0) with
  | Except.ok m => m
  | Except.error _ => fsm.DispatchFSM.construct (opts false false []) "" 0 disk0

/-- The dispatcher `started items` after one VM worker has registered. -/
def registered (items : List String) : fsm.DispatchFSM :=
  match Dispatch.register (handle packet_type.cluster_request_vm_node) (started items) with
  | Except.ok m => m
  | Except.error _ => started items

/-- The dispatcher `registered items` after calls of `Dispatch::run` at the clock
readings `nows`. -/
def polled (items : List String) (nows : List Int) : fsm.DispatchFSM :=
  match Dispatch.runs k0 nows (registered items) with
  | Except.ok m => m
  | Except.error _ => registered items

end scenario

/-! ## Machines built at registration -/

/-- The VM machine that `register_node_fsm` builds for the handle at position `node`. -/
def vm_machine_for (node : Nat) (options : option.Dispatch) : vm.NodeFSM :=
  { node_ := node, first_ := false, traces_ := [], errors_ := [], image_info_ := Option.none,
    update_image_ := options.vm.image.update, distributed_ := options.mode.distributed,
    state := vm.State.TxConfig }

/-- The SVM machine that `register_node_fsm` builds for the handle at position `node`. -/
def svm_machine_for (node : Nat) : svm.NodeFSM :=
  { node_ := node, tests_ := [], errors_ := [], state := svm.State.TxConfig }

/-- A VM machine on handle `n` with `first = false`, `update_image = true`,
`distributed = true`, the trace buffer `tr`, the error buffer `er`, the cached image info
`ii`, in state `s`. -/
def vm_updating (n : Nat) (tr : List Trace) (er : List log.NodeError) (ii : Option ImageInfo)
    (s : vm.State) : vm.NodeFSM :=
  { node_ := n, first_ := false, traces_ := tr, errors_ := er, image_info_ := ii,
    update_image_ := true, distributed_ := true, state := s }

/-! ## Scenario S1 -/

/-- The state of the VM machine of scenario S1 after `j` dispatch passes. -/
def S1_vm_state : Nat → vm.State
  | 0 => vm.State.TxConfig
  | 1 => vm.State.Commence
  | 2 => vm.State.RxStatus
  | 3 => vm.State.StatusRxed
  | 4 => vm.State.RxTrace
  | _ => vm.State.TraceRxed

/-- Scenario S1 after `j` dispatch passes, the trace `t` not yet in the trace pool: dev
mode, the Dispatch machine in `SpecCheck`, one VM worker whose machine (no image update,
not first) is in the `j`-th state of its start-up sequence, a worker behind it that
reports one pending trace and hands out `t`, an empty trace pool and a trace directory in
which `t` has no entry yet. -/
def S1_after (t : Trace) (j : Nat) (m : fsm.DispatchFSM) : Prop :=
  m.state = fsm.State.SpecCheck ∧ m.options_.mode.distributed = false ∧
  m.svm_node_fsms_ = [] ∧
  (∃ v n, m.vm_node_fsms_ = [v] ∧ m.node_registrar_ = [n] ∧ v.node_ = 0 ∧
    v.first_ = false ∧ v.update_image_ = false ∧ v.state = S1_vm_state j ∧
    n.server.remote.status.trace_count = 1 ∧ n.server.remote.traces = [t] ∧
    (3 ≤ j → n.status.trace_count = 1) ∧ (5 ≤ j → v.traces_ = [t])) ∧
  m.trace_pool_.all_ = [] ∧
  m.disk.is_dir (m.root_ ++ [dispatch_trace_dir_name]) = true ∧
  m.disk.is_dir (m.root_ ++ [dispatch_trace_dir_name, t.uuid_]) = false

/-- Whether call number `j` (counted from 0) of the calls of `Dispatch::run` made on `m`
at the clock readings `clocks` finds the guard of the row from `SpecCheck` to `Terminate`
true in dev mode: `is_target_expired` holds at the reading of that call and the target
queue is empty. -/
def Dispatch.finds_target_spent (k : Constants) (clocks : List Int) (m : fsm.DispatchFSM)
    (j : Nat) : Bool :=
  match Dispatch.runs k (clocks.take j) m with
  | Except.ok mj =>
      fsm.is_target_expired mj.toDispatchFSM_ (clocks.getD j 0) &&
        mj.next_target_queue_.isEmpty
  | Except.error _ => false

/-! ## Runs of the dispatcher -/

/-- The members of the Dispatch machine that only its own actions `init`, `reset` and
`assign_next_target` assign: options, target queue, current target, root directory,
start time and master port. -/
def fsm.same_config (d d1 : fsm.DispatchFSM_) : Prop :=
  d1.options_ = d.options_ ∧ d1.next_target_queue_ = d.next_target_queue_ ∧
  d1.target_ = d.target_ ∧ d1.root_ = d.root_ ∧ d1.start_time_ = d.start_time_ ∧
  d1.master_port_ = d.master_port_

/-- The states a dispatcher can be in after `m0`: each step is either one call of
`Dispatch::run` at some clock reading, or a change made by the world between two calls
(workers connecting, their handles and machines, worker replies, the filesystem, the
pools), which leaves the machine's state, its options and its target queue alone. -/
inductive Dispatch.Reachable (k : Constants) (m0 : fsm.DispatchFSM) : fsm.DispatchFSM → Prop where
  | start : Dispatch.Reachable k m0 m0
  | run (now : Int) (m m1 : fsm.DispatchFSM) :
      Dispatch.Reachable k m0 m → Dispatch.run k now m = Except.ok m1 →
      Dispatch.Reachable k m0 m1
  | world (m m1 : fsm.DispatchFSM) :
      Dispatch.Reachable k m0 m → m1.state = m.state → m1.options_ = m.options_ →
      m1.next_target_queue_ = m.next_target_queue_ → Dispatch.Reachable k m0 m1

/-! ## Further objects named in the statements -/

/-- The image info the guard `is_image_valid` compares with the dispatcher's: the reply
cached in `image_info_`, or, on the first evaluation, the worker's reply to
`receive_image_info`. -/
def vm.reported_image_info (c : vm.Ctx) : ImageInfo :=
  match c.1.image_info_ with
  | some ii => ii
  | Option.none => (c.2.acquire c.1.node_).server.remote.image_info

/-- A disk on which every image path has the info `(empty name)/1/2`. -/
def scenario.disk_unnamed : FileSystem :=
  { scenario.disk0 with image_info_of := fun _ => { file_name_ := "", size_ := 1, hash_ := 2 } }

/-- A handle of type `t` for a worker that reports the image info `ii`. -/
def scenario.handle_reporting (t : packet_type) (ii : ImageInfo) : NodeData :=
  { scenario.handle t with
    server := { written := [], expected := []
                remote := { scenario.remote0 with image_info := ii } } }

/-- A members record like `scenario.members` whose test pool still has `tcs` to
dispense. -/
def scenario.with_tests (d : fsm.DispatchFSM_) (tcs : List TestCase) : fsm.DispatchFSM_ :=
  { d with test_pool_ := { d.test_pool_ with all_ := tcs, next_ := tcs } }

/-- The trace that `next_trace` returns for the pool entry `p`, when `from_trace_file`
loads it. -/
def fsm.loaded (disk : FileSystem) (p : Path) : Option Trace :=
  match fsm.from_trace_file disk p with
  | Except.ok t => some t
  | Except.error _ => Option.none

/-- The entry that the `catch` block of the `tx_trace` branch streams into the exception
log for the pool entry `p`, when `from_trace_file` throws on it. -/
def fsm.thrown (disk : FileSystem) (p : Path) : Option log.Entry :=
  match fsm.from_trace_file disk p with
  | Except.ok _ => Option.none
  | Except.error e => some (log.Entry.exception e)

/-- Scenario S6: on an otherwise empty disk the trace directory holds the file of the
trace `u2`, the file of `u1` has been removed, and the trace pool still has both entries
to dispense, `u1` first. -/
def scenario.S6_members : fsm.DispatchFSM_ :=
  { scenario.members true false ["t"]
      [scenario.handle_with packet_type.cluster_request_svm_node true 0 0 0] with
    disk := { scenario.disk0 with
      dirs := [["dispatch-root", "ts", "trace"]]
      files := [(["dispatch-root", "ts", "trace", "u2"], FileContent.trace ⟨"u2", 4⟩)] }
    trace_pool_ :=
      { all_ := [["dispatch-root", "ts", "trace", "u1"], ["dispatch-root", "ts", "trace", "u2"]]
        next_ := [["dispatch-root", "ts", "trace", "u1"], ["dispatch-root", "ts", "trace", "u2"]] } }

/-- Every name the filesystem holds: directories, regular files and symlinks. -/
def FileSystem.names (d : FileSystem) : List Path :=
  d.dirs ++ d.files.map Prod.fst ++ d.symlinks.map Prod.fst

/-- The number a string of decimal digits stands for, most significant digit first. -/
def decimal_value (cs : List Char) : Nat :=
  cs.foldl (fun acc c => acc * 10 + (c.toNat - 48)) 0

/-- The members of a dispatcher after the errors `es` were written to the numbered files
`j + 1, j + 2, ...` of the log subdirectory `subdir` and appended to the node-error
log. -/
def fsm.with_numbered_logs (d : fsm.DispatchFSM_) (subdir : String) (j : Nat)
    (es : List log.NodeError) : fsm.DispatchFSM_ :=
  { d with
    disk := { d.disk with
      files := d.disk.files ++ (es.enumFrom (j + 1)).map
        (fun ie => (d.root_ ++ [log_dir_name, subdir] ++ [toString ie.1],
          FileContent.text ie.2.log)) }
    node_error_log_ := { d.node_error_log_ with
      entries := d.node_error_log_.entries ++
        es.map (fun e => log.Entry.node_error d.target_ e.log) } }

/-- Scenario S4: the log directory of VM workers is there and empty, the current target
is `t1`. -/
def scenario.S4_members : fsm.DispatchFSM_ :=
  { scenario.members true false []
      [scenario.handle_with packet_type.cluster_request_vm_node true 0 0 3] with
    target_ := "t1"
    disk := { scenario.disk0 with
      dirs := [["dispatch-root", "ts", "log"], ["dispatch-root", "ts", "log", "vm"]] } }

/-- Scenario S4: a VM machine in `ErrorRxed` that holds the three errors received. -/
def scenario.S4_machine : vm.NodeFSM :=
  { scenario.vm_in vm.State.ErrorRxed false false true with
    errors_ := [⟨"e1"⟩, ⟨"e2"⟩, ⟨"e3"⟩] }

/-- A worker handle before (`n`) and after (`n1`) some steps of the protocol: the type
and the worker behind it are the same, the packets written and the replies read have
only grown, and the stored status is the same unless a status reply (`cluster_status`)
has been read in between. -/
def handle_step (n n1 : NodeData) : Prop :=
  n1.type = n.type ∧ n1.server.remote = n.server.remote ∧
  n.server.written <+: n1.server.written ∧
  n.server.expected <+: n1.server.expected ∧
  (n1.server.expected.count packet_type.cluster_status =
      n.server.expected.count packet_type.cluster_status → n1.status = n.status)

/-- The handles of the registrar before and after some steps of the protocol, handle by
handle. -/
def nodes_step (l l1 : List NodeData) : Prop := List.Forall₂ handle_step l l1

/-- The two lists of a pool before (`all`, `next`) and after (`all1`, `next1`) some
insertions and some calls of `next`: the insertions that were new are appended to
`all`, and what is still to be dispensed is a tail of the old entries followed by the
new ones. -/
def pool_step {α : Type} (all next all1 next1 : List α) : Prop :=
  ∃ added, all1 = all ++ added ∧ next1 <:+ next ++ added

/-- The members of the dispatcher before and after a part of one pass of the action
`dispatch`: only the disk, the worker handles, the two pools and the two logs may
differ; the handles and the pools are in step. -/
def fsm.pass_step (d d1 : fsm.DispatchFSM_) : Prop :=
  d1 = { d with
    disk := d1.disk, node_registrar_ := d1.node_registrar_, trace_pool_ := d1.trace_pool_,
    test_pool_ := d1.test_pool_, node_error_log_ := d1.node_error_log_,
    exception_log_ := d1.exception_log_ } ∧
  nodes_step d.node_registrar_ d1.node_registrar_ ∧
  pool_step d.trace_pool_.all_ d.trace_pool_.next_ d1.trace_pool_.all_ d1.trace_pool_.next_ ∧
  pool_step d.test_pool_.all_ d.test_pool_.next_ d1.test_pool_.all_ d1.test_pool_.next_

/-- What one processed event can do to a VM machine: `v1` is what `process_event`
returns for some event given to a machine in the state of `v`; so the state is either
the same or the target of one row of the table that leaves the state of `v` on that
event. -/
def vm.one_step (v v1 : vm.NodeFSM) : Prop :=
  ∃ ev v0 s s1, v0.state = v.state ∧ vm.process_event ev v0 s = Except.ok (v1, s1) ∧
    (v1.state = v.state ∨ ∃ row ∈ vm.transition_table,
      row.source = v.state ∧ row.event = ev.tag ∧ row.target = v1.state)

/-- What one processed event can do to an SVM machine. -/
def svm.one_step (v v1 : svm.NodeFSM) : Prop :=
  ∃ ev v0 s s1, v0.state = v.state ∧ svm.process_event ev v0 s = Except.ok (v1, s1) ∧
    (v1.state = v.state ∨ ∃ row ∈ svm.transition_table,
      row.source = v.state ∧ row.event = ev.tag ∧ row.target = v1.state)

/-- A handle of type SVM for a worker that reports one pending test case and hands out
the test case `9`. -/
def scenario.svm_handle : NodeData :=
  { type := packet_type.cluster_request_svm_node
    status := { id := 6, active := false, trace_count := 0, test_case_count := 0,
                error_count := 0 }
    server := { written := [], expected := []
                remote := { status := { id := 6, active := true, trace_count := 0,
                                        test_case_count := 1, error_count := 0 }
                            traces := [], tests := [⟨9⟩], errors := []
                            image_info := { file_name_ := "a", size_ := 1, hash_ := 1 } } } }

/-- A dispatcher constructed and started with the options `o`, on the empty disk at
clock reading 0, after the VM worker `vmh` and then the SVM worker `svmh` have
registered. -/
def scenario.cluster (o : option.Dispatch) (vmh svmh : NodeData) : fsm.DispatchFSM :=
  match Dispatch.start_FSM scenario.k0 0 1234 o
      (fsm.DispatchFSM.construct (scenario.opts false false []) "ts" 0 scenario.disk0) with
  | Except.error _ => fsm.DispatchFSM.construct (scenario.opts false false []) "" 0 scenario.disk0
  | Except.ok m0 =>
      match Dispatch.register vmh m0 with
      | Except.error _ => m0
      | Except.ok m1 =>
          match Dispatch.register svmh m1 with
          | Except.error _ => m1
          | Except.ok m2 => m2

/-- What is looked at after some calls of `Dispatch::run`: the state of the Dispatch
machine, the state and the trace buffer of every VM machine, the state and the test
buffer of every SVM machine, the entries ever inserted into the trace pool and into the
test pool, the current target and the target queue. -/
def scenario.observe (r : Except Fault fsm.DispatchFSM) :
    Option (fsm.State × List (vm.State × List Trace) × List (svm.State × List TestCase) ×
      List Path × List TestCase × String × List String) :=
  match r with
  | Except.ok m =>
      some (m.state, m.vm_node_fsms_.map (fun v => (v.state, v.traces_)),
        m.svm_node_fsms_.map (fun v => (v.state, v.tests_)),
        m.trace_pool_.all_, m.test_pool_.all_, m.target_, m.next_target_queue_)
  | Except.error _ => Option.none

/-- What the loop of `reset` does to a worker handle: it writes `cluster_reset`, and
`register_node_fsm` marks the worker active. -/
def NodeData.reset_and_activate (n : NodeData) : NodeData :=
  { n.write packet_type.cluster_reset Payload.empty with
    status := { n.status with active := true } }

/-- A handle of type VM for a worker that reports ten pending traces and hands out the
traces `u0` to `u9`. -/
def scenario.S3_vm_handle : NodeData :=
  { type := packet_type.cluster_request_vm_node
    status := { id := 5, active := false, trace_count := 0, test_case_count := 0,
                error_count := 0 }
    server := { written := [], expected := []
                remote := { status := { id := 5, active := true, trace_count := 10,
                                        test_case_count := 0, error_count := 0 }
                            traces := (List.range 10).map
                              (fun i => { uuid_ := String.mk ['u', Nat.digitChar i], data := i })
                            tests := [], errors := []
                            image_info := { file_name_ := "a", size_ := 1, hash_ := 1 } } } }

/-- Scenario S3: distributed mode, `interval.trace = 10`, the targets `t1` and `t2`. -/
def scenario.S3_options : option.Dispatch :=
  { mode := { distributed := true }
    test := { items := ["t1", "t2"], interval := { trace := 10, tc := 100, time := 1000 } }
    vm := { image := { path := ["img"], update := false } }
    profile := { interval := 1 } }

/-- Scenario S3 after calls of `Dispatch::run` at the clock readings `nows`: one VM worker
and one SVM worker have registered with a dispatcher started with `S3_options`. -/
def scenario.S3_polled (nows : List Int) : fsm.DispatchFSM :=
  match Dispatch.runs scenario.k0 nows
      (scenario.cluster scenario.S3_options scenario.S3_vm_handle scenario.svm_handle) with
  | Except.ok m => m
  | Except.error _ =>
      scenario.cluster scenario.S3_options scenario.S3_vm_handle scenario.svm_handle

/-- A dispatcher in distributed mode with one idle VM worker and one idle SVM worker,
empty pools and the target `t1` queued: `is_converged` holds. -/
def scenario.idle_members : fsm.DispatchFSM_ :=
  { scenario.members true false ["t1"]
      [scenario.handle_with packet_type.cluster_request_vm_node false 0 0 0,
       scenario.handle_with packet_type.cluster_request_svm_node false 0 0 0] with
    vm_node_fsms_ := [vm_machine_for 0 (scenario.opts true false ["t1"])]
    svm_node_fsms_ := [svm_machine_for 1]
    first_ := false }

/-- The guards of the Dispatch machine under a valuation of the four predicates they
read. -/
def fsm.guard_under (dev first expired next : Bool) (g : fsm.Guard) (c : Unit) : Bool × Unit :=
  match g with
  | fsm.Guard.is_first => (first, c)
  | fsm.Guard.is_dev_mode => (dev, c)
  | fsm.Guard.have_next_target => (next, c)
  | fsm.Guard.is_target_expired => (expired, c)

/-- The rows out of `SpecCheck`, in table order, whose guard is true under a valuation. -/
def fsm.spec_check_enabled (dev first expired next : Bool) : List fsm.TRow :=
  (fsm.transition_table.filter (fun r => decide (r.source = fsm.State.SpecCheck))).filter
    (fun r => (r.guard.eval (fsm.guard_under dev first expired next) ()).1)

/-- Scenario S3 with a statistics row due every ten seconds. -/
def scenario.S3_profiled : option.Dispatch :=
  { scenario.S3_options with profile := { interval := 10 } }

/-- The clock readings, in nanoseconds, of sixteen calls of `Dispatch::run`: twelve at
0 s, two at 500 s and two at 501 s. -/
def scenario.S3_clock : List Int :=
  List.replicate 12 0 ++ [500000000000, 500000000000, 501000000000, 501000000000]

/-- The file `stat.dat` and the file `stat.pg` of the profile directory below `root`. -/
def scenario.statistics (disk : FileSystem) (root : Path) :
    Option FileContent × Option FileContent :=
  (disk.read_file (root ++ [dispatch_profile_dir_name, "stat.dat"]),
   disk.read_file (root ++ [dispatch_profile_dir_name, "stat.pg"]))

/-- Target of the symlink `l`, when there is one. -/
def FileSystem.read_symlink (d : FileSystem) (l : Path) : Option Path :=
  (d.symlinks.find? (fun q => decide (q.1 = l))).map Prod.snd

/-- The root directory of a dispatcher constructed at the timestamp `ts`: in distributed
mode `dispatch-root/ts` followed by the file name of some target (by nothing for a
target without file name, as before the first rotation), in dev mode `dispatch-root/ts`. -/
def fsm.rooted (ts : String) (d : fsm.DispatchFSM_) : Prop :=
  (d.options_.mode.distributed = true ∧
    ∃ t, d.root_ = [dispatch_root_dir_name, ts] ++ string_filename t) ∨
  (d.options_.mode.distributed = false ∧ d.root_ = [dispatch_root_dir_name, ts])

/-- Gives a VM machine the events `evs` one after the other, as long as none throws. -/
def vm.process_events : List vm.Event → vm.NodeFSM → Sys → Except Fault (vm.NodeFSM × Sys)
  | [], m, sys => Except.ok (m, sys)
  | ev :: rest, m, sys =>
      match vm.process_event ev m sys with
      | Except.ok r => vm.process_events rest r.1 r.2
      | Except.error e => Except.error e

/-- The types of the packets written to the worker behind handle `node` so far, oldest
first. -/
def Sys.written_types (sys : Sys) (node : Nat) : List packet_type :=
  (sys.acquire node).server.written.map (fun p => p.type)

/-- How many packets of type `cluster_image_info_request` were written so far, to all
workers together. -/
def Sys.image_info_requests (sys : Sys) : Nat :=
  (sys.nodes.map (fun n =>
    (n.server.written.map (fun p => p.type)).count packet_type.cluster_image_info_request)).sum

/-- How many image-info requests a VM machine may still send: one as long as no reply is
cached. -/
def vm.requests_left (m : vm.VMNodeFSM_) : Nat :=
  if m.image_info_.isSome then 0 else 1

/-- One VM worker handle on the disk that holds the image file. -/
def scenario.sys_with_image : Sys :=
  { nodes := [scenario.handle packet_type.cluster_request_vm_node],
    disk := scenario.disk_with_image }

/-- The packets a VM machine writes between the configuration and the commencement: the
request for the worker's image info, the image info and the image. -/
def vm.setup_packet (t : packet_type) : Prop :=
  t ∈ [packet_type.cluster_image_info_request, packet_type.cluster_image_info,
    packet_type.cluster_image]

/-- The type of the packet an action of the VM machine writes, when it writes one. -/
def vm.action_packets : vm.Action → List packet_type
  | vm.Action.init => []
  | vm.Action.tx_config => [packet_type.cluster_config]
  | vm.Action.update_image_info => [packet_type.cluster_image_info]
  | vm.Action.update_image => [packet_type.cluster_image]
  | vm.Action.rx_guest_data => []
  | vm.Action.commence => [packet_type.cluster_commence]
  | vm.Action.rx_status => [packet_type.cluster_status_request]
  | vm.Action.rx_trace => [packet_type.cluster_trace_request]
  | vm.Action.tx_test => [packet_type.cluster_test_case]
  | vm.Action.rx_error => [packet_type.cluster_error_log_request]

/-- The stages of a VM machine's life: 1 before the configuration is transmitted, 2
between the configuration and the commencement, 3 the status/trace/test loop. -/
def vm.stage : vm.State → Nat
  | vm.State.TxConfig => 1
  | vm.State.ValidateImage => 2
  | vm.State.UpdateImage => 2
  | vm.State.RxGuestData => 2
  | vm.State.GuestDataRxed => 2
  | vm.State.Commence => 2
  | vm.State.RxStatus => 3
  | vm.State.StatusRxed => 3
  | vm.State.RxTrace => 3
  | vm.State.TraceRxed => 3
  | vm.State.TxTest => 3
  | vm.State.TestTxed => 3
  | vm.State.ErrorRxed => 3
  | _ => 0

/-- What a VM machine in state `s` has written to its worker since it was registered, as
the list `l` of packet types, oldest first: nothing in stage 1; in stage 2 the
configuration followed by setup packets; in stage 3 the configuration, setup packets,
the commencement, and then packets that are neither a configuration nor a
commencement. -/
def vm.protocol_shape (s : vm.State) (l : List packet_type) : Prop :=
  (vm.stage s = 1 ∧ l = []) ∨
  (vm.stage s = 2 ∧ ∃ setup, l = packet_type.cluster_config :: setup ∧
    ∀ t ∈ setup, vm.setup_packet t) ∨
  (vm.stage s = 3 ∧ ∃ setup rest,
    l = packet_type.cluster_config :: setup ++ packet_type.cluster_commence :: rest ∧
    (∀ t ∈ setup, vm.setup_packet t) ∧
    ∀ t ∈ rest, t ≠ packet_type.cluster_config ∧ t ≠ packet_type.cluster_commence)

/-- The context of a VM machine before (`c`) and after (`c1`) guards or actions that
write only packets whose type satisfies `S` to the machine's worker. -/
def vm.wrote (S : packet_type → Prop) (c c1 : vm.Ctx) : Prop :=
  c1.1.node_ = c.1.node_ ∧ c1.2.nodes.length = c.2.nodes.length ∧
  ∃ extra, c1.2.written_types c.1.node_ = c.2.written_types c.1.node_ ++ extra ∧
    ∀ t ∈ extra, S t

/-- The locks of the dispatcher: the registrar's, one per worker handle (by position in
the registrar), and those of the two lists of worker machines. -/
inductive LockId where
  | registrar
  | node (i : Nat)
  | vm_node_fsms
  | svm_node_fsms
  deriving DecidableEq, Repr

/-- Modelled from the spec: the class `AtomicGuard`, which is declared outside
`dispatch.cpp`: `acquire()` locks the guarded object and returns a guard object through
which the object is reached; the lock is kept until the guard object is destroyed, a
named guard at the end of its block and a temporary at the end of the full expression
that creates it.  A `LockOp` is one step of the dispatcher thread as far as locks and
sockets are concerned: a lock taken, a lock given back, or a packet written to or read
from the worker behind handle `node`. -/
inductive LockOp where
  | acquire (l : LockId)
  | release (l : LockId)
  | io (node : Nat) (t : packet_type)
  deriving DecidableEq, Repr

/-- The locks held after `op`, given the locks `held` before it, oldest first. -/
def LockOp.step (held : List LockId) : LockOp → List LockId
  | LockOp.acquire l => held ++ [l]
  | LockOp.release l => held.erase l
  | LockOp.io _ _ => held

/-- Whether `ok held op` is true of every step of `ops`, where `held` are the locks held
just before the step, starting from the given list. -/
def every_op (ok : List LockId → LockOp → Bool) : List LockId → List LockOp → Bool
  | _, [] => true
  | held, op :: rest => ok held op && every_op ok (op.step held) rest

/-- The steps of `register_node_fsm` on the handle at position `i` of type `t`: a
temporary guard for `status.active = true`, one for the `switch` condition, and one on
the list the new machine is appended to; `false` when the type is not recognized and the
function throws. -/
def register_node_fsm_ops (i : Nat) (t : packet_type) : List LockOp × Bool :=
  let head := [LockOp.acquire (LockId.node i), LockOp.release (LockId.node i),
               LockOp.acquire (LockId.node i), LockOp.release (LockId.node i)]
  match t with
  | packet_type.cluster_request_vm_node =>
      (head ++ [LockOp.acquire LockId.vm_node_fsms, LockOp.release LockId.vm_node_fsms], true)
  | packet_type.cluster_request_svm_node =>
      (head ++ [LockOp.acquire LockId.svm_node_fsms, LockOp.release LockId.svm_node_fsms], true)
  | _ => (head, false)

/-- The steps of the node loop of action `reset`, from position `i` on: per handle the
block that writes `cluster_reset` under the guard `nl`, then `register_node_fsm`; the
loop ends when that throws. -/
def reset_loop_ops : Nat → List NodeData → List LockOp
  | _, [] => []
  | i, n :: rest =>
      let r := register_node_fsm_ops i n.type
      [LockOp.acquire (LockId.node i), LockOp.io i packet_type.cluster_reset,
       LockOp.release (LockId.node i)] ++ r.1 ++
        (if r.2 then reset_loop_ops (i + 1) rest else [])

/-- The steps of action `reset`: the two lists are cleared under temporary guards, then
the guard `lock` of the registrar is taken for the block that holds the node loop. -/
def reset_ops (nodes : List NodeData) : List LockOp :=
  [LockOp.acquire LockId.vm_node_fsms, LockOp.release LockId.vm_node_fsms,
   LockOp.acquire LockId.svm_node_fsms, LockOp.release LockId.svm_node_fsms,
   LockOp.acquire LockId.registrar] ++ reset_loop_ops 0 nodes ++
  [LockOp.release LockId.registrar]

/-- The steps of the node loop of action `assign_next_target`, from position `i` on,
with `queue` targets left: the guard `nl` is taken first and lives to the end of the
iteration; a handle that is not of type VM is skipped; the loop ends where the front of
an empty queue would be read. -/
def assign_next_target_loop_ops : Nat → List NodeData → Nat → List LockOp
  | _, [], _ => []
  | i, n :: rest, queue =>
      if n.type ≠ packet_type.cluster_request_vm_node then
        [LockOp.acquire (LockId.node i), LockOp.release (LockId.node i)] ++
          assign_next_target_loop_ops (i + 1) rest queue
      else
        match queue with
        | 0 => [LockOp.acquire (LockId.node i), LockOp.release (LockId.node i)]
        | q + 1 =>
            [LockOp.acquire (LockId.node i), LockOp.io i packet_type.cluster_next_target,
             LockOp.release (LockId.node i)] ++ assign_next_target_loop_ops (i + 1) rest q

/-- The steps of action `assign_next_target`. -/
def assign_next_target_ops (nodes : List NodeData) (queue : Nat) : List LockOp :=
  [LockOp.acquire LockId.registrar] ++ assign_next_target_loop_ops 0 nodes queue ++
  [LockOp.release LockId.registrar]

/-- The steps of a loop that takes the guard of each handle in turn for the length of
one iteration and leaves at the first handle for which `stop` holds, from position `i`
on. -/
def node_loop_ops (stop : NodeData → Bool) : Nat → List NodeData → List LockOp
  | _, [] => []
  | i, n :: rest =>
      [LockOp.acquire (LockId.node i), LockOp.release (LockId.node i)] ++
        (if stop n then [] else node_loop_ops stop (i + 1) rest)

/-- The steps of member `are_node_queues_empty`. -/
def are_node_queues_empty_ops (nodes : List NodeData) : List LockOp :=
  [LockOp.acquire LockId.registrar] ++
  node_loop_ops (fun n => decide (n.status.test_case_count ≠ 0 ∨ n.status.trace_count ≠ 0))
    0 nodes ++
  [LockOp.release LockId.registrar]

/-- The steps of member `are_nodes_inactive`. -/
def are_nodes_inactive_ops (nodes : List NodeData) : List LockOp :=
  [LockOp.acquire LockId.registrar] ++ node_loop_ops (fun n => n.status.active) 0 nodes ++
  [LockOp.release LockId.registrar]

/-- The steps of member `display_status`: two blocks under the registrar's guard, the
first with a temporary guard per handle, the second with a named one. -/
def display_status_ops (nodes : List NodeData) : List LockOp :=
  [LockOp.acquire LockId.registrar] ++ node_loop_ops (fun _ => false) 0 nodes ++
  [LockOp.release LockId.registrar, LockOp.acquire LockId.registrar] ++
  node_loop_ops (fun _ => false) 0 nodes ++ [LockOp.release LockId.registrar]

/-- The steps of the comparator of `sort_by_trace` and of `sort_by_test` on the handles
at positions `lhs` and `rhs`: each operand of `<` creates a temporary guard, and both
live to the end of the comparison; which operand is evaluated first is not specified. -/
def compare_ops (lhs rhs : Nat) (lhs_first : Bool) : List LockOp :=
  if lhs_first then
    [LockOp.acquire (LockId.node lhs), LockOp.acquire (LockId.node rhs),
     LockOp.release (LockId.node rhs), LockOp.release (LockId.node lhs)]
  else
    [LockOp.acquire (LockId.node rhs), LockOp.acquire (LockId.node lhs),
     LockOp.release (LockId.node lhs), LockOp.release (LockId.node rhs)]

/-- No packet is written or read while the registrar's lock is held. -/
def io_without_registrar (held : List LockId) : LockOp → Bool
  | LockOp.io _ _ => !held.contains LockId.registrar
  | _ => true

/-- Every packet is written or read while exactly the registrar's lock and, taken after
it, the lock of the addressed handle are held. -/
def io_under_registrar (held : List LockId) : LockOp → Bool
  | LockOp.io i _ => decide (held = [LockId.registrar, LockId.node i])
  | _ => true

/-- Whether a lock is the lock of a worker handle. -/
def LockId.is_node : LockId → Bool
  | LockId.node _ => true
  | _ => false

/-- No lock of a worker handle is taken while the lock of another worker handle is
held. -/
def one_node_lock (held : List LockId) : LockOp → Bool
  | LockOp.acquire (LockId.node i) =>
      !held.any (fun l => l.is_node && decide (l ≠ LockId.node i))
  | _ => true

/-- The locks held after the steps `ops`, given the locks `held` before them. -/
def locks_after (held : List LockId) (ops : List LockOp) : List LockId :=
  ops.foldl LockOp.step held

/-- No worker machine of the dispatcher is in its `Error` state. -/
def fsm.no_machine_in_Error (d : fsm.DispatchFSM_) : Prop :=
  (∀ v ∈ d.vm_node_fsms_, v.state ≠ vm.State.Error) ∧
  (∀ v ∈ d.svm_node_fsms_, v.state ≠ svm.State.Error)

/-- The guard functors a guard expression mentions, from left to right. -/
def GuardExpr.atoms {G : Type} : GuardExpr G → List G
  | GuardExpr.none => []
  | GuardExpr.atom g => [g]
  | GuardExpr.Not_ e => e.atoms
  | GuardExpr.And_ a b => a.atoms ++ b.atoms
  | GuardExpr.Or_ a b => a.atoms ++ b.atoms

/-- The guards of the VM machine under a valuation of the six predicates they read. -/
def vm.guard_under (distributed update first valid trace error : Bool) (g : vm.Guard)
    (c : Unit) : Bool × Unit :=
  match g with
  | vm.Guard.is_distributed => (distributed, c)
  | vm.Guard.do_update => (update, c)
  | vm.Guard.is_first => (first, c)
  | vm.Guard.is_image_valid => (valid, c)
  | vm.Guard.has_trace => (trace, c)
  | vm.Guard.has_error => (error, c)

/-- The guards of the SVM machine under a valuation of the two predicates they read. -/
def svm.guard_under (tests error : Bool) (g : svm.Guard) (c : Unit) : Bool × Unit :=
  match g with
  | svm.Guard.has_tests => (tests, c)
  | svm.Guard.has_error => (error, c)

/-- The valuation of the six predicates for a VM machine with its handles: the three
flags, what the guard `is_image_valid` returns for the event, and whether the stored
status shows pending traces or errors. -/
def vm.guard_of (ev : vm.Event) (c : vm.Ctx) : vm.Guard → Unit → Bool × Unit :=
  vm.guard_under c.1.distributed_ c.1.update_image_ c.1.first_
    (vm.guard ev vm.Guard.is_image_valid c).1
    (decide ((c.2.acquire c.1.node_).status.trace_count > 0))
    (decide ((c.2.acquire c.1.node_).status.error_count > 0))

/-- The valuation of the two predicates for an SVM machine with its handles. -/
def svm.guard_of (c : svm.Ctx) : svm.Guard → Unit → Bool × Unit :=
  svm.guard_under (decide ((c.2.acquire c.1.node_).status.test_case_count > 0))
    (decide ((c.2.acquire c.1.node_).status.error_count > 0))

/-- The number of calls of `next_test` the top-up loop of the `tx_test` branch makes,
started with the count `tc_count`; `none` when the loop has not ended after `fuel`
passes. -/
def fsm.top_up_tests_calls (k : Constants) : Nat → Nat → fsm.DispatchFSM_ → Option Nat
  | 0, tc_count, _ => if tc_count < 1 * k.vm_test_multiplier then Option.none else some 0
  | fuel + 1, tc_count, d =>
      if tc_count < 1 * k.vm_test_multiplier then
        let r := fsm.next_test d
        match r.1 with
        | Option.none => some 1
        | some _ => (fsm.top_up_tests_calls k fuel (tc_count + 1) r.2).map (fun n => n + 1)
      else some 0

/-- The number of calls of `next_trace` the top-up loop of the `tx_trace` branch makes,
started with the count `trace_count`; `none` when the loop has not ended after `fuel`
passes. -/
def fsm.top_up_traces_calls (k : Constants) : Nat → Nat → fsm.DispatchFSM_ → Option Nat
  | 0, trace_count, _ => if trace_count < 1 * k.vm_trace_multiplier then Option.none else some 0
  | fuel + 1, trace_count, d =>
      if trace_count < 1 * k.vm_trace_multiplier then
        let r := fsm.next_trace d
        match r.1 with
        | Except.ok Option.none => some 1
        | Except.ok (some _) =>
            (fsm.top_up_traces_calls k fuel (trace_count + 1) r.2).map (fun n => n + 1)
        | Except.error e =>
            (fsm.top_up_traces_calls k fuel trace_count
              { r.2 with exception_log_ := { r.2.exception_log_ with
                  entries := r.2.exception_log_.entries ++ [log.Entry.exception e] } }).map
              (fun n => n + 1)
      else some 0

/-- The fault a sequence of calls of `Dispatch::run` ends with, if it ends with one. -/
def scenario.fault_of (r : Except Fault fsm.DispatchFSM) : Option Fault :=
  match r with
  | Except.ok _ => Option.none
  | Except.error e => some e

/-- The error buffer of a VM machine is empty unless the machine is in `ErrorRxed`. -/
def vm.errors_pending_only_in_ErrorRxed (v : vm.NodeFSM) : Prop :=
  v.state = vm.State.ErrorRxed ∨ v.errors_ = []

/-- The error buffer of an SVM machine is empty unless the machine is in `ErrorRxed`. -/
def svm.errors_pending_only_in_ErrorRxed (v : svm.NodeFSM) : Prop :=
  v.state = svm.State.ErrorRxed ∨ v.errors_ = []

/-- Every worker machine of the dispatcher has an empty error buffer unless it is in
`ErrorRxed`. -/
def fsm.errors_pending_only_in_ErrorRxed (d : fsm.DispatchFSM_) : Prop :=
  (∀ v ∈ d.vm_node_fsms_, vm.errors_pending_only_in_ErrorRxed v) ∧
  (∀ v ∈ d.svm_node_fsms_, svm.errors_pending_only_in_ErrorRxed v)

/-- A handle of type VM for a worker that reports one error, no pending trace, and hands
out the error `e1`. -/
def scenario.failing_vm_handle : NodeData :=
  { type := packet_type.cluster_request_vm_node
    status := { id := 5, active := false, trace_count := 0, test_case_count := 0,
                error_count := 0 }
    server := { written := [], expected := []
                remote := { status := { id := 5, active := true, trace_count := 0,
                                        test_case_count := 0, error_count := 1 }
                            traces := [], tests := [], errors := [⟨"e1"⟩]
                            image_info := { file_name_ := "a", size_ := 1, hash_ := 1 } } } }

/-- What is looked at where errors are concerned: the state of the Dispatch machine, the
state and the error buffer of every VM machine, the entries of the node-error log, and
the names of the regular files on the disk. -/
def scenario.observe_errors (r : Except Fault fsm.DispatchFSM) :
    Option (fsm.State × List (vm.State × List log.NodeError) × List log.Entry × List Path) :=
  match r with
  | Except.ok m =>
      some (m.state, m.vm_node_fsms_.map (fun v => (v.state, v.errors_)),
        m.node_error_log_.entries, m.disk.files.map Prod.fst)
  | Except.error _ => Option.none

/-- The dispatcher with a failing worker after calls of `Dispatch::run` at the clock
readings `nows`: distributed mode, the targets `t1` and `t2`, a VM worker that reports one
error and an SVM worker. -/
def scenario.failing_polled (nows : List Int) : Except Fault fsm.DispatchFSM :=
  Dispatch.runs scenario.k0 nows
    (scenario.cluster (scenario.opts true false ["t1", "t2"])
      scenario.failing_vm_handle scenario.svm_handle)

/-- The guard functors of the Dispatch machine with the clock read at every evaluation.
`is_target_expired` calls `elapsed_time`, which reads `system_clock::now()` each time;
the context carries, next to the machine, the number of readings taken so far while the
event is processed, and `clock i` is the value of reading number `i`. -/
def fsm.guard_clocked (clock : Nat → Int) (g : fsm.Guard) (c : fsm.DispatchFSM_ × Nat) :
    Bool × (fsm.DispatchFSM_ × Nat) :=
  match g with
  | fsm.Guard.is_first => (fsm.is_first c.1, c)
  | fsm.Guard.is_dev_mode => (fsm.is_dev_mode c.1, c)
  | fsm.Guard.have_next_target => (fsm.have_next_target c.1, c)
  | fsm.Guard.is_target_expired => (fsm.is_target_expired c.1 (clock c.2), (c.1, c.2 + 1))

/-- The row that fires when the machine processes `ev`, if any, each evaluation of
`is_target_expired` taking its own clock reading. -/
def fsm.fired_row_clocked (clock : Nat → Int) (ev : fsm.Event) (m : fsm.DispatchFSM) :
    Option fsm.TRow × (fsm.DispatchFSM_ × Nat) :=
  select_row (fsm.guard_clocked clock) (candidate_rows fsm.transition_table m.state ev.tag)
    (m.toDispatchFSM_, 0)

/-- Member `process_event` of the back end of the Dispatch machine, each evaluation of
`is_target_expired` taking its own clock reading; the actions of the fired row run at
the reading that follows those of the guards. -/
def fsm.process_event_clocked (k : Constants) (clock : Nat → Int) (ev : fsm.Event)
    (m : fsm.DispatchFSM) : Except Fault fsm.DispatchFSM :=
  if m.state = fsm.State.Terminated then Except.ok m
  else if (candidate_rows fsm.transition_table m.state ev.tag).isEmpty then
    Except.error Fault.no_transition
  else
    let sel := fsm.fired_row_clocked clock ev m
    match sel.1 with
    | Option.none => Except.ok { m with toDispatchFSM_ := sel.2.1 }
    | some r =>
        match run_actions (fsm.exec k (clock sel.2.2) ev) r.action sel.2.1 with
        | Except.ok d => Except.ok { toDispatchFSM_ := d, state := r.target }
        | Except.error e => Except.error e

/-- Member `Dispatch::run`, each evaluation of `is_target_expired` taking its own clock
reading. -/
def Dispatch.run_clocked (k : Constants) (clock : Nat → Int) (m : fsm.DispatchFSM) :
    Except Fault fsm.DispatchFSM :=
  if !Dispatch.has_nodes m then Except.ok m
  else fsm.process_event_clocked k clock fsm.Event.poll m

/-- A dispatcher in distributed mode in `SpecCheck`, started at clock reading 0, after its
first target (`first = false`), with an empty target queue, empty pools and one active VM
worker: the target expires with the time threshold of 1000 seconds only. -/
def scenario.late_target : fsm.DispatchFSM :=
  scenario.machine fsm.State.SpecCheck
    { scenario.members true false []
        [scenario.handle_with packet_type.cluster_request_vm_node true 0 0 0] with
      vm_node_fsms_ := [vm_machine_for 0 (scenario.opts true false [])]
      first_ := false }

/-- Clock readings, in nanoseconds, of one poll that straddles the 1000th second: the
first reading is taken one nanosecond before it, every later one at it. -/
def scenario.straddling_clock (i : Nat) : Int :=
  if i = 0 then 999999999999 else 1000000000000

/-- State of the machine an event left, when the event was processed without a fault. -/
def fsm.state_after (r : Except Fault fsm.DispatchFSM) : Option fsm.State :=
  match r with
  | Except.ok m => some m.state
  | Except.error _ => Option.none

/-- One visit of the VM lambda of action `dispatch` to the machine `v`, the dispatcher
being `d` when the lambda is entered: the branch chosen by the flag of `v` does its work
on the dispatcher (`d0`), which leaves the machine as it is but for the error buffer the
`error_rxed` branch drains (`v0`), and names one event `ev`; that event is given to the
machine once, by one call of `process_event`, which returns `v1`; the dispatcher is then
`d1`.  The state of `v1` is the state of `v` or the target of one row of the table that
leaves the state of `v` on `ev`. -/
def fsm.vm_visit (k : Constants) (d : fsm.DispatchFSM_) (v v1 : vm.NodeFSM)
    (d1 : fsm.DispatchFSM_) : Prop :=
  ∃ ev v0 d0 s1,
    fsm.dispatch_vm_event k d v = Except.ok (ev, v0, d0) ∧
    v0 = { v with errors_ := v0.errors_ } ∧
    vm.process_event ev v0 d0.sys = Except.ok (v1, s1) ∧
    d1 = d0.with_sys s1 ∧
    (v1.state = v.state ∨ ∃ row ∈ vm.transition_table,
      row.source = v.state ∧ row.event = ev.tag ∧ row.target = v1.state)

/-- One visit of the SVM lambda of action `dispatch` to the machine `v`, the dispatcher
being `d` when the lambda is entered; as `fsm.vm_visit`. -/
def fsm.svm_visit (k : Constants) (d : fsm.DispatchFSM_) (v v1 : svm.NodeFSM)
    (d1 : fsm.DispatchFSM_) : Prop :=
  ∃ ev v0 d0 s1,
    fsm.dispatch_svm_event k d v = Except.ok (ev, v0, d0) ∧
    v0 = { v with errors_ := v0.errors_ } ∧
    svm.process_event ev v0 d0.sys = Except.ok (v1, s1) ∧
    d1 = d0.with_sys s1 ∧
    (v1.state = v.state ∨ ∃ row ∈ svm.transition_table,
      row.source = v.state ∧ row.event = ev.tag ∧ row.target = v1.state)

/-- The visits of one `std::for_each` over the VM machines: the machines `vs` are visited
in list order, each one once, each visit entered with the dispatcher as the visit before
it left it; `vs1` are the machines after their visits, position by position, and the
last argument is the dispatcher after the last visit. -/
inductive fsm.vm_visits (k : Constants) :
    fsm.DispatchFSM_ → List vm.NodeFSM → List vm.NodeFSM → fsm.DispatchFSM_ → Prop where
  | nil (d : fsm.DispatchFSM_) : fsm.vm_visits k d [] [] d
  | cons {d d1 d2 : fsm.DispatchFSM_} {v v1 : vm.NodeFSM} {vs vs1 : List vm.NodeFSM} :
      fsm.vm_visit k d v v1 d1 → fsm.vm_visits k d1 vs vs1 d2 →
      fsm.vm_visits k d (v :: vs) (v1 :: vs1) d2

/-- The visits of one `std::for_each` over the SVM machines; as `fsm.vm_visits`. -/
inductive fsm.svm_visits (k : Constants) :
    fsm.DispatchFSM_ → List svm.NodeFSM → List svm.NodeFSM → fsm.DispatchFSM_ → Prop where
  | nil (d : fsm.DispatchFSM_) : fsm.svm_visits k d [] [] d
  | cons {d d1 d2 : fsm.DispatchFSM_} {v v1 : svm.NodeFSM} {vs vs1 : List svm.NodeFSM} :
      fsm.svm_visit k d v v1 d1 → fsm.svm_visits k d1 vs vs1 d2 →
      fsm.svm_visits k d (v :: vs) (v1 :: vs1) d2

/-! ## Properties -/

/-! ### Row selection in the worker machines -/

theorem vm_is_image_valid_again (p : Path) (c : vm.Ctx) :
    vm.is_image_valid p (vm.is_image_valid p c).2 = vm.is_image_valid p c := by
  obtain ⟨⟨n, f, tr, er, ii, u, di⟩, sys⟩ := c
  cases ii with
  | none =>
    simp only [vm.is_image_valid]
    split_ifs <;> simp_all [receive_image_info, Sys.with_node]
  | some i =>
    simp only [vm.is_image_valid]
    split_ifs <;> simp_all

theorem vm_is_image_valid_spec (p : Path) (c : vm.Ctx) :
    ∃ b w, vm.is_image_valid p c = (b, w) ∧ vm.is_image_valid p w = (b, w) ∧
      w.1.first_ = c.1.first_ := by
  refine ⟨(vm.is_image_valid p c).1, (vm.is_image_valid p c).2, rfl, ?_, ?_⟩
  · exact vm_is_image_valid_again p c
  · obtain ⟨⟨n, f, tr, er, ii, u, di⟩, sys⟩ := c
    cases ii with
    | none =>
      simp only [vm.is_image_valid]
      split_ifs <;> simp_all
    | some i =>
      simp only [vm.is_image_valid]
      split_ifs <;> simp_all

theorem vm_candidate_rows_ValidateImage :
    candidate_rows vm.transition_table vm.State.ValidateImage vm.EventTag.image =
      [ ⟨vm.State.ValidateImage, vm.EventTag.image, vm.State.Commence, [],
          GuardExpr.And_ (GuardExpr.atom vm.Guard.is_image_valid)
            (GuardExpr.Not_ (GuardExpr.atom vm.Guard.is_first))⟩,
        ⟨vm.State.ValidateImage, vm.EventTag.image, vm.State.RxGuestData, [],
          GuardExpr.And_ (GuardExpr.atom vm.Guard.is_image_valid) (GuardExpr.atom vm.Guard.is_first)⟩,
        ⟨vm.State.ValidateImage, vm.EventTag.image, vm.State.UpdateImage, [],
          GuardExpr.Not_ (GuardExpr.atom vm.Guard.is_image_valid)⟩ ] := by
  decide

theorem vm_validate_image_one_row (p : Path) (m : vm.NodeFSM) (sys : Sys)
    (h : m.state = vm.State.ValidateImage) :
    ∃ r, (vm.fired_row (vm.Event.image p) m sys).1 = some r ∧
      vm.enabled_rows (vm.Event.image p) m sys = [r] := by
  obtain ⟨b, w, h1, h2, _⟩ := vm_is_image_valid_spec p (m.toVMNodeFSM_, sys)
  cases b <;> cases hf : w.1.first_ <;>
    simp [vm.fired_row, vm.enabled_rows, h, vm.Event.tag, vm_candidate_rows_ValidateImage,
      select_row, GuardExpr.eval, vm.guard, h1, h2, hf]

theorem vm_process_event_target (ev : vm.Event) (m : vm.NodeFSM) (sys : Sys) (r : vm.TRow)
    (res : vm.NodeFSM × Sys) (h : (vm.fired_row ev m sys).1 = some r)
    (hres : vm.process_event ev m sys = Except.ok res) : res.1.state = r.target := by
  unfold vm.process_event at hres
  split_ifs at hres
  simp only [h] at hres
  split at hres
  · cases hres
    rfl
  · cases hres

theorem svm_process_event_target (ev : svm.Event) (m : svm.NodeFSM) (sys : Sys) (r : svm.TRow)
    (res : svm.NodeFSM × Sys) (h : (svm.fired_row ev m sys).1 = some r)
    (hres : svm.process_event ev m sys = Except.ok res) : res.1.state = r.target := by
  unfold svm.process_event at hres
  split_ifs at hres
  simp only [h] at hres
  split at hres
  · cases hres
    rfl
  · cases hres

theorem dispatch_vm_one_row (k : Constants) (d d1 : fsm.DispatchFSM_)
    (nfsm nfsm1 : vm.NodeFSM) (ev : vm.Event)
    (hs : nfsm.state ≠ vm.State.Start) (he : nfsm.state ≠ vm.State.Error)
    (hx : ¬ (nfsm.state = vm.State.TxConfig ∧ nfsm.update_image_ = true ∧
      nfsm.distributed_ = false))
    (h : fsm.dispatch_vm_event k d nfsm = Except.ok (ev, nfsm1, d1)) :
    ∃ r, (vm.fired_row ev nfsm1 d1.sys).1 = some r ∧ vm.enabled_rows ev nfsm1 d1.sys = [r] := by
  obtain ⟨⟨n, f, tr, er, ii, u, di⟩, st⟩ := nfsm
  cases st <;> simp at hs he hx
  all_goals
    simp [fsm.dispatch_vm_event, vm.NodeFSM.is_flag_active, vm.flag_list] at h
  case TxConfig =>
    obtain ⟨rfl, rfl, rfl⟩ := h
    cases u <;> cases f <;> cases di <;> simp at hx <;>
      simp [vm.fired_row, vm.enabled_rows, candidate_rows, vm.transition_table, vm.Event.tag,
        select_row, GuardExpr.eval, vm.guard]
  case ValidateImage =>
    obtain ⟨rfl, rfl, rfl⟩ := h
    exact vm_validate_image_one_row _ _ _ rfl
  case UpdateImage =>
    obtain ⟨rfl, rfl, rfl⟩ := h
    cases f <;>
      simp [vm.fired_row, vm.enabled_rows, candidate_rows, vm.transition_table, vm.Event.tag,
        select_row, GuardExpr.eval, vm.guard]
  case RxTrace =>
    obtain ⟨rfl, rfl, rfl⟩ := h
    by_cases h1 : 0 < (d.sys.acquire n).status.trace_count <;>
      simp [vm.fired_row, vm.enabled_rows, candidate_rows, vm.transition_table, vm.Event.tag,
        select_row, GuardExpr.eval, vm.guard, h1]
  case TestTxed =>
    obtain ⟨rfl, rfl, rfl⟩ := h
    by_cases h1 : 0 < (d.sys.acquire n).status.error_count <;>
      simp [vm.fired_row, vm.enabled_rows, candidate_rows, vm.transition_table, vm.Event.tag,
        select_row, GuardExpr.eval, vm.guard, h1]
  case TraceRxed =>
    cases htp : fsm.to_trace_pool d tr with
    | error e => simp [htp] at h
    | ok d2 =>
      simp [htp] at h
      obtain ⟨rfl, rfl, rfl⟩ := h
      simp [vm.fired_row, vm.enabled_rows, candidate_rows, vm.transition_table, vm.Event.tag,
        select_row, GuardExpr.eval, vm.guard]
  case ErrorRxed =>
    cases htp : fsm.drain_errors dispatch_log_vm_dir_name er.length er d with
    | error e => simp [htp] at h
    | ok d2 =>
      simp [htp] at h
      obtain ⟨rfl, rfl, rfl⟩ := h
      simp [vm.fired_row, vm.enabled_rows, candidate_rows, vm.transition_table, vm.Event.tag,
        select_row, GuardExpr.eval, vm.guard]
  all_goals
    obtain ⟨rfl, rfl, rfl⟩ := h
    simp [vm.fired_row, vm.enabled_rows, candidate_rows, vm.transition_table, vm.Event.tag,
      select_row, GuardExpr.eval, vm.guard]

theorem dispatch_svm_one_row (k : Constants) (d d1 : fsm.DispatchFSM_)
    (nfsm nfsm1 : svm.NodeFSM) (ev : svm.Event)
    (hs : nfsm.state ≠ svm.State.Start) (he : nfsm.state ≠ svm.State.Error)
    (h : fsm.dispatch_svm_event k d nfsm = Except.ok (ev, nfsm1, d1)) :
    ∃ r, (svm.fired_row ev nfsm1 d1.sys).1 = some r ∧ svm.enabled_rows ev nfsm1 d1.sys = [r] := by
  obtain ⟨⟨n, ts, er⟩, st⟩ := nfsm
  cases st <;> simp at hs he
  all_goals
    simp [fsm.dispatch_svm_event, svm.NodeFSM.is_flag_active, svm.flag_list] at h
  case RxTest =>
    obtain ⟨rfl, rfl, rfl⟩ := h
    by_cases h1 : 0 < (d.sys.acquire n).status.test_case_count <;>
    by_cases h2 : 0 < (d.sys.acquire n).status.error_count <;>
      simp [svm.fired_row, svm.enabled_rows, candidate_rows, svm.transition_table,
        svm.Event.tag, select_row, GuardExpr.eval, svm.guard, h1, h2]
  case TestRxed =>
    obtain ⟨rfl, rfl, rfl⟩ := h
    change ∃ r, (svm.fired_row _ _ d.sys).1 = some r ∧ svm.enabled_rows _ _ d.sys = [r]
    by_cases h2 : 0 < (d.sys.acquire n).status.error_count <;>
      simp [svm.fired_row, svm.enabled_rows, candidate_rows, svm.transition_table,
        svm.Event.tag, select_row, GuardExpr.eval, svm.guard, h2]
  case ErrorRxed =>
    cases htp : fsm.drain_errors dispatch_log_svm_dir_name er.length er d with
    | error e => simp [htp] at h
    | ok d2 =>
      simp [htp] at h
      obtain ⟨rfl, rfl, rfl⟩ := h
      simp [svm.fired_row, svm.enabled_rows, candidate_rows, svm.transition_table,
        svm.Event.tag, select_row, GuardExpr.eval, svm.guard]
  all_goals
    obtain ⟨rfl, rfl, rfl⟩ := h
    simp [svm.fired_row, svm.enabled_rows, candidate_rows, svm.transition_table,
      svm.Event.tag, select_row, GuardExpr.eval, svm.guard]

/-! ### C1 -/

/-- C1, as amended: in one dispatch pass, for every VM worker machine in a state other
than `Start` and `Error`, except a machine in `TxConfig` whose `update_image` flag is set
while `distributed` is not, and for every value of the flags and of the worker's
status, the event the dispatch action selects from the state's flag fires exactly one
row of the VM table: that row is the only enabled one and the machine moves to its
target.  The same holds for every SVM worker machine in a state other than `Start` and
`Error`. -/
theorem C1_dispatch_event_fires_exactly_one_row
    (k : Constants) (d d1 : fsm.DispatchFSM_) (nfsm nfsm1 : vm.NodeFSM) (ev : vm.Event)
    (e e1 : fsm.DispatchFSM_) (sfsm sfsm1 : svm.NodeFSM) (sev : svm.Event)
    (hs : nfsm.state ≠ vm.State.Start) (he : nfsm.state ≠ vm.State.Error)
    (hx : ¬ (nfsm.state = vm.State.TxConfig ∧ nfsm.update_image_ = true ∧
      nfsm.distributed_ = false))
    (h : fsm.dispatch_vm_event k d nfsm = Except.ok (ev, nfsm1, d1))
    (hs' : sfsm.state ≠ svm.State.Start) (he' : sfsm.state ≠ svm.State.Error)
    (h' : fsm.dispatch_svm_event k e sfsm = Except.ok (sev, sfsm1, e1)) :
    (∃ r, (vm.fired_row ev nfsm1 d1.sys).1 = some r ∧ vm.enabled_rows ev nfsm1 d1.sys = [r] ∧
        ∀ res, vm.process_event ev nfsm1 d1.sys = Except.ok res → res.1.state = r.target) ∧
    (∃ r, (svm.fired_row sev sfsm1 e1.sys).1 = some r ∧
        svm.enabled_rows sev sfsm1 e1.sys = [r] ∧
        ∀ res, svm.process_event sev sfsm1 e1.sys = Except.ok res → res.1.state = r.target) := by
  obtain ⟨r, hr1, hr2⟩ := dispatch_vm_one_row k d d1 nfsm nfsm1 ev hs he hx h
  obtain ⟨r', hr1', hr2'⟩ := dispatch_svm_one_row k e e1 sfsm sfsm1 sev hs' he' h'
  exact ⟨⟨r, hr1, hr2, fun res hres => vm_process_event_target _ _ _ _ _ hr1 hres⟩,
    ⟨r', hr1', hr2', fun res hres => svm_process_event_target _ _ _ _ _ hr1' hres⟩⟩

/-- C1, witness: a VM machine in `RxTrace` and an SVM machine in `RxTest`. -/
theorem C1_dispatch_event_fires_exactly_one_row_witness :
    (∃ r, (vm.fired_row vm.Event.poll (scenario.vm_in vm.State.RxTrace false false false)
          (scenario.members false false []
            [scenario.handle packet_type.cluster_request_vm_node]).sys).1 = some r ∧
        vm.enabled_rows vm.Event.poll (scenario.vm_in vm.State.RxTrace false false false)
          (scenario.members false false []
            [scenario.handle packet_type.cluster_request_vm_node]).sys = [r] ∧
        ∀ res, vm.process_event vm.Event.poll (scenario.vm_in vm.State.RxTrace false false false)
          (scenario.members false false []
            [scenario.handle packet_type.cluster_request_vm_node]).sys = Except.ok res →
          res.1.state = r.target) ∧
    (∃ r, (svm.fired_row svm.Event.poll (scenario.svm_in svm.State.RxTest)
          (scenario.members false false []
            [scenario.handle packet_type.cluster_request_svm_node]).sys).1 = some r ∧
        svm.enabled_rows svm.Event.poll (scenario.svm_in svm.State.RxTest)
          (scenario.members false false []
            [scenario.handle packet_type.cluster_request_svm_node]).sys = [r] ∧
        ∀ res, svm.process_event svm.Event.poll (scenario.svm_in svm.State.RxTest)
          (scenario.members false false []
            [scenario.handle packet_type.cluster_request_svm_node]).sys = Except.ok res →
          res.1.state = r.target) :=
  C1_dispatch_event_fires_exactly_one_row scenario.k0
    (scenario.members false false [] [scenario.handle packet_type.cluster_request_vm_node])
    (scenario.members false false [] [scenario.handle packet_type.cluster_request_vm_node])
    (scenario.vm_in vm.State.RxTrace false false false)
    (scenario.vm_in vm.State.RxTrace false false false) vm.Event.poll
    (scenario.members false false [] [scenario.handle packet_type.cluster_request_svm_node])
    (scenario.members false false [] [scenario.handle packet_type.cluster_request_svm_node])
    (scenario.svm_in svm.State.RxTest) (scenario.svm_in svm.State.RxTest) svm.Event.poll
    (by decide) (by decide) (by decide) rfl (by decide) (by decide) rfl

/-- C1, counterexample: the VM machine that `register_node_fsm` builds for options with
`vm.image.update` set and `mode.distributed` not set is in `TxConfig`; the dispatch action
selects the `config` event for it, no row of the table is enabled, no row fires, and
the machine is still in `TxConfig` after the event, with nothing sent to the worker. -/
theorem C1_no_row_fires_in_TxConfig :
    (register_node_fsm 0 (scenario.opts false true [])
        (scenario.members false true []
          [scenario.handle packet_type.cluster_request_vm_node]).sys [] []).2
      = Except.ok ([scenario.vm_in vm.State.TxConfig false true false], []) ∧
    (scenario.vm_in vm.State.TxConfig false true false).state ≠ vm.State.Start ∧
    (scenario.vm_in vm.State.TxConfig false true false).state ≠ vm.State.Error ∧
    fsm.dispatch_vm_event scenario.k0
        (scenario.members false true [] [scenario.handle packet_type.cluster_request_vm_node])
        (scenario.vm_in vm.State.TxConfig false true false)
      = Except.ok (vm.Event.config (scenario.opts false true []),
          scenario.vm_in vm.State.TxConfig false true false,
          scenario.members false true [] [scenario.handle packet_type.cluster_request_vm_node]) ∧
    (vm.fired_row (vm.Event.config (scenario.opts false true []))
        (scenario.vm_in vm.State.TxConfig false true false)
        (scenario.members false true []
          [scenario.handle packet_type.cluster_request_vm_node]).sys).1 = none ∧
    vm.enabled_rows (vm.Event.config (scenario.opts false true []))
        (scenario.vm_in vm.State.TxConfig false true false)
        (scenario.members false true []
          [scenario.handle packet_type.cluster_request_vm_node]).sys = [] ∧
    (match vm.process_event (vm.Event.config (scenario.opts false true []))
        (scenario.vm_in vm.State.TxConfig false true false)
        (scenario.members false true []
          [scenario.handle packet_type.cluster_request_vm_node]).sys with
      | Except.ok res => some (res.1.state, res.2.nodes.map (fun n => n.server.written))
      | Except.error _ => none) = some (vm.State.TxConfig, [[]]) := by
  refine ⟨rfl, by decide, by decide, rfl, by decide, by decide, by decide⟩

/-! ### One poll of the Dispatch machine, state by state -/

theorem fsm_candidate_rows_SpecCheck :
    candidate_rows fsm.transition_table fsm.State.SpecCheck fsm.EventTag.poll =
      [ ⟨fsm.State.SpecCheck, fsm.EventTag.poll, fsm.State.Terminate, [fsm.Action.next_target_clean],
          GuardExpr.And_ (GuardExpr.atom fsm.Guard.is_target_expired)
            (GuardExpr.Not_ (GuardExpr.atom fsm.Guard.have_next_target))⟩,
        ⟨fsm.State.SpecCheck, fsm.EventTag.poll, fsm.State.Dispatch, [],
          GuardExpr.Or_ (GuardExpr.atom fsm.Guard.is_dev_mode)
            (GuardExpr.And_ (GuardExpr.Not_ (GuardExpr.atom fsm.Guard.is_first))
              (GuardExpr.Not_ (GuardExpr.atom fsm.Guard.is_target_expired)))⟩,
        ⟨fsm.State.SpecCheck, fsm.EventTag.poll, fsm.State.NextTarget, [],
          GuardExpr.And_ (GuardExpr.Not_ (GuardExpr.atom fsm.Guard.is_dev_mode))
            (GuardExpr.Or_ (GuardExpr.atom fsm.Guard.is_first)
              (GuardExpr.And_ (GuardExpr.atom fsm.Guard.is_target_expired)
                (GuardExpr.atom fsm.Guard.have_next_target)))⟩ ] := by
  decide

theorem fsm_poll_in_SpecCheck (k : Constants) (now : Int) (m : fsm.DispatchFSM)
    (h : m.state = fsm.State.SpecCheck) :
    fsm.process_event k now fsm.Event.poll m =
      if fsm.is_target_expired m.toDispatchFSM_ now && !fsm.have_next_target m.toDispatchFSM_ then
        Except.ok { toDispatchFSM_ := fsm.next_target_clean m.toDispatchFSM_,
                    state := fsm.State.Terminate }
      else if fsm.is_dev_mode m.toDispatchFSM_ ||
          (!fsm.is_first m.toDispatchFSM_ && !fsm.is_target_expired m.toDispatchFSM_ now) then
        Except.ok { m with state := fsm.State.Dispatch }
      else Except.ok { m with state := fsm.State.NextTarget } := by
  unfold fsm.process_event
  simp only [h, fsm.Event.tag, fsm.fired_row, fsm_candidate_rows_SpecCheck]
  cases he : fsm.is_target_expired m.toDispatchFSM_ now <;>
  cases hn : fsm.have_next_target m.toDispatchFSM_ <;>
  cases hd : fsm.is_dev_mode m.toDispatchFSM_ <;>
  cases hf : fsm.is_first m.toDispatchFSM_ <;>
  simp [select_row, GuardExpr.eval, fsm.guard, he, hn, hd, hf, run_actions, fsm.exec]

theorem fsm_poll_in_Dispatch (k : Constants) (now : Int) (m : fsm.DispatchFSM)
    (h : m.state = fsm.State.Dispatch) :
    fsm.process_event k now fsm.Event.poll m =
      match fsm.dispatch k now m.toDispatchFSM_ with
      | Except.ok d => Except.ok { toDispatchFSM_ := d, state := fsm.State.SpecCheck }
      | Except.error e => Except.error e := by
  unfold fsm.process_event
  simp only [h, fsm.Event.tag, fsm.fired_row]
  have hc : candidate_rows fsm.transition_table fsm.State.Dispatch fsm.EventTag.poll =
      [⟨fsm.State.Dispatch, fsm.EventTag.poll, fsm.State.SpecCheck, [fsm.Action.dispatch],
        GuardExpr.none⟩] := by decide
  simp only [hc]
  simp [select_row, GuardExpr.eval, run_actions, fsm.exec]
  cases fsm.dispatch k now m.toDispatchFSM_ <;> rfl

theorem fsm_poll_in_Terminate (k : Constants) (now : Int) (m : fsm.DispatchFSM)
    (h : m.state = fsm.State.Terminate) :
    fsm.process_event k now fsm.Event.poll m =
      match fsm.finish now m.toDispatchFSM_ with
      | Except.ok d => Except.ok { toDispatchFSM_ := fsm.terminate d, state := fsm.State.Terminated }
      | Except.error e => Except.error e := by
  unfold fsm.process_event
  simp only [h, fsm.Event.tag, fsm.fired_row]
  have hc : candidate_rows fsm.transition_table fsm.State.Terminate fsm.EventTag.poll =
      [⟨fsm.State.Terminate, fsm.EventTag.poll, fsm.State.Terminated,
        [fsm.Action.finish, fsm.Action.terminate], GuardExpr.none⟩] := by decide
  simp only [hc]
  simp [select_row, GuardExpr.eval, run_actions, fsm.exec]
  cases fsm.finish now m.toDispatchFSM_ <;> rfl

theorem fsm_poll_in_Terminated (k : Constants) (now : Int) (m : fsm.DispatchFSM)
    (h : m.state = fsm.State.Terminated) :
    fsm.process_event k now fsm.Event.poll m = Except.ok m := by
  unfold fsm.process_event
  simp [h]

theorem fsm_poll_in_NextTarget (k : Constants) (now : Int) (m : fsm.DispatchFSM)
    (h : m.state = fsm.State.NextTarget) :
    fsm.process_event k now fsm.Event.poll m =
      match run_actions (fsm.exec k now fsm.Event.poll)
          [fsm.Action.finish, fsm.Action.next_target_clean, fsm.Action.reset,
           fsm.Action.assign_next_target] m.toDispatchFSM_ with
      | Except.ok d => Except.ok { toDispatchFSM_ := d, state := fsm.State.Dispatch }
      | Except.error e => Except.error e := by
  unfold fsm.process_event
  simp only [h, fsm.Event.tag, fsm.fired_row]
  have hc : candidate_rows fsm.transition_table fsm.State.NextTarget fsm.EventTag.poll =
      [⟨fsm.State.NextTarget, fsm.EventTag.poll, fsm.State.Dispatch,
        [fsm.Action.finish, fsm.Action.next_target_clean, fsm.Action.reset,
         fsm.Action.assign_next_target], GuardExpr.none⟩] := by decide
  simp only [hc]
  simp [select_row, GuardExpr.eval]

theorem fsm_poll_in_Start (k : Constants) (now : Int) (m : fsm.DispatchFSM)
    (h : m.state = fsm.State.Start) :
    fsm.process_event k now fsm.Event.poll m = Except.error Fault.no_transition := by
  unfold fsm.process_event
  simp only [h, fsm.Event.tag]
  have hc : candidate_rows fsm.transition_table fsm.State.Start fsm.EventTag.poll = [] := by
    decide
  simp [hc]

/-! ### Filesystem facts -/

theorem isPrefixOf_append_left (r a b : Path) :
    (r ++ a).isPrefixOf (r ++ b) = a.isPrefixOf b := by
  induction r with
  | nil => rfl
  | cons x xs ih => simp [List.isPrefixOf, ih]

theorem contains_filter_of_true {α : Type} [BEq α] [LawfulBEq α] (l : List α) (f : α → Bool) (p : α)
    (h : f p = true) : (l.filter f).contains p = l.contains p := by
  rw [Bool.eq_iff_iff]
  simp [List.mem_filter, h]

theorem contains_map_filter_of_true {α β : Type} [BEq α] [LawfulBEq α] (l : List (α × β))
    (f : α → Bool) (p : α) (h : f p = true) :
    ((l.filter (fun x => f x.1)).map Prod.fst).contains p = (l.map Prod.fst).contains p := by
  rw [Bool.eq_iff_iff]
  simp [List.mem_filter, h]

theorem fs_exists_remove_all (d : FileSystem) (q p : Path) (h : q.isPrefixOf p = false) :
    (d.remove_all q).fs_exists p = d.fs_exists p := by
  simp only [FileSystem.fs_exists, FileSystem.remove_all]
  rw [contains_filter_of_true d.dirs (fun x => !q.isPrefixOf x) p (by simp [h]),
    contains_map_filter_of_true d.files (fun x => !q.isPrefixOf x) p (by simp [h]),
    contains_map_filter_of_true d.symlinks (fun x => !q.isPrefixOf x) p (by simp [h])]

theorem is_dir_remove_all (d : FileSystem) (q p : Path) (h : q.isPrefixOf p = false) :
    (d.remove_all q).is_dir p = d.is_dir p := by
  simp only [FileSystem.is_dir, FileSystem.remove_all]
  rw [contains_filter_of_true d.dirs (fun x => !q.isPrefixOf x) p (by simp [h])]

theorem finish_after_clean (now : Int) (d : fsm.DispatchFSM_)
    (hfin : d.disk.fs_exists (d.root_ ++ [log_dir_name]) = true →
      d.disk.can_open (d.root_ ++ [log_dir_name, dispatch_log_finish_file_name]) = true) :
    ∃ d1, fsm.finish now (fsm.next_target_clean d) = Except.ok d1 ∧
      d1.node_registrar_ = d.node_registrar_ := by
  have hp1 : (d.root_ ++ [dispatch_trace_dir_name]).isPrefixOf (d.root_ ++ [log_dir_name]) = false := by
    rw [isPrefixOf_append_left]; decide
  have hp2 : (d.root_ ++ [dispatch_trace_dir_name]).isPrefixOf
      (d.root_ ++ [log_dir_name, dispatch_log_finish_file_name]) = false := by
    rw [isPrefixOf_append_left]; decide
  have hdrop : (d.root_ ++ [log_dir_name, dispatch_log_finish_file_name]).dropLast =
      d.root_ ++ [log_dir_name] := by
    rw [show d.root_ ++ [log_dir_name, dispatch_log_finish_file_name] =
      (d.root_ ++ [log_dir_name]) ++ [dispatch_log_finish_file_name] by simp]
    exact List.dropLast_concat
  unfold fsm.finish
  simp only [fsm.next_target_clean, fs_exists_remove_all _ _ _ hp1, List.append_assoc,
    List.singleton_append]
  by_cases hex : d.disk.fs_exists (d.root_ ++ [log_dir_name]) = true
  · have hco := hfin hex
    have hco2 : (d.disk.remove_all (d.root_ ++ [dispatch_trace_dir_name])).can_open
        (d.root_ ++ [log_dir_name, dispatch_log_finish_file_name]) = true := by
      simp only [FileSystem.can_open, hdrop, is_dir_remove_all _ _ _ hp1,
        is_dir_remove_all _ _ _ hp2] at hco ⊢
      exact hco
    simp [hex, hco2]
  · simp [hex]

/-! ### C2 -/

/-- C2: starting in `SpecCheck` with an empty target queue and an expired target, and at
least one registered worker so that `run` polls, two consecutive calls of
`Dispatch::run` take the Dispatch machine to `Terminate` and then to `Terminated`,
whatever `dev_mode` and the `first` flag are (provided the `finish` file can be opened
when the log directory is there, the only way the action `finish` throws). -/
theorem C2_two_polls_reach_Terminated (k : Constants) (now1 now2 : Int) (m : fsm.DispatchFSM)
    (hstate : m.state = fsm.State.SpecCheck)
    (hqueue : m.next_target_queue_ = [])
    (hexpired : fsm.is_target_expired m.toDispatchFSM_ now1 = true)
    (hnodes : m.node_registrar_ ≠ [])
    (hfin : m.disk.fs_exists (m.root_ ++ [log_dir_name]) = true →
      m.disk.can_open (m.root_ ++ [log_dir_name, dispatch_log_finish_file_name]) = true) :
    ∃ m1 m2, Dispatch.run k now1 m = Except.ok m1 ∧ m1.state = fsm.State.Terminate ∧
      Dispatch.run k now2 m1 = Except.ok m2 ∧ m2.state = fsm.State.Terminated := by
  obtain ⟨d1, hd1, hn1⟩ := finish_after_clean now2 m.toDispatchFSM_ hfin
  refine ⟨{ toDispatchFSM_ := fsm.next_target_clean m.toDispatchFSM_, state := fsm.State.Terminate },
    { toDispatchFSM_ := fsm.terminate d1, state := fsm.State.Terminated }, ?_, rfl, ?_, rfl⟩
  · have hn : Dispatch.has_nodes m = true := by
      simp [Dispatch.has_nodes, hnodes]
    simp [Dispatch.run, hn, fsm_poll_in_SpecCheck k now1 m hstate, hexpired,
      fsm.have_next_target, hqueue]
  · have hn : Dispatch.has_nodes
        { toDispatchFSM_ := fsm.next_target_clean m.toDispatchFSM_,
          state := fsm.State.Terminate } = true := by
      simp [Dispatch.has_nodes, fsm.next_target_clean, hnodes]
    have hp := fsm_poll_in_Terminate k now2
      { toDispatchFSM_ := fsm.next_target_clean m.toDispatchFSM_, state := fsm.State.Terminate } rfl
    simp only [hd1] at hp
    simp [Dispatch.run, hn, hp]

/-- C2, witness: dev mode, `first` set, no target queued, one idle VM worker and empty
pools (the target is expired by convergence), no log directory yet. -/
theorem C2_two_polls_reach_Terminated_witness :
    (scenario.machine fsm.State.SpecCheck (scenario.members false false []
        [scenario.handle packet_type.cluster_request_vm_node])).next_target_queue_ = [] ∧
    fsm.is_target_expired (scenario.members false false []
        [scenario.handle packet_type.cluster_request_vm_node]) 0 = true ∧
    ∃ m1 m2,
      Dispatch.run scenario.k0 0 (scenario.machine fsm.State.SpecCheck
        (scenario.members false false []
          [scenario.handle packet_type.cluster_request_vm_node])) = Except.ok m1 ∧
      m1.state = fsm.State.Terminate ∧
      Dispatch.run scenario.k0 0 m1 = Except.ok m2 ∧ m2.state = fsm.State.Terminated :=
  ⟨rfl, by decide,
    C2_two_polls_reach_Terminated scenario.k0 0 0
      (scenario.machine fsm.State.SpecCheck (scenario.members false false []
        [scenario.handle packet_type.cluster_request_vm_node]))
      rfl rfl (by decide) (by decide) (by decide)⟩

/-! ### What the action `dispatch` leaves alone -/

theorem same_config_refl (d : fsm.DispatchFSM_) : fsm.same_config d d :=
  ⟨rfl, rfl, rfl, rfl, rfl, rfl⟩

theorem same_config_trans {a b c : fsm.DispatchFSM_} (h1 : fsm.same_config a b)
    (h2 : fsm.same_config b c) : fsm.same_config a c := by
  unfold fsm.same_config at h1 h2 ⊢
  refine ⟨h2.1.trans h1.1, h2.2.1.trans h1.2.1, h2.2.2.1.trans h1.2.2.1,
    h2.2.2.2.1.trans h1.2.2.2.1, ?_, ?_⟩
  · exact h2.2.2.2.2.1.trans h1.2.2.2.2.1
  · exact h2.2.2.2.2.2.trans h1.2.2.2.2.2

theorem same_config_to_trace_pool_one (d d1 : fsm.DispatchFSM_) (t : Trace)
    (h : fsm.to_trace_pool_one d t = Except.ok d1) : fsm.same_config d d1 := by
  unfold fsm.to_trace_pool_one at h
  simp only at h
  split_ifs at h <;> cases h <;> exact ⟨rfl, rfl, rfl, rfl, rfl, rfl⟩

theorem same_config_to_trace_pool (ts : List Trace) :
    ∀ (d d1 : fsm.DispatchFSM_), fsm.to_trace_pool d ts = Except.ok d1 → fsm.same_config d d1 := by
  induction ts with
  | nil =>
    intro d d1 h
    simp only [fsm.to_trace_pool] at h
    cases h
    exact same_config_refl d
  | cons t ts ih =>
    intro d d1 h
    simp only [fsm.to_trace_pool] at h
    cases h1 : fsm.to_trace_pool_one d t with
    | error e => simp [h1] at h
    | ok d2 =>
      simp only [h1] at h
      exact same_config_trans (same_config_to_trace_pool_one d d2 t h1) (ih d2 d1 h)

theorem same_config_next_test (d : fsm.DispatchFSM_) : fsm.same_config d (fsm.next_test d).2 :=
  ⟨rfl, rfl, rfl, rfl, rfl, rfl⟩

theorem same_config_next_trace (d : fsm.DispatchFSM_) : fsm.same_config d (fsm.next_trace d).2 := by
  unfold fsm.next_trace
  simp only
  split
  · exact ⟨rfl, rfl, rfl, rfl, rfl, rfl⟩
  · split <;> exact ⟨rfl, rfl, rfl, rfl, rfl, rfl⟩

theorem same_config_top_up_tests (k : Constants) (fuel : Nat) :
    ∀ (c : Nat) (ts : List TestCase) (d : fsm.DispatchFSM_),
      fsm.same_config d (fsm.top_up_tests k fuel c ts d).2 := by
  induction fuel with
  | zero => intro c ts d; exact same_config_refl d
  | succ n ih =>
    intro c ts d
    simp only [fsm.top_up_tests]
    split_ifs
    · split
      · exact same_config_next_test d
      · exact same_config_trans (same_config_next_test d) (ih _ _ _)
    · exact same_config_refl d

theorem same_config_top_up_traces (k : Constants) (fuel : Nat) :
    ∀ (c : Nat) (ts : List Trace) (d : fsm.DispatchFSM_),
      fsm.same_config d (fsm.top_up_traces k fuel c ts d).2 := by
  induction fuel with
  | zero => intro c ts d; exact same_config_refl d
  | succ n ih =>
    intro c ts d
    simp only [fsm.top_up_traces]
    split_ifs
    · split
      · exact same_config_next_trace d
      · exact same_config_trans (same_config_next_trace d) (ih _ _ _)
      · refine same_config_trans (same_config_next_trace d) (same_config_trans ?_ (ih _ _ _))
        exact ⟨rfl, rfl, rfl, rfl, rfl, rfl⟩
    · exact same_config_refl d

theorem same_config_write_target_log (d d1 : fsm.DispatchFSM_) (ne : log.NodeError)
    (subdir : String) (h : fsm.write_target_log d ne subdir = Except.ok d1) :
    fsm.same_config d d1 := by
  unfold fsm.write_target_log at h
  simp only at h
  split_ifs at h
  cases h
  exact ⟨rfl, rfl, rfl, rfl, rfl, rfl⟩

theorem same_config_drain_errors (subdir : String) (fuel : Nat) :
    ∀ (es : List log.NodeError) (d : fsm.DispatchFSM_) (r : List log.NodeError × fsm.DispatchFSM_),
      fsm.drain_errors subdir fuel es d = Except.ok r → fsm.same_config d r.2 := by
  induction fuel with
  | zero =>
    intro es d r h
    simp only [fsm.drain_errors] at h
    cases h
    exact same_config_refl d
  | succ n ih =>
    intro es d r h
    simp only [fsm.drain_errors] at h
    split_ifs at h
    · cases es with
      | nil => simp [fsm.pop_error] at h
      | cons e rest =>
        simp only [fsm.pop_error] at h
        cases h1 : fsm.write_target_log d e subdir with
        | error x => simp [h1] at h
        | ok d2 =>
          simp only [h1] at h
          refine same_config_trans (same_config_write_target_log d d2 e subdir h1)
            (same_config_trans ?_ (ih _ _ _ h))
          exact ⟨rfl, rfl, rfl, rfl, rfl, rfl⟩
    · cases h
      exact same_config_refl d

theorem same_config_with_sys (d : fsm.DispatchFSM_) (sys : Sys) :
    fsm.same_config d (d.with_sys sys) :=
  ⟨rfl, rfl, rfl, rfl, rfl, rfl⟩

theorem same_config_dispatch_vm (k : Constants) (d : fsm.DispatchFSM_) (nfsm : vm.NodeFSM)
    (r : vm.NodeFSM × fsm.DispatchFSM_) (h : fsm.dispatch_vm k d nfsm = Except.ok r) :
    fsm.same_config d r.2 := by
  unfold fsm.dispatch_vm at h
  have hev : ∀ ev n1 d1, fsm.dispatch_vm_event k d nfsm = Except.ok (ev, n1, d1) →
      fsm.same_config d d1 := by
    intro ev n1 d1 he
    unfold fsm.dispatch_vm_event at he
    split_ifs at he
    · cases h1 : fsm.to_trace_pool d nfsm.traces_ with
      | error x => simp [h1] at he
      | ok d2 =>
        simp only [h1] at he
        cases he
        exact same_config_to_trace_pool _ _ _ h1
    · simp only at he
      cases he
      exact same_config_top_up_tests _ _ _ _ _
    · cases h1 : fsm.drain_errors dispatch_log_vm_dir_name nfsm.errors_.length nfsm.errors_ d with
      | error x => simp [h1] at he
      | ok d2 =>
        simp only [h1] at he
        cases he
        exact same_config_drain_errors _ _ _ _ _ h1
    · cases he; exact same_config_refl d
    · cases he; exact same_config_refl d
    · cases he; exact same_config_refl d
  cases h1 : fsm.dispatch_vm_event k d nfsm with
  | error x => simp [h1] at h
  | ok v =>
    obtain ⟨ev, n1, d1⟩ := v
    simp only [h1] at h
    cases h2 : vm.process_event ev n1 d1.sys with
    | error x => simp [h2] at h
    | ok w =>
      simp only [h2] at h
      cases h
      exact same_config_trans (hev ev n1 d1 h1) (same_config_with_sys _ _)

theorem same_config_dispatch_svm (k : Constants) (d : fsm.DispatchFSM_) (nfsm : svm.NodeFSM)
    (r : svm.NodeFSM × fsm.DispatchFSM_) (h : fsm.dispatch_svm k d nfsm = Except.ok r) :
    fsm.same_config d r.2 := by
  unfold fsm.dispatch_svm at h
  have hev : ∀ ev n1 d1, fsm.dispatch_svm_event k d nfsm = Except.ok (ev, n1, d1) →
      fsm.same_config d d1 := by
    intro ev n1 d1 he
    unfold fsm.dispatch_svm_event at he
    split_ifs at he
    · cases he
      exact ⟨rfl, rfl, rfl, rfl, rfl, rfl⟩
    · simp only at he
      cases he
      exact same_config_top_up_traces _ _ _ _ _
    · cases h1 : fsm.drain_errors dispatch_log_svm_dir_name nfsm.errors_.length nfsm.errors_ d with
      | error x => simp [h1] at he
      | ok d2 =>
        simp only [h1] at he
        cases he
        exact same_config_drain_errors _ _ _ _ _ h1
    · cases he; exact same_config_refl d
    · cases he; exact same_config_refl d
  cases h1 : fsm.dispatch_svm_event k d nfsm with
  | error x => simp [h1] at h
  | ok v =>
    obtain ⟨ev, n1, d1⟩ := v
    simp only [h1] at h
    cases h2 : svm.process_event ev n1 d1.sys with
    | error x => simp [h2] at h
    | ok w =>
      simp only [h2] at h
      cases h
      exact same_config_trans (hev ev n1 d1 h1) (same_config_with_sys _ _)

theorem same_config_dispatch_vm_loop (k : Constants) (l : List vm.NodeFSM) :
    ∀ (done : List vm.NodeFSM) (d : fsm.DispatchFSM_) (r : List vm.NodeFSM × fsm.DispatchFSM_),
      fsm.dispatch_vm_loop k l done d = Except.ok r → fsm.same_config d r.2 := by
  induction l with
  | nil =>
    intro done d r h
    simp only [fsm.dispatch_vm_loop] at h
    cases h
    exact same_config_refl d
  | cons x xs ih =>
    intro done d r h
    simp only [fsm.dispatch_vm_loop] at h
    cases h1 : fsm.dispatch_vm k d x with
    | error e => simp [h1] at h
    | ok v =>
      simp only [h1] at h
      exact same_config_trans (same_config_dispatch_vm k d x v h1) (ih _ _ _ h)

theorem same_config_dispatch_svm_loop (k : Constants) (l : List svm.NodeFSM) :
    ∀ (done : List svm.NodeFSM) (d : fsm.DispatchFSM_) (r : List svm.NodeFSM × fsm.DispatchFSM_),
      fsm.dispatch_svm_loop k l done d = Except.ok r → fsm.same_config d r.2 := by
  induction l with
  | nil =>
    intro done d r h
    simp only [fsm.dispatch_svm_loop] at h
    cases h
    exact same_config_refl d
  | cons x xs ih =>
    intro done d r h
    simp only [fsm.dispatch_svm_loop] at h
    cases h1 : fsm.dispatch_svm k d x with
    | error e => simp [h1] at h
    | ok v =>
      simp only [h1] at h
      exact same_config_trans (same_config_dispatch_svm k d x v h1) (ih _ _ _ h)

theorem same_config_write_statistics (d : fsm.DispatchFSM_) (now : Int) :
    fsm.same_config d (fsm.write_statistics d now) := by
  unfold fsm.write_statistics
  simp only
  split_ifs <;> exact ⟨rfl, rfl, rfl, rfl, rfl, rfl⟩

theorem same_config_dispatch (k : Constants) (now : Int) (d d1 : fsm.DispatchFSM_)
    (h : fsm.dispatch k now d = Except.ok d1) : fsm.same_config d d1 := by
  unfold fsm.dispatch at h
  cases h1 : fsm.dispatch_vm_loop k d.vm_node_fsms_ [] d with
  | error e => simp [h1] at h
  | ok v =>
    obtain ⟨vms, d2⟩ := v
    simp only [h1] at h
    cases h2 : fsm.dispatch_svm_loop k d2.svm_node_fsms_ [] { d2 with vm_node_fsms_ := vms } with
    | error e => simp [h2] at h
    | ok w =>
      obtain ⟨svms, d3⟩ := w
      simp only [h2] at h
      cases h
      have a := same_config_dispatch_vm_loop k _ _ _ _ h1
      have b := same_config_dispatch_svm_loop k _ _ _ _ h2
      have c : fsm.same_config d2 { d2 with vm_node_fsms_ := vms } :=
        ⟨rfl, rfl, rfl, rfl, rfl, rfl⟩
      refine same_config_trans a (same_config_trans c (same_config_trans b
        (same_config_trans ?_ (same_config_write_statistics _ now))))
      exact ⟨rfl, rfl, rfl, rfl, rfl, rfl⟩

/-! ### Dev mode -/

theorem set_up_root_dir_keeps (d d1 : fsm.DispatchFSM_) (h : fsm.set_up_root_dir d = Except.ok d1) :
    d1.options_ = d.options_ ∧ d1.next_target_queue_ = d.next_target_queue_ := by
  unfold fsm.set_up_root_dir at h
  simp only at h
  split at h
  · cases h
  · split at h
    · cases h
    · cases h
      exact ⟨rfl, rfl⟩

theorem init_result (master : Nat) (options : option.Dispatch) (d d1 : fsm.DispatchFSM_)
    (h : fsm.init master options d = Except.ok d1) :
    d1.options_ = options ∧ d1.next_target_queue_ = options.test.items := by
  unfold fsm.init at h
  simp only at h
  split_ifs at h
  · obtain ⟨h1, h2⟩ := set_up_root_dir_keeps _ _ h
    exact ⟨h1, h2⟩
  · cases h
    exact ⟨rfl, rfl⟩

theorem fsm_start_in_Start (k : Constants) (now : Int) (master : Nat) (options : option.Dispatch)
    (m : fsm.DispatchFSM) (h : m.state = fsm.State.Start) :
    fsm.process_event k now (fsm.Event.start master options) m =
      match fsm.init master options m.toDispatchFSM_ with
      | Except.ok d => Except.ok { toDispatchFSM_ := d, state := fsm.State.SpecCheck }
      | Except.error e => Except.error e := by
  unfold fsm.process_event
  have hc : candidate_rows fsm.transition_table fsm.State.Start fsm.EventTag.start =
      [⟨fsm.State.Start, fsm.EventTag.start, fsm.State.SpecCheck, [fsm.Action.init],
        GuardExpr.none⟩] := by decide
  simp only [h, fsm.Event.tag, hc, fsm.fired_row]
  simp [select_row, GuardExpr.eval, run_actions, fsm.exec]
  cases fsm.init master options m.toDispatchFSM_ <;> rfl

theorem start_FSM_result (k : Constants) (now : Int) (master : Nat) (options defaults : option.Dispatch)
    (ts : String) (disk : FileSystem) (m0 : fsm.DispatchFSM)
    (h : Dispatch.start_FSM k now master options
      (fsm.DispatchFSM.construct defaults ts now disk) = Except.ok m0) :
    m0.state = fsm.State.SpecCheck ∧ m0.options_ = options ∧
      m0.next_target_queue_ = options.test.items := by
  unfold Dispatch.start_FSM at h
  rw [fsm_start_in_Start k now master options _ rfl] at h
  split at h
  · rename_i d hd
    cases h
    obtain ⟨h1, h2⟩ := init_result _ _ _ _ hd
    exact ⟨rfl, h1, h2⟩
  · cases h

theorem run_keeps_config (k : Constants) (now : Int) (m m1 : fsm.DispatchFSM)
    (hs : m.state ≠ fsm.State.NextTarget) (h : Dispatch.run k now m = Except.ok m1) :
    m1.options_ = m.options_ ∧ m1.next_target_queue_ = m.next_target_queue_ := by
  unfold Dispatch.run at h
  split_ifs at h
  · cases h
    exact ⟨rfl, rfl⟩
  · cases hst : m.state with
    | Start => rw [fsm_poll_in_Start k now m hst] at h; cases h
    | NextTarget => exact absurd hst hs
    | SpecCheck =>
      rw [fsm_poll_in_SpecCheck k now m hst] at h
      split_ifs at h <;> cases h <;> exact ⟨rfl, rfl⟩
    | Dispatch =>
      rw [fsm_poll_in_Dispatch k now m hst] at h
      split at h
      · rename_i d hd
        cases h
        obtain ⟨h1, h2, _⟩ := same_config_dispatch k now _ _ hd
        exact ⟨h1, h2⟩
      · cases h
    | Terminate =>
      rw [fsm_poll_in_Terminate k now m hst] at h
      split at h
      · rename_i d hd
        cases h
        unfold fsm.finish at hd
        simp only at hd
        split_ifs at hd <;> cases hd <;> exact ⟨rfl, rfl⟩
      · cases h
    | Terminated =>
      rw [fsm_poll_in_Terminated k now m hst] at h
      cases h
      exact ⟨rfl, rfl⟩

theorem run_dev_mode_state (k : Constants) (now : Int) (m m1 : fsm.DispatchFSM)
    (hdev : m.options_.mode.distributed = false)
    (h : Dispatch.run k now m = Except.ok m1) :
    (m.state = fsm.State.SpecCheck →
      m1.state = fsm.State.SpecCheck ∨ m1.state = fsm.State.Dispatch ∨
        (m1.state = fsm.State.Terminate ∧ m.next_target_queue_ = [])) ∧
    (m.state = fsm.State.Dispatch →
      m1.state = fsm.State.SpecCheck ∨ m1.state = fsm.State.Dispatch) ∧
    (m.state = fsm.State.Terminate →
      m1.state = fsm.State.Terminate ∨ m1.state = fsm.State.Terminated) ∧
    (m.state = fsm.State.Terminated → m1.state = fsm.State.Terminated) := by
  unfold Dispatch.run at h
  split_ifs at h
  · cases h
    refine ⟨fun hs => Or.inl hs, fun hs => Or.inr hs, fun hs => Or.inl hs, fun hs => hs⟩
  · refine ⟨fun hst => ?_, fun hst => ?_, fun hst => ?_, fun hst => ?_⟩
    · rw [fsm_poll_in_SpecCheck k now m hst] at h
      have hd : fsm.is_dev_mode m.toDispatchFSM_ = true := by simp [fsm.is_dev_mode, hdev]
      simp only [hd, Bool.true_or, if_true] at h
      split_ifs at h with hc
      · cases h
        simp only [Bool.and_eq_true, Bool.not_eq_true', fsm.have_next_target] at hc
        right; right
        refine ⟨rfl, ?_⟩
        simpa using hc.2
      · cases h
        right; left; rfl
    · rw [fsm_poll_in_Dispatch k now m hst] at h
      split at h
      · cases h; left; rfl
      · cases h
    · rw [fsm_poll_in_Terminate k now m hst] at h
      split at h
      · cases h; right; rfl
      · cases h
    · rw [fsm_poll_in_Terminated k now m hst] at h
      cases h
      exact hst

/-! ### C3 -/

/-- C3: with `options.mode.distributed = false`, no sequence of polls from the initial
state (interleaved with any changes the world makes to the handles, the worker
machines, the pools, the filesystem) ever puts the Dispatch machine in `NextTarget`. -/
theorem C3_dev_mode_never_enters_NextTarget (k : Constants) (defaults options : option.Dispatch)
    (ts : String) (now0 : Int) (disk : FileSystem) (master : Nat) (m0 m : fsm.DispatchFSM)
    (hdev : options.mode.distributed = false)
    (hstart : Dispatch.start_FSM k now0 master options
      (fsm.DispatchFSM.construct defaults ts now0 disk) = Except.ok m0)
    (hreach : Dispatch.Reachable k m0 m) :
    m.state ≠ fsm.State.NextTarget := by
  obtain ⟨hs0, ho0, _⟩ := start_FSM_result k now0 master options defaults ts disk m0 hstart
  have inv : m.options_.mode.distributed = false ∧
      (m.state = fsm.State.SpecCheck ∨ m.state = fsm.State.Dispatch ∨
        m.state = fsm.State.Terminate ∨ m.state = fsm.State.Terminated) := by
    induction hreach with
    | start => exact ⟨by rw [ho0]; exact hdev, Or.inl hs0⟩
    | run now a b _ hrun ih =>
      obtain ⟨hd, hst⟩ := ih
      have hne : a.state ≠ fsm.State.NextTarget := by
        rcases hst with h | h | h | h <;> rw [h] <;> decide
      obtain ⟨hopt, _⟩ := run_keeps_config k now a b hne hrun
      obtain ⟨h1, h2, h3, h4⟩ := run_dev_mode_state k now a b hd hrun
      refine ⟨by rw [hopt]; exact hd, ?_⟩
      rcases hst with h | h | h | h
      · rcases h1 h with x | x | x
        · exact Or.inl x
        · exact Or.inr (Or.inl x)
        · exact Or.inr (Or.inr (Or.inl x.1))
      · rcases h2 h with x | x
        · exact Or.inl x
        · exact Or.inr (Or.inl x)
      · rcases h3 h with x | x
        · exact Or.inr (Or.inr (Or.inl x))
        · exact Or.inr (Or.inr (Or.inr x))
      · exact Or.inr (Or.inr (Or.inr (h4 h)))
    | world a b _ hs ho _ ih =>
      obtain ⟨hd, hst⟩ := ih
      exact ⟨by rw [ho]; exact hd, by rw [hs]; exact hst⟩
  rcases inv.2 with h | h | h | h <;> rw [h] <;> decide

/-- C3, witness: a dev-mode dispatcher with target list `t`, one VM worker registered,
polled three times. -/
theorem C3_dev_mode_never_enters_NextTarget_witness :
    (scenario.opts false false ["t"]).mode.distributed = false ∧
    (scenario.polled ["t"] [0, 0, 0]).state ≠ fsm.State.NextTarget :=
  ⟨rfl,
    C3_dev_mode_never_enters_NextTarget scenario.k0 (scenario.opts false false [])
      (scenario.opts false false ["t"]) "2016-Jan-01 10:00:00" 0 scenario.disk0 1234
      (scenario.started ["t"]) (scenario.polled ["t"] [0, 0, 0]) rfl rfl
      (Dispatch.Reachable.run 0 (scenario.polled ["t"] [0, 0]) _
        (Dispatch.Reachable.run 0 (scenario.polled ["t"] [0]) _
          (Dispatch.Reachable.run 0 (scenario.registered ["t"]) _
            (Dispatch.Reachable.world (scenario.started ["t"]) _ Dispatch.Reachable.start
              rfl rfl rfl)
            rfl)
          rfl)
        rfl)⟩

/-! ### C4 -/

/-- C4, as amended: in dev mode a poll taken in `SpecCheck` moves the Dispatch machine to
`Dispatch`, unless the target is expired while the target queue is empty, in which case
it moves to `Terminate`; a poll taken in `Dispatch` runs the action `dispatch` and moves
the machine back to `SpecCheck`; and as long as the target queue is not empty (dev mode
never takes an entry from it) the machine stays in `SpecCheck` or `Dispatch`, so it
reaches neither `Terminate` nor `Terminated`, whatever the world does in between. -/
theorem C4_dev_mode_polls (k : Constants) (now : Int) (m : fsm.DispatchFSM)
    (hdev : m.options_.mode.distributed = false) :
    (m.state = fsm.State.SpecCheck →
      fsm.process_event k now fsm.Event.poll m =
        if fsm.is_target_expired m.toDispatchFSM_ now && m.next_target_queue_.isEmpty then
          Except.ok { toDispatchFSM_ := fsm.next_target_clean m.toDispatchFSM_,
                      state := fsm.State.Terminate }
        else Except.ok { m with state := fsm.State.Dispatch }) ∧
    (m.state = fsm.State.Dispatch →
      fsm.process_event k now fsm.Event.poll m =
        match fsm.dispatch k now m.toDispatchFSM_ with
        | Except.ok d => Except.ok { toDispatchFSM_ := d, state := fsm.State.SpecCheck }
        | Except.error e => Except.error e) ∧
    (m.next_target_queue_ ≠ [] → (m.state = fsm.State.SpecCheck ∨ m.state = fsm.State.Dispatch) →
      ∀ m1, Dispatch.Reachable k m m1 →
        m1.state = fsm.State.SpecCheck ∨ m1.state = fsm.State.Dispatch) := by
  refine ⟨fun hst => ?_, fun hst => fsm_poll_in_Dispatch k now m hst, fun hq hst m1 hreach => ?_⟩
  · rw [fsm_poll_in_SpecCheck k now m hst]
    have hd : fsm.is_dev_mode m.toDispatchFSM_ = true := by simp [fsm.is_dev_mode, hdev]
    simp [hd, fsm.have_next_target]
  · have inv : m1.options_.mode.distributed = false ∧ m1.next_target_queue_ ≠ [] ∧
        (m1.state = fsm.State.SpecCheck ∨ m1.state = fsm.State.Dispatch) := by
      induction hreach with
      | start => exact ⟨hdev, hq, hst⟩
      | run t a b _ hrun ih =>
        obtain ⟨hd, hqa, hsa⟩ := ih
        have hne : a.state ≠ fsm.State.NextTarget := by
          rcases hsa with h | h <;> rw [h] <;> decide
        obtain ⟨hopt, hqb⟩ := run_keeps_config k t a b hne hrun
        obtain ⟨h1, h2, _, _⟩ := run_dev_mode_state k t a b hd hrun
        refine ⟨by rw [hopt]; exact hd, by rw [hqb]; exact hqa, ?_⟩
        rcases hsa with h | h
        · rcases h1 h with x | x | x
          · exact Or.inl x
          · exact Or.inr x
          · exact absurd x.2 hqa
        · exact h2 h
      | world a b _ hs ho hqq ih =>
        obtain ⟨hd, hqa, hsa⟩ := ih
        exact ⟨by rw [ho]; exact hd, by rw [hqq]; exact hqa, by rw [hs]; exact hsa⟩
    exact inv.2.2

/-- C4, witness: a dev-mode dispatcher with target list `t` and one VM worker, polled
twice two thousand seconds after its start, is in `SpecCheck` or `Dispatch`. -/
theorem C4_dev_mode_polls_witness :
    (scenario.registered ["t"]).options_.mode.distributed = false ∧
    ((scenario.polled ["t"] [2000000000000, 2000000000000]).state = fsm.State.SpecCheck ∨
      (scenario.polled ["t"] [2000000000000, 2000000000000]).state = fsm.State.Dispatch) :=
  ⟨rfl,
    (C4_dev_mode_polls scenario.k0 0 (scenario.registered ["t"]) rfl).2.2 (by decide)
      (Or.inl rfl) (scenario.polled ["t"] [2000000000000, 2000000000000])
      (Dispatch.Reachable.run 2000000000000 (scenario.polled ["t"] [2000000000000]) _
        (Dispatch.Reachable.run 2000000000000 (scenario.registered ["t"]) _
          Dispatch.Reachable.start rfl)
        rfl)⟩

/-- C4, counterexample: a dev-mode dispatcher with an empty target list and one VM
worker registered is in `SpecCheck`; polled two thousand seconds after its start (the
time threshold is one thousand seconds) it moves to `Terminate`, and the next poll
takes it to `Terminated`. -/
theorem C4_dev_mode_reaches_Terminated :
    (scenario.registered []).options_.mode.distributed = false ∧
    (scenario.registered []).state = fsm.State.SpecCheck ∧
    (match Dispatch.runs scenario.k0 [2000000000000] (scenario.registered []) with
      | Except.ok m => some m.state
      | Except.error _ => none) = some fsm.State.Terminate ∧
    (match Dispatch.runs scenario.k0 [2000000000000, 2000000000000] (scenario.registered []) with
      | Except.ok m => some m.state
      | Except.error _ => none) = some fsm.State.Terminated := by
  refine ⟨rfl, rfl, by decide, by decide⟩

/-! ### C5 -/

/-- C5: `is_target_expired` returns true if and only if the dispatcher is converged, or
the trace pool's `count_all_unique` has reached `interval.trace`, or the test pool's
`count_all` has reached `interval.tc`, or the elapsed time has reached `interval.time`;
the comparisons are on unsigned integers, so an interval of 0 makes the target always
expired. -/
theorem C5_is_target_expired_iff (d : fsm.DispatchFSM_) (now : Int) :
    (fsm.is_target_expired d now = true ↔
      (fsm.is_converged d = true ∨
        d.trace_pool_.count_all_unique ≥ d.options_.test.interval.trace ∨
        d.test_pool_.count_all ≥ d.options_.test.interval.tc ∨
        fsm.elapsed_time d now ≥ d.options_.test.interval.time)) ∧
    (d.options_.test.interval.trace = 0 ∨ d.options_.test.interval.tc = 0 ∨
        d.options_.test.interval.time = 0 → fsm.is_target_expired d now = true) := by
  have hiff : fsm.is_target_expired d now = true ↔
      (fsm.is_converged d = true ∨
        d.trace_pool_.count_all_unique ≥ d.options_.test.interval.trace ∨
        d.test_pool_.count_all ≥ d.options_.test.interval.tc ∨
        fsm.elapsed_time d now ≥ d.options_.test.interval.time) := by
    simp only [fsm.is_target_expired, Bool.or_eq_true, decide_eq_true_eq, or_assoc]
  refine ⟨hiff, fun h => hiff.mpr ?_⟩
  rcases h with h | h | h
  · exact Or.inr (Or.inl (by rw [h]; exact Nat.zero_le _))
  · exact Or.inr (Or.inr (Or.inl (by rw [h]; exact Nat.zero_le _)))
  · exact Or.inr (Or.inr (Or.inr (by rw [h]; exact Nat.zero_le _)))

/-- C5, witness: with `interval.time = 0` a dispatcher with a busy worker is expired. -/
theorem C5_is_target_expired_iff_witness :
    fsm.is_target_expired
      { scenario.members true false ["t"]
          [scenario.handle_with packet_type.cluster_request_vm_node true 3 0 0] with
        options_ := { scenario.opts true false ["t"] with
          test := { items := ["t"], interval := { trace := 100, tc := 100, time := 0 } } } }
      5 = true :=
  (C5_is_target_expired_iff
    { scenario.members true false ["t"]
        [scenario.handle_with packet_type.cluster_request_vm_node true 3 0 0] with
      options_ := { scenario.opts true false ["t"] with
        test := { items := ["t"], interval := { trace := 100, tc := 100, time := 0 } } } }
    5).2 (Or.inr (Or.inr rfl))

/-! ### C6 -/

theorem are_node_queues_empty_loop_iff (l : List NodeData) :
    fsm.are_node_queues_empty_loop l = true ↔
      ∀ n ∈ l, n.status.trace_count = 0 ∧ n.status.test_case_count = 0 := by
  induction l with
  | nil => simp [fsm.are_node_queues_empty_loop]
  | cons x xs ih =>
    simp only [fsm.are_node_queues_empty_loop, List.mem_cons, forall_eq_or_imp]
    split_ifs with h
    · simp only [Bool.false_eq_true, false_iff, not_and]
      intro hx
      rcases h with h | h
      · exact absurd hx.2 h
      · exact absurd hx.1 h
    · rw [ih]
      have h1 : x.status.test_case_count = 0 := by
        by_contra hc; exact h (Or.inl hc)
      have h2 : x.status.trace_count = 0 := by
        by_contra hc; exact h (Or.inr hc)
      simp [h1, h2]

theorem are_nodes_inactive_loop_iff (l : List NodeData) :
    fsm.are_nodes_inactive_loop l = true ↔ ∀ n ∈ l, n.status.active = false := by
  induction l with
  | nil => simp [fsm.are_nodes_inactive_loop]
  | cons x xs ih =>
    simp only [fsm.are_nodes_inactive_loop, List.mem_cons, forall_eq_or_imp]
    split_ifs with h
    · simp [h]
    · rw [ih]
      simp [h]

/-- C6, as amended: `is_converged` returns true if and only if every registered worker's
status has `trace_count = 0` and `test_case_count = 0`, both pools have
`count_next = 0`, and every registered worker's `active` flag is false. -/
theorem C6_is_converged_iff (d : fsm.DispatchFSM_) :
    fsm.is_converged d = true ↔
      ((∀ n ∈ d.node_registrar_, n.status.trace_count = 0 ∧ n.status.test_case_count = 0) ∧
        d.test_pool_.count_next = 0 ∧ d.trace_pool_.count_next = 0 ∧
        ∀ n ∈ d.node_registrar_, n.status.active = false) := by
  simp only [fsm.is_converged, fsm.are_all_queues_empty, fsm.are_node_queues_empty,
    fsm.are_nodes_inactive, Bool.and_eq_true, decide_eq_true_eq,
    are_node_queues_empty_loop_iff, are_nodes_inactive_loop_iff, and_assoc]

/-- C6, counterexample: one idle worker whose status has `error_count = 1` and no pending
trace or test case, and empty pools: `is_converged` returns true although not every
count of the status is zero. -/
theorem C6_converged_with_pending_error :
    fsm.is_converged (scenario.members true false ["t"]
        [scenario.handle_with packet_type.cluster_request_vm_node false 0 0 1]) = true ∧
    ¬ ((∀ n ∈ (scenario.members true false ["t"]
          [scenario.handle_with packet_type.cluster_request_vm_node false 0 0 1]).node_registrar_,
          n.status.trace_count = 0 ∧ n.status.test_case_count = 0 ∧ n.status.error_count = 0) ∧
        (scenario.members true false ["t"]
          [scenario.handle_with packet_type.cluster_request_vm_node false 0 0 1]).test_pool_.count_next
          = 0 ∧
        (scenario.members true false ["t"]
          [scenario.handle_with packet_type.cluster_request_vm_node false 0 0 1]).trace_pool_.count_next
          = 0 ∧
        ∀ n ∈ (scenario.members true false ["t"]
          [scenario.handle_with packet_type.cluster_request_vm_node false 0 0 1]).node_registrar_,
          n.status.active = false) := by
  refine ⟨by decide, by decide⟩

/-! ### Handles -/

theorem getD_update_at {α : Type} (f : α → α) (dflt : α) (l : List α) :
    ∀ (i j : Nat), (update_at f i l).getD j dflt =
      if i = j ∧ j < l.length then f (l.getD j dflt) else l.getD j dflt := by
  induction l with
  | nil => intro i j; simp [update_at]
  | cons x xs ih =>
    intro i j
    cases i with
    | zero =>
      cases j with
      | zero => simp [update_at]
      | succ j => simp [update_at]
    | succ i =>
      cases j with
      | zero => simp [update_at]
      | succ j =>
        simp only [update_at, List.getD_cons_succ, ih i j, List.length_cons]
        simp

theorem length_update_at {α : Type} (f : α → α) (l : List α) :
    ∀ (i : Nat), (update_at f i l).length = l.length := by
  induction l with
  | nil => intro i; simp [update_at]
  | cons x xs ih =>
    intro i
    cases i with
    | zero => simp [update_at]
    | succ i => simp [update_at, ih i]

theorem acquire_with_node (sys : Sys) (i j : Nat) (f : NodeData → NodeData) :
    (sys.with_node i f).acquire j =
      if i = j ∧ j < sys.nodes.length then f (sys.acquire j) else sys.acquire j := by
  simp only [Sys.with_node, Sys.acquire]
  exact getD_update_at f NodeData.blank sys.nodes i j

theorem acquire_with_node_type (sys : Sys) (i j : Nat) (f : NodeData → NodeData)
    (hf : ∀ n, (f n).type = n.type) :
    ((sys.with_node i f).acquire j).type = (sys.acquire j).type := by
  rw [acquire_with_node]
  split_ifs
  · exact hf _
  · rfl

theorem vm_start_on_fresh (node : Nat) (f u di : Bool) (sys : Sys) :
    vm.process_event (vm.Event.start node f u di) vm.NodeFSM.fresh sys =
      Except.ok ({ node_ := node, first_ := f, traces_ := [], errors_ := [],
                   image_info_ := Option.none, update_image_ := u, distributed_ := di,
                   state := vm.State.TxConfig }, sys) := by
  have hc : candidate_rows vm.transition_table vm.State.Start vm.EventTag.start =
      [⟨vm.State.Start, vm.EventTag.start, vm.State.TxConfig, [vm.Action.init],
        GuardExpr.none⟩] := by decide
  simp [vm.process_event, vm.NodeFSM.fresh, vm.Event.tag, hc, vm.fired_row, select_row,
    GuardExpr.eval, run_actions, vm.exec]

theorem svm_start_on_fresh (node : Nat) (sys : Sys) :
    svm.process_event (svm.Event.start node) svm.NodeFSM.fresh sys =
      Except.ok ({ node_ := node, tests_ := [], errors_ := [], state := svm.State.TxConfig },
        sys) := by
  have hc : candidate_rows svm.transition_table svm.State.Start svm.EventTag.start =
      [⟨svm.State.Start, svm.EventTag.start, svm.State.TxConfig, [svm.Action.init],
        GuardExpr.none⟩] := by decide
  simp [svm.process_event, svm.NodeFSM.fresh, svm.Event.tag, hc, svm.fired_row, select_row,
    GuardExpr.eval, run_actions, svm.exec]

theorem register_node_fsm_result (node : Nat) (options : option.Dispatch) (sys : Sys)
    (vms : List vm.NodeFSM) (svms : List svm.NodeFSM) (l : List vm.NodeFSM × List svm.NodeFSM)
    (h : (register_node_fsm node options sys vms svms).2 = Except.ok l) :
    (∀ j, ((register_node_fsm node options sys vms svms).1.acquire j).type = (sys.acquire j).type) ∧
    (register_node_fsm node options sys vms svms).1.nodes.length = sys.nodes.length ∧
    l.1 = vms ++ (if (sys.acquire node).type = packet_type.cluster_request_vm_node
      then [vm_machine_for node options] else []) ∧
    l.2 = svms ++ (if (sys.acquire node).type = packet_type.cluster_request_svm_node
      then [svm_machine_for node] else []) := by
  have ht : ∀ j, ((sys.with_node node
      (fun n => { n with status := { n.status with active := true } })).acquire j).type =
      (sys.acquire j).type := fun j => acquire_with_node_type sys node j _ (fun _ => rfl)
  have hl : (sys.with_node node
      (fun n => { n with status := { n.status with active := true } })).nodes.length =
      sys.nodes.length := length_update_at _ _ _
  unfold register_node_fsm at h ⊢
  simp only [ht node] at h ⊢
  cases hty : (sys.acquire node).type <;> simp only [hty] at h ⊢
  case cluster_request_vm_node =>
    simp only [vm_start_on_fresh] at h ⊢
    cases h
    exact ⟨ht, hl, by simp [vm_machine_for], by simp⟩
  case cluster_request_svm_node =>
    simp only [svm_start_on_fresh] at h ⊢
    cases h
    exact ⟨ht, hl, by simp, by simp [svm_machine_for]⟩
  all_goals cases h

theorem set_up_root_dir_keeps_nodes (d d1 : fsm.DispatchFSM_)
    (h : fsm.set_up_root_dir d = Except.ok d1) :
    d1.node_registrar_ = d.node_registrar_ := by
  unfold fsm.set_up_root_dir at h
  simp only at h
  split at h
  · cases h
  · split at h
    · cases h
    · cases h
      rfl

theorem reset_loop_step (node : Nat) (rest : List Nat) (d d1 : fsm.DispatchFSM_)
    (h : fsm.reset_loop (node :: rest) d = Except.ok d1) :
    ∃ d2, fsm.reset_loop rest d2 = Except.ok d1 ∧
      d2.test_pool_ = d.test_pool_ ∧ d2.trace_pool_ = d.trace_pool_ ∧
      d2.options_ = d.options_ ∧
      d2.node_registrar_.length = d.node_registrar_.length ∧
      (∀ j, (d2.sys.acquire j).type = (d.sys.acquire j).type) ∧
      d2.vm_node_fsms_ = d.vm_node_fsms_ ++
        (if (d.sys.acquire node).type = packet_type.cluster_request_vm_node
          then [vm_machine_for node d.options_] else []) ∧
      d2.svm_node_fsms_ = d.svm_node_fsms_ ++
        (if (d.sys.acquire node).type = packet_type.cluster_request_svm_node
          then [svm_machine_for node] else []) := by
  simp only [fsm.reset_loop] at h
  split at h
  · rename_i lists hreg
    have hw : ∀ j, ((d.sys.with_node node
        (fun n => n.write packet_type.cluster_reset Payload.empty)).acquire j).type =
        (d.sys.acquire j).type := fun j => acquire_with_node_type _ _ _ _ (fun _ => rfl)
    have hwl : (d.sys.with_node node
        (fun n => n.write packet_type.cluster_reset Payload.empty)).nodes.length =
        d.node_registrar_.length := length_update_at _ _ _
    obtain ⟨ht, hlen, hv, hs⟩ := register_node_fsm_result _ _ _ _ _ _ hreg
    refine ⟨_, h, rfl, rfl, rfl, hlen.trans hwl, fun j => (ht j).trans (hw j), ?_, ?_⟩
    · rw [hw node] at hv
      exact hv
    · rw [hw node] at hs
      exact hs
  · cases h

theorem reset_loop_result (l : List Nat) :
    ∀ (d d1 : fsm.DispatchFSM_), fsm.reset_loop l d = Except.ok d1 →
      d1.test_pool_ = d.test_pool_ ∧ d1.trace_pool_ = d.trace_pool_ ∧
      d1.options_ = d.options_ ∧
      d1.node_registrar_.length = d.node_registrar_.length ∧
      (∀ j, (d1.sys.acquire j).type = (d.sys.acquire j).type) ∧
      d1.vm_node_fsms_ = d.vm_node_fsms_ ++
        (l.filter (fun i => decide ((d.sys.acquire i).type = packet_type.cluster_request_vm_node))).map
          (fun i => vm_machine_for i d.options_) ∧
      d1.svm_node_fsms_ = d.svm_node_fsms_ ++
        (l.filter (fun i => decide ((d.sys.acquire i).type = packet_type.cluster_request_svm_node))).map
          svm_machine_for := by
  induction l with
  | nil =>
    intro d d1 h
    simp only [fsm.reset_loop] at h
    cases h
    simp
  | cons node rest ih =>
    intro d d1 h
    obtain ⟨d2, h2, a1, a2, a3, a4, a5, a6, a7⟩ := reset_loop_step node rest d d1 h
    obtain ⟨i1, i2, i3, i4, i5, i6, i7⟩ := ih d2 d1 h2
    have hf1 : (fun i => decide ((d2.sys.acquire i).type = packet_type.cluster_request_vm_node)) =
        (fun i => decide ((d.sys.acquire i).type = packet_type.cluster_request_vm_node)) := by
      funext i; rw [a5 i]
    have hf2 : (fun i => decide ((d2.sys.acquire i).type = packet_type.cluster_request_svm_node)) =
        (fun i => decide ((d.sys.acquire i).type = packet_type.cluster_request_svm_node)) := by
      funext i; rw [a5 i]
    refine ⟨i1.trans a1, i2.trans a2, i3.trans a3, i4.trans a4,
      fun j => (i5 j).trans (a5 j), ?_, ?_⟩
    · rw [i6, a6, hf1, a3]
      by_cases hn : (d.sys.acquire node).type = packet_type.cluster_request_vm_node
      · simp [hn, List.filter]
      · simp [hn, List.filter]
    · rw [i7, a7, hf2]
      by_cases hn : (d.sys.acquire node).type = packet_type.cluster_request_svm_node
      · simp [hn, List.filter]
      · simp [hn, List.filter]

/-! ### C7 -/

/-- C7, the code at the failing inputs.  With the target queue `t1, t2, t3` and the
workers VM, SVM, VM registered, `assign_next_target` sends `t1` to the first VM worker
and `t2` to the second, nothing to the SVM worker, leaves `t3` in the queue and `t2` as
current target.  With the target queue `t1` and two VM workers registered it reads the
front of the emptied queue for the second worker. -/
theorem C7_assign_next_target_pops_per_vm_worker :
    (match fsm.assign_next_target (scenario.members true false ["t1", "t2", "t3"]
        [scenario.handle packet_type.cluster_request_vm_node,
         scenario.handle packet_type.cluster_request_svm_node,
         scenario.handle packet_type.cluster_request_vm_node]) with
      | Except.ok d =>
          some (d.next_target_queue_, d.target_, d.node_registrar_.map (fun n => n.server.written))
      | Except.error _ => none) =
      some (["t3"], "t2",
        [[⟨5, packet_type.cluster_next_target, Payload.target "t1"⟩], [],
         [⟨5, packet_type.cluster_next_target, Payload.target "t2"⟩]]) ∧
    (match fsm.assign_next_target (scenario.members true false ["t1"]
        [scenario.handle packet_type.cluster_request_vm_node,
         scenario.handle packet_type.cluster_request_vm_node]) with
      | Except.ok _ => none
      | Except.error e => some e) = some Fault.front_of_empty_queue := by
  refine ⟨by decide, by decide⟩

/-! ### C8 -/

/-- C8, as amended: after the action `reset` both pools are freshly constructed
(`count_next = count_all = 0` for the test pool, `count_next = count_all_unique = 0` for
the trace pool); the VM machine list holds one new machine in `TxConfig` for each
registered handle of type VM, in registrar order, and the SVM machine list one for each
handle of type SVM; a list is empty only if no worker of its role is registered. -/
theorem C8_reset_result (now : Int) (d d1 : fsm.DispatchFSM_)
    (h : fsm.reset now d = Except.ok d1) :
    d1.test_pool_.count_next = 0 ∧ d1.test_pool_.count_all = 0 ∧
    d1.trace_pool_.count_next = 0 ∧ d1.trace_pool_.count_all_unique = 0 ∧
    d1.vm_node_fsms_ =
      ((List.range d.node_registrar_.length).filter
        (fun i => decide ((d.sys.acquire i).type = packet_type.cluster_request_vm_node))).map
        (fun i => vm_machine_for i d.options_) ∧
    d1.svm_node_fsms_ =
      ((List.range d.node_registrar_.length).filter
        (fun i => decide ((d.sys.acquire i).type = packet_type.cluster_request_svm_node))).map
        svm_machine_for ∧
    (d1.vm_node_fsms_ = [] ↔ ∀ i < d.node_registrar_.length,
      (d.sys.acquire i).type ≠ packet_type.cluster_request_vm_node) ∧
    (d1.svm_node_fsms_ = [] ↔ ∀ i < d.node_registrar_.length,
      (d.sys.acquire i).type ≠ packet_type.cluster_request_svm_node) := by
  have key : ∃ dL, fsm.reset_loop (List.range d.node_registrar_.length) dL = Except.ok d1 ∧
      dL.test_pool_.count_next = 0 ∧ dL.test_pool_.count_all = 0 ∧
      dL.trace_pool_ = TracePool.fresh ∧ dL.options_ = d.options_ ∧
      dL.vm_node_fsms_ = [] ∧ dL.svm_node_fsms_ = [] ∧
      (∀ i, (dL.sys.acquire i).type = (d.sys.acquire i).type) := by
    unfold fsm.reset at h
    split at h
    · cases h
    · rename_i d0 h0
      obtain ⟨ho, _⟩ := set_up_root_dir_keeps d d0 h0
      have hn := set_up_root_dir_keeps_nodes d d0 h0
      rw [hn] at h
      refine ⟨_, h, rfl, rfl, rfl, ho, rfl, rfl, fun i => ?_⟩
      simp [fsm.DispatchFSM_.sys, Sys.acquire, hn]
  obtain ⟨dL, hL, b1, b2, b3, b4, b5, b6, b7⟩ := key
  obtain ⟨i1, i2, _, _, _, i6, i7⟩ := reset_loop_result _ _ _ hL
  have hf1 : (fun i => decide ((dL.sys.acquire i).type = packet_type.cluster_request_vm_node)) =
      (fun i => decide ((d.sys.acquire i).type = packet_type.cluster_request_vm_node)) := by
    funext i; rw [b7 i]
  have hf2 : (fun i => decide ((dL.sys.acquire i).type = packet_type.cluster_request_svm_node)) =
      (fun i => decide ((d.sys.acquire i).type = packet_type.cluster_request_svm_node)) := by
    funext i; rw [b7 i]
  rw [b5, hf1, b4, List.nil_append] at i6
  rw [b6, hf2, List.nil_append] at i7
  refine ⟨by rw [i1]; exact b1, by rw [i1]; exact b2, by rw [i2, b3]; rfl, by rw [i2, b3]; rfl,
    i6, i7, ?_, ?_⟩
  · rw [i6]
    simp [List.filter_eq_nil_iff]
  · rw [i7]
    simp [List.filter_eq_nil_iff]

/-- C8, witness: `reset` in distributed mode with one target queued and a VM and an SVM
worker registered. -/
theorem C8_reset_result_witness :
    ∃ d1, fsm.reset 7 (scenario.members true false ["t"]
        [scenario.handle packet_type.cluster_request_vm_node,
         scenario.handle packet_type.cluster_request_svm_node]) = Except.ok d1 ∧
      d1.test_pool_.count_all = 0 ∧ d1.trace_pool_.count_all_unique = 0 ∧
      d1.vm_node_fsms_ = [vm_machine_for 0 (scenario.opts true false ["t"])] ∧
      d1.svm_node_fsms_ = [svm_machine_for 1] :=
  match h : fsm.reset 7 (scenario.members true false ["t"]
      [scenario.handle packet_type.cluster_request_vm_node,
       scenario.handle packet_type.cluster_request_svm_node]) with
  | Except.ok d1 =>
      ⟨d1, rfl, (C8_reset_result 7 _ d1 h).2.1, (C8_reset_result 7 _ d1 h).2.2.2.1,
        (C8_reset_result 7 _ d1 h).2.2.2.2.1, (C8_reset_result 7 _ d1 h).2.2.2.2.2.1⟩
  | Except.error e => by
      exfalso
      have h2 : (match fsm.reset 7 (scenario.members true false ["t"]
          [scenario.handle packet_type.cluster_request_vm_node,
           scenario.handle packet_type.cluster_request_svm_node]) with
        | Except.ok _ => true
        | Except.error _ => false) = true := by decide
      rw [h] at h2
      exact Bool.false_ne_true h2

/-- C8, counterexample: after `reset` with one VM worker registered the VM machine list
is not empty: it holds the new machine of that worker. -/
theorem C8_reset_leaves_a_machine_per_worker :
    (match fsm.reset 7 (scenario.members true false ["t"]
        [scenario.handle packet_type.cluster_request_vm_node]) with
      | Except.ok d1 => some (d1.vm_node_fsms_.map (fun v => (v.node_, v.state)),
          d1.test_pool_.count_all, d1.trace_pool_.count_all_unique)
      | Except.error _ => none) = some ([(0, vm.State.TxConfig)], 0, 0) := by
  decide

/-! ### Events of the VM machine around the image update -/

theorem vm_candidate_rows_TxConfig :
    candidate_rows vm.transition_table vm.State.TxConfig vm.EventTag.config =
      [ ⟨vm.State.TxConfig, vm.EventTag.config, vm.State.Commence, [vm.Action.tx_config],
          GuardExpr.And_ (GuardExpr.Not_ (GuardExpr.atom vm.Guard.do_update))
            (GuardExpr.Not_ (GuardExpr.atom vm.Guard.is_first))⟩,
        ⟨vm.State.TxConfig, vm.EventTag.config, vm.State.RxGuestData, [vm.Action.tx_config],
          GuardExpr.And_ (GuardExpr.Not_ (GuardExpr.atom vm.Guard.do_update))
            (GuardExpr.atom vm.Guard.is_first)⟩,
        ⟨vm.State.TxConfig, vm.EventTag.config, vm.State.ValidateImage, [vm.Action.tx_config],
          GuardExpr.And_ (GuardExpr.atom vm.Guard.is_distributed)
            (GuardExpr.atom vm.Guard.do_update)⟩ ] := by
  decide

theorem vm_candidate_rows_UpdateImage :
    candidate_rows vm.transition_table vm.State.UpdateImage vm.EventTag.image =
      [ ⟨vm.State.UpdateImage, vm.EventTag.image, vm.State.Commence,
          [vm.Action.update_image_info, vm.Action.update_image],
          GuardExpr.Not_ (GuardExpr.atom vm.Guard.is_first)⟩,
        ⟨vm.State.UpdateImage, vm.EventTag.image, vm.State.RxGuestData,
          [vm.Action.update_image_info, vm.Action.update_image],
          GuardExpr.atom vm.Guard.is_first⟩ ] := by
  decide

theorem acquire_with_node_self (sys : Sys) (i : Nat) (f : NodeData → NodeData)
    (h : i < sys.nodes.length) : (sys.with_node i f).acquire i = f (sys.acquire i) := by
  rw [acquire_with_node]
  simp [h]

theorem with_node_length (sys : Sys) (i : Nat) (f : NodeData → NodeData) :
    (sys.with_node i f).nodes.length = sys.nodes.length :=
  length_update_at _ _ _

theorem vm_process_event_ValidateImage (p : Path) (m : vm.NodeFSM) (sys : Sys) (b : Bool)
    (w : vm.Ctx) (hst : m.state = vm.State.ValidateImage)
    (h1 : vm.is_image_valid p (m.toVMNodeFSM_, sys) = (b, w))
    (h2 : vm.is_image_valid p w = (b, w)) :
    vm.process_event (vm.Event.image p) m sys =
      Except.ok ({ toVMNodeFSM_ := w.1,
                   state := if b then (if w.1.first_ then vm.State.RxGuestData
                     else vm.State.Commence) else vm.State.UpdateImage }, w.2) := by
  cases b <;> cases hf : w.1.first_ <;>
    simp [vm.process_event, vm.fired_row, hst, vm.Event.tag, vm_candidate_rows_ValidateImage,
      select_row, GuardExpr.eval, vm.guard, h1, h2, hf, run_actions]

theorem vm_process_event_UpdateImage (p : Path) (m : vm.NodeFSM) (sys : Sys)
    (hst : m.state = vm.State.UpdateImage) :
    vm.process_event (vm.Event.image p) m sys =
      match vm.update_image p
          (m.toVMNodeFSM_, transmit_image_info sys m.node_ (sys.disk.image_info_of p)) with
      | Except.ok c =>
          Except.ok ({ toVMNodeFSM_ := c.1,
                       state := if m.first_ then vm.State.RxGuestData else vm.State.Commence },
            c.2)
      | Except.error e => Except.error e := by
  cases hf : m.first_ <;>
    simp [vm.process_event, vm.fired_row, hst, vm.Event.tag, vm_candidate_rows_UpdateImage,
      select_row, GuardExpr.eval, vm.guard, hf, run_actions, vm.exec] <;>
    cases vm.update_image p
      (m.toVMNodeFSM_, transmit_image_info sys m.node_ (sys.disk.image_info_of p)) <;> rfl

theorem vm_update_image_ok (p : Path) (c : vm.Ctx) (h : c.2.disk.fs_exists p = true) :
    ∃ disk1, vm.update_image p c = Except.ok (c.1,
      Sys.with_node { c.2 with disk := disk1 } c.1.node_
        (fun n => n.write packet_type.cluster_image
          (Payload.image (c.2.disk.from_image_file p)))) := by
  unfold vm.update_image
  simp only [h, Bool.not_true, Bool.false_eq_true, if_false]
  by_cases htar : c.2.disk.fs_exists (replace_extension p ".tar.gz") = true
  · exact ⟨c.2.disk.remove (replace_extension p ".tar.gz"), by simp [htar, FileSystem.remove]⟩
  · exact ⟨c.2.disk, by simp [htar]⟩

/-! ### C10 -/

/-- C10 (scenario S2): a VM machine created with `distributed = true`,
`update_image = true`, `first = false`, whose worker reports an image info with a
non-empty file name that differs from the info of the configured image (an existing
file), goes `TxConfig -> ValidateImage -> UpdateImage -> Commence` on the events
`config`, `image`, `image`.  The packets written to the worker are, in this order,
`cluster_config` on the first transition, `cluster_image_info_request` on the second,
and `cluster_image_info` followed by `cluster_image` on the third, the one out of
`UpdateImage`: exactly one `cluster_image_info` and one `cluster_image` message, the
image info first, and none of the two before that transition. -/
theorem C10_image_mismatch_run (o : option.Dispatch) (p : Path) (sys : Sys)
    (n : Nat) (tr : List Trace) (er : List log.NodeError)
    (hn : n < sys.nodes.length)
    (hname : (sys.acquire n).server.remote.image_info.file_name_.isEmpty = false)
    (hdiff : sys.disk.image_info_of p ≠ (sys.acquire n).server.remote.image_info)
    (hfile : sys.disk.fs_exists p = true) :
    ∃ s1 s2 s3,
      vm.process_event (vm.Event.config o) (vm_updating n tr er Option.none vm.State.TxConfig) sys =
        Except.ok (vm_updating n tr er Option.none vm.State.ValidateImage, s1) ∧
      vm.process_event (vm.Event.image p)
          (vm_updating n tr er Option.none vm.State.ValidateImage) s1 =
        Except.ok (vm_updating n tr er (some (sys.acquire n).server.remote.image_info)
          vm.State.UpdateImage, s2) ∧
      vm.process_event (vm.Event.image p)
          (vm_updating n tr er (some (sys.acquire n).server.remote.image_info)
            vm.State.UpdateImage) s2 =
        Except.ok (vm_updating n tr er (some (sys.acquire n).server.remote.image_info)
          vm.State.Commence, s3) ∧
      (s1.acquire n).server.written = (sys.acquire n).server.written ++
        [⟨(sys.acquire n).status.id, packet_type.cluster_config, Payload.options o⟩] ∧
      (s2.acquire n).server.written = (sys.acquire n).server.written ++
        [⟨(sys.acquire n).status.id, packet_type.cluster_config, Payload.options o⟩,
         ⟨(sys.acquire n).status.id, packet_type.cluster_image_info_request, Payload.empty⟩] ∧
      (s3.acquire n).server.written = (sys.acquire n).server.written ++
        [⟨(sys.acquire n).status.id, packet_type.cluster_config, Payload.options o⟩,
         ⟨(sys.acquire n).status.id, packet_type.cluster_image_info_request, Payload.empty⟩,
         ⟨(sys.acquire n).status.id, packet_type.cluster_image_info,
           Payload.image_info (sys.disk.image_info_of p)⟩,
         ⟨(sys.acquire n).status.id, packet_type.cluster_image,
           Payload.image (sys.disk.from_image_file p)⟩] := by
  have h1 : vm.process_event (vm.Event.config o)
      (vm_updating n tr er Option.none vm.State.TxConfig) sys =
      Except.ok (vm_updating n tr er Option.none vm.State.ValidateImage,
        transmit_config sys n o) := by
    simp [vm.process_event, vm.fired_row, vm.Event.tag, vm_candidate_rows_TxConfig, select_row,
      GuardExpr.eval, vm.guard, run_actions, vm.exec, vm_updating]
  have hw1 : ((transmit_config sys n o).acquire n) =
      (sys.acquire n).write packet_type.cluster_config (Payload.options o) :=
    acquire_with_node_self sys n _ hn
  have hl1 : n < (transmit_config sys n o).nodes.length := by
    unfold transmit_config
    rw [with_node_length]
    exact hn
  have hd1 : (transmit_config sys n o).disk = sys.disk := rfl
  have hv : vm.is_image_valid p
      ((vm_updating n tr er Option.none vm.State.ValidateImage).toVMNodeFSM_,
        transmit_config sys n o) =
      (false, (vm_updating n tr er (some (sys.acquire n).server.remote.image_info)
          vm.State.ValidateImage).toVMNodeFSM_,
        (receive_image_info (transmit_config sys n o) n).2) := by
    have hr : (receive_image_info (transmit_config sys n o) n).1 =
        (sys.acquire n).server.remote.image_info := by
      simp [receive_image_info, hw1, NodeData.write]
    have hd2 : (receive_image_info (transmit_config sys n o) n).2.disk = sys.disk := rfl
    simp only [vm.is_image_valid, vm_updating, hr, hd2, hname]
    simp [hdiff]
  have hv2 := vm_is_image_valid_again p
      ((vm_updating n tr er Option.none vm.State.ValidateImage).toVMNodeFSM_,
        transmit_config sys n o)
  rw [hv] at hv2
  simp only at hv2
  have h2 : vm.process_event (vm.Event.image p)
      (vm_updating n tr er Option.none vm.State.ValidateImage) (transmit_config sys n o) =
      Except.ok (vm_updating n tr er (some (sys.acquire n).server.remote.image_info)
        vm.State.UpdateImage, (receive_image_info (transmit_config sys n o) n).2) := by
    rw [vm_process_event_ValidateImage p _ _ _ _ rfl hv hv2]
    rfl
  have hw2 : ((receive_image_info (transmit_config sys n o) n).2.acquire n) =
      (((sys.acquire n).write packet_type.cluster_config (Payload.options o)).write
        packet_type.cluster_image_info_request Payload.empty).read
        packet_type.cluster_image_info := by
    unfold receive_image_info
    rw [acquire_with_node_self _ n _ hl1, hw1]
  have hl2 : n < (receive_image_info (transmit_config sys n o) n).2.nodes.length := by
    unfold receive_image_info
    rw [with_node_length]
    exact hl1
  have hd2 : (receive_image_info (transmit_config sys n o) n).2.disk = sys.disk := rfl
  have hw3 : ((transmit_image_info (receive_image_info (transmit_config sys n o) n).2 n
      (sys.disk.image_info_of p)).acquire n) =
      ((((sys.acquire n).write packet_type.cluster_config (Payload.options o)).write
        packet_type.cluster_image_info_request Payload.empty).read
        packet_type.cluster_image_info).write packet_type.cluster_image_info
        (Payload.image_info (sys.disk.image_info_of p)) := by
    unfold transmit_image_info
    rw [acquire_with_node_self _ n _ hl2, hw2]
  have hl3 : n < (transmit_image_info (receive_image_info (transmit_config sys n o) n).2 n
      (sys.disk.image_info_of p)).nodes.length := by
    unfold transmit_image_info
    rw [with_node_length]
    exact hl2
  have h3 : ∃ s3, vm.process_event (vm.Event.image p)
      (vm_updating n tr er (some (sys.acquire n).server.remote.image_info)
        vm.State.UpdateImage) (receive_image_info (transmit_config sys n o) n).2 =
      Except.ok (vm_updating n tr er (some (sys.acquire n).server.remote.image_info)
        vm.State.Commence, s3) ∧
      s3.acquire n = (((((sys.acquire n).write packet_type.cluster_config
        (Payload.options o)).write packet_type.cluster_image_info_request Payload.empty).read
        packet_type.cluster_image_info).write packet_type.cluster_image_info
        (Payload.image_info (sys.disk.image_info_of p))).write packet_type.cluster_image
        (Payload.image (sys.disk.from_image_file p)) := by
    obtain ⟨disk1, hu⟩ := vm_update_image_ok p
      ((vm_updating n tr er (some (sys.acquire n).server.remote.image_info)
          vm.State.UpdateImage).toVMNodeFSM_,
        transmit_image_info (receive_image_info (transmit_config sys n o) n).2 n
          (sys.disk.image_info_of p)) hfile
    refine ⟨Sys.with_node
        { transmit_image_info (receive_image_info (transmit_config sys n o) n).2 n
            (sys.disk.image_info_of p) with disk := disk1 } n
        (fun x => x.write packet_type.cluster_image (Payload.image (sys.disk.from_image_file p))),
      ?_, ?_⟩
    · rw [vm_process_event_UpdateImage p _ _ rfl]
      simp only [hd2]
      have hu2 := hu
      simp only [vm_updating] at hu2 ⊢
      rw [hu2]
      rfl
    · have ha := acquire_with_node_self
        { transmit_image_info (receive_image_info (transmit_config sys n o) n).2 n
            (sys.disk.image_info_of p) with disk := disk1 } n
        (fun x => x.write packet_type.cluster_image (Payload.image (sys.disk.from_image_file p)))
        hl3
      rw [ha]
      exact congrArg (fun x => x.write packet_type.cluster_image
        (Payload.image (sys.disk.from_image_file p))) hw3
  obtain ⟨s3, h3a, h3b⟩ := h3
  refine ⟨_, _, s3, h1, h2, h3a, ?_, ?_, ?_⟩
  · rw [hw1]; rfl
  · rw [hw2]; simp [NodeData.write, NodeData.read]
  · rw [h3b]; simp [NodeData.write, NodeData.read]

/-- C10, witness: the worker `remote0` reports the image `a/1/1`, the configured image
`img` has the info `img/1/2`. -/
theorem C10_image_mismatch_run_witness :
    ∃ s1 s2 s3,
      vm.process_event (vm.Event.config (scenario.opts true true ["t"]))
          (vm_updating 0 [] [] Option.none vm.State.TxConfig)
          { nodes := [scenario.handle packet_type.cluster_request_vm_node],
            disk := scenario.disk_with_image } =
        Except.ok (vm_updating 0 [] [] Option.none vm.State.ValidateImage, s1) ∧
      vm.process_event (vm.Event.image ["img"])
          (vm_updating 0 [] [] Option.none vm.State.ValidateImage) s1 =
        Except.ok (vm_updating 0 [] [] (some scenario.remote0.image_info)
          vm.State.UpdateImage, s2) ∧
      vm.process_event (vm.Event.image ["img"])
          (vm_updating 0 [] [] (some scenario.remote0.image_info) vm.State.UpdateImage) s2 =
        Except.ok (vm_updating 0 [] [] (some scenario.remote0.image_info)
          vm.State.Commence, s3) ∧
      (s1.acquire 0).server.written =
        [⟨5, packet_type.cluster_config, Payload.options (scenario.opts true true ["t"])⟩] ∧
      (s2.acquire 0).server.written =
        [⟨5, packet_type.cluster_config, Payload.options (scenario.opts true true ["t"])⟩,
         ⟨5, packet_type.cluster_image_info_request, Payload.empty⟩] ∧
      (s3.acquire 0).server.written =
        [⟨5, packet_type.cluster_config, Payload.options (scenario.opts true true ["t"])⟩,
         ⟨5, packet_type.cluster_image_info_request, Payload.empty⟩,
         ⟨5, packet_type.cluster_image_info,
           Payload.image_info { file_name_ := "img", size_ := 1, hash_ := 2 }⟩,
         ⟨5, packet_type.cluster_image, Payload.image { data := 7 }⟩] :=
  C10_image_mismatch_run (scenario.opts true true ["t"]) ["img"]
    { nodes := [scenario.handle packet_type.cluster_request_vm_node],
      disk := scenario.disk_with_image } 0 [] []
    (by decide) (by decide) (by decide) (by decide)

/-! ### One dispatch pass over a single VM machine -/

theorem append_row_dirs (disk : FileSystem) (p : Path) (row : List Nat) :
    (fsm.append_row disk p row).dirs = disk.dirs := by
  unfold fsm.append_row
  split_ifs
  · rfl
  · split <;> rfl

theorem write_statistics_keeps (d : fsm.DispatchFSM_) (now : Int) :
    (fsm.write_statistics d now).vm_node_fsms_ = d.vm_node_fsms_ ∧
    (fsm.write_statistics d now).svm_node_fsms_ = d.svm_node_fsms_ ∧
    (fsm.write_statistics d now).trace_pool_ = d.trace_pool_ ∧
    (fsm.write_statistics d now).node_registrar_ = d.node_registrar_ ∧
    (fsm.write_statistics d now).disk.dirs = d.disk.dirs := by
  unfold fsm.write_statistics
  simp only
  split_ifs <;> simp [append_row_dirs, FileSystem.write_file]

theorem dispatch_single_vm (k : Constants) (now : Int) (d d1 : fsm.DispatchFSM_)
    (v v1 : vm.NodeFSM) (hv : d.vm_node_fsms_ = [v])
    (hr : fsm.dispatch_vm k d v = Except.ok (v1, d1)) (hs1 : d1.svm_node_fsms_ = []) :
    ∃ d2, fsm.dispatch k now d = Except.ok d2 ∧ d2.vm_node_fsms_ = [v1] ∧
      d2.svm_node_fsms_ = [] ∧ d2.trace_pool_ = d1.trace_pool_ ∧
      d2.node_registrar_ = d1.node_registrar_ ∧ d2.disk.dirs = d1.disk.dirs ∧
      fsm.same_config d d2 := by
  have hd : ∃ d2, fsm.dispatch k now d = Except.ok d2 ∧ d2 = fsm.write_statistics
      { d1 with vm_node_fsms_ := [v1], svm_node_fsms_ := [], first_ := false,
                console := d1.console ++ [fsm.status_table
                  { d1 with vm_node_fsms_ := [v1], svm_node_fsms_ := [], first_ := false } now] }
      now := by
    unfold fsm.dispatch
    simp [hv, fsm.dispatch_vm_loop, hr, hs1, fsm.dispatch_svm_loop]
  obtain ⟨d2, h2, he⟩ := hd
  obtain ⟨a1, a2, a3, a4, a5⟩ := write_statistics_keeps
    { d1 with vm_node_fsms_ := [v1], svm_node_fsms_ := [], first_ := false,
              console := d1.console ++ [fsm.status_table
                { d1 with vm_node_fsms_ := [v1], svm_node_fsms_ := [], first_ := false } now] }
    now
  rw [← he] at a1 a2 a3 a4 a5
  exact ⟨d2, h2, a1, a2, a3, a4, a5, same_config_dispatch k now d d2 h2⟩

theorem dispatch_vm_TxConfig (k : Constants) (d : fsm.DispatchFSM_) (v : vm.NodeFSM)
    (hst : v.state = vm.State.TxConfig) (hu : v.update_image_ = false) (hf : v.first_ = false) :
    fsm.dispatch_vm k d v = Except.ok ({ v with state := vm.State.Commence },
      d.with_sys (transmit_config d.sys v.node_ d.options_)) := by
  simp [fsm.dispatch_vm, fsm.dispatch_vm_event, vm.NodeFSM.is_flag_active, vm.flag_list, hst,
    vm.process_event, vm.fired_row, vm.Event.tag, vm_candidate_rows_TxConfig, select_row,
    GuardExpr.eval, vm.guard, hu, hf, run_actions, vm.exec]

theorem dispatch_vm_Commence (k : Constants) (d : fsm.DispatchFSM_) (v : vm.NodeFSM)
    (hst : v.state = vm.State.Commence) :
    fsm.dispatch_vm k d v = Except.ok ({ v with state := vm.State.RxStatus },
      d.with_sys (transmit_commencement d.sys v.node_)) := by
  have hc : candidate_rows vm.transition_table vm.State.Commence vm.EventTag.poll =
      [⟨vm.State.Commence, vm.EventTag.poll, vm.State.RxStatus, [vm.Action.commence],
        GuardExpr.none⟩] := by decide
  simp [fsm.dispatch_vm, fsm.dispatch_vm_event, vm.NodeFSM.is_flag_active, vm.flag_list, hst,
    vm.process_event, vm.fired_row, vm.Event.tag, hc, select_row,
    GuardExpr.eval, run_actions, vm.exec]

theorem dispatch_vm_RxStatus (k : Constants) (d : fsm.DispatchFSM_) (v : vm.NodeFSM)
    (hst : v.state = vm.State.RxStatus) :
    fsm.dispatch_vm k d v = Except.ok ({ v with state := vm.State.StatusRxed },
      d.with_sys (cluster.poll d.sys v.node_)) := by
  have hc : candidate_rows vm.transition_table vm.State.RxStatus vm.EventTag.poll =
      [⟨vm.State.RxStatus, vm.EventTag.poll, vm.State.StatusRxed, [vm.Action.rx_status],
        GuardExpr.none⟩] := by decide
  simp [fsm.dispatch_vm, fsm.dispatch_vm_event, vm.NodeFSM.is_flag_active, vm.flag_list, hst,
    vm.process_event, vm.fired_row, vm.Event.tag, hc, select_row,
    GuardExpr.eval, run_actions, vm.exec]

theorem dispatch_vm_StatusRxed (k : Constants) (d : fsm.DispatchFSM_) (v : vm.NodeFSM)
    (hst : v.state = vm.State.StatusRxed) :
    fsm.dispatch_vm k d v = Except.ok ({ v with state := vm.State.RxTrace }, d) := by
  have hc : candidate_rows vm.transition_table vm.State.StatusRxed vm.EventTag.poll =
      [⟨vm.State.StatusRxed, vm.EventTag.poll, vm.State.RxTrace, [], GuardExpr.none⟩] := by
    decide
  simp [fsm.dispatch_vm, fsm.dispatch_vm_event, vm.NodeFSM.is_flag_active, vm.flag_list, hst,
    vm.process_event, vm.fired_row, vm.Event.tag, hc, select_row,
    GuardExpr.eval, run_actions, vm.exec]
  rfl

theorem dispatch_vm_RxTrace (k : Constants) (d : fsm.DispatchFSM_) (v : vm.NodeFSM)
    (hst : v.state = vm.State.RxTrace) (ht : 0 < (d.sys.acquire v.node_).status.trace_count) :
    fsm.dispatch_vm k d v = Except.ok
      ({ v with traces_ := (receive_traces d.sys v.node_).1, state := vm.State.TraceRxed },
        d.with_sys (receive_traces d.sys v.node_).2) := by
  have hc : candidate_rows vm.transition_table vm.State.RxTrace vm.EventTag.poll =
      [ ⟨vm.State.RxTrace, vm.EventTag.poll, vm.State.TraceRxed, [vm.Action.rx_trace],
          GuardExpr.atom vm.Guard.has_trace⟩,
        ⟨vm.State.RxTrace, vm.EventTag.poll, vm.State.TxTest, [],
          GuardExpr.Not_ (GuardExpr.atom vm.Guard.has_trace)⟩ ] := by decide
  simp [fsm.dispatch_vm, fsm.dispatch_vm_event, vm.NodeFSM.is_flag_active, vm.flag_list, hst,
    vm.process_event, vm.fired_row, vm.Event.tag, hc, select_row,
    GuardExpr.eval, vm.guard, ht, run_actions, vm.exec]

theorem dispatch_vm_TraceRxed (k : Constants) (d d1 : fsm.DispatchFSM_) (v : vm.NodeFSM)
    (hst : v.state = vm.State.TraceRxed) (hp : fsm.to_trace_pool d v.traces_ = Except.ok d1) :
    fsm.dispatch_vm k d v = Except.ok ({ v with state := vm.State.TxTest }, d1) := by
  have hc : candidate_rows vm.transition_table vm.State.TraceRxed vm.EventTag.trace =
      [⟨vm.State.TraceRxed, vm.EventTag.trace, vm.State.TxTest, [], GuardExpr.none⟩] := by
    decide
  simp [fsm.dispatch_vm, fsm.dispatch_vm_event, vm.NodeFSM.is_flag_active, vm.flag_list, hst,
    hp, vm.process_event, vm.fired_row, vm.Event.tag, hc, select_row,
    GuardExpr.eval, run_actions, vm.exec]
  rfl

theorem is_dir_of_dirs (a b : FileSystem) (p : Path) (h : a.dirs = b.dirs) :
    a.is_dir p = b.is_dir p := by
  simp [FileSystem.is_dir, h]

theorem fsm_poll_dev_SpecCheck (k : Constants) (now : Int) (m : fsm.DispatchFSM)
    (hdev : m.options_.mode.distributed = false) (hst : m.state = fsm.State.SpecCheck) :
    fsm.process_event k now fsm.Event.poll m =
      if fsm.is_target_expired m.toDispatchFSM_ now && m.next_target_queue_.isEmpty then
        Except.ok { toDispatchFSM_ := fsm.next_target_clean m.toDispatchFSM_,
                    state := fsm.State.Terminate }
      else Except.ok { m with state := fsm.State.Dispatch } := by
  rw [fsm_poll_in_SpecCheck k now m hst]
  have hd : fsm.is_dev_mode m.toDispatchFSM_ = true := by simp [fsm.is_dev_mode, hdev]
  simp [hd, fsm.have_next_target]

theorem run_dev_SpecCheck (k : Constants) (now : Int) (m : fsm.DispatchFSM)
    (hst : m.state = fsm.State.SpecCheck) (hdev : m.options_.mode.distributed = false)
    (hl : (fsm.is_target_expired m.toDispatchFSM_ now && m.next_target_queue_.isEmpty) = false)
    (hn : m.node_registrar_ ≠ []) :
    Dispatch.run k now m = Except.ok { m with state := fsm.State.Dispatch } := by
  have h := fsm_poll_dev_SpecCheck k now m hdev hst
  rw [hl] at h
  simp only [Bool.false_eq_true, if_false] at h
  simp [Dispatch.run, Dispatch.has_nodes, hn, h]

theorem finds_target_spent_at (k : Constants) (clocks : List Int) (m mj : fsm.DispatchFSM)
    (j : Nat) (h : Dispatch.runs k (clocks.take j) m = Except.ok mj)
    (hl : Dispatch.finds_target_spent k clocks m j = false) :
    (fsm.is_target_expired mj.toDispatchFSM_ (clocks.getD j 0) &&
      mj.next_target_queue_.isEmpty) = false := by
  unfold Dispatch.finds_target_spent at hl
  rw [h] at hl
  exact hl

theorem run_Dispatch_single (k : Constants) (now : Int) (m : fsm.DispatchFSM)
    (d1 : fsm.DispatchFSM_) (v v1 : vm.NodeFSM)
    (hst : m.state = fsm.State.Dispatch) (hn : m.node_registrar_ ≠ [])
    (hv : m.vm_node_fsms_ = [v])
    (hr : fsm.dispatch_vm k m.toDispatchFSM_ v = Except.ok (v1, d1))
    (hs1 : d1.svm_node_fsms_ = []) :
    ∃ m2, Dispatch.run k now m = Except.ok m2 ∧ m2.state = fsm.State.SpecCheck ∧
      m2.vm_node_fsms_ = [v1] ∧ m2.svm_node_fsms_ = [] ∧ m2.trace_pool_ = d1.trace_pool_ ∧
      m2.node_registrar_ = d1.node_registrar_ ∧ m2.disk.dirs = d1.disk.dirs ∧
      fsm.same_config m.toDispatchFSM_ m2.toDispatchFSM_ := by
  obtain ⟨d2, h2, a1, a2, a3, a4, a5, a6⟩ :=
    dispatch_single_vm k now m.toDispatchFSM_ d1 v v1 hv hr hs1
  refine ⟨{ toDispatchFSM_ := d2, state := fsm.State.SpecCheck }, ?_, rfl, a1, a2, a3, a4, a5, a6⟩
  have hp := fsm_poll_in_Dispatch k now m hst
  rw [h2] at hp
  simp [Dispatch.run, Dispatch.has_nodes, hn, hp]

theorem S1_step_of (k : Constants) (t : Trace) (j : Nat) (a b : Int) (m : fsm.DispatchFSM)
    (v v1 : vm.NodeFSM) (n n1 : NodeData) (d1 : fsm.DispatchFSM_)
    (hst : m.state = fsm.State.SpecCheck) (hdev : m.options_.mode.distributed = false)
    (hl : (fsm.is_target_expired m.toDispatchFSM_ a && m.next_target_queue_.isEmpty) = false)
    (hv : m.vm_node_fsms_ = [v]) (hn : m.node_registrar_ = [n])
    (hpool : m.trace_pool_.all_ = [])
    (hdir : m.disk.is_dir (m.root_ ++ [dispatch_trace_dir_name]) = true)
    (hfile : m.disk.is_dir (m.root_ ++ [dispatch_trace_dir_name, t.uuid_]) = false)
    (hr : fsm.dispatch_vm k m.toDispatchFSM_ v = Except.ok (v1, d1))
    (hs1 : d1.svm_node_fsms_ = []) (hp1 : d1.trace_pool_ = m.trace_pool_)
    (hn1 : d1.node_registrar_ = [n1]) (hd1 : d1.disk.dirs = m.disk.dirs)
    (hv1 : v1.node_ = 0 ∧ v1.first_ = false ∧ v1.update_image_ = false ∧
      v1.state = S1_vm_state (j + 1) ∧
      n1.server.remote.status.trace_count = 1 ∧ n1.server.remote.traces = [t] ∧
      (3 ≤ j + 1 → n1.status.trace_count = 1) ∧ (5 ≤ j + 1 → v1.traces_ = [t])) :
    ∃ m1 m2, Dispatch.run k a m = Except.ok m1 ∧ m1.trace_pool_.all_ = [] ∧
      Dispatch.run k b m1 = Except.ok m2 ∧ S1_after t (j + 1) m2 := by
  have hne : m.node_registrar_ ≠ [] := by rw [hn]; simp
  obtain ⟨m2, h2, b1, b2, b3, b4, b5, b6, b7⟩ :=
    run_Dispatch_single k b { m with state := fsm.State.Dispatch } d1 v v1 rfl hne hv hr hs1
  obtain ⟨c1, _, _, c4, _, _⟩ := b7
  refine ⟨{ m with state := fsm.State.Dispatch }, m2,
    run_dev_SpecCheck k a m hst hdev hl hne, hpool, h2, ?_⟩
  refine ⟨b1, by rw [c1]; exact hdev, b3,
    ⟨v1, n1, b2, by rw [b5, hn1], hv1⟩, by rw [b4, hp1]; exact hpool, ?_, ?_⟩
  · rw [c4, is_dir_of_dirs m2.disk m.disk _ (b6.trans hd1)]
    exact hdir
  · rw [c4, is_dir_of_dirs m2.disk m.disk _ (b6.trans hd1)]
    exact hfile

theorem S1_step (k : Constants) (t : Trace) (j : Nat) (a b : Int) (m : fsm.DispatchFSM)
    (hj : j < 5) (h : S1_after t j m)
    (hl : (fsm.is_target_expired m.toDispatchFSM_ a && m.next_target_queue_.isEmpty) = false) :
    ∃ m1 m2, Dispatch.run k a m = Except.ok m1 ∧ m1.trace_pool_.all_ = [] ∧
      Dispatch.run k b m1 = Except.ok m2 ∧ S1_after t (j + 1) m2 := by
  obtain ⟨hst, hdev, hsvm, ⟨v, n, hv, hn, hnode, hf, hu, hvs, hrs, hrt, h3, h5⟩,
    hpool, hdir, hfile⟩ := h
  have hacq : m.sys.acquire v.node_ = n := by
    simp [fsm.DispatchFSM_.sys, Sys.acquire, hn, hnode]
  have hupd : ∀ f : NodeData → NodeData, (m.sys.with_node v.node_ f).nodes = [f n] := by
    intro f
    simp [fsm.DispatchFSM_.sys, Sys.with_node, hn, hnode, update_at]
  interval_cases j
  · exact S1_step_of k t 0 a b m v _ n _ _ hst hdev hl hv hn hpool hdir hfile
      (dispatch_vm_TxConfig k m.toDispatchFSM_ v hvs hu hf) hsvm rfl
      (hupd _) rfl
      ⟨hnode, hf, hu, rfl, hrs, hrt, by omega, by omega⟩
  · exact S1_step_of k t 1 a b m v _ n _ _ hst hdev hl hv hn hpool hdir hfile
      (dispatch_vm_Commence k m.toDispatchFSM_ v hvs) hsvm rfl
      (hupd _) rfl
      ⟨hnode, hf, hu, rfl, hrs, hrt, by omega, by omega⟩
  · exact S1_step_of k t 2 a b m v _ n _ _ hst hdev hl hv hn hpool hdir hfile
      (dispatch_vm_RxStatus k m.toDispatchFSM_ v hvs) hsvm rfl
      (hupd _) rfl
      ⟨hnode, hf, hu, rfl, hrs, hrt, fun _ => hrs, by omega⟩
  · exact S1_step_of k t 3 a b m v _ n _ _ hst hdev hl hv hn hpool hdir hfile
      (dispatch_vm_StatusRxed k m.toDispatchFSM_ v hvs) hsvm rfl
      hn rfl
      ⟨hnode, hf, hu, rfl, hrs, hrt, fun _ => h3 (by omega), by omega⟩
  · have ht : 0 < (m.sys.acquire v.node_).status.trace_count := by
      rw [hacq, h3 (by omega)]; omega
    exact S1_step_of k t 4 a b m v _ n _ _ hst hdev hl hv hn hpool hdir hfile
      (dispatch_vm_RxTrace k m.toDispatchFSM_ v hvs ht) hsvm rfl
      (hupd _) rfl
      ⟨hnode, hf, hu, rfl, hrs, hrt, fun _ => h3 (by omega), fun _ => by
        show (receive_traces m.sys v.node_).1 = [t]
        simp only [receive_traces, hacq]
        exact hrt⟩

theorem to_trace_pool_one_fresh (d : fsm.DispatchFSM_) (t : Trace)
    (hpool : d.trace_pool_.all_ = [])
    (hdir : d.disk.is_dir (d.root_ ++ [dispatch_trace_dir_name]) = true)
    (hfile : d.disk.is_dir (d.root_ ++ [dispatch_trace_dir_name, t.uuid_]) = false) :
    ∃ d1, fsm.to_trace_pool d [t] = Except.ok d1 ∧ d1.trace_pool_.count_all_unique = 1 ∧
      d1.svm_node_fsms_ = d.svm_node_fsms_ := by
  have hdrop : (d.root_ ++ [dispatch_trace_dir_name, t.uuid_]).dropLast =
      d.root_ ++ [dispatch_trace_dir_name] := by
    rw [show d.root_ ++ [dispatch_trace_dir_name, t.uuid_] =
      (d.root_ ++ [dispatch_trace_dir_name]) ++ [t.uuid_] by simp]
    exact List.dropLast_concat
  have hopen : d.disk.can_open (d.root_ ++ [dispatch_trace_dir_name, t.uuid_]) = true := by
    simp [FileSystem.can_open, hdrop, hdir, hfile]
  have hex : (d.disk.write_file (d.root_ ++ [dispatch_trace_dir_name, t.uuid_])
      (FileContent.trace t)).fs_exists (d.root_ ++ [dispatch_trace_dir_name, t.uuid_]) = true := by
    have hmem : ((d.disk.files.filter
        (fun q => !decide (q.1 = d.root_ ++ [dispatch_trace_dir_name, t.uuid_])) ++
        [(d.root_ ++ [dispatch_trace_dir_name, t.uuid_], FileContent.trace t)]).map
          Prod.fst).contains (d.root_ ++ [dispatch_trace_dir_name, t.uuid_]) = true := by
      rw [List.contains_iff_exists_mem_beq]
      exact ⟨_, by rw [List.map_append]; exact List.mem_append_right _ (List.mem_singleton.mpr rfl),
        beq_self_eq_true _⟩
    simp only [FileSystem.fs_exists, FileSystem.write_file, hmem, Bool.or_true, Bool.true_or]
  refine ⟨{ d with
      disk := d.disk.write_file (d.root_ ++ [dispatch_trace_dir_name, t.uuid_])
        (FileContent.trace t)
      trace_pool_ := d.trace_pool_.insert (d.root_ ++ [dispatch_trace_dir_name, t.uuid_]) },
    ?_, ?_, ?_⟩
  · simp [fsm.to_trace_pool, fsm.to_trace_pool_one, hopen, hex]
  · simp [TracePool.insert, TracePool.count_all_unique, hpool]
  · rfl

theorem S1_last (k : Constants) (t : Trace) (a b : Int) (m : fsm.DispatchFSM)
    (h : S1_after t 5 m)
    (hl : (fsm.is_target_expired m.toDispatchFSM_ a && m.next_target_queue_.isEmpty) = false) :
    ∃ m1 m2, Dispatch.run k a m = Except.ok m1 ∧ m1.trace_pool_.all_ = [] ∧
      Dispatch.run k b m1 = Except.ok m2 ∧ m2.trace_pool_.count_all_unique = 1 := by
  obtain ⟨hst, hdev, hsvm, ⟨v, n, hv, hn, hnode, hf, hu, hvs, hrs, hrt, h3, h5⟩,
    hpool, hdir, hfile⟩ := h
  have hne : m.node_registrar_ ≠ [] := by rw [hn]; simp
  obtain ⟨d1, hd1, hcount, hs1⟩ := to_trace_pool_one_fresh m.toDispatchFSM_ t hpool hdir hfile
  rw [← h5 (le_refl 5)] at hd1
  have hr := dispatch_vm_TraceRxed k m.toDispatchFSM_ d1 v hvs hd1
  obtain ⟨m2, h2, _, _, _, b4, _, _, _⟩ :=
    run_Dispatch_single k b { m with state := fsm.State.Dispatch } d1 v _ rfl hne hv hr
      (hs1.trans hsvm)
  exact ⟨{ m with state := fsm.State.Dispatch }, m2,
    run_dev_SpecCheck k a m hst hdev hl hne, hpool, h2, by
      simp only [TracePool.count_all_unique] at hcount ⊢
      rw [b4]; exact hcount⟩

/-! ### C9 -/

/-- C9 (scenario S1), as amended: in dev mode, with one VM worker machine freshly
registered (`TxConfig`, no image update, not first), the Dispatch machine in `SpecCheck`,
an empty trace pool, and a worker that reports `trace_count = 1` and hands out the trace
`t`, and provided that no call of `Dispatch::run` that finds the Dispatch machine in
`SpecCheck` (the calls number 0, 2, 4, 6, 8 and 10) finds the target expired while the
target queue is empty (such a call would take the row to `Terminate`), the trace is in
the trace pool (`count_all_unique = 1`) after twelve calls of `Dispatch::run`, that is
after six dispatch passes, and not earlier: after each of the first eleven calls
`count_all_unique` is still 0.  The target list may be empty. -/
theorem C9_trace_arrives_with_the_twelfth_poll (k : Constants) (t : Trace) (n : NodeData)
    (m : fsm.DispatchFSM) (a1 a2 a3 a4 a5 a6 a7 a8 a9 a10 a11 a12 : Int)
    (hstate : m.state = fsm.State.SpecCheck)
    (hdev : m.options_.mode.distributed = false)
    (hupdate : m.options_.vm.image.update = false)
    (hlive : ∀ j ∈ [0, 2, 4, 6, 8, 10],
      Dispatch.finds_target_spent k [a1, a2, a3, a4, a5, a6, a7, a8, a9, a10, a11, a12] m j =
        false)
    (hvm : m.vm_node_fsms_ = [vm_machine_for 0 m.options_])
    (hsvm : m.svm_node_fsms_ = [])
    (hnode : m.node_registrar_ = [n])
    (hcount : n.server.remote.status.trace_count = 1)
    (htrace : n.server.remote.traces = [t])
    (hpool : m.trace_pool_.count_all_unique = 0)
    (hdir : m.disk.is_dir (m.root_ ++ [dispatch_trace_dir_name]) = true)
    (hfile : m.disk.is_dir (m.root_ ++ [dispatch_trace_dir_name, t.uuid_]) = false) :
    (∃ m12, Dispatch.runs k [a1, a2, a3, a4, a5, a6, a7, a8, a9, a10, a11, a12] m =
        Except.ok m12 ∧ m12.trace_pool_.count_all_unique = 1) ∧
    ∀ j < 12, ∃ mj,
      Dispatch.runs k ([a1, a2, a3, a4, a5, a6, a7, a8, a9, a10, a11, a12].take j) m =
        Except.ok mj ∧ mj.trace_pool_.count_all_unique = 0 := by
  have hall : m.trace_pool_.all_ = [] := List.length_eq_zero.mp hpool
  have h0 : S1_after t 0 m :=
    ⟨hstate, hdev, hsvm,
      ⟨vm_machine_for 0 m.options_, n, hvm, hnode, rfl, rfl, hupdate, rfl, hcount, htrace,
        by omega, by omega⟩, hall, hdir, hfile⟩
  have l0 : (fsm.is_target_expired m.toDispatchFSM_ a1 && m.next_target_queue_.isEmpty) =
      false :=
    finds_target_spent_at k [a1, a2, a3, a4, a5, a6, a7, a8, a9, a10, a11, a12] m m 0
      (by simp [Dispatch.runs]) (hlive 0 (by simp))
  obtain ⟨m1, m2, r1, p1, r2, s1⟩ := S1_step k t 0 a1 a2 m (by omega) h0 l0
  have l2 : (fsm.is_target_expired m2.toDispatchFSM_ a3 && m2.next_target_queue_.isEmpty) =
      false :=
    finds_target_spent_at k [a1, a2, a3, a4, a5, a6, a7, a8, a9, a10, a11, a12] m m2 2
      (by simp [Dispatch.runs, r1, r2]) (hlive 2 (by simp))
  obtain ⟨m3, m4, r3, p3, r4, s2⟩ := S1_step k t 1 a3 a4 m2 (by omega) s1 l2
  have l4 : (fsm.is_target_expired m4.toDispatchFSM_ a5 && m4.next_target_queue_.isEmpty) =
      false :=
    finds_target_spent_at k [a1, a2, a3, a4, a5, a6, a7, a8, a9, a10, a11, a12] m m4 4
      (by simp [Dispatch.runs, r1, r2, r3, r4]) (hlive 4 (by simp))
  obtain ⟨m5, m6, r5, p5, r6, s3⟩ := S1_step k t 2 a5 a6 m4 (by omega) s2 l4
  have l6 : (fsm.is_target_expired m6.toDispatchFSM_ a7 && m6.next_target_queue_.isEmpty) =
      false :=
    finds_target_spent_at k [a1, a2, a3, a4, a5, a6, a7, a8, a9, a10, a11, a12] m m6 6
      (by simp [Dispatch.runs, r1, r2, r3, r4, r5, r6]) (hlive 6 (by simp))
  obtain ⟨m7, m8, r7, p7, r8, s4⟩ := S1_step k t 3 a7 a8 m6 (by omega) s3 l6
  have l8 : (fsm.is_target_expired m8.toDispatchFSM_ a9 && m8.next_target_queue_.isEmpty) =
      false :=
    finds_target_spent_at k [a1, a2, a3, a4, a5, a6, a7, a8, a9, a10, a11, a12] m m8 8
      (by simp [Dispatch.runs, r1, r2, r3, r4, r5, r6, r7, r8]) (hlive 8 (by simp))
  obtain ⟨m9, m10, r9, p9, r10, s5⟩ := S1_step k t 4 a9 a10 m8 (by omega) s4 l8
  have l10 : (fsm.is_target_expired m10.toDispatchFSM_ a11 && m10.next_target_queue_.isEmpty) =
      false :=
    finds_target_spent_at k [a1, a2, a3, a4, a5, a6, a7, a8, a9, a10, a11, a12] m m10 10
      (by simp [Dispatch.runs, r1, r2, r3, r4, r5, r6, r7, r8, r9, r10]) (hlive 10 (by simp))
  obtain ⟨m11, m12, r11, p11, r12, hfinal⟩ := S1_last k t a11 a12 m10 s5 l10
  have z : ∀ x : fsm.DispatchFSM, x.trace_pool_.all_ = [] →
      x.trace_pool_.count_all_unique = 0 := by
    intro x hx
    simp [TracePool.count_all_unique, hx]
  refine ⟨⟨m12, by simp [Dispatch.runs, r1, r2, r3, r4, r5, r6, r7, r8, r9, r10, r11, r12],
    hfinal⟩, ?_⟩
  intro j hj
  interval_cases j
  · exact ⟨m, by simp [Dispatch.runs], hpool⟩
  · exact ⟨m1, by simp [Dispatch.runs, r1], z m1 p1⟩
  · exact ⟨m2, by simp [Dispatch.runs, r1, r2], z m2 s1.2.2.2.2.1⟩
  · exact ⟨m3, by simp [Dispatch.runs, r1, r2, r3], z m3 p3⟩
  · exact ⟨m4, by simp [Dispatch.runs, r1, r2, r3, r4], z m4 s2.2.2.2.2.1⟩
  · exact ⟨m5, by simp [Dispatch.runs, r1, r2, r3, r4, r5], z m5 p5⟩
  · exact ⟨m6, by simp [Dispatch.runs, r1, r2, r3, r4, r5, r6], z m6 s3.2.2.2.2.1⟩
  · exact ⟨m7, by simp [Dispatch.runs, r1, r2, r3, r4, r5, r6, r7], z m7 p7⟩
  · exact ⟨m8, by simp [Dispatch.runs, r1, r2, r3, r4, r5, r6, r7, r8], z m8 s4.2.2.2.2.1⟩
  · exact ⟨m9, by simp [Dispatch.runs, r1, r2, r3, r4, r5, r6, r7, r8, r9], z m9 p9⟩
  · exact ⟨m10, by simp [Dispatch.runs, r1, r2, r3, r4, r5, r6, r7, r8, r9, r10],
      z m10 s5.2.2.2.2.1⟩
  · exact ⟨m11, by simp [Dispatch.runs, r1, r2, r3, r4, r5, r6, r7, r8, r9, r10, r11],
      z m11 p11⟩

/-- C9, witness: the dev-mode dispatcher `registered` with the empty target list of
scenario S1, whose only worker reports one pending trace and hands out the trace `u1`;
the worker is active, so the target has not expired at any of the twelve calls. -/
theorem C9_trace_arrives_with_the_twelfth_poll_witness :
    (scenario.registered []).next_target_queue_ = [] ∧
    (∀ j ∈ [0, 2, 4, 6, 8, 10],
      Dispatch.finds_target_spent scenario.k0 [0, 0, 0, 0, 0, 0, 0, 0, 0, 0, 0, 0]
        (scenario.registered []) j = false) ∧
    (∃ m12, Dispatch.runs scenario.k0 [0, 0, 0, 0, 0, 0, 0, 0, 0, 0, 0, 0]
        (scenario.registered []) = Except.ok m12 ∧
        m12.trace_pool_.count_all_unique = 1) ∧
    ∀ j < 12, ∃ mj,
      Dispatch.runs scenario.k0 ([0, 0, 0, 0, 0, 0, 0, 0, 0, 0, 0, 0].take j)
        (scenario.registered []) = Except.ok mj ∧ mj.trace_pool_.count_all_unique = 0 :=
  ⟨rfl, by decide,
    C9_trace_arrives_with_the_twelfth_poll scenario.k0 { uuid_ := "u1", data := 3 }
      (scenario.handle_with packet_type.cluster_request_vm_node true 0 0 0)
      (scenario.registered []) 0 0 0 0 0 0 0 0 0 0 0 0
      rfl rfl rfl (by decide) rfl rfl rfl rfl rfl rfl (by decide) (by decide)⟩

/-- C9, counterexample: in scenario S1 (dev mode, the Dispatch machine in `SpecCheck`, one
VM worker machine freshly registered in `TxConfig`, the worker reporting
`trace_count = 1` and handing out one trace) the trace pool is still empty after six
calls of `Dispatch::run`, and after every smaller number of calls; by then the VM
machine has only reached `StatusRxed` and no trace has been requested from the
worker. -/
theorem C9_no_trace_after_six_polls :
    (scenario.registered ["t"]).state = fsm.State.SpecCheck ∧
    (scenario.registered ["t"]).options_.mode.distributed = false ∧
    (scenario.registered ["t"]).vm_node_fsms_ =
      [vm_machine_for 0 (scenario.opts false false ["t"])] ∧
    (scenario.registered ["t"]).node_registrar_.map
      (fun n => (n.server.remote.status.trace_count, n.server.remote.traces.length)) = [(1, 1)] ∧
    (∀ j ∈ List.range 7,
      (match Dispatch.runs scenario.k0 (List.replicate j 0) (scenario.registered ["t"]) with
        | Except.ok m => some m.trace_pool_.count_all_unique
        | Except.error _ => none) = some 0) ∧
    (match Dispatch.runs scenario.k0 (List.replicate 6 0) (scenario.registered ["t"]) with
      | Except.ok m => some (m.vm_node_fsms_.map (fun v => v.state),
          m.node_registrar_.map (fun n => n.server.written.map (fun p => p.type)))
      | Except.error _ => none) =
      some ([vm.State.StatusRxed],
        [[packet_type.cluster_config, packet_type.cluster_commence,
          packet_type.cluster_status_request]]) := by
  refine ⟨rfl, rfl, by decide, by decide, by decide, by decide⟩

/-! ### C11 -/

/-- C11, as amended: the guard `is_image_valid` returns false whenever the image info
reported by the worker has an empty `file_name`; it returns true if and only if that
`file_name` is not empty and the reported info equals the info of the configured image;
hence, for a configured image whose info has a non-empty `file_name`, it returns true
if and only if the two infos are equal.  The reported info is cached by the guard. -/
theorem C11_is_image_valid_iff (p : Path) (c : vm.Ctx) :
    ((vm.reported_image_info c).file_name_.isEmpty = true → (vm.is_image_valid p c).1 = false) ∧
    ((vm.is_image_valid p c).1 = true ↔
      ((vm.reported_image_info c).file_name_.isEmpty = false ∧
        c.2.disk.image_info_of p = vm.reported_image_info c)) ∧
    ((c.2.disk.image_info_of p).file_name_.isEmpty = false →
      ((vm.is_image_valid p c).1 = true ↔
        c.2.disk.image_info_of p = vm.reported_image_info c)) ∧
    (vm.is_image_valid p c).2.1.image_info_ = some (vm.reported_image_info c) := by
  obtain ⟨⟨n, f, tr, er, ii, u, di⟩, sys⟩ := c
  have key : (vm.is_image_valid p (⟨n, f, tr, er, ii, u, di⟩, sys)).1 = true ↔
      ((vm.reported_image_info (⟨n, f, tr, er, ii, u, di⟩, sys)).file_name_.isEmpty = false ∧
        sys.disk.image_info_of p = vm.reported_image_info (⟨n, f, tr, er, ii, u, di⟩, sys)) := by
    cases ii with
    | some w =>
        simp only [vm.is_image_valid, vm.reported_image_info]
        by_cases h1 : w.file_name_.isEmpty = true
        · simp [h1]
        · by_cases h2 : sys.disk.image_info_of p = w <;> simp [h1, h2]
    | none =>
        simp only [vm.is_image_valid, vm.reported_image_info, receive_image_info, Sys.with_node]
        by_cases h1 : (sys.acquire n).server.remote.image_info.file_name_.isEmpty = true
        · simp [h1]
        · by_cases h2 : sys.disk.image_info_of p = (sys.acquire n).server.remote.image_info <;>
            simp [h1, h2]
  refine ⟨?_, key, ?_, ?_⟩
  · intro h
    cases hv : (vm.is_image_valid p (⟨n, f, tr, er, ii, u, di⟩, sys)).1
    · rfl
    · rw [key.mp hv |>.1] at h
      cases h
  · intro h
    constructor
    · intro hv
      exact (key.mp hv).2
    · intro he
      exact key.mpr ⟨by rw [← he]; exact h, he⟩
  · cases ii with
    | some w =>
        simp only [vm.is_image_valid, vm.reported_image_info]
        split_ifs <;> rfl
    | none =>
        simp only [vm.is_image_valid, vm.reported_image_info, receive_image_info]
        split_ifs <;> rfl

/-- C11, witness: the worker `remote0` reports the info `a/1/1`, with a non-empty file
name, and the configured image has the info `img/1/2`. -/
theorem C11_is_image_valid_iff_witness :
    (scenario.disk0.image_info_of ["img"]).file_name_.isEmpty = false ∧
    ((vm.is_image_valid ["img"] ((scenario.vm_in vm.State.ValidateImage false true true).toVMNodeFSM_,
        { nodes := [scenario.handle packet_type.cluster_request_vm_node],
          disk := scenario.disk0 })).1 = true ↔
      scenario.disk0.image_info_of ["img"] =
        vm.reported_image_info ((scenario.vm_in vm.State.ValidateImage false true true).toVMNodeFSM_,
          { nodes := [scenario.handle packet_type.cluster_request_vm_node],
            disk := scenario.disk0 })) :=
  ⟨by decide,
    (C11_is_image_valid_iff ["img"]
      ((scenario.vm_in vm.State.ValidateImage false true true).toVMNodeFSM_,
        { nodes := [scenario.handle packet_type.cluster_request_vm_node],
          disk := scenario.disk0 })).2.2.1 (by decide)⟩

/-- C11, counterexample: the worker reports the image info `(empty name)/1/2` and the
info of the configured image is the same value; the two infos are equal and the guard
returns false. -/
theorem C11_equal_infos_with_empty_name :
    scenario.disk_unnamed.image_info_of ["img"] =
      vm.reported_image_info ((scenario.vm_in vm.State.ValidateImage false true true).toVMNodeFSM_,
        { nodes := [scenario.handle_reporting packet_type.cluster_request_vm_node
            { file_name_ := "", size_ := 1, hash_ := 2 }],
          disk := scenario.disk_unnamed }) ∧
    (vm.is_image_valid ["img"] ((scenario.vm_in vm.State.ValidateImage false true true).toVMNodeFSM_,
        { nodes := [scenario.handle_reporting packet_type.cluster_request_vm_node
            { file_name_ := "", size_ := 1, hash_ := 2 }],
          disk := scenario.disk_unnamed })).1 = false := by
  constructor
  · decide
  · decide

/-! ### The top-up loop of the `tx_test` branch -/

theorem top_up_tests_result (k : Constants) (fuel : Nat) :
    ∀ (c : Nat) (ts : List TestCase) (d : fsm.DispatchFSM_),
      k.vm_test_multiplier - c ≤ fuel →
      fsm.top_up_tests k fuel c ts d =
        (ts ++ d.test_pool_.next_.take (k.vm_test_multiplier - c),
         { d with test_pool_ := { d.test_pool_ with
             next_ := d.test_pool_.next_.drop (k.vm_test_multiplier - c) } }) := by
  induction fuel with
  | zero =>
      intro c ts d h
      have h0 : k.vm_test_multiplier - c = 0 := by omega
      simp [fsm.top_up_tests, h0]
  | succ fuel ih =>
      intro c ts d h
      unfold fsm.top_up_tests
      by_cases hc : c < 1 * k.vm_test_multiplier
      · rw [if_pos hc]
        obtain ⟨j, hj⟩ : ∃ j, k.vm_test_multiplier - c = j + 1 := ⟨k.vm_test_multiplier - c - 1, by omega⟩
        have hj1 : k.vm_test_multiplier - (c + 1) = j := by omega
        cases hn : d.test_pool_.next_ with
        | nil =>
            simp [fsm.next_test, TestPool.next, hn]
            rw [← hn]
        | cons t rest =>
            have hnext : fsm.next_test d =
                (some t, { d with test_pool_ := { d.test_pool_ with next_ := rest } }) := by
              simp [fsm.next_test, TestPool.next, hn]
            simp only [hnext]
            rw [ih (c + 1) (ts ++ [t]) _ (by omega), hj, hj1]
            simp
      · rw [if_neg hc]
        have h0 : k.vm_test_multiplier - c = 0 := by omega
        simp [h0]

/-! ### C13 -/

/-- C13: for a VM machine in `TxTest` whose handle holds the status last reported with
`test_case_count = c`, and a test pool with `count_next = n`, the dispatch action builds
a `test` event that carries the first `min n (vm_test_multiplier - c)` test cases the pool
has to dispense, in dispensing order, and takes exactly these from the pool (the
subtraction is truncated at 0); so `c` plus the number sent does not exceed
`vm_test_multiplier` when `c <= vm_test_multiplier`, and for `c >= vm_test_multiplier` the
event carries no test case and the pool is left as it was. -/
theorem C13_tx_test_top_up (k : Constants) (d : fsm.DispatchFSM_) (nfsm : vm.NodeFSM) (c n : Nat)
    (hst : nfsm.state = vm.State.TxTest)
    (hc : (nfsm.node_status d.sys).test_case_count = c)
    (hn : d.test_pool_.count_next = n) :
    fsm.dispatch_vm_event k d nfsm =
      Except.ok (vm.Event.test (d.test_pool_.next_.take (k.vm_test_multiplier - c)), nfsm,
        { d with test_pool_ := { d.test_pool_ with
            next_ := d.test_pool_.next_.drop (k.vm_test_multiplier - c) } }) ∧
    (d.test_pool_.next_.take (k.vm_test_multiplier - c)).length =
      min n (max 0 (k.vm_test_multiplier - c)) ∧
    (TestPool.count_next { d.test_pool_ with
        next_ := d.test_pool_.next_.drop (k.vm_test_multiplier - c) } =
      n - min n (max 0 (k.vm_test_multiplier - c))) ∧
    (c ≤ k.vm_test_multiplier →
      c + (d.test_pool_.next_.take (k.vm_test_multiplier - c)).length ≤ k.vm_test_multiplier) ∧
    (k.vm_test_multiplier ≤ c →
      fsm.dispatch_vm_event k d nfsm = Except.ok (vm.Event.test [], nfsm, d)) := by
  have hev : fsm.dispatch_vm_event k d nfsm =
      Except.ok (vm.Event.test (d.test_pool_.next_.take (k.vm_test_multiplier - c)), nfsm,
        { d with test_pool_ := { d.test_pool_ with
            next_ := d.test_pool_.next_.drop (k.vm_test_multiplier - c) } }) := by
    have h1 : nfsm.is_flag_active vm.Flag.trace_rxed = false := by
      simp [vm.NodeFSM.is_flag_active, hst, vm.flag_list]
    have h2 : nfsm.is_flag_active vm.Flag.tx_test = true := by
      simp [vm.NodeFSM.is_flag_active, hst, vm.flag_list]
    unfold fsm.dispatch_vm_event
    rw [h1, h2, hc, top_up_tests_result k k.vm_test_multiplier c [] d (by omega)]
    simp
  simp only [TestPool.count_next] at hn ⊢
  refine ⟨hev, ?_, ?_, ?_, ?_⟩
  · simp [List.length_take, hn, Nat.min_comm]
  · simp [List.length_drop, hn]
    omega
  · intro hle
    simp only [List.length_take]
    omega
  · intro hle
    rw [hev]
    have h0 : k.vm_test_multiplier - c = 0 := by omega
    simp [h0]

/-- C13, witness: multiplier 2, a worker that last reported one test case in its queue,
and a pool with three test cases to dispense: the event carries the first of them. -/
theorem C13_tx_test_top_up_witness :
    fsm.dispatch_vm_event scenario.k0
        (scenario.with_tests (scenario.members true false ["t"]
          [scenario.handle_with packet_type.cluster_request_vm_node true 0 1 0])
          [⟨1⟩, ⟨2⟩, ⟨3⟩])
        (scenario.vm_in vm.State.TxTest false false true) =
      Except.ok (vm.Event.test [⟨1⟩], scenario.vm_in vm.State.TxTest false false true,
        { scenario.with_tests (scenario.members true false ["t"]
            [scenario.handle_with packet_type.cluster_request_vm_node true 0 1 0])
            [⟨1⟩, ⟨2⟩, ⟨3⟩] with
          test_pool_ := { root := ["dispatch-root", "ts"], all_ := [⟨1⟩, ⟨2⟩, ⟨3⟩],
                          next_ := [⟨2⟩, ⟨3⟩] } }) :=
  (C13_tx_test_top_up scenario.k0
    (scenario.with_tests (scenario.members true false ["t"]
      [scenario.handle_with packet_type.cluster_request_vm_node true 0 1 0])
      [⟨1⟩, ⟨2⟩, ⟨3⟩])
    (scenario.vm_in vm.State.TxTest false false true) 1 3 rfl rfl rfl).1

/-! ### C19 -/

theorem runs_in_Terminated (k : Constants) (nows : List Int) :
    ∀ (m : fsm.DispatchFSM), m.state = fsm.State.Terminated →
      Dispatch.runs k nows m = Except.ok m := by
  induction nows with
  | nil => intro m _; rfl
  | cons now rest ih =>
      intro m h
      have h1 : Dispatch.run k now m = Except.ok m := by
        unfold Dispatch.run
        split
        · rfl
        · exact fsm_poll_in_Terminated k now m h
      simp only [Dispatch.runs, h1]
      exact ih m h

/-- C19: `Terminated` is absorbing.  Once the Dispatch machine is in `Terminated`, every
event it is given (a poll, at any clock reading, and also a `start`) returns the machine
as it was: the state is still `Terminated`, and the pools, the lists of worker machines,
the current target, the target queue and every other member, as well as the worker
handles, the filesystem and the terminal, are unchanged, so no action has run.  The same
holds for `Dispatch::run` and for any number of calls of it. -/
theorem C19_Terminated_is_absorbing (k : Constants) (now : Int) (ev : fsm.Event)
    (nows : List Int) (m : fsm.DispatchFSM) (h : m.state = fsm.State.Terminated) :
    fsm.process_event k now ev m = Except.ok m ∧
    Dispatch.run k now m = Except.ok m ∧
    Dispatch.runs k nows m = Except.ok m := by
  have h0 : fsm.process_event k now ev m = Except.ok m := by
    unfold fsm.process_event
    rw [if_pos h]
  refine ⟨h0, ?_, runs_in_Terminated k nows m h⟩
  unfold Dispatch.run
  split
  · rfl
  · exact fsm_poll_in_Terminated k now m h

/-- C19, witness: a machine in `Terminated` with one VM worker, polled three times. -/
theorem C19_Terminated_is_absorbing_witness :
    Dispatch.runs scenario.k0 [1, 2, 3]
        (scenario.machine fsm.State.Terminated (scenario.members true false ["t"]
          [scenario.handle packet_type.cluster_request_vm_node])) =
      Except.ok (scenario.machine fsm.State.Terminated (scenario.members true false ["t"]
          [scenario.handle packet_type.cluster_request_vm_node])) :=
  (C19_Terminated_is_absorbing scenario.k0 0 fsm.Event.poll [1, 2, 3]
    (scenario.machine fsm.State.Terminated (scenario.members true false ["t"]
      [scenario.handle packet_type.cluster_request_vm_node])) rfl).2.2

/-! ### The top-up loop of the `tx_trace` branch -/

theorem top_up_traces_result (k : Constants) (ps : List Path) :
    ∀ (fuel c : Nat) (ts : List Trace) (d : fsm.DispatchFSM_),
      d.trace_pool_.next_ = ps → ps.length < fuel →
      ∃ consumed rest, ps = consumed ++ rest ∧
        fsm.top_up_traces k fuel c ts d =
          (ts ++ consumed.filterMap (fsm.loaded d.disk),
           { d with
             trace_pool_ := { d.trace_pool_ with next_ := rest }
             exception_log_ := { d.exception_log_ with
               entries := d.exception_log_.entries ++ consumed.filterMap (fsm.thrown d.disk) } }) ∧
        (rest = [] ∨
          k.vm_trace_multiplier ≤ c + (consumed.filterMap (fsm.loaded d.disk)).length) ∧
        (∀ pre p suf, consumed = pre ++ p :: suf →
          c + (pre.filterMap (fsm.loaded d.disk)).length < k.vm_trace_multiplier) := by
  induction ps with
  | nil =>
      intro fuel c ts d hp hf
      obtain ⟨f, rfl⟩ : ∃ f, fuel = f + 1 := ⟨fuel - 1, by simp at hf; omega⟩
      refine ⟨[], [], rfl, ?_, Or.inl rfl, ?_⟩
      · unfold fsm.top_up_traces
        by_cases hc : c < 1 * k.vm_trace_multiplier
        · rw [if_pos hc]
          simp [fsm.next_trace, TracePool.next, hp]
          rw [← hp]
        · rw [if_neg hc]
          simp
          rw [← hp]
      · intro pre p suf h
        simp at h
  | cons p ps ih =>
      intro fuel c ts d hp hf
      obtain ⟨f, rfl⟩ : ∃ f, fuel = f + 1 := ⟨fuel - 1, by simp at hf; omega⟩
      have hf1 : ps.length < f := by simp at hf; omega
      by_cases hc : c < 1 * k.vm_trace_multiplier
      · cases hl : fsm.from_trace_file d.disk p with
        | ok t =>
            have hld : fsm.loaded d.disk p = some t := by simp [fsm.loaded, hl]
            have hth : fsm.thrown d.disk p = Option.none := by simp [fsm.thrown, hl]
            obtain ⟨consumed, rest, e1, e2, e3, e4⟩ :=
              ih f (c + 1) (ts ++ [t])
                { d with trace_pool_ := { d.trace_pool_ with next_ := ps } } rfl hf1
            refine ⟨p :: consumed, rest, by rw [e1]; rfl, ?_, ?_, ?_⟩
            · unfold fsm.top_up_traces
              rw [if_pos hc]
              simp only [fsm.next_trace, TracePool.next, hp, hl]
              rw [e2]
              simp [List.filterMap_cons, hld, hth]
            · rcases e3 with e3 | e3
              · exact Or.inl e3
              · right
                simp only [List.filterMap_cons, hld, List.length_cons]
                simp only at e3
                omega
            · intro pre q suf h
              cases pre with
              | nil => simpa using hc
              | cons a pre =>
                  simp only [List.cons_append, List.cons.injEq] at h
                  obtain ⟨rfl, h⟩ := h
                  have := e4 pre q suf h
                  simp only [List.filterMap_cons, hld, List.length_cons]
                  simp only at this
                  omega
        | error e =>
            have hld : fsm.loaded d.disk p = Option.none := by simp [fsm.loaded, hl]
            have hth : fsm.thrown d.disk p = some (log.Entry.exception e) := by
              simp [fsm.thrown, hl]
            obtain ⟨consumed, rest, e1, e2, e3, e4⟩ :=
              ih f c ts
                { d with
                  trace_pool_ := { d.trace_pool_ with next_ := ps }
                  exception_log_ := { d.exception_log_ with
                    entries := d.exception_log_.entries ++ [log.Entry.exception e] } } rfl hf1
            refine ⟨p :: consumed, rest, by rw [e1]; rfl, ?_, ?_, ?_⟩
            · unfold fsm.top_up_traces
              rw [if_pos hc]
              simp only [fsm.next_trace, TracePool.next, hp, hl]
              rw [e2]
              simp [List.filterMap_cons, hld, hth]
            · rcases e3 with e3 | e3
              · exact Or.inl e3
              · right
                simp only [List.filterMap_cons, hld]
                exact e3
            · intro pre q suf h
              cases pre with
              | nil => simpa using hc
              | cons a pre =>
                  simp only [List.cons_append, List.cons.injEq] at h
                  obtain ⟨rfl, h⟩ := h
                  have := e4 pre q suf h
                  simp only [List.filterMap_cons, hld]
                  exact this
      · refine ⟨[], p :: ps, rfl, ?_, Or.inr (by simp at hc ⊢; omega), ?_⟩
        · unfold fsm.top_up_traces
          rw [if_neg hc]
          simp
          rw [← hp]
        · intro pre q suf h
          simp at h

theorem svm_process_event_TxTrace (ts : List Trace) (m : svm.NodeFSM) (sys : Sys)
    (hst : m.state = svm.State.TxTrace) :
    svm.process_event (svm.Event.trace ts) m sys =
      Except.ok ({ m with state := svm.State.TraceTxed },
        cluster.poll (transmit_traces sys m.node_ ts) m.node_) := by
  obtain ⟨⟨n, te, er⟩, st⟩ := m
  simp only at hst
  subst hst
  have hrows : candidate_rows svm.transition_table svm.State.TxTrace svm.EventTag.trace =
      [⟨svm.State.TxTrace, svm.EventTag.trace, svm.State.TraceTxed,
        [svm.Action.tx_trace, svm.Action.rx_status], GuardExpr.none⟩] := by decide
  by_cases he : ts.isEmpty = true
  · simp [svm.process_event, svm.fired_row, svm.Event.tag, hrows, select_row, GuardExpr.eval,
      run_actions, svm.exec, transmit_traces, he]
  · simp [svm.process_event, svm.fired_row, svm.Event.tag, hrows, select_row, GuardExpr.eval,
      run_actions, svm.exec, transmit_traces, he]

/-! ### C14 -/

/-- C14: for an SVM machine in `TxTrace` whose handle holds a status with
`trace_count = c`, the top-up loop of the dispatch action takes a prefix `consumed` of
the entries the trace pool has to dispense, one call of `next_trace` per entry.  A call
that throws adds the exception to the exception log and nothing else: the traces
collected so far are kept, the count is not incremented (only loaded traces count
towards `vm_trace_multiplier`) and the loop goes on with the next entry, until the pool
has nothing left or `c` plus the number of loaded traces has reached the multiplier.  The
`trace` event then delivered carries exactly the traces whose call succeeded, in the
order in which they were obtained, and the machine sends them to the worker and moves
to `TraceTxed`. -/
theorem C14_tx_trace_top_up_survives_exceptions (k : Constants) (d : fsm.DispatchFSM_)
    (nfsm : svm.NodeFSM) (c : Nat)
    (hst : nfsm.state = svm.State.TxTrace)
    (hc : (nfsm.node_status d.sys).trace_count = c) :
    ∃ consumed rest, d.trace_pool_.next_ = consumed ++ rest ∧
      fsm.dispatch_svm_event k d nfsm =
        Except.ok (svm.Event.trace (consumed.filterMap (fsm.loaded d.disk)), nfsm,
          { d with
            trace_pool_ := { d.trace_pool_ with next_ := rest }
            exception_log_ := { d.exception_log_ with
              entries := d.exception_log_.entries ++ consumed.filterMap (fsm.thrown d.disk) } }) ∧
      (rest = [] ∨
        k.vm_trace_multiplier ≤ c + (consumed.filterMap (fsm.loaded d.disk)).length) ∧
      (∀ pre p suf, consumed = pre ++ p :: suf →
        c + (pre.filterMap (fsm.loaded d.disk)).length < k.vm_trace_multiplier) ∧
      ∃ r, fsm.dispatch_svm k d nfsm = Except.ok r ∧ r.1.state = svm.State.TraceTxed ∧
        r.2.node_registrar_ =
          (cluster.poll (transmit_traces d.sys nfsm.node_
            (consumed.filterMap (fsm.loaded d.disk))) nfsm.node_).nodes := by
  obtain ⟨consumed, rest, e1, e2, e3, e4⟩ :=
    top_up_traces_result k d.trace_pool_.next_ (d.trace_pool_.count_next + 1) c [] d rfl
      (by simp [TracePool.count_next])
  have h1 : nfsm.is_flag_active svm.Flag.test_rxed = false := by
    simp [svm.NodeFSM.is_flag_active, hst, svm.flag_list]
  have h2 : nfsm.is_flag_active svm.Flag.tx_trace = true := by
    simp [svm.NodeFSM.is_flag_active, hst, svm.flag_list]
  have hev : fsm.dispatch_svm_event k d nfsm =
        Except.ok (svm.Event.trace (consumed.filterMap (fsm.loaded d.disk)), nfsm,
          { d with
            trace_pool_ := { d.trace_pool_ with next_ := rest }
            exception_log_ := { d.exception_log_ with
              entries := d.exception_log_.entries ++ consumed.filterMap (fsm.thrown d.disk) } }) := by
    unfold fsm.dispatch_svm_event
    rw [h1, h2, hc, e2]
    simp
  refine ⟨consumed, rest, e1, hev, e3, e4, ?_⟩
  unfold fsm.dispatch_svm
  rw [hev]
  simp only [svm_process_event_TxTrace _ nfsm _ hst]
  exact ⟨_, rfl, rfl, rfl⟩

/-- C14, witness (scenario S6): the pool dispenses `u1`, whose file is gone, and then
`u2`.  The call for `u1` throws `file_missing`, which is logged; the loop goes on, loads
`u2`, and the `trace` event carries `u2`, which is sent to the worker. -/
theorem C14_tx_trace_top_up_survives_exceptions_witness :
    (∃ consumed rest, scenario.S6_members.trace_pool_.next_ = consumed ++ rest ∧
      fsm.dispatch_svm_event scenario.k0 scenario.S6_members
          (scenario.svm_in svm.State.TxTrace) =
        Except.ok (svm.Event.trace (consumed.filterMap (fsm.loaded scenario.S6_members.disk)),
          scenario.svm_in svm.State.TxTrace,
          { scenario.S6_members with
            trace_pool_ := { scenario.S6_members.trace_pool_ with next_ := rest }
            exception_log_ := { scenario.S6_members.exception_log_ with
              entries := scenario.S6_members.exception_log_.entries ++
                consumed.filterMap (fsm.thrown scenario.S6_members.disk) } }) ∧
      (rest = [] ∨ scenario.k0.vm_trace_multiplier ≤
        0 + (consumed.filterMap (fsm.loaded scenario.S6_members.disk)).length) ∧
      (∀ pre p suf, consumed = pre ++ p :: suf →
        0 + (pre.filterMap (fsm.loaded scenario.S6_members.disk)).length <
          scenario.k0.vm_trace_multiplier) ∧
      ∃ r, fsm.dispatch_svm scenario.k0 scenario.S6_members
          (scenario.svm_in svm.State.TxTrace) = Except.ok r ∧
        r.1.state = svm.State.TraceTxed ∧
        r.2.node_registrar_ =
          (cluster.poll (transmit_traces scenario.S6_members.sys
            (scenario.svm_in svm.State.TxTrace).node_
            (consumed.filterMap (fsm.loaded scenario.S6_members.disk)))
            (scenario.svm_in svm.State.TxTrace).node_).nodes) ∧
    (match fsm.dispatch_svm scenario.k0 scenario.S6_members
        (scenario.svm_in svm.State.TxTrace) with
      | Except.ok r => some (r.1.state, r.2.exception_log_.entries, r.2.trace_pool_.next_,
          r.2.node_registrar_.map (fun n => n.server.written))
      | Except.error _ => none) =
      some (svm.State.TraceTxed,
        [log.Entry.exception (Fault.file_missing ["dispatch-root", "ts", "trace", "u1"])], [],
        [[⟨5, packet_type.cluster_trace, Payload.traces [⟨"u2", 4⟩]⟩,
          ⟨5, packet_type.cluster_status_request, Payload.empty⟩]]) :=
  ⟨C14_tx_trace_top_up_survives_exceptions scenario.k0 scenario.S6_members
    (scenario.svm_in svm.State.TxTrace) 0 rfl rfl, by rfl⟩

/-! ### Decimal names -/

theorem digitChar_value (d : Nat) (h : d < 10) : (Nat.digitChar d).toNat - 48 = d := by
  interval_cases d <;> rfl

theorem toDigitsCore_value (fuel : Nat) :
    ∀ (n : Nat) (ds : List Char), n < fuel →
      ∃ pre, Nat.toDigitsCore 10 fuel n ds = pre ++ ds ∧ decimal_value pre = n := by
  induction fuel with
  | zero => intro n ds h; omega
  | succ fuel ih =>
      intro n ds h
      unfold Nat.toDigitsCore
      by_cases h0 : n / 10 = 0
      · refine ⟨[Nat.digitChar (n % 10)], by simp [h0], ?_⟩
        simp only [decimal_value, List.foldl_cons, List.foldl_nil, Nat.zero_mul, Nat.zero_add]
        rw [digitChar_value _ (Nat.mod_lt _ (by omega))]
        omega
      · obtain ⟨pre, e1, e2⟩ := ih (n / 10) (Nat.digitChar (n % 10) :: ds) (by omega)
        refine ⟨pre ++ [Nat.digitChar (n % 10)], by simp [h0, e1], ?_⟩
        simp only [decimal_value, List.foldl_append, List.foldl_cons, List.foldl_nil]
        rw [digitChar_value _ (Nat.mod_lt _ (by omega))]
        simp only [decimal_value] at e2
        rw [e2]
        omega

theorem toString_nat_injective (a b : Nat) (h : toString a = toString b) : a = b := by
  have h1 : Nat.toDigits 10 a = Nat.toDigits 10 b := by
    have := congrArg String.data h
    simpa [toString, Nat.repr, List.asString] using this
  obtain ⟨pa, ea, va⟩ := toDigitsCore_value (a + 1) a [] (by omega)
  obtain ⟨pb, eb, vb⟩ := toDigitsCore_value (b + 1) b [] (by omega)
  simp only [Nat.toDigits] at h1
  rw [ea, eb] at h1
  simp only [List.append_nil] at h1
  rw [← va, ← vb, h1]

/-! ### The filesystem after a write -/

theorem fs_exists_iff_names (d : FileSystem) (p : Path) :
    d.fs_exists p = true ↔ p ∈ d.names := by
  simp only [FileSystem.fs_exists, FileSystem.names, Bool.or_eq_true, List.mem_append,
    List.contains_iff_exists_mem_beq, beq_iff_eq, exists_eq_right']

theorem names_length (d : FileSystem) :
    d.names.length = d.dirs.length + d.files.length + d.symlinks.length := by
  simp [FileSystem.names, Nat.add_assoc]

theorem write_file_new (d : FileSystem) (p : Path) (c : FileContent)
    (h : d.fs_exists p = false) :
    d.write_file p c = { d with files := d.files ++ [(p, c)] } := by
  have hp : p ∉ d.names := by
    intro hm
    rw [← fs_exists_iff_names, h] at hm
    cases hm
  have hf : d.files.filter (fun q => !decide (q.1 = p)) = d.files := by
    rw [List.filter_eq_self]
    intro a ha
    have : a.1 ≠ p := by
      intro e
      apply hp
      simp only [FileSystem.names, List.mem_append, List.mem_map]
      exact Or.inl (Or.inr ⟨a, ha, e⟩)
    simp [this]
  simp [FileSystem.write_file, hf]

theorem fs_exists_add_file (d : FileSystem) (p q : Path) (c : FileContent) :
    FileSystem.fs_exists { d with files := d.files ++ [(p, c)] } q =
      (d.fs_exists q || decide (q = p)) := by
  rw [Bool.eq_iff_iff]
  simp only [fs_exists_iff_names, Bool.or_eq_true, decide_eq_true_eq, FileSystem.names,
    List.mem_append, List.map_append, List.map_cons, List.map_nil, List.mem_singleton]
  tauto

/-! ### The search for the first unused number -/

theorem first_unused_spec (disk : FileSystem) (p : Path) (fuel : Nat) :
    ∀ (i : Nat), i ≤ fsm.first_unused disk p fuel i ∧
      (∀ j, i ≤ j → j < fsm.first_unused disk p fuel i →
        disk.fs_exists (p ++ [toString j]) = true) ∧
      (disk.fs_exists (p ++ [toString (fsm.first_unused disk p fuel i)]) = false ∨
        fsm.first_unused disk p fuel i = i + fuel) := by
  induction fuel with
  | zero =>
      intro i
      simp only [fsm.first_unused]
      exact ⟨le_refl _, fun j h1 h2 => by omega, Or.inr rfl⟩
  | succ fuel ih =>
      intro i
      unfold fsm.first_unused
      by_cases he : disk.fs_exists (p ++ [toString i]) = true
      · rw [if_pos he]
        obtain ⟨a, b, c⟩ := ih (i + 1)
        refine ⟨by omega, ?_, ?_⟩
        · intro j h1 h2
          by_cases hj : j = i
          · rw [hj]; exact he
          · exact b j (by omega) h2
        · rcases c with c | c
          · exact Or.inl c
          · exact Or.inr (by omega)
      · rw [if_neg he]
        refine ⟨le_refl _, fun j h1 h2 => by omega, Or.inl ?_⟩
        simpa using he

theorem numbered_names_bound (disk : FileSystem) (p : Path) (n : Nat)
    (h : ∀ j, 1 ≤ j → j ≤ n → disk.fs_exists (p ++ [toString j]) = true) :
    n ≤ disk.names.length := by
  have hnd : ((List.range n).map (fun j => p ++ [toString (j + 1)])).Nodup := by
    apply List.Nodup.map _ (List.nodup_range n)
    intro a b hab
    have h1 : [toString (a + 1)] = [toString (b + 1)] := List.append_cancel_left hab
    have h2 := toString_nat_injective _ _ (List.head_eq_of_cons_eq h1)
    omega
  have hsub : (List.range n).map (fun j => p ++ [toString (j + 1)]) ⊆ disk.names := by
    intro q hq
    simp only [List.mem_map, List.mem_range] at hq
    obtain ⟨j, hj, rfl⟩ := hq
    exact (fs_exists_iff_names _ _).mp (h (j + 1) (by omega) (by omega))
  have := (hnd.subperm hsub).length_le
  simpa using this

theorem first_unused_is_smallest (disk : FileSystem) (p : Path) :
    1 ≤ fsm.first_unused disk p disk.names.length 1 ∧
    disk.fs_exists (p ++ [toString (fsm.first_unused disk p disk.names.length 1)]) = false ∧
    ∀ j, 1 ≤ j → j < fsm.first_unused disk p disk.names.length 1 →
      disk.fs_exists (p ++ [toString j]) = true := by
  obtain ⟨a, b, c⟩ := first_unused_spec disk p disk.names.length 1
  refine ⟨a, ?_, b⟩
  rcases c with c | c
  · exact c
  · by_contra hne
    have hex : disk.fs_exists (p ++ [toString (fsm.first_unused disk p disk.names.length 1)]) = true := by
      simpa using hne
    have := numbered_names_bound disk p (disk.names.length + 1) (by
      intro j h1 h2
      by_cases hj : j = disk.names.length + 1
      · rw [hj, show disk.names.length + 1 = 1 + disk.names.length by omega, ← c]
        exact hex
      · exact b j h1 (by omega))
    omega

theorem first_unused_eq (disk : FileSystem) (p : Path) (j : Nat)
    (h : ∀ i, 1 ≤ i → (disk.fs_exists (p ++ [toString i]) = true ↔ i ≤ j)) :
    fsm.first_unused disk p disk.names.length 1 = j + 1 := by
  obtain ⟨a, b, c⟩ := first_unused_is_smallest disk p
  by_contra hne
  rcases Nat.lt_or_gt_of_ne hne with hlt | hgt
  · have := (h _ a).mpr (by omega)
    rw [b] at this
    cases this
  · have := (h (j + 1) (by omega)).mp (c (j + 1) (by omega) hgt)
    omega

/-! ### Draining the error buffer -/

theorem is_dir_of_not_exists (d : FileSystem) (p : Path) (hne : p ≠ [])
    (h : d.fs_exists p = false) : d.is_dir p = false := by
  unfold FileSystem.fs_exists at h
  unfold FileSystem.is_dir
  cases hc : d.dirs.contains p
  · cases p with
    | nil => exact absurd rfl hne
    | cons a t => rfl
  · rw [hc, Bool.true_or, Bool.true_or] at h
    exact Bool.noConfusion h

theorem write_target_log_result (d : fsm.DispatchFSM_) (ne : log.NodeError) (subdir : String) :
    fsm.write_target_log d ne subdir =
      if d.disk.is_dir (d.root_ ++ [log_dir_name, subdir]) then
        Except.ok { d with disk := { d.disk with files := d.disk.files ++
          [(d.root_ ++ [log_dir_name, subdir] ++
              [toString (fsm.first_unused d.disk (d.root_ ++ [log_dir_name, subdir])
                d.disk.names.length 1)],
            FileContent.text ne.log)] } }
      else Except.error (Fault.file_open_failed (d.root_ ++ [log_dir_name, subdir] ++
        [toString (fsm.first_unused d.disk (d.root_ ++ [log_dir_name, subdir])
          d.disk.names.length 1)])) := by
  obtain ⟨_, hfree, _⟩ := first_unused_is_smallest d.disk (d.root_ ++ [log_dir_name, subdir])
  have hnd := is_dir_of_not_exists d.disk _ (by simp) hfree
  have hco : d.disk.can_open (d.root_ ++ [log_dir_name, subdir] ++
      [toString (fsm.first_unused d.disk (d.root_ ++ [log_dir_name, subdir])
        d.disk.names.length 1)]) = d.disk.is_dir (d.root_ ++ [log_dir_name, subdir]) := by
    simp only [FileSystem.can_open, List.dropLast_concat, hnd, Bool.not_false, Bool.and_true]
  unfold fsm.write_target_log
  simp only [← names_length]
  rw [hco, write_file_new _ _ _ hfree]
  by_cases hdir : d.disk.is_dir (d.root_ ++ [log_dir_name, subdir]) = true
  · simp [hdir]
  · simp [hdir]

theorem drain_errors_numbered (subdir : String) (es : List log.NodeError) :
    ∀ (fuel j : Nat) (d : fsm.DispatchFSM_), es.length ≤ fuel →
      d.disk.is_dir (d.root_ ++ [log_dir_name, subdir]) = true →
      (∀ i, 1 ≤ i →
        (d.disk.fs_exists (d.root_ ++ [log_dir_name, subdir] ++ [toString i]) = true ↔ i ≤ j)) →
      fsm.drain_errors subdir fuel es d = Except.ok ([], fsm.with_numbered_logs d subdir j es) := by
  induction es with
  | nil =>
      intro fuel j d _ _ _
      cases fuel <;> simp [fsm.drain_errors, fsm.with_numbered_logs]
  | cons e es ih =>
      intro fuel j d hf hdir hex
      obtain ⟨f, rfl⟩ : ∃ f, fuel = f + 1 := ⟨fuel - 1, by simp at hf; omega⟩
      have hw := write_target_log_result d e subdir
      rw [first_unused_eq d.disk _ j hex, if_pos hdir] at hw
      unfold fsm.drain_errors
      simp only [List.isEmpty_cons, Bool.not_false, if_true, fsm.pop_error, hw]
      rw [ih f (j + 1) _ (by simp at hf; omega) (by simpa [FileSystem.is_dir] using hdir)]
      · simp [fsm.with_numbered_logs, List.enumFrom_cons]
      · intro i hi
        simp only [fs_exists_add_file, Bool.or_eq_true, decide_eq_true_eq, hex i hi]
        constructor
        · rintro (h | h)
          · omega
          · have h1 : [toString i] = [toString (j + 1)] := List.append_cancel_left h
            have := toString_nat_injective _ _ (List.head_eq_of_cons_eq h1)
            omega
        · intro h
          by_cases h2 : i ≤ j
          · exact Or.inl h2
          · right
            rw [show i = j + 1 by omega]

theorem drain_errors_never_pops_empty (subdir : String) (fuel : Nat) :
    ∀ (es : List log.NodeError) (d : fsm.DispatchFSM_),
      fsm.drain_errors subdir fuel es d ≠ Except.error Fault.front_of_empty_queue := by
  induction fuel with
  | zero => intro es d h; simp [fsm.drain_errors] at h
  | succ fuel ih =>
      intro es d h
      unfold fsm.drain_errors at h
      cases es with
      | nil => simp at h
      | cons e es =>
          simp only [List.isEmpty_cons, Bool.not_false, if_true, fsm.pop_error] at h
          rw [write_target_log_result] at h
          split_ifs at h
          · exact ih _ _ h
          · simp at h

theorem vm_process_event_ErrorRxed (m : vm.NodeFSM) (sys : Sys)
    (hst : m.state = vm.State.ErrorRxed) :
    vm.process_event vm.Event.poll m sys = Except.ok ({ m with state := vm.State.RxStatus }, sys) := by
  obtain ⟨⟨n, f, tr, er, ii, u, di⟩, st⟩ := m
  simp only at hst
  subst hst
  have hrows : candidate_rows vm.transition_table vm.State.ErrorRxed vm.EventTag.poll =
      [⟨vm.State.ErrorRxed, vm.EventTag.poll, vm.State.RxStatus, [], GuardExpr.none⟩] := by
    decide
  simp [vm.process_event, vm.fired_row, vm.Event.tag, hrows, select_row, GuardExpr.eval,
    run_actions]

/-! ### C15 -/

/-- C15: when the dispatch action finds a VM machine in `ErrorRxed` that holds the errors
`es` (oldest first), the directory `log/vm` of the current root is there and holds no
file with a positive number as its name, then the action writes exactly one file per
error, named `1, 2, ...` up to the number of errors, the file `i` holding the log of the
`i`-th error, and nothing else on the disk; it appends one entry per error, in order and
tagged with the current target name, to the node-error log; the buffer is empty
afterwards, `pop_error` is never called on an empty buffer (for any buffer and any disk),
and the machine is given `poll`, on which it moves from `ErrorRxed` to `RxStatus`.  In
general `write_target_log` writes to the file named by the smallest positive number `i`
for which nothing named `i` exists in the subdirectory (and throws if this file cannot be
opened, that is when the subdirectory is missing). -/
theorem C15_error_draining (k : Constants) (d : fsm.DispatchFSM_) (nfsm : vm.NodeFSM)
    (hst : nfsm.state = vm.State.ErrorRxed)
    (hdir : d.disk.is_dir (d.root_ ++ [log_dir_name, dispatch_log_vm_dir_name]) = true)
    (hnone : ∀ i, 1 ≤ i → d.disk.fs_exists
      (d.root_ ++ [log_dir_name, dispatch_log_vm_dir_name] ++ [toString i]) = false) :
    fsm.dispatch_vm_event k d nfsm =
      Except.ok (vm.Event.poll, { nfsm with errors_ := [] },
        fsm.with_numbered_logs d dispatch_log_vm_dir_name 0 nfsm.errors_) ∧
    fsm.dispatch_vm k d nfsm =
      Except.ok ({ nfsm with errors_ := [], state := vm.State.RxStatus },
        fsm.with_numbered_logs d dispatch_log_vm_dir_name 0 nfsm.errors_) ∧
    (∀ (fuel : Nat) (es : List log.NodeError) (d1 : fsm.DispatchFSM_) (subdir : String),
      fsm.drain_errors subdir fuel es d1 ≠ Except.error Fault.front_of_empty_queue) ∧
    (∀ (d1 : fsm.DispatchFSM_) (ne : log.NodeError) (subdir : String),
      ∃ i, 1 ≤ i ∧
        d1.disk.fs_exists (d1.root_ ++ [log_dir_name, subdir] ++ [toString i]) = false ∧
        (∀ j, 1 ≤ j → j < i →
          d1.disk.fs_exists (d1.root_ ++ [log_dir_name, subdir] ++ [toString j]) = true) ∧
        fsm.write_target_log d1 ne subdir =
          if d1.disk.is_dir (d1.root_ ++ [log_dir_name, subdir]) then
            Except.ok { d1 with disk := { d1.disk with files := d1.disk.files ++
              [(d1.root_ ++ [log_dir_name, subdir] ++ [toString i], FileContent.text ne.log)] } }
          else Except.error (Fault.file_open_failed
            (d1.root_ ++ [log_dir_name, subdir] ++ [toString i]))) := by
  have h1 : nfsm.is_flag_active vm.Flag.trace_rxed = false := by
    simp [vm.NodeFSM.is_flag_active, hst, vm.flag_list]
  have h2 : nfsm.is_flag_active vm.Flag.tx_test = false := by
    simp [vm.NodeFSM.is_flag_active, hst, vm.flag_list]
  have h3 : nfsm.is_flag_active vm.Flag.error_rxed = true := by
    simp [vm.NodeFSM.is_flag_active, hst, vm.flag_list]
  have hdrain := drain_errors_numbered dispatch_log_vm_dir_name nfsm.errors_
    nfsm.errors_.length 0 d (le_refl _) hdir (by
      intro i hi
      rw [hnone i hi]
      constructor
      · intro h; cases h
      · intro h; omega)
  have hev : fsm.dispatch_vm_event k d nfsm =
      Except.ok (vm.Event.poll, { nfsm with errors_ := [] },
        fsm.with_numbered_logs d dispatch_log_vm_dir_name 0 nfsm.errors_) := by
    unfold fsm.dispatch_vm_event
    rw [h1, h2, h3, hdrain]
    simp
  refine ⟨hev, ?_, ?_, ?_⟩
  · unfold fsm.dispatch_vm
    rw [hev]
    simp only []
    rw [vm_process_event_ErrorRxed { nfsm with errors_ := [] } _ hst]
    rfl
  · intro fuel es d1 subdir
    exact drain_errors_never_pops_empty subdir fuel es d1
  · intro d1 ne subdir
    obtain ⟨a, b, c⟩ := first_unused_is_smallest d1.disk (d1.root_ ++ [log_dir_name, subdir])
    exact ⟨_, a, b, c, write_target_log_result d1 ne subdir⟩

/-- C15, witness (scenario S4): three errors, an empty `log/vm` directory, current target
`t1`: the files `1`, `2`, `3` hold the three logs, the node-error log has three entries
tagged `t1`, and the machine is in `RxStatus` with an empty buffer. -/
theorem C15_error_draining_witness :
    fsm.dispatch_vm scenario.k0 scenario.S4_members scenario.S4_machine =
      Except.ok ({ scenario.S4_machine with errors_ := [], state := vm.State.RxStatus },
        fsm.with_numbered_logs scenario.S4_members dispatch_log_vm_dir_name 0
          scenario.S4_machine.errors_) ∧
    (fsm.with_numbered_logs scenario.S4_members dispatch_log_vm_dir_name 0
        scenario.S4_machine.errors_).disk.files =
      [(["dispatch-root", "ts", "log", "vm", "1"], FileContent.text "e1"),
       (["dispatch-root", "ts", "log", "vm", "2"], FileContent.text "e2"),
       (["dispatch-root", "ts", "log", "vm", "3"], FileContent.text "e3")] ∧
    (fsm.with_numbered_logs scenario.S4_members dispatch_log_vm_dir_name 0
        scenario.S4_machine.errors_).node_error_log_.entries =
      [log.Entry.node_error "t1" "e1", log.Entry.node_error "t1" "e2",
       log.Entry.node_error "t1" "e3"] :=
  ⟨(C15_error_draining scenario.k0 scenario.S4_members scenario.S4_machine rfl (by decide)
      (by
        intro i _
        simp [FileSystem.fs_exists, scenario.S4_members, scenario.disk0, scenario.members,
          log_dir_name, dispatch_log_vm_dir_name])).2.1,
    by decide, by decide⟩

/-! ### Worker handles across protocol steps -/

theorem handle_step_refl (n : NodeData) : handle_step n n :=
  ⟨rfl, rfl, List.prefix_refl _, List.prefix_refl _, fun _ => rfl⟩

theorem handle_step_trans {a b c : NodeData} (h1 : handle_step a b) (h2 : handle_step b c) :
    handle_step a c := by
  refine ⟨h2.1.trans h1.1, h2.2.1.trans h1.2.1, h1.2.2.1.trans h2.2.2.1,
    h1.2.2.2.1.trans h2.2.2.2.1, ?_⟩
  intro hc
  have m1 := (h1.2.2.2.1.sublist).count_le packet_type.cluster_status
  have m2 := (h2.2.2.2.1.sublist).count_le packet_type.cluster_status
  rw [h2.2.2.2.2 (by omega), h1.2.2.2.2 (by omega)]

theorem handle_step_write (n : NodeData) (t : packet_type) (pl : Payload) :
    handle_step n (n.write t pl) :=
  ⟨rfl, rfl, List.prefix_append _ _, List.prefix_refl _, fun _ => rfl⟩

theorem handle_step_read (n : NodeData) (t : packet_type) : handle_step n (n.read t) :=
  ⟨rfl, rfl, List.prefix_refl _, List.prefix_append _ _, fun _ => rfl⟩

theorem handle_step_status (n : NodeData) :
    handle_step n
      { (n.write packet_type.cluster_status_request Payload.empty).read
          packet_type.cluster_status with
        status := n.server.remote.status } := by
  refine ⟨rfl, rfl, List.prefix_append _ _, List.prefix_append _ _, ?_⟩
  intro h
  simp [NodeData.read, NodeData.write] at h

theorem nodes_step_refl (l : List NodeData) : nodes_step l l :=
  List.forall₂_same.mpr (fun n _ => handle_step_refl n)

theorem nodes_step_trans {a b c : List NodeData} (h1 : nodes_step a b) (h2 : nodes_step b c) :
    nodes_step a c := by
  unfold nodes_step at *
  induction h1 generalizing c with
  | nil => cases h2; exact List.Forall₂.nil
  | cons hab _ ih =>
      cases h2 with
      | cons hbc htl => exact List.Forall₂.cons (handle_step_trans hab hbc) (ih htl)

theorem nodes_step_update_at (f : NodeData → NodeData) (hf : ∀ n, handle_step n (f n)) :
    ∀ (i : Nat) (l : List NodeData), nodes_step l (update_at f i l) := by
  intro i l
  induction l generalizing i with
  | nil => cases i <;> exact List.Forall₂.nil
  | cons x xs ih =>
      cases i with
      | zero => exact List.Forall₂.cons (hf x) (nodes_step_refl xs)
      | succ i => exact List.Forall₂.cons (handle_step_refl x) (ih i)

theorem nodes_step_with_node (sys : Sys) (i : Nat) (f : NodeData → NodeData)
    (hf : ∀ n, handle_step n (f n)) : nodes_step sys.nodes (sys.with_node i f).nodes :=
  nodes_step_update_at f hf i sys.nodes

/-! ### Guards, rows and actions under a relation on contexts -/

theorem eval_rel {G C : Type} (R : C → C → Prop) (hr : ∀ c, R c c)
    (ht : ∀ a b c, R a b → R b c → R a c) (atom : G → C → Bool × C)
    (ha : ∀ g c, R c (atom g c).2) :
    ∀ (e : GuardExpr G) (c : C), R c (e.eval atom c).2 := by
  intro e
  induction e with
  | none => intro c; exact hr c
  | atom g => intro c; exact ha g c
  | Not_ e ih => intro c; exact ih c
  | And_ a b iha ihb =>
      intro c
      simp only [GuardExpr.eval]
      split
      · exact ht _ _ _ (iha c) (ihb _)
      · exact iha c
  | Or_ a b iha ihb =>
      intro c
      simp only [GuardExpr.eval]
      split
      · exact iha c
      · exact ht _ _ _ (iha c) (ihb _)

theorem select_row_rel {S T G A C : Type} (R : C → C → Prop) (hr : ∀ c, R c c)
    (ht : ∀ a b c, R a b → R b c → R a c) (atom : G → C → Bool × C)
    (ha : ∀ g c, R c (atom g c).2) :
    ∀ (rows : List (Row S T G A)) (c : C), R c (select_row atom rows c).2 := by
  intro rows
  induction rows with
  | nil => intro c; exact hr c
  | cons r rs ih =>
      intro c
      simp only [select_row]
      split
      · exact eval_rel R hr ht atom ha _ c
      · exact ht _ _ _ (eval_rel R hr ht atom ha r.guard c) (ih _)

theorem run_actions_rel {A C : Type} (R : C → C → Prop) (hr : ∀ c, R c c)
    (ht : ∀ a b c, R a b → R b c → R a c) (exec : A → C → Except Fault C)
    (he : ∀ a c c1, exec a c = Except.ok c1 → R c c1) :
    ∀ (as : List A) (c c1 : C), run_actions exec as c = Except.ok c1 → R c c1 := by
  intro as
  induction as with
  | nil =>
      intro c c1 h
      simp only [run_actions, Except.ok.injEq] at h
      rw [← h]
      exact hr c
  | cons a as ih =>
      intro c c1 h
      simp only [run_actions] at h
      cases hx : exec a c with
      | ok c2 =>
          rw [hx] at h
          exact ht _ _ _ (he a c c2 hx) (ih c2 c1 h)
      | error e =>
          rw [hx] at h
          cases h

/-! ### The worker machines leave the handles in step -/

theorem receive_step (sys : Sys) (node : Nat) :
    nodes_step sys.nodes (receive_traces sys node).2.nodes ∧
    nodes_step sys.nodes (receive_tests sys node).2.nodes ∧
    nodes_step sys.nodes (receive_errors sys node).2.nodes ∧
    nodes_step sys.nodes (receive_image_info sys node).2.nodes :=
  ⟨nodes_step_with_node _ _ _ (fun n => handle_step_trans (handle_step_write n _ _)
      (handle_step_read _ _)),
   nodes_step_with_node _ _ _ (fun n => handle_step_trans (handle_step_write n _ _)
      (handle_step_read _ _)),
   nodes_step_with_node _ _ _ (fun n => handle_step_trans (handle_step_write n _ _)
      (handle_step_read _ _)),
   nodes_step_with_node _ _ _ (fun n => handle_step_trans (handle_step_write n _ _)
      (handle_step_read _ _))⟩

theorem transmit_step (sys : Sys) (node : Nat) :
    (∀ ts, nodes_step sys.nodes (transmit_traces sys node ts).nodes) ∧
    (∀ ts, nodes_step sys.nodes (transmit_tests sys node ts).nodes) ∧
    nodes_step sys.nodes (transmit_commencement sys node).nodes ∧
    (∀ ii, nodes_step sys.nodes (transmit_image_info sys node ii).nodes) ∧
    (∀ o, nodes_step sys.nodes (transmit_config sys node o).nodes) ∧
    nodes_step sys.nodes (cluster.poll sys node).nodes := by
  refine ⟨?_, ?_, ?_, ?_, ?_, ?_⟩
  · intro ts
    unfold transmit_traces
    split
    · exact nodes_step_refl _
    · exact nodes_step_with_node _ _ _ (fun n => handle_step_write n _ _)
  · intro ts
    unfold transmit_tests
    split
    · exact nodes_step_refl _
    · exact nodes_step_with_node _ _ _ (fun n => handle_step_write n _ _)
  · exact nodes_step_with_node _ _ _ (fun n => handle_step_write n _ _)
  · intro ii
    exact nodes_step_with_node _ _ _ (fun n => handle_step_write n _ _)
  · intro o
    exact nodes_step_with_node _ _ _ (fun n => handle_step_write n _ _)
  · exact nodes_step_with_node _ _ _ (fun n => handle_step_status n)

theorem vm_guard_step (ev : vm.Event) (g : vm.Guard) (c : vm.Ctx) :
    nodes_step c.2.nodes (vm.guard ev g c).2.2.nodes := by
  obtain ⟨⟨n, f, tr, er, ii, u, di⟩, sys⟩ := c
  cases g with
  | is_image_valid =>
      cases ev with
      | image p =>
          cases ii with
          | some w =>
              simp only [vm.guard, vm.is_image_valid]
              split_ifs <;> exact nodes_step_refl _
          | none =>
              simp only [vm.guard, vm.is_image_valid]
              split_ifs <;> exact (receive_step sys n).2.2.2
      | _ => exact nodes_step_refl _
  | _ => exact nodes_step_refl _

theorem vm_exec_step (ev : vm.Event) (a : vm.Action) (c c1 : vm.Ctx)
    (h : vm.exec ev a c = Except.ok c1) : nodes_step c.2.nodes c1.2.nodes := by
  have ts := transmit_step c.2 c.1.node_
  have rs := receive_step c.2 c.1.node_
  cases a <;> cases ev <;> simp only [vm.exec, Except.ok.injEq] at h <;>
    first
    | (rw [← h]; first
        | exact nodes_step_refl _
        | exact ts.2.2.1
        | exact ts.2.2.2.2.2
        | exact ts.2.2.2.2.1 _
        | exact ts.2.2.2.1 _
        | exact rs.1
        | exact rs.2.2.1)
    | skip
  · unfold vm.update_image at h
    split_ifs at h
    simp only [Except.ok.injEq] at h
    rw [← h]
    exact nodes_step_with_node _ _ _ (fun n => handle_step_write n _ _)
  · split_ifs at h <;> simp only [Except.ok.injEq] at h <;> rw [← h]
    · exact nodes_step_refl _
    · exact ts.2.1 _

theorem vm_process_event_step (ev : vm.Event) (m : vm.NodeFSM) (sys : Sys)
    (r : vm.NodeFSM × Sys) (h : vm.process_event ev m sys = Except.ok r) :
    nodes_step sys.nodes r.2.nodes := by
  have hsel := select_row_rel (fun (c c1 : vm.Ctx) => nodes_step c.2.nodes c1.2.nodes)
    (fun c => nodes_step_refl _) (fun _ _ _ => nodes_step_trans) (vm.guard ev)
    (vm_guard_step ev) (candidate_rows vm.transition_table m.state ev.tag) (m.toVMNodeFSM_, sys)
  unfold vm.process_event at h
  split_ifs at h
  simp only [vm.fired_row] at h
  split at h
  · simp only [Except.ok.injEq] at h
    rw [← h]
    exact hsel
  · split at h
    · rename_i c hc
      simp only [Except.ok.injEq] at h
      rw [← h]
      exact nodes_step_trans hsel
        (run_actions_rel (fun (c c1 : vm.Ctx) => nodes_step c.2.nodes c1.2.nodes)
          (fun c => nodes_step_refl _) (fun _ _ _ => nodes_step_trans) (vm.exec ev)
          (vm_exec_step ev) _ _ _ hc)
    · cases h

theorem svm_guard_step (ev : svm.Event) (g : svm.Guard) (c : svm.Ctx) :
    nodes_step c.2.nodes (svm.guard ev g c).2.2.nodes := by
  cases g <;> exact nodes_step_refl _

theorem svm_exec_step (ev : svm.Event) (a : svm.Action) (c c1 : svm.Ctx)
    (h : svm.exec ev a c = Except.ok c1) : nodes_step c.2.nodes c1.2.nodes := by
  have ts := transmit_step c.2 c.1.node_
  have rs := receive_step c.2 c.1.node_
  cases a <;> cases ev <;> simp only [svm.exec, Except.ok.injEq] at h <;>
    first
    | (rw [← h]; first
        | exact nodes_step_refl _
        | exact ts.2.2.1
        | exact ts.2.2.2.2.2
        | exact ts.2.2.2.2.1 _
        | exact rs.2.1
        | exact rs.2.2.1)
    | skip
  · split_ifs at h <;> simp only [Except.ok.injEq] at h <;> rw [← h]
    · exact nodes_step_refl _
    · exact ts.1 _

theorem svm_process_event_step (ev : svm.Event) (m : svm.NodeFSM) (sys : Sys)
    (r : svm.NodeFSM × Sys) (h : svm.process_event ev m sys = Except.ok r) :
    nodes_step sys.nodes r.2.nodes := by
  have hsel := select_row_rel (fun (c c1 : svm.Ctx) => nodes_step c.2.nodes c1.2.nodes)
    (fun c => nodes_step_refl _) (fun _ _ _ => nodes_step_trans) (svm.guard ev)
    (svm_guard_step ev) (candidate_rows svm.transition_table m.state ev.tag)
    (m.toSVMNodeFSM_, sys)
  unfold svm.process_event at h
  split_ifs at h
  simp only [svm.fired_row] at h
  split at h
  · simp only [Except.ok.injEq] at h
    rw [← h]
    exact hsel
  · split at h
    · rename_i c hc
      simp only [Except.ok.injEq] at h
      rw [← h]
      exact nodes_step_trans hsel
        (run_actions_rel (fun (c c1 : svm.Ctx) => nodes_step c.2.nodes c1.2.nodes)
          (fun c => nodes_step_refl _) (fun _ _ _ => nodes_step_trans) (svm.exec ev)
          (svm_exec_step ev) _ _ _ hc)
    · cases h

/-! ### The pools across a pass -/

theorem pool_step_refl {α : Type} (all next : List α) : pool_step all next all next :=
  ⟨[], by simp, by simp⟩

theorem pool_step_trans {α : Type} {a n a1 n1 a2 n2 : List α} (h1 : pool_step a n a1 n1)
    (h2 : pool_step a1 n1 a2 n2) : pool_step a n a2 n2 := by
  obtain ⟨x, e1, s1⟩ := h1
  obtain ⟨y, e2, s2⟩ := h2
  refine ⟨x ++ y, by rw [e2, e1, List.append_assoc], ?_⟩
  obtain ⟨pre, hpre⟩ := s1
  refine s2.trans ⟨pre, ?_⟩
  rw [← List.append_assoc, ← List.append_assoc, hpre]

theorem pool_step_tail {α : Type} (all : List α) (x : α) (rest : List α) :
    pool_step all (x :: rest) all rest :=
  ⟨[], by simp, by simp⟩

theorem pool_step_drop {α : Type} (all next : List α) (j : Nat) :
    pool_step all next all (next.drop j) :=
  ⟨[], by simp, by simpa using List.drop_suffix j next⟩

theorem trace_pool_insert_step (tp : TracePool) (p : Path) :
    pool_step tp.all_ tp.next_ (tp.insert p).all_ (tp.insert p).next_ := by
  unfold TracePool.insert
  split
  · exact pool_step_refl _ _
  · exact ⟨[p], rfl, List.suffix_refl _⟩

theorem test_pool_insert_one_step (tp : TestPool) (tc : TestCase) :
    pool_step tp.all_ tp.next_ (tp.insert_one tc).all_ (tp.insert_one tc).next_ := by
  unfold TestPool.insert_one
  split
  · exact pool_step_refl _ _
  · exact ⟨[tc], rfl, List.suffix_refl _⟩

theorem test_pool_insert_step (tcs : List TestCase) :
    ∀ (tp : TestPool), pool_step tp.all_ tp.next_ (tp.insert tcs).all_ (tp.insert tcs).next_ := by
  induction tcs with
  | nil => intro tp; exact pool_step_refl _ _
  | cons tc tcs ih =>
      intro tp
      exact pool_step_trans (test_pool_insert_one_step tp tc) (ih (tp.insert_one tc))

theorem pool_step_nothing_added {α : Type} {a n a1 n1 : List α} (h : pool_step a n a1 n1)
    (hall : a1 = a) (hn : n = []) : n1 = [] := by
  obtain ⟨x, e1, s1⟩ := h
  have hx : x = [] := by
    have := hall.symm.trans e1
    simpa using this
  rw [hn, hx] at s1
  exact List.suffix_nil.mp s1

/-! ### The members of the dispatcher across a pass -/

theorem pass_step_refl (d : fsm.DispatchFSM_) : fsm.pass_step d d :=
  ⟨rfl, nodes_step_refl _, pool_step_refl _ _, pool_step_refl _ _⟩

theorem pass_step_trans {a b c : fsm.DispatchFSM_} (h1 : fsm.pass_step a b)
    (h2 : fsm.pass_step b c) : fsm.pass_step a c := by
  refine ⟨?_, nodes_step_trans h1.2.1 h2.2.1, pool_step_trans h1.2.2.1 h2.2.2.1,
    pool_step_trans h1.2.2.2 h2.2.2.2⟩
  have e1 := h1.1
  have e2 := h2.1
  cases a
  cases b
  cases c
  simp only [fsm.DispatchFSM_.mk.injEq, true_and, and_true] at e1 e2 ⊢
  simp_all

theorem to_trace_pool_one_shape (d d1 : fsm.DispatchFSM_) (t : Trace)
    (h : fsm.to_trace_pool_one d t = Except.ok d1) :
    d1 = { d with disk := d1.disk, trace_pool_ := d1.trace_pool_ } ∧
    pool_step d.trace_pool_.all_ d.trace_pool_.next_ d1.trace_pool_.all_ d1.trace_pool_.next_ := by
  simp only [fsm.to_trace_pool_one] at h
  split_ifs at h <;> simp only [Except.ok.injEq] at h <;> rw [← h] <;>
    exact ⟨rfl, trace_pool_insert_step _ _⟩

theorem to_trace_pool_shape (ts : List Trace) :
    ∀ (d d1 : fsm.DispatchFSM_), fsm.to_trace_pool d ts = Except.ok d1 →
      d1 = { d with disk := d1.disk, trace_pool_ := d1.trace_pool_ } ∧
      pool_step d.trace_pool_.all_ d.trace_pool_.next_ d1.trace_pool_.all_
        d1.trace_pool_.next_ := by
  induction ts with
  | nil =>
      intro d d1 h
      simp only [fsm.to_trace_pool, Except.ok.injEq] at h
      rw [← h]
      exact ⟨rfl, pool_step_refl _ _⟩
  | cons t ts ih =>
      intro d d1 h
      simp only [fsm.to_trace_pool] at h
      cases h1 : fsm.to_trace_pool_one d t with
      | error x => rw [h1] at h; cases h
      | ok d2 =>
          rw [h1] at h
          obtain ⟨e1, p1⟩ := to_trace_pool_one_shape d d2 t h1
          obtain ⟨e2, p2⟩ := ih d2 d1 h
          refine ⟨?_, pool_step_trans p1 p2⟩
          rw [e2, e1]

theorem drain_errors_shape (subdir : String) (fuel : Nat) :
    ∀ (es : List log.NodeError) (d : fsm.DispatchFSM_) (r : List log.NodeError × fsm.DispatchFSM_),
      fsm.drain_errors subdir fuel es d = Except.ok r →
      r.2 = { d with disk := r.2.disk, node_error_log_ := r.2.node_error_log_ } := by
  induction fuel with
  | zero =>
      intro es d r h
      simp only [fsm.drain_errors, Except.ok.injEq] at h
      rw [← h]
  | succ fuel ih =>
      intro es d r h
      unfold fsm.drain_errors at h
      cases es with
      | nil =>
          simp only [List.isEmpty_nil, Bool.not_true, Bool.false_eq_true, if_false,
            Except.ok.injEq] at h
          rw [← h]
      | cons e es =>
          simp only [List.isEmpty_cons, Bool.not_false, if_true, fsm.pop_error] at h
          rw [write_target_log_result] at h
          split_ifs at h
          have := ih _ _ _ h
          rw [this]

theorem pass_step_of_pools (d d1 : fsm.DispatchFSM_)
    (h : d1 = { d with
      disk := d1.disk, trace_pool_ := d1.trace_pool_, test_pool_ := d1.test_pool_,
      node_error_log_ := d1.node_error_log_, exception_log_ := d1.exception_log_ })
    (h1 : pool_step d.trace_pool_.all_ d.trace_pool_.next_ d1.trace_pool_.all_
      d1.trace_pool_.next_)
    (h2 : pool_step d.test_pool_.all_ d.test_pool_.next_ d1.test_pool_.all_
      d1.test_pool_.next_) : fsm.pass_step d d1 := by
  refine ⟨?_, ?_, h1, h2⟩
  · rw [h]
  · rw [h]
    exact nodes_step_refl _

theorem vm_flag_trace_rxed (nfsm : vm.NodeFSM) :
    nfsm.is_flag_active vm.Flag.trace_rxed = true ↔ nfsm.state = vm.State.TraceRxed := by
  unfold vm.NodeFSM.is_flag_active
  cases nfsm.state <;> decide

theorem svm_flag_test_rxed (nfsm : svm.NodeFSM) :
    nfsm.is_flag_active svm.Flag.test_rxed = true ↔ nfsm.state = svm.State.TestRxed := by
  unfold svm.NodeFSM.is_flag_active
  cases nfsm.state <;> decide

theorem dispatch_vm_event_step (k : Constants) (d d1 : fsm.DispatchFSM_)
    (nfsm n1 : vm.NodeFSM) (ev : vm.Event)
    (h : fsm.dispatch_vm_event k d nfsm = Except.ok (ev, n1, d1)) :
    fsm.pass_step d d1 ∧ d1.node_registrar_ = d.node_registrar_ ∧ n1.state = nfsm.state ∧
    (nfsm.state ≠ vm.State.TraceRxed → d1.trace_pool_ = d.trace_pool_) ∧
    d1.test_pool_.all_ = d.test_pool_.all_ := by
  unfold fsm.dispatch_vm_event at h
  split_ifs at h with f1 f2 f3 f4 f5
  · cases h1 : fsm.to_trace_pool d nfsm.traces_ with
    | error x => rw [h1] at h; cases h
    | ok d2 =>
        rw [h1] at h
        simp only [Except.ok.injEq, Prod.mk.injEq] at h
        obtain ⟨-, rfl, rfl⟩ := h
        obtain ⟨e, p⟩ := to_trace_pool_shape _ _ _ h1
        refine ⟨pass_step_of_pools d d2 (by rw [e]) p (by rw [e]; exact pool_step_refl _ _),
          by rw [e], rfl, ?_, by rw [e]⟩
        intro hne
        exact absurd ((vm_flag_trace_rxed nfsm).mp f1) hne
  · simp only [Except.ok.injEq, Prod.mk.injEq] at h
    obtain ⟨-, rfl, rfl⟩ := h
    rw [top_up_tests_result k k.vm_test_multiplier _ [] d (by omega)]
    exact ⟨pass_step_of_pools d _ rfl (pool_step_refl _ _) (pool_step_drop _ _ _),
      rfl, rfl, fun _ => rfl, rfl⟩
  · cases h1 : fsm.drain_errors dispatch_log_vm_dir_name nfsm.errors_.length nfsm.errors_ d with
    | error x => rw [h1] at h; cases h
    | ok r =>
        rw [h1] at h
        simp only [Except.ok.injEq, Prod.mk.injEq] at h
        obtain ⟨-, rfl, rfl⟩ := h
        have e := drain_errors_shape _ _ _ _ _ h1
        exact ⟨pass_step_of_pools d r.2 (by rw [e])
            (by rw [e]; exact pool_step_refl _ _) (by rw [e]; exact pool_step_refl _ _),
          by rw [e], rfl, fun _ => by rw [e], by rw [e]⟩
  all_goals
    simp only [Except.ok.injEq, Prod.mk.injEq] at h
    obtain ⟨-, rfl, rfl⟩ := h
    exact ⟨pass_step_refl _, rfl, rfl, fun _ => rfl, rfl⟩

theorem dispatch_svm_event_step (k : Constants) (d d1 : fsm.DispatchFSM_)
    (nfsm n1 : svm.NodeFSM) (ev : svm.Event)
    (h : fsm.dispatch_svm_event k d nfsm = Except.ok (ev, n1, d1)) :
    fsm.pass_step d d1 ∧ d1.node_registrar_ = d.node_registrar_ ∧ n1.state = nfsm.state ∧
    (nfsm.state ≠ svm.State.TestRxed → d1.test_pool_ = d.test_pool_) ∧
    d1.trace_pool_.all_ = d.trace_pool_.all_ := by
  unfold fsm.dispatch_svm_event at h
  split_ifs at h with f1 f2 f3 f4
  · simp only [Except.ok.injEq, Prod.mk.injEq] at h
    obtain ⟨-, rfl, rfl⟩ := h
    refine ⟨pass_step_of_pools d _ rfl (pool_step_refl _ _) (test_pool_insert_step _ _),
      rfl, rfl, ?_, rfl⟩
    intro hne
    exact absurd ((svm_flag_test_rxed nfsm).mp f1) hne
  · simp only [Except.ok.injEq, Prod.mk.injEq] at h
    obtain ⟨-, rfl, rfl⟩ := h
    obtain ⟨consumed, rest, e1, e2, -, -⟩ :=
      top_up_traces_result k d.trace_pool_.next_ (d.trace_pool_.count_next + 1)
        (nfsm.node_status d.sys).trace_count [] d rfl (by simp [TracePool.count_next])
    rw [e2]
    refine ⟨pass_step_of_pools d _ rfl ⟨[], by simp, ?_⟩ (pool_step_refl _ _),
      rfl, rfl, fun _ => rfl, rfl⟩
    simp only [List.append_nil, e1]
    exact List.suffix_append _ _
  · cases h1 : fsm.drain_errors dispatch_log_svm_dir_name nfsm.errors_.length nfsm.errors_ d with
    | error x => rw [h1] at h; cases h
    | ok r =>
        rw [h1] at h
        simp only [Except.ok.injEq, Prod.mk.injEq] at h
        obtain ⟨-, rfl, rfl⟩ := h
        have e := drain_errors_shape _ _ _ _ _ h1
        exact ⟨pass_step_of_pools d r.2 (by rw [e])
            (by rw [e]; exact pool_step_refl _ _) (by rw [e]; exact pool_step_refl _ _),
          by rw [e], rfl, fun _ => by rw [e], by rw [e]⟩
  all_goals
    simp only [Except.ok.injEq, Prod.mk.injEq] at h
    obtain ⟨-, rfl, rfl⟩ := h
    exact ⟨pass_step_refl _, rfl, rfl, fun _ => rfl, rfl⟩

theorem select_row_mem {S T G A C : Type} (atom : G → C → Bool × C) :
    ∀ (rows : List (Row S T G A)) (c : C) (r : Row S T G A),
      (select_row atom rows c).1 = some r → r ∈ rows := by
  intro rows
  induction rows with
  | nil => intro c r h; simp [select_row] at h
  | cons x xs ih =>
      intro c r h
      simp only [select_row] at h
      split at h
      · simp only [Option.some.injEq] at h
        rw [← h]
        exact List.mem_cons_self _ _
      · exact List.mem_cons_of_mem _ (ih _ _ h)

theorem candidate_rows_mem {S T G A : Type} [DecidableEq S] [DecidableEq T]
    (table : List (Row S T G A)) (s : S) (t : T) (r : Row S T G A)
    (h : r ∈ candidate_rows table s t) : r ∈ table ∧ r.source = s ∧ r.event = t := by
  simp only [candidate_rows, List.mem_reverse, List.mem_filter, Bool.and_eq_true,
    decide_eq_true_eq] at h
  exact ⟨h.1, h.2.1, h.2.2⟩

theorem vm_process_event_one_transition (ev : vm.Event) (m : vm.NodeFSM) (sys : Sys)
    (r : vm.NodeFSM × Sys) (h : vm.process_event ev m sys = Except.ok r) :
    r.1.state = m.state ∨ ∃ row ∈ vm.transition_table,
      row.source = m.state ∧ row.event = ev.tag ∧ row.target = r.1.state := by
  unfold vm.process_event at h
  split_ifs at h
  simp only [vm.fired_row] at h
  split at h
  · simp only [Except.ok.injEq] at h
    rw [← h]
    exact Or.inl rfl
  · rename_i row hrow
    split at h
    · simp only [Except.ok.injEq] at h
      rw [← h]
      obtain ⟨a, b, c⟩ := candidate_rows_mem _ _ _ _ (select_row_mem _ _ _ _ hrow)
      exact Or.inr ⟨row, a, b, c, rfl⟩
    · cases h

theorem svm_process_event_one_transition (ev : svm.Event) (m : svm.NodeFSM) (sys : Sys)
    (r : svm.NodeFSM × Sys) (h : svm.process_event ev m sys = Except.ok r) :
    r.1.state = m.state ∨ ∃ row ∈ svm.transition_table,
      row.source = m.state ∧ row.event = ev.tag ∧ row.target = r.1.state := by
  unfold svm.process_event at h
  split_ifs at h
  simp only [svm.fired_row] at h
  split at h
  · simp only [Except.ok.injEq] at h
    rw [← h]
    exact Or.inl rfl
  · rename_i row hrow
    split at h
    · simp only [Except.ok.injEq] at h
      rw [← h]
      obtain ⟨a, b, c⟩ := candidate_rows_mem _ _ _ _ (select_row_mem _ _ _ _ hrow)
      exact Or.inr ⟨row, a, b, c, rfl⟩
    · cases h

theorem dispatch_vm_step (k : Constants) (d : fsm.DispatchFSM_) (nfsm : vm.NodeFSM)
    (r : vm.NodeFSM × fsm.DispatchFSM_) (h : fsm.dispatch_vm k d nfsm = Except.ok r) :
    fsm.pass_step d r.2 ∧ vm.one_step nfsm r.1 ∧
    (nfsm.state ≠ vm.State.TraceRxed → r.2.trace_pool_ = d.trace_pool_) ∧
    r.2.test_pool_.all_ = d.test_pool_.all_ := by
  unfold fsm.dispatch_vm at h
  cases h1 : fsm.dispatch_vm_event k d nfsm with
  | error x => rw [h1] at h; cases h
  | ok v =>
      obtain ⟨ev, n1, d1⟩ := v
      rw [h1] at h
      simp only at h
      cases h2 : vm.process_event ev n1 d1.sys with
      | error x => rw [h2] at h; cases h
      | ok w =>
          rw [h2] at h
          simp only [Except.ok.injEq] at h
          rw [← h]
          obtain ⟨p, -, hs, ht, hq⟩ := dispatch_vm_event_step k d d1 nfsm n1 ev h1
          have hone := vm_process_event_one_transition ev n1 d1.sys w h2
          rw [hs] at hone
          exact ⟨pass_step_trans p
              ⟨rfl, vm_process_event_step ev n1 d1.sys w h2, pool_step_refl _ _,
                pool_step_refl _ _⟩,
            ⟨ev, n1, d1.sys, w.2, hs, h2, hone⟩, ht, hq⟩

theorem dispatch_svm_step (k : Constants) (d : fsm.DispatchFSM_) (nfsm : svm.NodeFSM)
    (r : svm.NodeFSM × fsm.DispatchFSM_) (h : fsm.dispatch_svm k d nfsm = Except.ok r) :
    fsm.pass_step d r.2 ∧ svm.one_step nfsm r.1 ∧
    (nfsm.state ≠ svm.State.TestRxed → r.2.test_pool_ = d.test_pool_) ∧
    r.2.trace_pool_.all_ = d.trace_pool_.all_ := by
  unfold fsm.dispatch_svm at h
  cases h1 : fsm.dispatch_svm_event k d nfsm with
  | error x => rw [h1] at h; cases h
  | ok v =>
      obtain ⟨ev, n1, d1⟩ := v
      rw [h1] at h
      simp only at h
      cases h2 : svm.process_event ev n1 d1.sys with
      | error x => rw [h2] at h; cases h
      | ok w =>
          rw [h2] at h
          simp only [Except.ok.injEq] at h
          rw [← h]
          obtain ⟨p, -, hs, ht, hq⟩ := dispatch_svm_event_step k d d1 nfsm n1 ev h1
          have hone := svm_process_event_one_transition ev n1 d1.sys w h2
          rw [hs] at hone
          exact ⟨pass_step_trans p
              ⟨rfl, svm_process_event_step ev n1 d1.sys w h2, pool_step_refl _ _,
                pool_step_refl _ _⟩,
            ⟨ev, n1, d1.sys, w.2, hs, h2, hone⟩, ht, hq⟩

theorem dispatch_vm_loop_step (k : Constants) (l : List vm.NodeFSM) :
    ∀ (done : List vm.NodeFSM) (d : fsm.DispatchFSM_) (r : List vm.NodeFSM × fsm.DispatchFSM_),
      fsm.dispatch_vm_loop k l done d = Except.ok r →
      fsm.pass_step d r.2 ∧ ∃ res, r.1 = done ++ res ∧ List.Forall₂ vm.one_step l res := by
  induction l with
  | nil =>
      intro done d r h
      simp only [fsm.dispatch_vm_loop, Except.ok.injEq] at h
      rw [← h]
      exact ⟨pass_step_refl _, [], by simp, List.Forall₂.nil⟩
  | cons x xs ih =>
      intro done d r h
      simp only [fsm.dispatch_vm_loop] at h
      cases h1 : fsm.dispatch_vm k d x with
      | error e => rw [h1] at h; cases h
      | ok v =>
          rw [h1] at h
          obtain ⟨p1, o1, -, -⟩ := dispatch_vm_step k d x v h1
          obtain ⟨p2, res, e2, f2⟩ := ih _ _ _ h
          exact ⟨pass_step_trans p1 p2, v.1 :: res, by rw [e2]; simp,
            List.Forall₂.cons o1 f2⟩

theorem dispatch_svm_loop_step (k : Constants) (l : List svm.NodeFSM) :
    ∀ (done : List svm.NodeFSM) (d : fsm.DispatchFSM_) (r : List svm.NodeFSM × fsm.DispatchFSM_),
      fsm.dispatch_svm_loop k l done d = Except.ok r →
      fsm.pass_step d r.2 ∧ ∃ res, r.1 = done ++ res ∧ List.Forall₂ svm.one_step l res := by
  induction l with
  | nil =>
      intro done d r h
      simp only [fsm.dispatch_svm_loop, Except.ok.injEq] at h
      rw [← h]
      exact ⟨pass_step_refl _, [], by simp, List.Forall₂.nil⟩
  | cons x xs ih =>
      intro done d r h
      simp only [fsm.dispatch_svm_loop] at h
      cases h1 : fsm.dispatch_svm k d x with
      | error e => rw [h1] at h; cases h
      | ok v =>
          rw [h1] at h
          obtain ⟨p1, o1, -, -⟩ := dispatch_svm_step k d x v h1
          obtain ⟨p2, res, e2, f2⟩ := ih _ _ _ h
          exact ⟨pass_step_trans p1 p2, v.1 :: res, by rw [e2]; simp,
            List.Forall₂.cons o1 f2⟩

theorem dispatch_tail_fields (db : fsm.DispatchFSM_) (svms : List svm.NodeFSM) (now : Int) :
    (fsm.write_statistics
      { { db with svm_node_fsms_ := svms, first_ := false } with
        console := db.console ++
          [fsm.status_table { db with svm_node_fsms_ := svms, first_ := false } now] }
      now).vm_node_fsms_ = db.vm_node_fsms_ ∧
    (fsm.write_statistics
      { { db with svm_node_fsms_ := svms, first_ := false } with
        console := db.console ++
          [fsm.status_table { db with svm_node_fsms_ := svms, first_ := false } now] }
      now).svm_node_fsms_ = svms ∧
    (fsm.write_statistics
      { { db with svm_node_fsms_ := svms, first_ := false } with
        console := db.console ++
          [fsm.status_table { db with svm_node_fsms_ := svms, first_ := false } now] }
      now).node_registrar_ = db.node_registrar_ ∧
    (fsm.write_statistics
      { { db with svm_node_fsms_ := svms, first_ := false } with
        console := db.console ++
          [fsm.status_table { db with svm_node_fsms_ := svms, first_ := false } now] }
      now).trace_pool_ = db.trace_pool_ ∧
    (fsm.write_statistics
      { { db with svm_node_fsms_ := svms, first_ := false } with
        console := db.console ++
          [fsm.status_table { db with svm_node_fsms_ := svms, first_ := false } now] }
      now).test_pool_ = db.test_pool_ ∧
    (fsm.write_statistics
      { { db with svm_node_fsms_ := svms, first_ := false } with
        console := db.console ++
          [fsm.status_table { db with svm_node_fsms_ := svms, first_ := false } now] }
      now).first_ = false := by
  unfold fsm.write_statistics
  simp only []
  split_ifs <;> exact ⟨rfl, rfl, rfl, rfl, rfl, rfl⟩

theorem dispatch_step (k : Constants) (now : Int) (d d1 : fsm.DispatchFSM_)
    (h : fsm.dispatch k now d = Except.ok d1) :
    List.Forall₂ vm.one_step d.vm_node_fsms_ d1.vm_node_fsms_ ∧
    List.Forall₂ svm.one_step d.svm_node_fsms_ d1.svm_node_fsms_ ∧
    nodes_step d.node_registrar_ d1.node_registrar_ ∧
    pool_step d.trace_pool_.all_ d.trace_pool_.next_ d1.trace_pool_.all_ d1.trace_pool_.next_ ∧
    pool_step d.test_pool_.all_ d.test_pool_.next_ d1.test_pool_.all_ d1.test_pool_.next_ ∧
    d1.first_ = false := by
  unfold fsm.dispatch at h
  cases h1 : fsm.dispatch_vm_loop k d.vm_node_fsms_ [] d with
  | error e => rw [h1] at h; cases h
  | ok v =>
      obtain ⟨vms, da⟩ := v
      rw [h1] at h
      simp only at h
      obtain ⟨pa, res, ea, fa⟩ := dispatch_vm_loop_step k _ _ _ _ h1
      simp only [List.nil_append] at ea
      subst ea
      have pa1 : fsm.pass_step d da := pa
      have hsv : da.svm_node_fsms_ = d.svm_node_fsms_ := by rw [pa1.1]
      cases h2 : fsm.dispatch_svm_loop k da.svm_node_fsms_ []
          { da with vm_node_fsms_ := vms } with
      | error e => rw [h2] at h; cases h
      | ok w =>
          obtain ⟨svms, db⟩ := w
          rw [h2] at h
          simp only [Except.ok.injEq] at h
          obtain ⟨pb, res2, eb, fb⟩ := dispatch_svm_loop_step k _ _ _ _ h2
          simp only [List.nil_append] at eb
          subst eb
          have pb1 : fsm.pass_step { da with vm_node_fsms_ := vms } db := pb
          have hvm : db.vm_node_fsms_ = vms := by rw [pb1.1]
          obtain ⟨w1, w2, w3, w4, w5, w6⟩ := dispatch_tail_fields db svms now
          rw [hsv] at fb
          have hn : nodes_step d.node_registrar_ db.node_registrar_ :=
            nodes_step_trans pa1.2.1 pb1.2.1
          have ht : pool_step d.trace_pool_.all_ d.trace_pool_.next_ db.trace_pool_.all_
              db.trace_pool_.next_ := pool_step_trans pa1.2.2.1 pb1.2.2.1
          have hq : pool_step d.test_pool_.all_ d.test_pool_.next_ db.test_pool_.all_
              db.test_pool_.next_ := pool_step_trans pa1.2.2.2 pb1.2.2.2
          subst h
          refine ⟨?_, ?_, ?_, ?_, ?_, w6⟩
          · exact (congrArg (List.Forall₂ vm.one_step d.vm_node_fsms_) (w1.trans hvm)).mpr fa
          · exact (congrArg (List.Forall₂ svm.one_step d.svm_node_fsms_) w2).mpr fb
          · exact (congrArg (nodes_step d.node_registrar_) w3).mpr hn
          · exact (congrArg (fun tp : TracePool => pool_step d.trace_pool_.all_
              d.trace_pool_.next_ tp.all_ tp.next_) w4).mpr ht
          · exact (congrArg (fun tp : TestPool => pool_step d.test_pool_.all_
              d.test_pool_.next_ tp.all_ tp.next_) w5).mpr hq

/-! ### Received traces -/

theorem dispatch_vm_RxTrace_idle (k : Constants) (d : fsm.DispatchFSM_) (v : vm.NodeFSM)
    (hst : v.state = vm.State.RxTrace) (ht : (d.sys.acquire v.node_).status.trace_count = 0) :
    fsm.dispatch_vm k d v = Except.ok ({ v with state := vm.State.TxTest }, d) := by
  have hc : candidate_rows vm.transition_table vm.State.RxTrace vm.EventTag.poll =
      [ ⟨vm.State.RxTrace, vm.EventTag.poll, vm.State.TraceRxed, [vm.Action.rx_trace],
          GuardExpr.atom vm.Guard.has_trace⟩,
        ⟨vm.State.RxTrace, vm.EventTag.poll, vm.State.TxTest, [],
          GuardExpr.Not_ (GuardExpr.atom vm.Guard.has_trace)⟩ ] := by decide
  simp [fsm.dispatch_vm, fsm.dispatch_vm_event, vm.NodeFSM.is_flag_active, vm.flag_list, hst,
    vm.process_event, vm.fired_row, vm.Event.tag, hc, select_row,
    GuardExpr.eval, vm.guard, ht, run_actions, vm.exec]
  rfl

theorem dispatch_vm_in_TraceRxed (k : Constants) (d : fsm.DispatchFSM_) (v : vm.NodeFSM)
    (hst : v.state = vm.State.TraceRxed) :
    fsm.dispatch_vm k d v =
      match fsm.to_trace_pool d v.traces_ with
      | Except.ok d1 => Except.ok ({ v with state := vm.State.TxTest }, d1)
      | Except.error e => Except.error e := by
  cases hp : fsm.to_trace_pool d v.traces_ with
  | ok d1 => exact dispatch_vm_TraceRxed k d d1 v hst hp
  | error e =>
      simp [fsm.dispatch_vm, fsm.dispatch_vm_event, vm.NodeFSM.is_flag_active, vm.flag_list,
        hst, hp]

/-! ### C16 -/

/-- C16, as amended: a batch of traces that a VM machine receives by `rx_trace` is handed
to `to_trace_pool` at most once, and exactly once if the dispatch action visits the
machine again.  (1) `TraceRxed` is the target of one row only, `RxTrace -poll-> TraceRxed`,
whose action is `rx_trace`, and no other row runs `rx_trace`; the only row that leaves
`TraceRxed` is `TraceRxed -trace-> TxTest`, without guard.  (2) Visiting a machine in
`TraceRxed`, the dispatch action hands its buffer to `to_trace_pool` and, in the same
pass, the machine moves to `TxTest`.  (3) Visiting a VM machine in any other state, it
leaves the trace pool as it is, and visiting an SVM machine it inserts nothing into it.
(4) A machine that is in `TraceRxed` after a visit was in `RxTrace` before it, and its
buffer is what `receive_traces` has just returned. -/
theorem C16_received_traces_reach_the_pool_at_most_once (k : Constants) (d : fsm.DispatchFSM_) :
    (∀ r ∈ vm.transition_table, r.target = vm.State.TraceRxed →
      r.source = vm.State.RxTrace ∧ r.event = vm.EventTag.poll ∧
        r.action = [vm.Action.rx_trace]) ∧
    (∀ r ∈ vm.transition_table, vm.Action.rx_trace ∈ r.action →
      r.target = vm.State.TraceRxed) ∧
    (∀ r ∈ vm.transition_table, r.source = vm.State.TraceRxed →
      r.event = vm.EventTag.trace ∧ r.target = vm.State.TxTest ∧ r.guard = GuardExpr.none) ∧
    (∀ v : vm.NodeFSM, v.state = vm.State.TraceRxed →
      fsm.dispatch_vm k d v =
        match fsm.to_trace_pool d v.traces_ with
        | Except.ok d1 => Except.ok ({ v with state := vm.State.TxTest }, d1)
        | Except.error e => Except.error e) ∧
    (∀ (v : vm.NodeFSM) (r : vm.NodeFSM × fsm.DispatchFSM_), v.state ≠ vm.State.TraceRxed →
      fsm.dispatch_vm k d v = Except.ok r → r.2.trace_pool_ = d.trace_pool_) ∧
    (∀ (s : svm.NodeFSM) (r : svm.NodeFSM × fsm.DispatchFSM_),
      fsm.dispatch_svm k d s = Except.ok r → r.2.trace_pool_.all_ = d.trace_pool_.all_) ∧
    (∀ (v : vm.NodeFSM) (r : vm.NodeFSM × fsm.DispatchFSM_),
      fsm.dispatch_vm k d v = Except.ok r → r.1.state = vm.State.TraceRxed →
      v.state = vm.State.RxTrace ∧ r.1.traces_ = (receive_traces d.sys v.node_).1) := by
  have t1 : ∀ r ∈ vm.transition_table, r.target = vm.State.TraceRxed →
      r.source = vm.State.RxTrace ∧ r.event = vm.EventTag.poll ∧
        r.action = [vm.Action.rx_trace] := by decide
  refine ⟨t1, by decide, by decide, fun v hv => dispatch_vm_in_TraceRxed k d v hv,
    fun v r hv h => (dispatch_vm_step k d v r h).2.2.1 hv,
    fun s r h => (dispatch_svm_step k d s r h).2.2.2, ?_⟩
  intro v r h hr
  have hsrc : v.state = vm.State.RxTrace := by
    obtain ⟨ev, v0, s, s1, -, -, hone⟩ := (dispatch_vm_step k d v r h).2.1
    rcases hone with hsame | ⟨row, hrow, hs, -, ht⟩
    · exfalso
      have hv : v.state = vm.State.TraceRxed := by rw [← hsame]; exact hr
      rw [dispatch_vm_in_TraceRxed k d v hv] at h
      cases hp : fsm.to_trace_pool d v.traces_ with
      | ok d1 =>
          rw [hp] at h
          simp only [Except.ok.injEq] at h
          rw [← h] at hr
          cases hr
      | error e => rw [hp] at h; cases h
    · rw [← hs]
      exact (t1 row hrow (ht.trans hr)).1
  refine ⟨hsrc, ?_⟩
  by_cases ht : 0 < (d.sys.acquire v.node_).status.trace_count
  · rw [dispatch_vm_RxTrace k d v hsrc ht] at h
    simp only [Except.ok.injEq] at h
    rw [← h]
  · exfalso
    rw [dispatch_vm_RxTrace_idle k d v hsrc (by omega)] at h
    simp only [Except.ok.injEq] at h
    rw [← h] at hr
    cases hr

/-- C16, witness: a VM machine in `RxTrace` whose worker has reported one pending trace
is in `TraceRxed` after the visit, with the trace `u1` in its buffer. -/
theorem C16_received_traces_reach_the_pool_at_most_once_witness :
    (scenario.vm_in vm.State.RxTrace false false true).state = vm.State.RxTrace ∧
    ({ scenario.vm_in vm.State.RxTrace false false true with
        traces_ := [⟨"u1", 3⟩], state := vm.State.TraceRxed } : vm.NodeFSM).traces_ =
      (receive_traces (scenario.members true false ["t"]
        [scenario.handle_with packet_type.cluster_request_vm_node true 1 0 0]).sys
        (scenario.vm_in vm.State.RxTrace false false true).node_).1 :=
  (C16_received_traces_reach_the_pool_at_most_once scenario.k0
    (scenario.members true false ["t"]
      [scenario.handle_with packet_type.cluster_request_vm_node true 1 0 0])).2.2.2.2.2.2
    (scenario.vm_in vm.State.RxTrace false false true)
    ({ scenario.vm_in vm.State.RxTrace false false true with
        traces_ := [⟨"u1", 3⟩], state := vm.State.TraceRxed },
      (scenario.members true false ["t"]
        [scenario.handle_with packet_type.cluster_request_vm_node true 1 0 0]).with_sys
        (receive_traces (scenario.members true false ["t"]
          [scenario.handle_with packet_type.cluster_request_vm_node true 1 0 0]).sys 0).2)
    rfl rfl

/-- C16, counterexample: distributed mode, targets `t1`, `t2`, time threshold 1000
seconds, a VM worker that hands out the trace `u1` and an SVM worker.  After eleven
calls of `Dispatch::run` the VM machine is in `TraceRxed` and holds the batch `u1`, which
is not in the trace pool.  The twelfth call, made 2000 seconds later, finds the target
expired and a next target queued and moves to `NextTarget`; the thirteenth runs `reset`,
which replaces the machine by a new one with an empty buffer.  The batch has never been
handed to `to_trace_pool`: the trace pool is empty and no trace file was written. -/
theorem C16_batch_dropped_by_reset :
    scenario.observe (Dispatch.runs scenario.k0 (List.replicate 11 0)
        (scenario.cluster (scenario.opts true false ["t1", "t2"])
          (scenario.handle packet_type.cluster_request_vm_node) scenario.svm_handle)) =
      some (fsm.State.SpecCheck, [(vm.State.TraceRxed, [⟨"u1", 3⟩])],
        [(svm.State.TraceTxed, [])], [], [], "t1", ["t2"]) ∧
    scenario.observe (Dispatch.runs scenario.k0 (List.replicate 11 0 ++ [2000000000000])
        (scenario.cluster (scenario.opts true false ["t1", "t2"])
          (scenario.handle packet_type.cluster_request_vm_node) scenario.svm_handle)) =
      some (fsm.State.NextTarget, [(vm.State.TraceRxed, [⟨"u1", 3⟩])],
        [(svm.State.TraceTxed, [])], [], [], "t1", ["t2"]) ∧
    scenario.observe (Dispatch.runs scenario.k0
        (List.replicate 11 0 ++ [2000000000000, 2000000000000])
        (scenario.cluster (scenario.opts true false ["t1", "t2"])
          (scenario.handle packet_type.cluster_request_vm_node) scenario.svm_handle)) =
      some (fsm.State.Dispatch, [(vm.State.TxConfig, [])],
        [(svm.State.TxConfig, [])], [], [], "t2", []) ∧
    (match Dispatch.runs scenario.k0 (List.replicate 11 0 ++ [2000000000000, 2000000000000])
        (scenario.cluster (scenario.opts true false ["t1", "t2"])
          (scenario.handle packet_type.cluster_request_vm_node) scenario.svm_handle) with
      | Except.ok m => some (m.disk.files.map Prod.fst)
      | Except.error _ => none) =
      some [["dispatch-root", "ts", "t1", "log", "finish"]] := by
  refine ⟨by rfl, by rfl, by rfl, by rfl⟩

/-! ### Received test cases -/

theorem svm_candidate_rows_TestRxed :
    candidate_rows svm.transition_table svm.State.TestRxed svm.EventTag.test =
      [ ⟨svm.State.TestRxed, svm.EventTag.test, svm.State.ErrorRxed, [svm.Action.rx_error],
          GuardExpr.atom svm.Guard.has_error⟩,
        ⟨svm.State.TestRxed, svm.EventTag.test, svm.State.RxStatus, [],
          GuardExpr.Not_ (GuardExpr.atom svm.Guard.has_error)⟩ ] := by decide

theorem svm_candidate_rows_RxTest :
    candidate_rows svm.transition_table svm.State.RxTest svm.EventTag.poll =
      [ ⟨svm.State.RxTest, svm.EventTag.poll, svm.State.TestRxed, [svm.Action.rx_test],
          GuardExpr.atom svm.Guard.has_tests⟩,
        ⟨svm.State.RxTest, svm.EventTag.poll, svm.State.ErrorRxed, [svm.Action.rx_error],
          GuardExpr.And_ (GuardExpr.Not_ (GuardExpr.atom svm.Guard.has_tests))
            (GuardExpr.atom svm.Guard.has_error)⟩,
        ⟨svm.State.RxTest, svm.EventTag.poll, svm.State.RxStatus, [],
          GuardExpr.And_ (GuardExpr.Not_ (GuardExpr.atom svm.Guard.has_tests))
            (GuardExpr.Not_ (GuardExpr.atom svm.Guard.has_error))⟩ ] := by decide

theorem svm_process_event_TestRxed (v : svm.NodeFSM) (sys : Sys)
    (hst : v.state = svm.State.TestRxed) :
    svm.process_event svm.Event.test v sys =
      if 0 < (sys.acquire v.node_).status.error_count then
        Except.ok ({ v with errors_ := (receive_errors sys v.node_).1,
                            state := svm.State.ErrorRxed }, (receive_errors sys v.node_).2)
      else Except.ok ({ v with state := svm.State.RxStatus }, sys) := by
  by_cases he : 0 < (sys.acquire v.node_).status.error_count
  · rw [if_pos he]
    simp [svm.process_event, svm.fired_row, svm.Event.tag, svm_candidate_rows_TestRxed, hst,
      select_row, GuardExpr.eval, svm.guard, run_actions, svm.exec, he]
  · rw [if_neg he]
    simp [svm.process_event, svm.fired_row, svm.Event.tag, svm_candidate_rows_TestRxed, hst,
      select_row, GuardExpr.eval, svm.guard, run_actions, svm.exec, he]

theorem dispatch_svm_in_TestRxed (k : Constants) (d : fsm.DispatchFSM_) (v : svm.NodeFSM)
    (hst : v.state = svm.State.TestRxed) :
    fsm.dispatch_svm k d v =
      if 0 < (d.sys.acquire v.node_).status.error_count then
        Except.ok ({ v with errors_ := (receive_errors d.sys v.node_).1,
                            state := svm.State.ErrorRxed },
          { d with test_pool_ := d.test_pool_.insert v.tests_,
                   node_registrar_ := (receive_errors d.sys v.node_).2.nodes })
      else
        Except.ok ({ v with state := svm.State.RxStatus },
          { d with test_pool_ := d.test_pool_.insert v.tests_ }) := by
  have hev : fsm.dispatch_svm_event k d v = Except.ok (svm.Event.test, v,
      { d with test_pool_ := d.test_pool_.insert v.tests_ }) := by
    simp [fsm.dispatch_svm_event, svm.NodeFSM.is_flag_active, svm.flag_list, hst]
  have hsys : ({ d with test_pool_ := d.test_pool_.insert v.tests_ } : fsm.DispatchFSM_).sys =
      d.sys := rfl
  unfold fsm.dispatch_svm
  rw [hev]
  simp only [hsys, svm_process_event_TestRxed v d.sys hst]
  split_ifs <;> rfl

theorem dispatch_svm_RxTest (k : Constants) (d : fsm.DispatchFSM_) (v : svm.NodeFSM)
    (hst : v.state = svm.State.RxTest) :
    (0 < (d.sys.acquire v.node_).status.test_case_count →
      fsm.dispatch_svm k d v = Except.ok
        ({ v with tests_ := (receive_tests d.sys v.node_).1, state := svm.State.TestRxed },
          d.with_sys (receive_tests d.sys v.node_).2)) ∧
    ((d.sys.acquire v.node_).status.test_case_count = 0 →
      ∀ r, fsm.dispatch_svm k d v = Except.ok r → r.1.state ≠ svm.State.TestRxed) := by
  constructor
  · intro ht
    simp [fsm.dispatch_svm, fsm.dispatch_svm_event, svm.NodeFSM.is_flag_active, svm.flag_list,
      hst, svm.process_event, svm.fired_row, svm.Event.tag, svm_candidate_rows_RxTest,
      select_row, GuardExpr.eval, svm.guard, run_actions, svm.exec, ht]
  · intro ht r h
    by_cases he : 0 < (d.sys.acquire v.node_).status.error_count
    · simp [fsm.dispatch_svm, fsm.dispatch_svm_event, svm.NodeFSM.is_flag_active,
        svm.flag_list, hst, svm.process_event, svm.fired_row, svm.Event.tag,
        svm_candidate_rows_RxTest, select_row, GuardExpr.eval, svm.guard, run_actions,
        svm.exec, ht, he] at h
      rw [← h]
      simp
    · simp [fsm.dispatch_svm, fsm.dispatch_svm_event, svm.NodeFSM.is_flag_active,
        svm.flag_list, hst, svm.process_event, svm.fired_row, svm.Event.tag,
        svm_candidate_rows_RxTest, select_row, GuardExpr.eval, svm.guard, run_actions,
        svm.exec, ht, he] at h
      rw [← h]
      simp

/-! ### C17 -/

/-- C17, as amended: a batch of test cases that an SVM machine receives by `rx_test` is
inserted into the test pool at most once, and exactly once if the dispatch action visits
the machine again.  (1) `TestRxed` is the target of one row only, `RxTest -poll-> TestRxed`,
whose action is `rx_test`, and no other row runs `rx_test`; the rows that leave `TestRxed`
are on the event `test` and lead to `RxStatus` or `ErrorRxed`.  (2) Visiting a machine in
`TestRxed`, the dispatch action inserts its buffer into the test pool and, in the same
pass, the `test` event moves the machine to `ErrorRxed` (the worker has reported errors)
or to `RxStatus` (it has not); it never stays in `TestRxed`.  (3) Visiting an SVM
machine in any other state, it leaves the test pool as it is, and visiting a VM machine
it inserts nothing into it.  (4) A machine that is in `TestRxed` after a visit was in
`RxTest` before it, and its buffer is what `receive_tests` has just returned. -/
theorem C17_received_tests_reach_the_pool_at_most_once (k : Constants) (d : fsm.DispatchFSM_) :
    (∀ r ∈ svm.transition_table, r.target = svm.State.TestRxed →
      r.source = svm.State.RxTest ∧ r.event = svm.EventTag.poll ∧
        r.action = [svm.Action.rx_test]) ∧
    (∀ r ∈ svm.transition_table, svm.Action.rx_test ∈ r.action →
      r.target = svm.State.TestRxed) ∧
    (∀ r ∈ svm.transition_table, r.source = svm.State.TestRxed →
      r.event = svm.EventTag.test ∧
        (r.target = svm.State.RxStatus ∨ r.target = svm.State.ErrorRxed)) ∧
    (∀ v : svm.NodeFSM, v.state = svm.State.TestRxed →
      ∃ r, fsm.dispatch_svm k d v = Except.ok r ∧
        r.2.test_pool_ = d.test_pool_.insert v.tests_ ∧
        r.1.state = (if 0 < (d.sys.acquire v.node_).status.error_count
          then svm.State.ErrorRxed else svm.State.RxStatus)) ∧
    (∀ (v : svm.NodeFSM) (r : svm.NodeFSM × fsm.DispatchFSM_), v.state ≠ svm.State.TestRxed →
      fsm.dispatch_svm k d v = Except.ok r → r.2.test_pool_ = d.test_pool_) ∧
    (∀ (v : vm.NodeFSM) (r : vm.NodeFSM × fsm.DispatchFSM_),
      fsm.dispatch_vm k d v = Except.ok r → r.2.test_pool_.all_ = d.test_pool_.all_) ∧
    (∀ (v : svm.NodeFSM) (r : svm.NodeFSM × fsm.DispatchFSM_),
      fsm.dispatch_svm k d v = Except.ok r → r.1.state = svm.State.TestRxed →
      v.state = svm.State.RxTest ∧ r.1.tests_ = (receive_tests d.sys v.node_).1) := by
  have t1 : ∀ r ∈ svm.transition_table, r.target = svm.State.TestRxed →
      r.source = svm.State.RxTest ∧ r.event = svm.EventTag.poll ∧
        r.action = [svm.Action.rx_test] := by decide
  have t2 : ∀ v : svm.NodeFSM, v.state = svm.State.TestRxed →
      ∃ r, fsm.dispatch_svm k d v = Except.ok r ∧
        r.2.test_pool_ = d.test_pool_.insert v.tests_ ∧
        r.1.state = (if 0 < (d.sys.acquire v.node_).status.error_count
          then svm.State.ErrorRxed else svm.State.RxStatus) := by
    intro v hv
    rw [dispatch_svm_in_TestRxed k d v hv]
    by_cases he : 0 < (d.sys.acquire v.node_).status.error_count
    · rw [if_pos he, if_pos he]
      exact ⟨_, rfl, rfl, rfl⟩
    · rw [if_neg he, if_neg he]
      exact ⟨_, rfl, rfl, rfl⟩
  refine ⟨t1, by decide, by decide, t2,
    fun v r hv h => (dispatch_svm_step k d v r h).2.2.1 hv,
    fun v r h => (dispatch_vm_step k d v r h).2.2.2, ?_⟩
  intro v r h hr
  have hsrc : v.state = svm.State.RxTest := by
    obtain ⟨ev, v0, s, s1, -, -, hone⟩ := (dispatch_svm_step k d v r h).2.1
    rcases hone with hsame | ⟨row, hrow, hs, -, ht⟩
    · exfalso
      have hv : v.state = svm.State.TestRxed := by rw [← hsame]; exact hr
      obtain ⟨r1, e1, -, e3⟩ := t2 v hv
      rw [e1] at h
      simp only [Except.ok.injEq] at h
      rw [h, hr] at e3
      split_ifs at e3
    · rw [← hs]
      exact (t1 row hrow (ht.trans hr)).1
  refine ⟨hsrc, ?_⟩
  by_cases ht : 0 < (d.sys.acquire v.node_).status.test_case_count
  · rw [(dispatch_svm_RxTest k d v hsrc).1 ht] at h
    simp only [Except.ok.injEq] at h
    rw [← h]
  · exact absurd hr ((dispatch_svm_RxTest k d v hsrc).2 (by omega) r h)

/-- C17, witness: an SVM machine in `RxTest` whose worker has reported one pending test
case is in `TestRxed` after the visit, with the test case `9` in its buffer. -/
theorem C17_received_tests_reach_the_pool_at_most_once_witness :
    (scenario.svm_in svm.State.RxTest).state = svm.State.RxTest ∧
    ({ scenario.svm_in svm.State.RxTest with
        tests_ := [⟨9⟩], state := svm.State.TestRxed } : svm.NodeFSM).tests_ =
      (receive_tests (scenario.members true false ["t"]
        [{ scenario.svm_handle with status := scenario.svm_handle.server.remote.status }]).sys
        (scenario.svm_in svm.State.RxTest).node_).1 :=
  (C17_received_tests_reach_the_pool_at_most_once scenario.k0
    (scenario.members true false ["t"]
      [{ scenario.svm_handle with status := scenario.svm_handle.server.remote.status }])).2.2.2.2.2.2
    (scenario.svm_in svm.State.RxTest)
    ({ scenario.svm_in svm.State.RxTest with tests_ := [⟨9⟩], state := svm.State.TestRxed },
      (scenario.members true false ["t"]
        [{ scenario.svm_handle with status := scenario.svm_handle.server.remote.status }]).with_sys
        (receive_tests (scenario.members true false ["t"]
          [{ scenario.svm_handle with
              status := scenario.svm_handle.server.remote.status }]).sys 0).2)
    rfl rfl

/-- C17, counterexample: distributed mode, targets `t1`, `t2`, time threshold 1000
seconds, a VM worker and an SVM worker that hands out the test case `9`.  After fifteen
calls of `Dispatch::run` the SVM machine is in `TestRxed` and holds the batch `9`, which
is not in the test pool.  The sixteenth call, made 2000 seconds later, finds the target
expired and a next target queued and moves to `NextTarget`; the seventeenth runs `reset`,
which replaces the machine by a new one with an empty buffer.  The batch has never been
inserted: the test pool is empty. -/
theorem C17_batch_dropped_by_reset :
    scenario.observe (Dispatch.runs scenario.k0 (List.replicate 15 0)
        (scenario.cluster (scenario.opts true false ["t1", "t2"])
          (scenario.handle packet_type.cluster_request_vm_node) scenario.svm_handle)) =
      some (fsm.State.SpecCheck, [(vm.State.TestTxed, [⟨"u1", 3⟩])],
        [(svm.State.TestRxed, [⟨9⟩])], [["dispatch-root", "ts", "t1", "trace", "u1"]], [],
        "t1", ["t2"]) ∧
    scenario.observe (Dispatch.runs scenario.k0 (List.replicate 15 0 ++ [2000000000000])
        (scenario.cluster (scenario.opts true false ["t1", "t2"])
          (scenario.handle packet_type.cluster_request_vm_node) scenario.svm_handle)) =
      some (fsm.State.NextTarget, [(vm.State.TestTxed, [⟨"u1", 3⟩])],
        [(svm.State.TestRxed, [⟨9⟩])], [["dispatch-root", "ts", "t1", "trace", "u1"]], [],
        "t1", ["t2"]) ∧
    scenario.observe (Dispatch.runs scenario.k0
        (List.replicate 15 0 ++ [2000000000000, 2000000000000])
        (scenario.cluster (scenario.opts true false ["t1", "t2"])
          (scenario.handle packet_type.cluster_request_vm_node) scenario.svm_handle)) =
      some (fsm.State.Dispatch, [(vm.State.TxConfig, [])],
        [(svm.State.TxConfig, [])], [], [], "t2", []) := by
  refine ⟨by rfl, by rfl, by rfl⟩

/-! ### Creating the root directory of a target -/

theorem is_dir_create_directories (d : FileSystem) (p q : Path) (h : d.is_dir p = false) :
    (d.create_directories p).1 = true ∧
    (d.create_directories p).2.is_dir q = (d.is_dir q || q.isPrefixOf p) ∧
    (d.create_directories p).2.files = d.files ∧
    (d.create_directories p).2.symlinks = d.symlinks := by
  unfold FileSystem.create_directories
  rw [h]
  refine ⟨rfl, ?_, rfl, rfl⟩
  rw [Bool.eq_iff_iff]
  simp only [FileSystem.is_dir, Bool.false_eq_true, if_false, Bool.or_eq_true,
    List.isEmpty_iff, List.contains_iff_exists_mem_beq, beq_iff_eq, exists_eq_right',
    List.mem_append, List.mem_filter, List.mem_inits, Bool.not_eq_true', Bool.or_eq_false_iff,
    List.isPrefixOf_iff_prefix]
  constructor
  · rintro (h1 | h1 | ⟨h2, -⟩)
    · exact Or.inl (Or.inl h1)
    · exact Or.inl (Or.inr h1)
    · exact Or.inr h2
  · rintro ((h1 | h1) | h1)
    · exact Or.inl h1
    · exact Or.inr (Or.inl h1)
    · by_cases hq : q = []
      · exact Or.inl hq
      · by_cases hd : q ∈ d.dirs
        · exact Or.inr (Or.inl hd)
        · refine Or.inr (Or.inr ⟨h1, ?_, ?_⟩)
          · simpa using hq
          · cases hc : d.dirs.contains q
            · rfl
            · rw [List.contains_iff_exists_mem_beq] at hc
              obtain ⟨x, hx, hxe⟩ := hc
              rw [beq_iff_eq] at hxe
              exact absurd (hxe ▸ hx) hd

theorem fs_exists_create_directories (d : FileSystem) (p q : Path) (h : d.is_dir p = false)
    (hq : q.isPrefixOf p = false) :
    (d.create_directories p).2.fs_exists q = d.fs_exists q := by
  have h1 := (is_dir_create_directories d p q h).2.1
  have h2 := (is_dir_create_directories d p q h).2.2
  have hne : q ≠ [] := by
    intro e
    rw [e] at hq
    simp at hq
  have hd : (d.create_directories p).2.dirs.contains q = d.dirs.contains q := by
    simp only [FileSystem.is_dir, hq, Bool.or_false] at h1
    cases q with
    | nil => exact absurd rfl hne
    | cons a t => simpa using h1
  unfold FileSystem.fs_exists
  rw [hd, h2.1, h2.2]

theorem fs_exists_remove_all_false (d : FileSystem) (q p : Path) (h : d.fs_exists p = false) :
    (d.remove_all q).fs_exists p = false := by
  have hp : p ∉ d.names := by
    intro hm
    rw [← fs_exists_iff_names, h] at hm
    cases hm
  cases hc : (d.remove_all q).fs_exists p
  · rfl
  · exfalso
    apply hp
    rw [fs_exists_iff_names] at hc
    simp only [FileSystem.names, FileSystem.remove_all, List.mem_append, List.mem_map,
      List.mem_filter] at hc ⊢
    rcases hc with (⟨h1, -⟩ | ⟨a, ⟨h1, -⟩, h2⟩) | ⟨a, ⟨h1, -⟩, h2⟩
    · exact Or.inl (Or.inl h1)
    · exact Or.inl (Or.inr ⟨a, h1, h2⟩)
    · exact Or.inr ⟨a, h1, h2⟩

theorem fs_exists_remove_all_self (d : FileSystem) (q : Path) :
    (d.remove_all q).fs_exists q = false := by
  cases hc : (d.remove_all q).fs_exists q
  · rfl
  · exfalso
    rw [fs_exists_iff_names] at hc
    have hself : q.isPrefixOf q = true := List.isPrefixOf_iff_prefix.mpr (List.prefix_refl q)
    simp only [FileSystem.names, FileSystem.remove_all, List.mem_append, List.mem_map,
      List.mem_filter, Bool.not_eq_true'] at hc
    rcases hc with (⟨-, h1⟩ | ⟨a, ⟨-, h1⟩, h2⟩) | ⟨a, ⟨-, h1⟩, h2⟩
    · rw [hself] at h1; cases h1
    · rw [h2, hself] at h1; cases h1
    · rw [h2, hself] at h1; cases h1

/-! ### Rotation: the directories of the new root -/

theorem create_dirs_fresh (root : Path) :
    ∀ (es : List String) (disk : FileSystem), es.Nodup →
      (∀ e ∈ es, disk.is_dir (root ++ [e]) = false) →
      ∃ disk1, fsm.create_dirs root es disk = Except.ok disk1 ∧
        (∀ q, disk1.is_dir q = (disk.is_dir q ||
          es.any (fun e => q.isPrefixOf (root ++ [e])))) ∧
        disk1.files = disk.files ∧ disk1.symlinks = disk.symlinks := by
  intro es
  induction es with
  | nil =>
      intro disk _ _
      exact ⟨disk, rfl, fun q => by simp, rfl, rfl⟩
  | cons e es ih =>
      intro disk hnd hfree
      have he : disk.is_dir (root ++ [e]) = false := hfree e (List.mem_cons_self _ _)
      have hc := fun q => is_dir_create_directories disk (root ++ [e]) q he
      have hfree1 : ∀ x ∈ es, (disk.create_directories (root ++ [e])).2.is_dir (root ++ [x]) =
          false := by
        intro x hx
        rw [(hc _).2.1, hfree x (List.mem_cons_of_mem _ hx), Bool.false_or]
        cases hp : (root ++ [x]).isPrefixOf (root ++ [e])
        · rfl
        · exfalso
          rw [isPrefixOf_append_left] at hp
          have hxe : x = e := by
            simp only [List.isPrefixOf, Bool.and_eq_true, beq_iff_eq] at hp
            exact hp.1
          rw [hxe] at hx
          exact (List.nodup_cons.mp hnd).1 hx
      obtain ⟨disk1, e1, e2, e3, e4⟩ := ih _ (List.nodup_cons.mp hnd).2 hfree1
      refine ⟨disk1, ?_, ?_, e3.trans (hc []).2.2.1, e4.trans (hc []).2.2.2⟩
      · simp only [fsm.create_dirs, (hc []).1, Bool.not_true, Bool.false_eq_true, if_false]
        exact e1
      · intro q
        rw [e2 q, (hc q).2.1, List.any_cons, Bool.or_assoc]

theorem fs_exists_eq_is_dir_or (d : FileSystem) (q : Path) (hq : q ≠ []) :
    d.fs_exists q = (d.is_dir q || (d.files.map Prod.fst).contains q ||
      (d.symlinks.map Prod.fst).contains q) := by
  unfold FileSystem.fs_exists FileSystem.is_dir
  cases q with
  | nil => exact absurd rfl hq
  | cons a t => rfl

theorem relink_keeps (d : FileSystem) (t l q : Path) (h : q ≠ l) :
    ((d.remove l).create_symlink t l).is_dir q = d.is_dir q ∧
    ((d.remove l).create_symlink t l).fs_exists q = d.fs_exists q := by
  have hf : (fun x : Path => !decide (x = l)) q = true := by simp [h]
  have h1 : (d.dirs.filter (fun x => !decide (x = l))).contains q = d.dirs.contains q :=
    contains_filter_of_true _ _ _ hf
  have h2 : ((d.files.filter (fun x => !decide (x.1 = l))).map Prod.fst).contains q =
      (d.files.map Prod.fst).contains q :=
    contains_map_filter_of_true d.files (fun x => !decide (x = l)) q hf
  have h3 : (((d.symlinks.filter (fun x => !decide (x.1 = l))) ++ [(l, t)]).map
      Prod.fst).contains q = (d.symlinks.map Prod.fst).contains q := by
    rw [← contains_map_filter_of_true d.symlinks (fun x => !decide (x = l)) q hf]
    rw [Bool.eq_iff_iff]
    simp only [List.contains_iff_exists_mem_beq, beq_iff_eq, exists_eq_right', List.map_append,
      List.mem_append, List.map_cons, List.map_nil, List.mem_singleton]
    constructor
    · rintro (h4 | h4)
      · exact h4
      · exact absurd h4 h
    · intro h4
      exact Or.inl h4
  constructor
  · simp only [FileSystem.is_dir, FileSystem.remove, FileSystem.create_symlink, h1]
  · simp only [FileSystem.fs_exists, FileSystem.remove, FileSystem.create_symlink, h1, h2, h3]

theorem set_up_root_dir_distributed (d : fsm.DispatchFSM_) (front : String)
    (rest : List String) (n : String) (base : Path)
    (hdist : d.options_.mode.distributed = true)
    (hq : d.next_target_queue_ = front :: rest)
    (hn : string_filename front = [n])
    (hbase : base = if filename (parent_path d.root_) = [dispatch_root_dir_name]
      then d.root_ else parent_path d.root_)
    (hroot : d.disk.fs_exists (base ++ [n]) = false)
    (hsub : ∀ e ∈ [dispatch_trace_dir_name, dispatch_test_case_dir_name,
      dispatch_profile_dir_name], d.disk.is_dir (base ++ [n] ++ [e]) = false)
    (hlog : ∀ e ∈ [dispatch_log_vm_dir_name, dispatch_log_svm_dir_name],
      d.disk.is_dir (base ++ [n] ++ [log_dir_name] ++ [e]) = false) :
    ∃ disk2, fsm.set_up_root_dir d = Except.ok { d with root_ := base ++ [n], disk := disk2 } ∧
      ∀ q, q ≠ [] → q ≠ [dispatch_root_dir_name, dispatch_last_root_symlink] →
        disk2.is_dir q = (d.disk.is_dir q ||
          [dispatch_trace_dir_name, dispatch_test_case_dir_name, dispatch_profile_dir_name].any
            (fun e => q.isPrefixOf (base ++ [n] ++ [e])) ||
          [dispatch_log_vm_dir_name, dispatch_log_svm_dir_name].any
            (fun e => q.isPrefixOf (base ++ [n] ++ [log_dir_name] ++ [e]))) ∧
        disk2.fs_exists q = (d.disk.fs_exists q ||
          [dispatch_trace_dir_name, dispatch_test_case_dir_name, dispatch_profile_dir_name].any
            (fun e => q.isPrefixOf (base ++ [n] ++ [e])) ||
          [dispatch_log_vm_dir_name, dispatch_log_svm_dir_name].any
            (fun e => q.isPrefixOf (base ++ [n] ++ [log_dir_name] ++ [e]))) := by
  obtain ⟨diskA, a1, a2, a3, a4⟩ := create_dirs_fresh (base ++ [n])
    [dispatch_trace_dir_name, dispatch_test_case_dir_name, dispatch_profile_dir_name] d.disk
    (by decide) hsub
  have hlogA : ∀ e ∈ [dispatch_log_vm_dir_name, dispatch_log_svm_dir_name],
      diskA.is_dir (base ++ [n] ++ [log_dir_name] ++ [e]) = false := by
    intro e he
    rw [a2, hlog e he, Bool.false_or]
    simp only [List.any_cons, List.any_nil, Bool.or_false, Bool.or_eq_false_iff]
    have hlen : ∀ x : String,
        (base ++ [n] ++ [log_dir_name] ++ [e]).isPrefixOf (base ++ [n] ++ [x]) = false := by
      intro x
      cases hp : (base ++ [n] ++ [log_dir_name] ++ [e]).isPrefixOf (base ++ [n] ++ [x])
      · rfl
      · have := (List.isPrefixOf_iff_prefix.mp hp).length_le
        simp at this
    exact ⟨hlen _, hlen _, hlen _⟩
  obtain ⟨diskB, b1, b2, b3, b4⟩ := create_dirs_fresh (base ++ [n] ++ [log_dir_name])
    [dispatch_log_vm_dir_name, dispatch_log_svm_dir_name] diskA (by decide) hlogA
  have hnamed : (if filename (parent_path d.root_) = [dispatch_root_dir_name]
      then (Except.ok (filename d.root_, d.root_ ++ [n]) : Except Fault (Path × Path))
      else Except.ok (filename (parent_path d.root_), parent_path d.root_ ++ [n])) =
      Except.ok (if filename (parent_path d.root_) = [dispatch_root_dir_name]
        then filename d.root_ else filename (parent_path d.root_), base ++ [n]) := by
    rw [hbase]
    split_ifs <;> rfl
  refine ⟨(diskB.remove [dispatch_root_dir_name, dispatch_last_root_symlink]).create_symlink
    (if filename (parent_path d.root_) = [dispatch_root_dir_name]
        then filename d.root_ else filename (parent_path d.root_))
    [dispatch_root_dir_name, dispatch_last_root_symlink], ?_, ?_⟩
  · unfold fsm.set_up_root_dir
    simp only [hdist, if_true, hq, hn, hnamed, hroot, Bool.not_false, a1, b1]
  · intro q hq0 hql
    obtain ⟨r1, r2⟩ := relink_keeps diskB
      (if filename (parent_path d.root_) = [dispatch_root_dir_name]
        then filename d.root_ else filename (parent_path d.root_))
      [dispatch_root_dir_name, dispatch_last_root_symlink] q hql
    have hd : diskB.is_dir q = (d.disk.is_dir q ||
          [dispatch_trace_dir_name, dispatch_test_case_dir_name, dispatch_profile_dir_name].any
            (fun e => q.isPrefixOf (base ++ [n] ++ [e])) ||
          [dispatch_log_vm_dir_name, dispatch_log_svm_dir_name].any
            (fun e => q.isPrefixOf (base ++ [n] ++ [log_dir_name] ++ [e]))) := by
      rw [b2, a2]
    refine ⟨r1.trans hd, ?_⟩
    rw [r2, fs_exists_eq_is_dir_or diskB q hq0, fs_exists_eq_is_dir_or d.disk q hq0, hd, b3, a3,
      b4, a4]
    cases d.disk.is_dir q <;> cases (List.map Prod.fst d.disk.files).contains q <;>
      cases (List.map Prod.fst d.disk.symlinks).contains q <;> simp

/-! ### Rotation: the worker handles and machines -/

theorem update_at_twice {α : Type} (f g : α → α) :
    ∀ (i : Nat) (l : List α), update_at g i (update_at f i l) = update_at (fun x => g (f x)) i l := by
  intro i l
  induction l generalizing i with
  | nil => cases i <;> rfl
  | cons x xs ih =>
      cases i with
      | zero => rfl
      | succ i => simp only [update_at, ih]

theorem register_node_fsm_typed (node : Nat) (options : option.Dispatch) (sys : Sys)
    (vms : List vm.NodeFSM) (svms : List svm.NodeFSM) :
    ((sys.acquire node).type = packet_type.cluster_request_vm_node →
      register_node_fsm node options sys vms svms =
        (sys.with_node node (fun n => { n with status := { n.status with active := true } }),
          Except.ok (vms ++ [vm_machine_for node options], svms))) ∧
    ((sys.acquire node).type = packet_type.cluster_request_svm_node →
      register_node_fsm node options sys vms svms =
        (sys.with_node node (fun n => { n with status := { n.status with active := true } }),
          Except.ok (vms, svms ++ [svm_machine_for node]))) := by
  have ht : ((sys.with_node node
      (fun n => { n with status := { n.status with active := true } })).acquire node).type =
      (sys.acquire node).type := acquire_with_node_type sys node node _ (fun _ => rfl)
  constructor
  · intro h
    unfold register_node_fsm
    simp only [ht, h, vm_start_on_fresh]
    rfl
  · intro h
    unfold register_node_fsm
    simp only [ht, h, svm_start_on_fresh]
    rfl

theorem reset_loop_cons (node : Nat) (rest : List Nat) (d : fsm.DispatchFSM_) :
    ((d.sys.acquire node).type = packet_type.cluster_request_vm_node →
      fsm.reset_loop (node :: rest) d = fsm.reset_loop rest
        { d with
          node_registrar_ := update_at NodeData.reset_and_activate node d.node_registrar_
          vm_node_fsms_ := d.vm_node_fsms_ ++ [vm_machine_for node d.options_] }) ∧
    ((d.sys.acquire node).type = packet_type.cluster_request_svm_node →
      fsm.reset_loop (node :: rest) d = fsm.reset_loop rest
        { d with
          node_registrar_ := update_at NodeData.reset_and_activate node d.node_registrar_
          svm_node_fsms_ := d.svm_node_fsms_ ++ [svm_machine_for node] }) := by
  have hw : ((d.sys.with_node node
      (fun n => n.write packet_type.cluster_reset Payload.empty)).acquire node).type =
      (d.sys.acquire node).type := acquire_with_node_type _ _ _ _ (fun _ => rfl)
  have hr := register_node_fsm_typed node d.options_
    (d.sys.with_node node (fun n => n.write packet_type.cluster_reset Payload.empty))
    d.vm_node_fsms_ d.svm_node_fsms_
  rw [hw] at hr
  constructor
  · intro h
    simp only [fsm.reset_loop, hr.1 h]
    simp only [fsm.DispatchFSM_.with_sys, fsm.DispatchFSM_.sys, Sys.with_node, update_at_twice]
    rfl
  · intro h
    simp only [fsm.reset_loop, hr.2 h]
    simp only [fsm.DispatchFSM_.with_sys, fsm.DispatchFSM_.sys, Sys.with_node, update_at_twice]
    rfl

theorem assign_next_target_loop_result (l : List Nat) :
    ∀ (d : fsm.DispatchFSM_),
      (l.filter (fun i => decide ((d.sys.acquire i).type =
        packet_type.cluster_request_vm_node))).length ≤ d.next_target_queue_.length →
      ∃ d1, fsm.assign_next_target_loop l d = Except.ok d1 ∧
        d1 = { d with node_registrar_ := d1.node_registrar_, target_ := d1.target_,
                      next_target_queue_ := d1.next_target_queue_ } ∧
        d1.next_target_queue_ = d.next_target_queue_.drop
          (l.filter (fun i => decide ((d.sys.acquire i).type =
            packet_type.cluster_request_vm_node))).length ∧
        d1.target_ = (d.target_ :: d.next_target_queue_).getD
          (l.filter (fun i => decide ((d.sys.acquire i).type =
            packet_type.cluster_request_vm_node))).length "" ∧
        d1.node_registrar_.length = d.node_registrar_.length ∧
        (∀ j, (d1.sys.acquire j).type = (d.sys.acquire j).type) ∧
        (∀ j, (d1.sys.acquire j).status = (d.sys.acquire j).status) := by
  induction l with
  | nil =>
      intro d _
      exact ⟨d, rfl, rfl, rfl, rfl, rfl, fun _ => rfl, fun _ => rfl⟩
  | cons i rest ih =>
      intro d hlen
      by_cases hty : (d.sys.acquire i).type = packet_type.cluster_request_vm_node
      · simp only [List.filter_cons, hty, decide_True, if_true, List.length_cons] at hlen ⊢
        cases hq : d.next_target_queue_ with
        | nil => rw [hq] at hlen; simp at hlen
        | cons front queue =>
            have hT : ∀ j, (Sys.acquire (fsm.DispatchFSM_.sys
                { d.with_sys (d.sys.with_node i
                    (fun n => n.write packet_type.cluster_next_target (Payload.target front))) with
                  target_ := front, next_target_queue_ := queue }) j).type =
                (d.sys.acquire j).type :=
              fun j => acquire_with_node_type d.sys i j _ (fun _ => rfl)
            have hS : ∀ j, (Sys.acquire (fsm.DispatchFSM_.sys
                { d.with_sys (d.sys.with_node i
                    (fun n => n.write packet_type.cluster_next_target (Payload.target front))) with
                  target_ := front, next_target_queue_ := queue }) j).status =
                (d.sys.acquire j).status := by
              intro j
              show ((d.sys.with_node i _).acquire j).status = _
              rw [acquire_with_node]
              split_ifs <;> rfl
            have hfil : (rest.filter (fun j => decide ((Sys.acquire (fsm.DispatchFSM_.sys
                { d.with_sys (d.sys.with_node i
                    (fun n => n.write packet_type.cluster_next_target (Payload.target front))) with
                  target_ := front, next_target_queue_ := queue }) j).type =
                  packet_type.cluster_request_vm_node))) =
                rest.filter (fun j => decide ((d.sys.acquire j).type =
                  packet_type.cluster_request_vm_node)) := by
              congr 1
              funext j
              rw [hT j]
            obtain ⟨d1, e1, e2, e3, e4, e5, e6, e7⟩ := ih
              { d.with_sys (d.sys.with_node i
                  (fun n => n.write packet_type.cluster_next_target (Payload.target front))) with
                target_ := front, next_target_queue_ := queue }
              (by rw [hfil]; rw [hq] at hlen; simp at hlen ⊢; omega)
            rw [hfil] at e3 e4
            refine ⟨d1, ?_, ?_, ?_, ?_, ?_, ?_, ?_⟩
            · simp only [fsm.assign_next_target_loop, hty, ne_eq, not_true_eq_false, if_false, hq]
              exact e1
            · rw [e2]
              rfl
            · rw [e3]
              rfl
            · rw [e4]
              rfl
            · rw [e5]
              exact length_update_at _ _ _
            · intro j
              rw [e6 j, hT j]
            · intro j
              rw [e7 j, hS j]
      · simp only [List.filter_cons, hty, decide_False, Bool.false_eq_true, if_false] at hlen ⊢
        obtain ⟨d1, e1, e2, e3, e4, e5, e6, e7⟩ := ih d hlen
        refine ⟨d1, ?_, e2, e3, e4, e5, e6, e7⟩
        simp only [fsm.assign_next_target_loop, hty, ne_eq, not_false_eq_true, if_true]
        exact e1

/-! ### Rotation: the four actions of the row out of `NextTarget` -/

theorem is_dir_remove_all_false (d : FileSystem) (q p : Path) (h : d.is_dir p = false) :
    (d.remove_all q).is_dir p = false := by
  cases hc : (d.remove_all q).is_dir p
  · rfl
  · exfalso
    simp only [FileSystem.is_dir, FileSystem.remove_all, Bool.or_eq_true, List.isEmpty_iff,
      List.contains_iff_exists_mem_beq, beq_iff_eq, exists_eq_right', List.mem_filter,
      Bool.or_eq_false_iff] at hc h
    rcases hc with hc | ⟨hc, -⟩
    · rw [hc] at h
      simp at h
    · have h2 := h.2
      rw [← Bool.not_eq_true, List.contains_iff_exists_mem_beq] at h2
      exact h2 ⟨p, hc, by simp⟩

theorem fs_exists_below_remove_all (d : FileSystem) (q p : Path) (h : q.isPrefixOf p = true) :
    (d.remove_all q).fs_exists p = false := by
  cases hc : (d.remove_all q).fs_exists p
  · rfl
  · exfalso
    rw [fs_exists_iff_names] at hc
    simp only [FileSystem.names, FileSystem.remove_all, List.mem_append, List.mem_map,
      List.mem_filter, Bool.not_eq_true'] at hc
    rcases hc with (⟨-, h1⟩ | ⟨a, ⟨-, h1⟩, h2⟩) | ⟨a, ⟨-, h1⟩, h2⟩
    · rw [h] at h1; cases h1
    · rw [h2, h] at h1; cases h1
    · rw [h2, h] at h1; cases h1

theorem finish_result (now : Int) (d : fsm.DispatchFSM_)
    (hfin : d.disk.fs_exists (d.root_ ++ [log_dir_name]) = true →
      d.disk.can_open (d.root_ ++ [log_dir_name, dispatch_log_finish_file_name]) = true) :
    ∃ diskF, fsm.finish now d = Except.ok { d with disk := diskF } ∧
      (∀ q, diskF.is_dir q = d.disk.is_dir q) ∧
      (∀ q, q ≠ d.root_ ++ [log_dir_name, dispatch_log_finish_file_name] →
        diskF.fs_exists q = d.disk.fs_exists q) := by
  unfold fsm.finish
  by_cases hex : d.disk.fs_exists (d.root_ ++ [log_dir_name]) = true
  · have hco := hfin hex
    refine ⟨d.disk.write_file (d.root_ ++ [log_dir_name, dispatch_log_finish_file_name])
      (FileContent.status (fsm.status_table d now)), ?_, fun q => rfl, ?_⟩
    · simp only [hex, Bool.not_true, Bool.false_eq_true, if_false, List.append_assoc,
        List.singleton_append, hco]
    · intro q hq
      have hf : (fun x : Path => !decide (x = d.root_ ++
          [log_dir_name, dispatch_log_finish_file_name])) q = true := by simp [hq]
      have h2 := contains_map_filter_of_true d.disk.files
        (fun x => !decide (x = d.root_ ++ [log_dir_name, dispatch_log_finish_file_name])) q hf
      simp only [FileSystem.fs_exists, FileSystem.write_file]
      rw [← h2]
      congr 2
      rw [Bool.eq_iff_iff]
      simp only [List.contains_iff_exists_mem_beq, beq_iff_eq, exists_eq_right', List.map_append,
        List.mem_append, List.map_cons, List.map_nil, List.mem_singleton]
      constructor
      · rintro (h | h)
        · exact h
        · exact absurd h hq
      · intro h
        exact Or.inl h
  · refine ⟨d.disk, ?_, fun q => rfl, fun q _ => rfl⟩
    simp only [hex, Bool.not_false, if_true]

theorem rotation_actions (k : Constants) (now : Int) (d : fsm.DispatchFSM_) (front : String)
    (rest : List String) (n : String) (base : Path) (v s : NodeData)
    (hdist : d.options_.mode.distributed = true)
    (hq : d.next_target_queue_ = front :: rest)
    (hn : string_filename front = [n])
    (hbase : base = if filename (parent_path d.root_) = [dispatch_root_dir_name]
      then d.root_ else parent_path d.root_)
    (hnodes : d.node_registrar_ = [v, s])
    (hv : v.type = packet_type.cluster_request_vm_node)
    (hs : s.type = packet_type.cluster_request_svm_node)
    (hfin : d.disk.fs_exists (d.root_ ++ [log_dir_name]) = true →
      d.disk.can_open (d.root_ ++ [log_dir_name, dispatch_log_finish_file_name]) = true)
    (hother : base ++ [n] ≠ d.root_ ++ [log_dir_name, dispatch_log_finish_file_name])
    (hroot : d.disk.fs_exists (base ++ [n]) = false)
    (hsub : ∀ e ∈ [dispatch_trace_dir_name, dispatch_test_case_dir_name,
      dispatch_profile_dir_name], d.disk.is_dir (base ++ [n] ++ [e]) = false)
    (hlog : ∀ e ∈ [dispatch_log_vm_dir_name, dispatch_log_svm_dir_name],
      d.disk.is_dir (base ++ [n] ++ [log_dir_name] ++ [e]) = false) :
    ∃ disk2, run_actions (fsm.exec k now fsm.Event.poll)
        [fsm.Action.finish, fsm.Action.next_target_clean, fsm.Action.reset,
         fsm.Action.assign_next_target] d =
        Except.ok { d with
          root_ := base ++ [n]
          disk := disk2
          test_pool_ := TestPool.fresh (base ++ [n])
          trace_pool_ := TracePool.fresh
          vm_node_fsms_ := [vm_machine_for 0 d.options_]
          svm_node_fsms_ := [svm_machine_for 1]
          start_time_ := now
          node_registrar_ :=
            [v.reset_and_activate.write packet_type.cluster_next_target (Payload.target front),
             s.reset_and_activate]
          target_ := front
          next_target_queue_ := rest } ∧
      (∀ e ∈ [dispatch_trace_dir_name, dispatch_test_case_dir_name, dispatch_profile_dir_name],
        disk2.is_dir (base ++ [n] ++ [e]) = true) ∧
      (∀ e ∈ [dispatch_log_vm_dir_name, dispatch_log_svm_dir_name],
        disk2.is_dir (base ++ [n] ++ [log_dir_name] ++ [e]) = true) ∧
      (∀ q, (d.root_ ++ [dispatch_trace_dir_name]).isPrefixOf q = true →
        (base ++ [n]).isPrefixOf q = false →
        q ≠ [dispatch_root_dir_name, dispatch_last_root_symlink] →
        disk2.fs_exists q = false) := by
  obtain ⟨diskF, f1, f2, f3⟩ := finish_result now d hfin
  have hq2 : ({ d with disk := diskF.remove_all (d.root_ ++ [dispatch_trace_dir_name]) } :
      fsm.DispatchFSM_).next_target_queue_ = front :: rest := hq
  obtain ⟨disk2, s1, s2⟩ := set_up_root_dir_distributed
    { d with disk := diskF.remove_all (d.root_ ++ [dispatch_trace_dir_name]) }
    front rest n base hdist hq2 hn hbase
    (fs_exists_remove_all_false _ _ _ (by rw [f3 _ hother]; exact hroot))
    (fun e he => is_dir_remove_all_false _ _ _ (by rw [f2]; exact hsub e he))
    (fun e he => is_dir_remove_all_false _ _ _ (by rw [f2]; exact hlog e he))
  have hne : ∀ (x : String) (l : Path), base ++ [n] ++ x :: l ≠ [] := by
    intro x l
    simp
  refine ⟨disk2, ?_, ?_, ?_, ?_⟩
  · simp only [run_actions, fsm.exec, f1, fsm.next_target_clean, fsm.reset, s1]
    obtain ⟨vt, vst, vsv⟩ := v
    obtain ⟨st, sst, ssv⟩ := s
    simp only at hv hs
    subst hv
    subst hs
    obtain ⟨o, nr, root, tp, trp, vms, svms, mp, el, nel, stt, fi, qu, tg, pt, pp, dk, con⟩ := d
    simp only at hnodes hq
    subst hnodes
    subst hq
    rfl
  · intro e he
    have hl : base ++ [n] ++ [e] ≠ [dispatch_root_dir_name, dispatch_last_root_symlink] := by
      intro hc
      have h2 := congrArg List.getLast? hc
      simp at h2
      subst h2
      revert he
      decide
    rw [(s2 _ (by simp) hl).1]
    have : [dispatch_trace_dir_name, dispatch_test_case_dir_name, dispatch_profile_dir_name].any
        (fun x => (base ++ [n] ++ [e]).isPrefixOf (base ++ [n] ++ [x])) = true := by
      rw [List.any_eq_true]
      exact ⟨e, he, List.isPrefixOf_iff_prefix.mpr (List.prefix_refl _)⟩
    rw [this, Bool.or_true, Bool.true_or]
  · intro e he
    have hl : base ++ [n] ++ [log_dir_name] ++ [e] ≠
        [dispatch_root_dir_name, dispatch_last_root_symlink] := by
      intro hc
      have h2 := congrArg List.getLast? hc
      simp at h2
      subst h2
      revert he
      decide
    rw [(s2 _ (by simp) hl).1]
    have : [dispatch_log_vm_dir_name, dispatch_log_svm_dir_name].any
        (fun x => (base ++ [n] ++ [log_dir_name] ++ [e]).isPrefixOf
          (base ++ [n] ++ [log_dir_name] ++ [x])) = true := by
      rw [List.any_eq_true]
      exact ⟨e, he, List.isPrefixOf_iff_prefix.mpr (List.prefix_refl _)⟩
    rw [this, Bool.or_true]
  · intro q hold hnew hl
    have hqne : q ≠ [] := by
      intro hc
      rw [hc] at hold
      have := List.isPrefixOf_iff_prefix.mp hold
      simp at this
    have hlen : base.length ≤ d.root_.length := by
      rw [hbase]
      split_ifs
      · exact le_refl _
      · simp [parent_path]
    have hqlen : d.root_.length + 1 ≤ q.length := by
      have := (List.isPrefixOf_iff_prefix.mp hold).length_le
      simpa using this
    have hnot : ¬ (base ++ [n]) <+: q := by
      intro hc
      rw [List.isPrefixOf_iff_prefix.mpr hc] at hnew
      cases hnew
    have hshort : ¬ q <+: base ++ [n] := by
      intro hc
      have h1 := hc.length_le
      simp only [List.length_append, List.length_singleton] at h1
      have h2 : q = base ++ [n] := hc.eq_of_length (by simp; omega)
      exact hnot (h2 ▸ List.prefix_refl _)
    rw [(s2 q hqne hl).2]
    have h0 : (diskF.remove_all (d.root_ ++ [dispatch_trace_dir_name])).fs_exists q = false :=
      fs_exists_below_remove_all _ _ _ hold
    have h1 : [dispatch_trace_dir_name, dispatch_test_case_dir_name,
        dispatch_profile_dir_name].any (fun e => q.isPrefixOf (base ++ [n] ++ [e])) = false := by
      rw [List.any_eq_false]
      intro e _ hc
      rcases List.prefix_concat_iff.mp (List.isPrefixOf_iff_prefix.mp hc) with h | h
      · exact hnot (h ▸ List.prefix_append _ _)
      · exact hshort h
    have h2 : [dispatch_log_vm_dir_name, dispatch_log_svm_dir_name].any
        (fun e => q.isPrefixOf (base ++ [n] ++ [log_dir_name] ++ [e])) = false := by
      rw [List.any_eq_false]
      intro e _ hc
      rcases List.prefix_concat_iff.mp (List.isPrefixOf_iff_prefix.mp hc) with h | h
      · refine hnot (h ▸ ?_)
        rw [List.append_assoc (base ++ [n])]
        exact List.prefix_append _ _
      · rcases List.prefix_concat_iff.mp h with h | h
        · exact hnot (h ▸ List.prefix_append _ _)
        · exact hshort h
    show ((diskF.remove_all (d.root_ ++ [dispatch_trace_dir_name])).fs_exists q || _ || _) = false
    rw [h0, h1, h2]
    rfl

theorem rotation_polls (k : Constants) (a b : Int) (m : fsm.DispatchFSM) (front : String)
    (rest : List String) (n : String) (base : Path) (v s : NodeData)
    (hstate : m.state = fsm.State.SpecCheck)
    (hfire : m.first_ = true ∨ fsm.is_target_expired m.toDispatchFSM_ a = true)
    (hdist : m.options_.mode.distributed = true)
    (hq : m.next_target_queue_ = front :: rest)
    (hn : string_filename front = [n])
    (hbase : base = if filename (parent_path m.root_) = [dispatch_root_dir_name]
      then m.root_ else parent_path m.root_)
    (hnodes : m.node_registrar_ = [v, s])
    (hv : v.type = packet_type.cluster_request_vm_node)
    (hs : s.type = packet_type.cluster_request_svm_node)
    (hfin : m.disk.fs_exists (m.root_ ++ [log_dir_name]) = true →
      m.disk.can_open (m.root_ ++ [log_dir_name, dispatch_log_finish_file_name]) = true)
    (hother : base ++ [n] ≠ m.root_ ++ [log_dir_name, dispatch_log_finish_file_name])
    (hfree : ∀ q, (base ++ [n]).isPrefixOf q = true → m.disk.fs_exists q = false) :
    ∃ disk2,
      Dispatch.run k a m = Except.ok { m with state := fsm.State.NextTarget } ∧
      Dispatch.run k b { m with state := fsm.State.NextTarget } =
        Except.ok
          { toDispatchFSM_ :=
              { m.toDispatchFSM_ with
                root_ := base ++ [n]
                disk := disk2
                test_pool_ := TestPool.fresh (base ++ [n])
                trace_pool_ := TracePool.fresh
                vm_node_fsms_ := [vm_machine_for 0 m.options_]
                svm_node_fsms_ := [svm_machine_for 1]
                start_time_ := b
                node_registrar_ :=
                  [v.reset_and_activate.write packet_type.cluster_next_target
                    (Payload.target front), s.reset_and_activate]
                target_ := front
                next_target_queue_ := rest }
            state := fsm.State.Dispatch } ∧
      (∀ e ∈ [dispatch_trace_dir_name, dispatch_test_case_dir_name, dispatch_profile_dir_name],
        disk2.is_dir (base ++ [n] ++ [e]) = true) ∧
      (∀ e ∈ [dispatch_log_vm_dir_name, dispatch_log_svm_dir_name],
        disk2.is_dir (base ++ [n] ++ [log_dir_name] ++ [e]) = true) ∧
      (∀ q, (m.root_ ++ [dispatch_trace_dir_name]).isPrefixOf q = true →
        (base ++ [n]).isPrefixOf q = false →
        q ≠ [dispatch_root_dir_name, dispatch_last_root_symlink] →
        disk2.fs_exists q = false) := by
  have hpre : ∀ l : Path, (base ++ [n]).isPrefixOf (base ++ [n] ++ l) = true :=
    fun l => List.isPrefixOf_iff_prefix.mpr (List.prefix_append _ _)
  obtain ⟨disk2, r1, r2, r3, r4⟩ := rotation_actions k b m.toDispatchFSM_ front rest n base v s
    hdist hq hn hbase hnodes hv hs hfin hother
    (hfree (base ++ [n]) (List.isPrefixOf_iff_prefix.mpr (List.prefix_refl _)))
    (fun e _ => is_dir_of_not_exists _ _ (by simp) (hfree _ (hpre [e])))
    (fun e _ => is_dir_of_not_exists _ _ (by simp)
      (hfree _ (by rw [List.append_assoc (base ++ [n])]; exact hpre _)))
  have hnodes1 : Dispatch.has_nodes m = true := by
    simp [Dispatch.has_nodes, hnodes]
  have hnodes2 : Dispatch.has_nodes { m with state := fsm.State.NextTarget } = true := hnodes1
  have hnext : fsm.have_next_target m.toDispatchFSM_ = true := by
    simp [fsm.have_next_target, hq]
  have hdev : fsm.is_dev_mode m.toDispatchFSM_ = false := by
    simp [fsm.is_dev_mode, hdist]
  refine ⟨disk2, ?_, ?_, r2, r3, r4⟩
  · unfold Dispatch.run
    rw [hnodes1, fsm_poll_in_SpecCheck k a m hstate, hnext, hdev]
    rcases hfire with h | h
    · have : fsm.is_first m.toDispatchFSM_ = true := h
      simp [this]
    · simp [h]
  · unfold Dispatch.run
    rw [hnodes2, fsm_poll_in_NextTarget k b _ rfl]
    simp only [Bool.not_true, Bool.false_eq_true, if_false]
    rw [r1]

/-! ### After the queue has run empty no target is assigned any more -/

theorem run_with_empty_queue (k : Constants) (now : Int) (m m1 : fsm.DispatchFSM)
    (h : Dispatch.run k now m = Except.ok m1)
    (hf : m.first_ = false) (hq : m.next_target_queue_ = [])
    (hs : m.state ≠ fsm.State.NextTarget) (hs0 : m.state ≠ fsm.State.Start) :
    m1.first_ = false ∧ m1.next_target_queue_ = [] ∧ m1.state ≠ fsm.State.NextTarget ∧
    m1.state ≠ fsm.State.Start ∧ m1.target_ = m.target_ ∧ m1.root_ = m.root_ := by
  unfold Dispatch.run at h
  split_ifs at h
  · cases h
    exact ⟨hf, hq, hs, hs0, rfl, rfl⟩
  · cases hst : m.state with
    | Start => exact absurd hst hs0
    | NextTarget => exact absurd hst hs
    | SpecCheck =>
        rw [fsm_poll_in_SpecCheck k now m hst] at h
        have hnext : fsm.have_next_target m.toDispatchFSM_ = false := by
          simp [fsm.have_next_target, hq]
        have hfirst : fsm.is_first m.toDispatchFSM_ = false := hf
        rw [hnext, hfirst] at h
        cases he : fsm.is_target_expired m.toDispatchFSM_ now
        · rw [he] at h
          simp only [Bool.false_and, Bool.false_eq_true, if_false, Bool.not_false, Bool.and_self,
            Bool.or_true, if_true] at h
          cases h
          exact ⟨hf, hq, by simp, by simp, rfl, rfl⟩
        · rw [he] at h
          simp only [Bool.not_false, Bool.and_self, if_true] at h
          cases h
          exact ⟨hf, hq, by simp, by simp, rfl, rfl⟩
    | Dispatch =>
        rw [fsm_poll_in_Dispatch k now m hst] at h
        cases hd : fsm.dispatch k now m.toDispatchFSM_ with
        | error e => rw [hd] at h; cases h
        | ok d =>
            rw [hd] at h
            cases h
            have c := same_config_dispatch k now _ _ hd
            have f := (dispatch_step k now _ _ hd).2.2.2.2.2
            exact ⟨f, c.2.1.trans hq, by simp, by simp, c.2.2.1, c.2.2.2.1⟩
    | Terminate =>
        rw [fsm_poll_in_Terminate k now m hst] at h
        cases hd : fsm.finish now m.toDispatchFSM_ with
        | error e => rw [hd] at h; cases h
        | ok d =>
            rw [hd] at h
            cases h
            unfold fsm.finish at hd
            simp only at hd
            split_ifs at hd <;> cases hd <;> exact ⟨hf, hq, by simp, by simp, rfl, rfl⟩
    | Terminated =>
        rw [fsm_poll_in_Terminated k now m hst] at h
        cases h
        exact ⟨hf, hq, hs, hs0, rfl, rfl⟩

theorem runs_with_empty_queue (k : Constants) (nows : List Int) :
    ∀ (m mx : fsm.DispatchFSM), Dispatch.runs k nows m = Except.ok mx →
      m.first_ = false → m.next_target_queue_ = [] →
      m.state ≠ fsm.State.NextTarget → m.state ≠ fsm.State.Start →
      mx.first_ = false ∧ mx.next_target_queue_ = [] ∧ mx.state ≠ fsm.State.NextTarget ∧
      mx.state ≠ fsm.State.Start ∧ mx.target_ = m.target_ ∧ mx.root_ = m.root_ := by
  induction nows with
  | nil =>
      intro m mx h hf hq hs hs0
      cases h
      exact ⟨hf, hq, hs, hs0, rfl, rfl⟩
  | cons now rest ih =>
      intro m mx h hf hq hs hs0
      simp only [Dispatch.runs] at h
      cases h1 : Dispatch.run k now m with
      | error e => rw [h1] at h; cases h
      | ok m1 =>
          rw [h1] at h
          obtain ⟨a1, a2, a3, a4, a5, a6⟩ := run_with_empty_queue k now m m1 h1 hf hq hs hs0
          obtain ⟨b1, b2, b3, b4, b5, b6⟩ := ih m1 mx h a1 a2 a3 a4
          exact ⟨b1, b2, b3, b4, b5.trans a5, b6.trans a6⟩

/-! ### C12 -/

/-- C12 (scenario S3): in distributed mode with the target queue `[t1, t2]` and one VM
and one SVM worker registered, the first two polls (the first poll sequence) go through
`NextTarget` and assign `t1`, with the root directory `dispatch-root/ts/n1`.  With
`interval.trace = 10`, once the trace pool holds ten distinct traces the next poll in
`SpecCheck` goes to `NextTarget` and the poll after it runs the one rotation: the row out
of `NextTarget` has `next_target_clean` once in its action sequence, and it removes the
trace directory of the `t1` root with everything below; afterwards the target is `t2`,
the target queue is empty, the root directory is the `t2` root with its new
subdirectories, the trace pool is freshly built, so that the target is expired again
only by the test-case or the time threshold, and no later poll enters `NextTarget`. -/
theorem C12_rotation_by_trace_threshold (k : Constants) (m0 m : fsm.DispatchFSM)
    (t1 t2 n1 n2 ts : String) (v0 s0 v s : NodeData) (a1 a2 b1 b2 : Int)
    (hstate0 : m0.state = fsm.State.SpecCheck)
    (hfirst0 : m0.first_ = true)
    (hdist0 : m0.options_.mode.distributed = true)
    (hqueue0 : m0.next_target_queue_ = [t1, t2])
    (hroot0 : m0.root_ = [dispatch_root_dir_name, ts])
    (hnodes0 : m0.node_registrar_ = [v0, s0])
    (hv0 : v0.type = packet_type.cluster_request_vm_node)
    (hs0 : s0.type = packet_type.cluster_request_svm_node)
    (hname1 : string_filename t1 = [n1])
    (hfin0 : m0.disk.fs_exists (m0.root_ ++ [log_dir_name]) = true →
      m0.disk.can_open (m0.root_ ++ [log_dir_name, dispatch_log_finish_file_name]) = true)
    (hfree0 : ∀ q ∈ m0.disk.names, [dispatch_root_dir_name, ts, n1].isPrefixOf q = false)
    (hstate : m.state = fsm.State.SpecCheck)
    (hfirst : m.first_ = false)
    (hdist : m.options_.mode.distributed = true)
    (hinterval : m.options_.test.interval.trace = 10)
    (hqueue : m.next_target_queue_ = [t2])
    (hroot : m.root_ = [dispatch_root_dir_name, ts, n1])
    (hts : ts ≠ dispatch_root_dir_name)
    (hnodes : m.node_registrar_ = [v, s])
    (hv : v.type = packet_type.cluster_request_vm_node)
    (hs : s.type = packet_type.cluster_request_svm_node)
    (hname2 : string_filename t2 = [n2])
    (hten : 10 ≤ m.trace_pool_.count_all_unique)
    (htrace : m.disk.is_dir (m.root_ ++ [dispatch_trace_dir_name]) = true)
    (hfin : m.disk.fs_exists (m.root_ ++ [log_dir_name]) = true →
      m.disk.can_open (m.root_ ++ [log_dir_name, dispatch_log_finish_file_name]) = true)
    (hfree : ∀ q ∈ m.disk.names, [dispatch_root_dir_name, ts, n2].isPrefixOf q = false) :
    (∃ m1 m2, Dispatch.run k a1 m0 = Except.ok m1 ∧ m1.state = fsm.State.NextTarget ∧
      Dispatch.run k a2 m1 = Except.ok m2 ∧ m2.state = fsm.State.Dispatch ∧
      m2.target_ = t1 ∧ m2.next_target_queue_ = [t2] ∧
      m2.root_ = [dispatch_root_dir_name, ts, n1]) ∧
    (∀ r ∈ fsm.transition_table, r.source = fsm.State.NextTarget →
      r.action.count fsm.Action.next_target_clean = 1) ∧
    (∃ m1 m2, Dispatch.run k b1 m = Except.ok m1 ∧ m1.state = fsm.State.NextTarget ∧
      Dispatch.run k b2 m1 = Except.ok m2 ∧ m2.state = fsm.State.Dispatch ∧
      m2.target_ = t2 ∧ m2.next_target_queue_ = [] ∧
      m2.root_ = [dispatch_root_dir_name, ts, n2] ∧
      (∀ q, (m.root_ ++ [dispatch_trace_dir_name]).isPrefixOf q = true →
        m2.disk.fs_exists q = false) ∧
      (∀ e ∈ [dispatch_trace_dir_name, dispatch_test_case_dir_name, dispatch_profile_dir_name],
        m2.disk.is_dir (m2.root_ ++ [e]) = true) ∧
      m2.trace_pool_ = TracePool.fresh ∧
      (∀ now, fsm.is_target_expired m2.toDispatchFSM_ now =
        (decide (0 ≥ m2.options_.test.interval.tc) ||
          decide (fsm.elapsed_time m2.toDispatchFSM_ now ≥ m2.options_.test.interval.time))) ∧
      (∀ nows mx, Dispatch.runs k nows m2 = Except.ok mx →
        mx.state ≠ fsm.State.NextTarget ∧ mx.target_ = t2 ∧ mx.next_target_queue_ = [] ∧
        mx.root_ = [dispatch_root_dir_name, ts, n2])) := by
  have hfs : ∀ (d : FileSystem) (p : Path), (∀ q ∈ d.names, p.isPrefixOf q = false) →
      ∀ q, p.isPrefixOf q = true → d.fs_exists q = false := by
    intro d p hall q hp
    cases hc : d.fs_exists q
    · rfl
    · rw [hall q ((fs_exists_iff_names d q).mp hc)] at hp
      cases hp
  have hbase0 : [dispatch_root_dir_name, ts] =
      if filename (parent_path m0.root_) = [dispatch_root_dir_name]
      then m0.root_ else parent_path m0.root_ := by
    rw [hroot0]
    rfl
  have hbase : [dispatch_root_dir_name, ts] =
      if filename (parent_path m.root_) = [dispatch_root_dir_name]
      then m.root_ else parent_path m.root_ := by
    rw [hroot]
    simp [parent_path, filename, hts]
  have hdiff : n1 ≠ n2 := by
    intro hc
    have h1 : m.root_ ++ [dispatch_trace_dir_name] ∈ m.disk.names := by
      rw [← fs_exists_iff_names]
      rw [fs_exists_eq_is_dir_or _ _ (by simp), htrace]
      rfl
    have h2 := hfree _ h1
    rw [hroot, hc] at h2
    simp [List.isPrefixOf] at h2
  obtain ⟨diskA, p1, p2, -, -, -⟩ := rotation_polls k a1 a2 m0 t1 [t2] n1
    [dispatch_root_dir_name, ts] v0 s0 hstate0 (Or.inl hfirst0) hdist0 hqueue0 hname1 hbase0
    hnodes0 hv0 hs0 hfin0 (by rw [hroot0]; simp) (hfs _ _ hfree0)
  obtain ⟨diskB, q1, q2, q3, -, q5⟩ := rotation_polls k b1 b2 m t2 [] n2
    [dispatch_root_dir_name, ts] v s hstate
    (Or.inr (by
      simp only [fsm.is_target_expired, hinterval, ge_iff_le, hten, decide_True, Bool.or_true,
        Bool.true_or]))
    hdist hqueue hname2 hbase hnodes hv hs hfin (by rw [hroot]; simp) (hfs _ _ hfree)
  refine ⟨⟨_, _, p1, rfl, p2, rfl, rfl, rfl, rfl⟩, by decide,
    ⟨_, _, q1, rfl, q2, rfl, rfl, rfl, rfl, ?_, q3, rfl, ?_, ?_⟩⟩
  · intro q hq
    refine q5 q hq ?_ ?_
    · rw [hroot] at hq
      cases hp : ([dispatch_root_dir_name, ts] ++ [n2]).isPrefixOf q
      · rfl
      · exfalso
        obtain ⟨x, hx⟩ := List.isPrefixOf_iff_prefix.mp hq
        obtain ⟨y, hy⟩ := List.isPrefixOf_iff_prefix.mp hp
        rw [← hx] at hy
        simp only [List.cons_append, List.nil_append, List.cons.injEq, true_and] at hy
        exact hdiff hy.1.symm
    · intro hc
      rw [hroot, hc] at hq
      simp [List.isPrefixOf] at hq
  · intro now
    simp [fsm.is_target_expired, fsm.is_converged, fsm.are_nodes_inactive,
      fsm.are_nodes_inactive_loop, NodeData.reset_and_activate, NodeData.write,
      TracePool.fresh, TestPool.fresh, TracePool.count_all_unique, TestPool.count_all, hinterval]
  · intro nows mx hx
    obtain ⟨-, c2, c3, -, c5, c6⟩ := runs_with_empty_queue k nows _ mx hx hfirst rfl
      (by simp) (by simp)
    exact ⟨c3, c5, c2, c6⟩

/-- C12, witness: scenario S3 with the targets `t1` and `t2`, before the first poll and
after thirteen polls, when the ten traces of the VM worker have reached the trace pool. -/
theorem C12_rotation_by_trace_threshold_witness :
    (∃ m1 m2, Dispatch.run scenario.k0 0 (scenario.S3_polled []) = Except.ok m1 ∧
      m1.state = fsm.State.NextTarget ∧
      Dispatch.run scenario.k0 0 m1 = Except.ok m2 ∧ m2.state = fsm.State.Dispatch ∧
      m2.target_ = "t1" ∧ m2.next_target_queue_ = ["t2"] ∧
      m2.root_ = [dispatch_root_dir_name, "ts", "t1"]) ∧
    (∀ r ∈ fsm.transition_table, r.source = fsm.State.NextTarget →
      r.action.count fsm.Action.next_target_clean = 1) ∧
    (∃ m1 m2, Dispatch.run scenario.k0 0 (scenario.S3_polled (List.replicate 13 0)) =
        Except.ok m1 ∧ m1.state = fsm.State.NextTarget ∧
      Dispatch.run scenario.k0 0 m1 = Except.ok m2 ∧ m2.state = fsm.State.Dispatch ∧
      m2.target_ = "t2" ∧ m2.next_target_queue_ = [] ∧
      m2.root_ = [dispatch_root_dir_name, "ts", "t2"] ∧
      (∀ q, ((scenario.S3_polled (List.replicate 13 0)).root_ ++
          [dispatch_trace_dir_name]).isPrefixOf q = true → m2.disk.fs_exists q = false) ∧
      (∀ e ∈ [dispatch_trace_dir_name, dispatch_test_case_dir_name, dispatch_profile_dir_name],
        m2.disk.is_dir (m2.root_ ++ [e]) = true) ∧
      m2.trace_pool_ = TracePool.fresh ∧
      (∀ now, fsm.is_target_expired m2.toDispatchFSM_ now =
        (decide (0 ≥ m2.options_.test.interval.tc) ||
          decide (fsm.elapsed_time m2.toDispatchFSM_ now ≥ m2.options_.test.interval.time))) ∧
      (∀ nows mx, Dispatch.runs scenario.k0 nows m2 = Except.ok mx →
        mx.state ≠ fsm.State.NextTarget ∧ mx.target_ = "t2" ∧ mx.next_target_queue_ = [] ∧
        mx.root_ = [dispatch_root_dir_name, "ts", "t2"])) :=
  C12_rotation_by_trace_threshold scenario.k0 (scenario.S3_polled [])
    (scenario.S3_polled (List.replicate 13 0)) "t1" "t2" "t1" "t2" "ts"
    ((scenario.S3_polled []).node_registrar_.getD 0 NodeData.blank)
    ((scenario.S3_polled []).node_registrar_.getD 1 NodeData.blank)
    ((scenario.S3_polled (List.replicate 13 0)).node_registrar_.getD 0 NodeData.blank)
    ((scenario.S3_polled (List.replicate 13 0)).node_registrar_.getD 1 NodeData.blank)
    0 0 0 0
    rfl rfl rfl rfl rfl rfl rfl rfl (by decide) (by decide) (by decide)
    rfl rfl rfl rfl rfl rfl (by decide) rfl rfl rfl (by decide) (by decide) (by decide)
    (by decide) (by decide)

/-! ### The worker machines during one call of `Dispatch::run` -/

theorem assign_next_target_loop_keeps_machines (l : List Nat) :
    ∀ (d d1 : fsm.DispatchFSM_), fsm.assign_next_target_loop l d = Except.ok d1 →
      d1.vm_node_fsms_ = d.vm_node_fsms_ ∧ d1.svm_node_fsms_ = d.svm_node_fsms_ := by
  induction l with
  | nil =>
      intro d d1 h
      cases h
      exact ⟨rfl, rfl⟩
  | cons i rest ih =>
      intro d d1 h
      simp only [fsm.assign_next_target_loop] at h
      split_ifs at h
      · exact ih d d1 h
      · split at h
        · cases h
        · have r := ih _ d1 h
          exact r

theorem next_target_actions_machines (k : Constants) (now : Int) (d d1 : fsm.DispatchFSM_)
    (h : run_actions (fsm.exec k now fsm.Event.poll)
      [fsm.Action.finish, fsm.Action.next_target_clean, fsm.Action.reset,
       fsm.Action.assign_next_target] d = Except.ok d1) :
    (∀ v ∈ d1.vm_node_fsms_, ∃ node, v = vm_machine_for node d.options_) ∧
    (∀ v ∈ d1.svm_node_fsms_, ∃ node, v = svm_machine_for node) := by
  simp only [run_actions, fsm.exec] at h
  cases hf : fsm.finish now d with
  | error e => rw [hf] at h; cases h
  | ok df =>
      rw [hf] at h
      simp only at h
      have hfo : df.options_ = d.options_ := by
        unfold fsm.finish at hf
        simp only at hf
        split_ifs at hf <;> cases hf <;> rfl
      cases hr : fsm.reset now (fsm.next_target_clean df) with
      | error e => rw [hr] at h; cases h
      | ok dr =>
          rw [hr] at h
          simp only at h
          cases ha : fsm.assign_next_target dr with
          | error e => rw [ha] at h; cases h
          | ok da =>
              rw [ha] at h
              cases h
              obtain ⟨k1, k2⟩ := assign_next_target_loop_keeps_machines _ _ _ ha
              unfold fsm.reset at hr
              cases hs : fsm.set_up_root_dir (fsm.next_target_clean df) with
              | error e => rw [hs] at hr; cases hr
              | ok d0 =>
                  rw [hs] at hr
                  simp only at hr
                  obtain ⟨ho, _⟩ := set_up_root_dir_keeps _ d0 hs
                  obtain ⟨_, _, _, _, _, i6, i7⟩ := reset_loop_result _ _ _ hr
                  rw [k1, i6]
                  rw [k2, i7]
                  constructor
                  · intro v hv
                    simp only [List.nil_append, List.mem_map] at hv
                    obtain ⟨node, _, e⟩ := hv
                    refine ⟨node, ?_⟩
                    rw [← e]
                    show vm_machine_for node d0.options_ = _
                    rw [ho]
                    show vm_machine_for node df.options_ = _
                    rw [hfo]
                  · intro v hv
                    simp only [List.nil_append, List.mem_map] at hv
                    obtain ⟨node, _, e⟩ := hv
                    exact ⟨node, e.symm⟩

theorem run_machines (k : Constants) (now : Int) (m m1 : fsm.DispatchFSM)
    (h : Dispatch.run k now m = Except.ok m1) :
    (m1.vm_node_fsms_ = m.vm_node_fsms_ ∧ m1.svm_node_fsms_ = m.svm_node_fsms_ ∧
      m1.node_registrar_ = m.node_registrar_ ∧
      (Dispatch.has_nodes m = false ∨
        (m.state ≠ fsm.State.NextTarget ∧ m.state ≠ fsm.State.Dispatch))) ∨
    (m.state = fsm.State.Dispatch ∧
      List.Forall₂ vm.one_step m.vm_node_fsms_ m1.vm_node_fsms_ ∧
      List.Forall₂ svm.one_step m.svm_node_fsms_ m1.svm_node_fsms_) ∨
    (m.state = fsm.State.NextTarget ∧
      (∀ v ∈ m1.vm_node_fsms_, ∃ node, v = vm_machine_for node m.options_) ∧
      (∀ v ∈ m1.svm_node_fsms_, ∃ node, v = svm_machine_for node)) := by
  unfold Dispatch.run at h
  by_cases hn : Dispatch.has_nodes m = true
  · rw [hn] at h
    simp only [Bool.not_true, Bool.false_eq_true, if_false] at h
    cases hst : m.state with
    | Start =>
        rw [fsm_poll_in_Start k now m hst] at h
        cases h
    | SpecCheck =>
        rw [fsm_poll_in_SpecCheck k now m hst] at h
        split_ifs at h <;> cases h <;> exact Or.inl ⟨rfl, rfl, rfl, Or.inr ⟨by simp, by simp⟩⟩
    | NextTarget =>
        rw [fsm_poll_in_NextTarget k now m hst] at h
        split at h
        · rename_i d hd
          cases h
          exact Or.inr (Or.inr ⟨rfl, next_target_actions_machines k now _ d hd⟩)
        · cases h
    | Dispatch =>
        rw [fsm_poll_in_Dispatch k now m hst] at h
        split at h
        · rename_i d hd
          cases h
          have st := dispatch_step k now _ d hd
          exact Or.inr (Or.inl ⟨rfl, st.1, st.2.1⟩)
        · cases h
    | Terminate =>
        rw [fsm_poll_in_Terminate k now m hst] at h
        split at h
        · rename_i d hd
          cases h
          unfold fsm.finish at hd
          simp only at hd
          split_ifs at hd <;> cases hd <;> exact Or.inl ⟨rfl, rfl, rfl, Or.inr ⟨by simp, by simp⟩⟩
        · cases h
    | Terminated =>
        rw [fsm_poll_in_Terminated k now m hst] at h
        cases h
        exact Or.inl ⟨rfl, rfl, rfl, Or.inr ⟨by simp [hst], by simp [hst]⟩⟩
  · have hn2 : Dispatch.has_nodes m = false := by
      cases hc : Dispatch.has_nodes m
      · rfl
      · exact absurd hc hn
    rw [hn2] at h
    simp only [Bool.not_false, if_true] at h
    cases h
    exact Or.inl ⟨rfl, rfl, rfl, Or.inl hn2⟩

/-! ### Convergence across a poll -/

theorem nodes_step_same_status :
    ∀ (l l1 : List NodeData), nodes_step l l1 →
      l1.map (fun n => n.server.expected.count packet_type.cluster_status) =
        l.map (fun n => n.server.expected.count packet_type.cluster_status) →
      l1.map (fun n => n.status) = l.map (fun n => n.status) := by
  intro l l1 h
  induction h with
  | nil => intro _; rfl
  | cons hab _ ih =>
      intro hc
      simp only [List.map_cons, List.cons.injEq] at hc ⊢
      exact ⟨hab.2.2.2.2 hc.1, ih hc.2⟩

theorem are_node_queues_empty_loop_congr :
    ∀ (l l1 : List NodeData), l1.map (fun n => n.status) = l.map (fun n => n.status) →
      fsm.are_node_queues_empty_loop l1 = fsm.are_node_queues_empty_loop l ∧
      fsm.are_nodes_inactive_loop l1 = fsm.are_nodes_inactive_loop l := by
  intro l
  induction l with
  | nil =>
      intro l1 h
      cases l1 with
      | nil => exact ⟨rfl, rfl⟩
      | cons a t => cases h
  | cons x xs ih =>
      intro l1 h
      cases l1 with
      | nil => cases h
      | cons a t =>
          simp only [List.map_cons, List.cons.injEq] at h
          obtain ⟨i1, i2⟩ := ih t h.2
          simp only [fsm.are_node_queues_empty_loop, fsm.are_nodes_inactive_loop, h.1, i1, i2]
          exact ⟨trivial, trivial⟩

theorem is_converged_congr (d d1 : fsm.DispatchFSM_)
    (hs : d1.node_registrar_.map (fun n => n.status) = d.node_registrar_.map (fun n => n.status))
    (h1 : d1.trace_pool_.next_ = d.trace_pool_.next_)
    (h2 : d1.test_pool_.next_ = d.test_pool_.next_) :
    fsm.is_converged d1 = fsm.is_converged d := by
  obtain ⟨a, b⟩ := are_node_queues_empty_loop_congr _ _ hs
  simp only [fsm.is_converged, fsm.are_all_queues_empty, fsm.are_node_queues_empty,
    fsm.are_nodes_inactive, TracePool.count_next, TestPool.count_next, a, b, h1, h2]

/-! ### The worker handles after the row out of `NextTarget` -/

theorem reset_loop_head (node : Nat) (rest : List Nat) (d d1 : fsm.DispatchFSM_)
    (h : fsm.reset_loop (node :: rest) d = Except.ok d1) :
    ∃ d2, fsm.reset_loop rest d2 = Except.ok d1 ∧
      d2.node_registrar_ = update_at NodeData.reset_and_activate node d.node_registrar_ := by
  by_cases hv : (d.sys.acquire node).type = packet_type.cluster_request_vm_node
  · rw [(reset_loop_cons node rest d).1 hv] at h
    exact ⟨_, h, rfl⟩
  · by_cases hs : (d.sys.acquire node).type = packet_type.cluster_request_svm_node
    · rw [(reset_loop_cons node rest d).2 hs] at h
      exact ⟨_, h, rfl⟩
    · exfalso
      have hw : ((d.sys.with_node node
          (fun n => n.write packet_type.cluster_reset Payload.empty)).acquire node).type =
          (d.sys.acquire node).type := acquire_with_node_type _ _ _ _ (fun _ => rfl)
      have ht : (((d.sys.with_node node
          (fun n => n.write packet_type.cluster_reset Payload.empty)).with_node node
          (fun n => { n with status := { n.status with active := true } })).acquire node).type =
          (d.sys.acquire node).type :=
        (acquire_with_node_type _ node node
          (fun n => { n with status := { n.status with active := true } })
          (fun _ => rfl)).trans hw
      simp only [fsm.reset_loop, register_node_fsm, ht] at h
      cases hty : (d.sys.acquire node).type <;> simp only [hty] at h hv hs <;>
        first
          | exact hv trivial
          | exact hs trivial
          | cases h

theorem reset_loop_marks_active (l : List Nat) :
    ∀ (d d1 : fsm.DispatchFSM_), fsm.reset_loop l d = Except.ok d1 →
      d1.node_registrar_.length = d.node_registrar_.length ∧
      ∀ j < d.node_registrar_.length,
        (j ∈ l ∨ (d.node_registrar_.getD j NodeData.blank).status.active = true) →
        (d1.node_registrar_.getD j NodeData.blank).status.active = true := by
  induction l with
  | nil =>
      intro d d1 h
      cases h
      refine ⟨rfl, fun j _ hj => ?_⟩
      rcases hj with hj | hj
      · cases hj
      · exact hj
  | cons node rest ih =>
      intro d d1 h
      obtain ⟨d2, h2, e2⟩ := reset_loop_head node rest d d1 h
      obtain ⟨i1, i2⟩ := ih d2 d1 h2
      have hl : d2.node_registrar_.length = d.node_registrar_.length := by
        rw [e2]
        exact length_update_at _ _ _
      refine ⟨i1.trans hl, fun j hj hc => ?_⟩
      apply i2 j (by rw [hl]; exact hj)
      rw [e2, getD_update_at]
      by_cases hn : node = j
      · right
        rw [if_pos ⟨hn, hj⟩]
        rfl
      · rw [if_neg (fun c => hn c.1)]
        rcases hc with hc | hc
        · rcases List.mem_cons.mp hc with hc | hc
          · exact absurd hc.symm hn
          · exact Or.inl hc
        · exact Or.inr hc

theorem assign_next_target_loop_keeps_status (l : List Nat) :
    ∀ (d d1 : fsm.DispatchFSM_), fsm.assign_next_target_loop l d = Except.ok d1 →
      d1.node_registrar_.length = d.node_registrar_.length ∧
      ∀ j, (d1.node_registrar_.getD j NodeData.blank).status =
        (d.node_registrar_.getD j NodeData.blank).status := by
  induction l with
  | nil =>
      intro d d1 h
      cases h
      exact ⟨rfl, fun _ => rfl⟩
  | cons i rest ih =>
      intro d d1 h
      simp only [fsm.assign_next_target_loop] at h
      split_ifs at h
      · exact ih d d1 h
      · split at h
        · cases h
        · obtain ⟨r1, r2⟩ := ih _ d1 h
          refine ⟨r1.trans (length_update_at _ _ _), fun j => (r2 j).trans ?_⟩
          show ((update_at _ i d.node_registrar_).getD j NodeData.blank).status = _
          rw [getD_update_at]
          split_ifs <;> rfl

theorem next_target_actions_active (k : Constants) (now : Int) (d d1 : fsm.DispatchFSM_)
    (h : run_actions (fsm.exec k now fsm.Event.poll)
      [fsm.Action.finish, fsm.Action.next_target_clean, fsm.Action.reset,
       fsm.Action.assign_next_target] d = Except.ok d1) :
    d1.node_registrar_.length = d.node_registrar_.length ∧
    ∀ j < d.node_registrar_.length,
      (d1.node_registrar_.getD j NodeData.blank).status.active = true := by
  simp only [run_actions, fsm.exec] at h
  cases hf : fsm.finish now d with
  | error e => rw [hf] at h; cases h
  | ok df =>
      rw [hf] at h
      simp only at h
      have hfo : df.node_registrar_ = d.node_registrar_ := by
        unfold fsm.finish at hf
        simp only at hf
        split_ifs at hf <;> cases hf <;> rfl
      cases hr : fsm.reset now (fsm.next_target_clean df) with
      | error e => rw [hr] at h; cases h
      | ok dr =>
          rw [hr] at h
          simp only at h
          cases ha : fsm.assign_next_target dr with
          | error e => rw [ha] at h; cases h
          | ok da =>
              rw [ha] at h
              cases h
              obtain ⟨k1, k2⟩ := assign_next_target_loop_keeps_status _ _ _ ha
              unfold fsm.reset at hr
              cases hs : fsm.set_up_root_dir (fsm.next_target_clean df) with
              | error e => rw [hs] at hr; cases hr
              | ok d0 =>
                  rw [hs] at hr
                  simp only at hr
                  have hn : d0.node_registrar_ = d.node_registrar_ :=
                    (set_up_root_dir_keeps_nodes _ d0 hs).trans hfo
                  obtain ⟨i1, i2⟩ := reset_loop_marks_active _ _ _ hr
                  have hlen : dr.node_registrar_.length = d.node_registrar_.length :=
                    i1.trans (congrArg List.length hn)
                  refine ⟨k1.trans hlen, fun j hj => ?_⟩
                  rw [k2 j]
                  refine i2 j ?_ (Or.inl ?_)
                  · show j < d0.node_registrar_.length
                    rw [hn]
                    exact hj
                  · show j ∈ List.range d0.node_registrar_.length
                    rw [hn]
                    exact List.mem_range.mpr hj

theorem not_converged_of_active (d : fsm.DispatchFSM_)
    (h : (d.node_registrar_.getD 0 NodeData.blank).status.active = true)
    (hne : d.node_registrar_ ≠ []) : fsm.is_converged d = false := by
  cases hl : d.node_registrar_ with
  | nil => exact absurd hl hne
  | cons x xs =>
      rw [hl] at h
      simp only [List.getD_cons_zero] at h
      simp [fsm.is_converged, fsm.are_nodes_inactive, fsm.are_nodes_inactive_loop, hl, h]

/-! ### C20 -/

/-- C20, as amended: if `is_converged` holds before a poll of the Dispatch machine taken
in a state other than `NextTarget`, and during that poll no handle reads a status reply
and nothing new is inserted into either pool, then `is_converged` still holds after the
poll.  A poll taken in `NextTarget` with a worker registered leaves every worker handle
marked active, so that `is_converged` is false after it, whatever held before. -/
theorem C20_convergence_is_stable (k : Constants) (now : Int) (m m1 : fsm.DispatchFSM)
    (h : fsm.process_event k now fsm.Event.poll m = Except.ok m1) :
    (m.state ≠ fsm.State.NextTarget →
      fsm.is_converged m.toDispatchFSM_ = true →
      m1.node_registrar_.map (fun n => n.server.expected.count packet_type.cluster_status) =
        m.node_registrar_.map (fun n => n.server.expected.count packet_type.cluster_status) →
      m1.trace_pool_.all_ = m.trace_pool_.all_ →
      m1.test_pool_.all_ = m.test_pool_.all_ →
      fsm.is_converged m1.toDispatchFSM_ = true) ∧
    (m.state = fsm.State.NextTarget → m.node_registrar_ ≠ [] →
      (∀ n ∈ m1.node_registrar_, n.status.active = true) ∧
      fsm.is_converged m1.toDispatchFSM_ = false) := by
  constructor
  · intro hstate hconv hstatus htrace htest
    cases hst : m.state with
    | Start =>
        rw [fsm_poll_in_Start k now m hst] at h
        cases h
    | NextTarget => exact absurd hst hstate
    | SpecCheck =>
        rw [fsm_poll_in_SpecCheck k now m hst] at h
        split_ifs at h <;> cases h <;> exact hconv
    | Terminated =>
        rw [fsm_poll_in_Terminated k now m hst] at h
        cases h
        exact hconv
    | Terminate =>
        rw [fsm_poll_in_Terminate k now m hst] at h
        split at h
        · rename_i d hd
          cases h
          unfold fsm.finish at hd
          simp only at hd
          split_ifs at hd <;> cases hd <;> exact hconv
        · cases h
    | Dispatch =>
        rw [fsm_poll_in_Dispatch k now m hst] at h
        split at h
        · rename_i d hd
          cases h
          obtain ⟨-, -, sn, st, sc, -⟩ := dispatch_step k now _ d hd
          have hnext : m.trace_pool_.next_ = [] ∧ m.test_pool_.next_ = [] := by
            simp only [fsm.is_converged, fsm.are_all_queues_empty, TracePool.count_next,
              TestPool.count_next, Bool.and_eq_true, decide_eq_true_eq,
              List.length_eq_zero] at hconv
            exact ⟨hconv.1.2, hconv.1.1.2⟩
          have e1 : d.trace_pool_.next_ = [] := pool_step_nothing_added st htrace hnext.1
          have e2 : d.test_pool_.next_ = [] := pool_step_nothing_added sc htest hnext.2
          rw [is_converged_congr m.toDispatchFSM_ d (nodes_step_same_status _ _ sn hstatus)
            (e1.trans hnext.1.symm) (e2.trans hnext.2.symm)]
          exact hconv
        · cases h
  · intro hst hne
    rw [fsm_poll_in_NextTarget k now m hst] at h
    split at h
    · rename_i d hd
      cases h
      obtain ⟨hlen, hact⟩ := next_target_actions_active k now _ d hd
      have hpos : 0 < m.node_registrar_.length := List.length_pos.mpr hne
      refine ⟨fun n hn => ?_, not_converged_of_active d (hact 0 hpos) ?_⟩
      · obtain ⟨i, hi, e⟩ := List.getElem_of_mem hn
        have := hact i (hlen ▸ hi)
        rw [List.getD_eq_getElem _ _ hi, e] at this
        exact this
      · intro hc
        rw [hc] at hlen
        rw [← hlen] at hpos
        cases hpos
    · cases h

/-- C20, witness: the idle dispatcher in `Dispatch`; the pass sends `config` to both
workers and reads no reply. -/
theorem C20_convergence_is_stable_witness :
    fsm.is_converged (scenario.machine fsm.State.Dispatch scenario.idle_members).toDispatchFSM_ =
      true ∧
    ∃ m1, fsm.process_event scenario.k0 0 fsm.Event.poll
        (scenario.machine fsm.State.Dispatch scenario.idle_members) = Except.ok m1 ∧
      m1.node_registrar_.map (fun n => n.server.written.map (fun p => p.type)) =
        [[packet_type.cluster_config], [packet_type.cluster_config]] ∧
      fsm.is_converged m1.toDispatchFSM_ = true :=
  ⟨rfl, _, rfl, rfl,
    (C20_convergence_is_stable scenario.k0 0
      (scenario.machine fsm.State.Dispatch scenario.idle_members) _ rfl).1 (by decide) rfl rfl
      rfl rfl⟩

/-- C20, counterexample: the idle dispatcher in `NextTarget` is converged; the poll reads
no reply from either worker and leaves both pools without an entry, and `is_converged`
is false after it, because `reset` has marked both workers active. -/
theorem C20_convergence_lost_in_NextTarget :
    fsm.is_converged (scenario.machine fsm.State.NextTarget scenario.idle_members).toDispatchFSM_ =
      true ∧
    (scenario.machine fsm.State.NextTarget scenario.idle_members).node_registrar_.map
      (fun n => n.server.expected.count packet_type.cluster_status) = [0, 0] ∧
    (scenario.machine fsm.State.NextTarget scenario.idle_members).trace_pool_.all_ = [] ∧
    (scenario.machine fsm.State.NextTarget scenario.idle_members).test_pool_.all_ = [] ∧
    ∃ m1, fsm.process_event scenario.k0 0 fsm.Event.poll
        (scenario.machine fsm.State.NextTarget scenario.idle_members) = Except.ok m1 ∧
      m1.node_registrar_.map
        (fun n => n.server.expected.count packet_type.cluster_status) = [0, 0] ∧
      m1.trace_pool_.all_ = [] ∧ m1.test_pool_.all_ = [] ∧
      m1.node_registrar_.map (fun n => n.status.active) = [true, true] ∧
      fsm.is_converged m1.toDispatchFSM_ = false :=
  ⟨rfl, rfl, rfl, rfl, _, rfl, rfl, rfl, rfl, rfl, rfl⟩

/-! ### C21 -/

/-- C21, at the failing input: scenario S3 with `profile.interval = 10`.  The dispatch
pass at 500 s appends the row `500 0 0 10 10` to `stat.dat` of the `t1` root and writes
`stat.pg`; the rotation at 501 s restarts the clock; the dispatch pass at 501 s finds
the elapsed time 0 and the remembered time 500, whose unsigned difference is
`2^64 - 500`, and appends the row `0 0 0 0 0` to `stat.dat` of the `t2` root, one second
after the previous row.  No second `stat.pg` is written. -/
theorem C21_row_one_second_after_the_previous_row :
    scenario.S3_profiled.profile.interval = 10 ∧
    (match Dispatch.runs scenario.k0 (scenario.S3_clock.take 13)
        (scenario.cluster scenario.S3_profiled scenario.S3_vm_handle scenario.svm_handle) with
      | Except.ok m => some (m.prev_time,
          scenario.statistics m.disk ["dispatch-root", "ts", "t1"])
      | Except.error _ => none) =
      some (500, some (FileContent.rows [[500, 0, 0, 10, 10]]),
        some (FileContent.text fsm.stat_pg_script)) ∧
    (match Dispatch.runs scenario.k0 (scenario.S3_clock.take 15)
        (scenario.cluster scenario.S3_profiled scenario.S3_vm_handle scenario.svm_handle) with
      | Except.ok m => some (m.state, fsm.elapsed_time m.toDispatchFSM_ 501000000000,
          m.prev_time, (2 ^ 64 - m.prev_time) % 2 ^ 64)
      | Except.error _ => none) =
      some (fsm.State.Dispatch, 0, 500, 18446744073709551116) ∧
    (match Dispatch.runs scenario.k0 scenario.S3_clock
        (scenario.cluster scenario.S3_profiled scenario.S3_vm_handle scenario.svm_handle) with
      | Except.ok m => some (scenario.statistics m.disk ["dispatch-root", "ts", "t1"],
          scenario.statistics m.disk ["dispatch-root", "ts", "t2"])
      | Except.error _ => none) =
      some ((some (FileContent.rows [[500, 0, 0, 10, 10]]),
          some (FileContent.text fsm.stat_pg_script)),
        (some (FileContent.rows [[0, 0, 0, 0, 0]]), Option.none)) := by
  refine ⟨rfl, ?_, ?_, ?_⟩
  · rfl
  · rfl
  · rfl

/-! ### C22 -/

/-- C22: `register_node_fsm` on a handle of type `cluster_request_vm_node` appends exactly
one machine to the VM list, in `TxConfig` with `first = false`, `update_image` and
`distributed` as the options say, and leaves the SVM list as it is; on a handle of type
`cluster_request_svm_node` it appends exactly one machine in `TxConfig` to the SVM list
and leaves the VM list as it is.  The machines already in the lists are the same, in the
same order. -/
theorem C22_register_node_fsm_appends_one_machine (node : Nat) (options : option.Dispatch)
    (sys : Sys) (vms : List vm.NodeFSM) (svms : List svm.NodeFSM) :
    ((sys.acquire node).type = packet_type.cluster_request_vm_node →
      ∃ v sys1, register_node_fsm node options sys vms svms =
          (sys1, Except.ok (vms ++ [v], svms)) ∧
        v.state = vm.State.TxConfig ∧ v.first_ = false ∧
        v.update_image_ = options.vm.image.update ∧
        v.distributed_ = options.mode.distributed ∧ v.node_ = node) ∧
    ((sys.acquire node).type = packet_type.cluster_request_svm_node →
      ∃ v sys1, register_node_fsm node options sys vms svms =
          (sys1, Except.ok (vms, svms ++ [v])) ∧
        v.state = svm.State.TxConfig ∧ v.node_ = node) := by
  constructor
  · intro h
    exact ⟨vm_machine_for node options, _,
      (register_node_fsm_typed node options sys vms svms).1 h, rfl, rfl, rfl, rfl, rfl⟩
  · intro h
    exact ⟨svm_machine_for node, _,
      (register_node_fsm_typed node options sys vms svms).2 h, rfl, rfl⟩

/-- C22, witness: a VM handle and an SVM handle registered with lists that hold one
machine each. -/
theorem C22_register_node_fsm_appends_one_machine_witness :
    (∃ v sys1, register_node_fsm 0 (scenario.opts true true [])
        { nodes := [scenario.handle packet_type.cluster_request_vm_node], disk := scenario.disk0 }
        [scenario.S4_machine] [svm_machine_for 3] =
          (sys1, Except.ok ([scenario.S4_machine] ++ [v], [svm_machine_for 3])) ∧
        v.state = vm.State.TxConfig ∧ v.first_ = false ∧
        v.update_image_ = (scenario.opts true true []).vm.image.update ∧
        v.distributed_ = (scenario.opts true true []).mode.distributed ∧ v.node_ = 0) ∧
    (∃ v sys1, register_node_fsm 0 (scenario.opts true true [])
        { nodes := [scenario.handle packet_type.cluster_request_svm_node], disk := scenario.disk0 }
        [scenario.S4_machine] [svm_machine_for 3] =
          (sys1, Except.ok ([scenario.S4_machine], [svm_machine_for 3] ++ [v])) ∧
        v.state = svm.State.TxConfig ∧ v.node_ = 0) :=
  ⟨(C22_register_node_fsm_appends_one_machine 0 (scenario.opts true true [])
      { nodes := [scenario.handle packet_type.cluster_request_vm_node], disk := scenario.disk0 }
      [scenario.S4_machine] [svm_machine_for 3]).1 rfl,
   (C22_register_node_fsm_appends_one_machine 0 (scenario.opts true true [])
      { nodes := [scenario.handle packet_type.cluster_request_svm_node], disk := scenario.disk0 }
      [scenario.S4_machine] [svm_machine_for 3]).2 rfl⟩

/-! ### C29 -/

/-- C29: a VM machine in `TxConfig` with `update_image = true` and `distributed = false`
(as `register_node_fsm` creates it under such options) never leaves `TxConfig`.
Whatever `first` is, the guard of each of the three rows out of `TxConfig` is false; a
`config` event is rejected and leaves the machine and the worker handles as they were,
so nothing is transmitted; no other event has a row in `TxConfig`; and a visit of the
dispatch action, which delivers `config`, leaves the machine and the dispatcher as they
were. -/
theorem C29_stuck_in_TxConfig (m : vm.NodeFSM) (sys : Sys)
    (hs : m.state = vm.State.TxConfig) (hu : m.update_image_ = true)
    (hd : m.distributed_ = false) :
    (∀ ev, ∀ r ∈ vm.transition_table, r.source = vm.State.TxConfig →
      (r.guard.eval (vm.guard ev) (m.toVMNodeFSM_, sys)).1 = false) ∧
    (∀ o, vm.process_event (vm.Event.config o) m sys = Except.ok (m, sys)) ∧
    (∀ ev r, vm.process_event ev m sys = Except.ok r → r = (m, sys)) ∧
    (∀ k d, fsm.dispatch_vm k d m = Except.ok (m, d)) := by
  have hcfg : ∀ s o, vm.process_event (vm.Event.config o) m s = Except.ok (m, s) := by
    intro s o
    obtain ⟨mm, st⟩ := m
    simp only at hs hu hd
    subst hs
    cases hf : mm.first_ <;>
      simp [vm.process_event, vm.fired_row, vm.Event.tag, vm_candidate_rows_TxConfig,
        select_row, GuardExpr.eval, vm.guard, hu, hd, hf]
  refine ⟨?_, hcfg sys, ?_, ?_⟩
  · intro ev r hr hsrc
    have hrows : r ∈ (vm.transition_table.filter
        (fun x => decide (x.source = vm.State.TxConfig))) :=
      List.mem_filter.mpr ⟨hr, by simp [hsrc]⟩
    have hl : vm.transition_table.filter (fun x => decide (x.source = vm.State.TxConfig)) =
        (candidate_rows vm.transition_table vm.State.TxConfig vm.EventTag.config).reverse := by
      decide
    rw [hl, vm_candidate_rows_TxConfig] at hrows
    simp only [List.reverse_cons, List.reverse_nil, List.nil_append, List.cons_append,
      List.mem_cons, List.mem_singleton, List.not_mem_nil, or_false] at hrows
    rcases hrows with h | h | h <;> subst h <;> cases hf : m.first_ <;>
      simp [GuardExpr.eval, vm.guard, hu, hd, hf]
  · intro ev r h
    cases ev with
    | config o =>
        rw [hcfg sys o] at h
        cases h
        rfl
    | start n f u di =>
        have hc : candidate_rows vm.transition_table vm.State.TxConfig vm.EventTag.start = [] := by
          decide
        simp [vm.process_event, vm.Event.tag, hs, hc] at h
    | poll =>
        have hc : candidate_rows vm.transition_table vm.State.TxConfig vm.EventTag.poll = [] := by
          decide
        simp [vm.process_event, vm.Event.tag, hs, hc] at h
    | image p =>
        have hc : candidate_rows vm.transition_table vm.State.TxConfig vm.EventTag.image = [] := by
          decide
        simp [vm.process_event, vm.Event.tag, hs, hc] at h
    | trace =>
        have hc : candidate_rows vm.transition_table vm.State.TxConfig vm.EventTag.trace = [] := by
          decide
        simp [vm.process_event, vm.Event.tag, hs, hc] at h
    | test ts =>
        have hc : candidate_rows vm.transition_table vm.State.TxConfig vm.EventTag.test = [] := by
          decide
        simp [vm.process_event, vm.Event.tag, hs, hc] at h
  · intro k d
    simp only [fsm.dispatch_vm, fsm.dispatch_vm_event, vm.NodeFSM.is_flag_active, vm.flag_list,
      hs]
    simp only [List.contains_cons, List.contains_nil, Bool.or_false]
    have e1 : (vm.Flag.trace_rxed == vm.Flag.tx_config) = false := by decide
    have e2 : (vm.Flag.tx_test == vm.Flag.tx_config) = false := by decide
    have e3 : (vm.Flag.error_rxed == vm.Flag.tx_config) = false := by decide
    have e4 : (vm.Flag.tx_config == vm.Flag.tx_config) = true := by decide
    simp only [e1, e2, e3, e4, Bool.false_eq_true, if_false, if_true]
    rw [hcfg]
    rfl

/-- C29, witness: the machine `register_node_fsm` builds under options with image update
in dev mode. -/
theorem C29_stuck_in_TxConfig_witness :
    (∀ ev, ∀ r ∈ vm.transition_table, r.source = vm.State.TxConfig →
      (r.guard.eval (vm.guard ev)
        ((vm_machine_for 0 (scenario.opts false true [])).toVMNodeFSM_,
          (scenario.members false true [] [scenario.handle
            packet_type.cluster_request_vm_node]).sys)).1 = false) ∧
    (∀ o, vm.process_event (vm.Event.config o) (vm_machine_for 0 (scenario.opts false true []))
        (scenario.members false true [] [scenario.handle
          packet_type.cluster_request_vm_node]).sys =
      Except.ok (vm_machine_for 0 (scenario.opts false true []),
        (scenario.members false true [] [scenario.handle
          packet_type.cluster_request_vm_node]).sys)) ∧
    (∀ ev r, vm.process_event ev (vm_machine_for 0 (scenario.opts false true []))
        (scenario.members false true [] [scenario.handle
          packet_type.cluster_request_vm_node]).sys = Except.ok r →
      r = (vm_machine_for 0 (scenario.opts false true []),
        (scenario.members false true [] [scenario.handle
          packet_type.cluster_request_vm_node]).sys)) ∧
    (∀ k d, fsm.dispatch_vm k d (vm_machine_for 0 (scenario.opts false true [])) =
      Except.ok (vm_machine_for 0 (scenario.opts false true []), d)) :=
  C29_stuck_in_TxConfig (vm_machine_for 0 (scenario.opts false true []))
    (scenario.members false true [] [scenario.handle packet_type.cluster_request_vm_node]).sys
    rfl rfl rfl

/-! ### C30 -/

/-- C30, as amended: under a valuation of (dev_mode, first, target_expired,
have_next_target) at most one of the three guards out of `SpecCheck` is true, except
when `target_expired` holds and `have_next_target` does not while `dev_mode` or `first`
holds: then the guard to `Terminate` is true together with the guard to `Dispatch` (dev
mode) or the guard to `NextTarget` (not dev mode, first).  There the successor depends
on the order in which the rows are tried: tried in declaration order the first enabled
row wins, tried last-declared first, as the machine does, `Terminate` wins.  The
valuation is what the four guard functors return for the dispatcher. -/
theorem C30_spec_check_guards (dev first expired next : Bool) :
    ((fsm.spec_check_enabled dev first expired next).map (fun r => r.target) =
      if expired && !next then
        (if dev then [fsm.State.Dispatch, fsm.State.Terminate]
         else if first then [fsm.State.NextTarget, fsm.State.Terminate]
         else [fsm.State.Terminate])
      else if dev || (!first && !expired) then [fsm.State.Dispatch]
      else [fsm.State.NextTarget]) ∧
    ((fsm.spec_check_enabled dev first expired next).length ≤ 1 ↔
      ¬ (expired = true ∧ next = false ∧ (dev = true ∨ first = true))) ∧
    (select_row (fsm.guard_under dev first expired next)
        (candidate_rows fsm.transition_table fsm.State.SpecCheck fsm.EventTag.poll) ()).1 =
      (fsm.spec_check_enabled dev first expired next).getLast? ∧
    (select_row (fsm.guard_under dev first expired next)
        (candidate_rows fsm.transition_table fsm.State.SpecCheck fsm.EventTag.poll).reverse
        ()).1 = (fsm.spec_check_enabled dev first expired next).head? ∧
    (∀ (now : Int) (g : fsm.Guard) (d : fsm.DispatchFSM_),
      (fsm.is_dev_mode d, fsm.is_first d, fsm.is_target_expired d now,
        fsm.have_next_target d) = (dev, first, expired, next) →
      fsm.guard now g d = ((fsm.guard_under dev first expired next g ()).1, d)) := by
  refine ⟨?_, ?_, ?_, ?_, ?_⟩
  · revert dev first expired next
    decide
  · revert dev first expired next
    decide
  · revert dev first expired next
    decide
  · revert dev first expired next
    decide
  · intro now g d h
    simp only [Prod.mk.injEq] at h
    obtain ⟨h1, h2, h3, h4⟩ := h
    cases g <;> simp [fsm.guard, fsm.guard_under, h1, h2, h3, h4]

/-- C30, witness: the idle dispatcher (distributed, converged, a target queued), for which
the four guard functors return the valuation (false, false, true, true). -/
theorem C30_spec_check_guards_witness :
    fsm.guard 0 fsm.Guard.is_target_expired scenario.idle_members =
      ((fsm.guard_under false false true true fsm.Guard.is_target_expired ()).1,
        scenario.idle_members) :=
  (C30_spec_check_guards false false true true).2.2.2.2 0 fsm.Guard.is_target_expired
    scenario.idle_members rfl

/-- C30, counterexample: in dev mode with the target expired and no target queued the
guard to `Dispatch` and the guard to `Terminate` are both true; tried in declaration
order the row to `Dispatch` would fire, tried last-declared first the row to `Terminate`
fires. -/
theorem C30_two_guards_true_in_dev_mode :
    (fsm.spec_check_enabled true false true false).map (fun r => r.target) =
      [fsm.State.Dispatch, fsm.State.Terminate] ∧
    ((select_row (fsm.guard_under true false true false)
        (candidate_rows fsm.transition_table fsm.State.SpecCheck fsm.EventTag.poll).reverse
        ()).1.map (fun r => r.target)) = some fsm.State.Dispatch ∧
    ((select_row (fsm.guard_under true false true false)
        (candidate_rows fsm.transition_table fsm.State.SpecCheck fsm.EventTag.poll)
        ()).1.map (fun r => r.target)) = some fsm.State.Terminate := by
  decide

/-! ### The root directory -/

theorem string_filename_cases (s : String) :
    string_filename s = [] ∨ ∃ x, string_filename s = [x] := by
  unfold string_filename
  simp only
  split_ifs
  · exact Or.inl rfl
  · exact Or.inr ⟨_, rfl⟩
  · exact Or.inr ⟨_, rfl⟩
  · exact Or.inr ⟨_, rfl⟩

theorem read_symlink_relink (d : FileSystem) (t l : Path) :
    ((d.remove l).create_symlink t l).read_symlink l = some t := by
  simp only [FileSystem.read_symlink, FileSystem.create_symlink, FileSystem.remove,
    List.find?_append]
  have h : (d.symlinks.filter (fun q => !decide (q.1 = l))).find?
      (fun q => decide (q.1 = l)) = none := by
    rw [List.find?_eq_none]
    intro x hx
    have := (List.mem_filter.mp hx).2
    simpa using this
  rw [h]
  simp

theorem set_up_root_dir_root (ts : String) (d d1 : fsm.DispatchFSM_)
    (hts : ts ≠ dispatch_root_dir_name) (hr : fsm.rooted ts d)
    (h : fsm.set_up_root_dir d = Except.ok d1) :
    (d.options_.mode.distributed = true →
      ∃ front rest, d.next_target_queue_ = front :: rest ∧
        d1.root_ = [dispatch_root_dir_name, ts] ++ string_filename front) ∧
    (d.options_.mode.distributed = false → d1.root_ = [dispatch_root_dir_name, ts]) ∧
    d1.disk.read_symlink [dispatch_root_dir_name, dispatch_last_root_symlink] = some [ts] ∧
    d1.options_ = d.options_ ∧ d1.next_target_queue_ = d.next_target_queue_ := by
  unfold fsm.set_up_root_dir at h
  rcases hr with ⟨hd, t, ht⟩ | ⟨hd, ht⟩
  · cases hq : d.next_target_queue_ with
    | nil => simp [hd, hq] at h
    | cons front rest =>
        have hbase : (if filename (parent_path d.root_) = [dispatch_root_dir_name]
            then (Except.ok (filename d.root_, d.root_ ++ string_filename front) :
              Except Fault (Path × Path))
            else Except.ok (filename (parent_path d.root_),
              parent_path d.root_ ++ string_filename front)) =
            Except.ok ([ts], [dispatch_root_dir_name, ts] ++ string_filename front) := by
          rcases string_filename_cases t with e | ⟨x, e⟩
          · rw [ht, e]
            simp [parent_path, filename]
          · rw [ht, e]
            simp [parent_path, filename, hts]
        simp only [hd, hq, if_true, hbase] at h
        split at h
        · cases h
        · rename_i disk2 hmade
          cases h
          exact ⟨fun _ => ⟨front, rest, rfl, rfl⟩, fun hc => by simp [hd] at hc,
            read_symlink_relink _ _ _, rfl, hq.symm ▸ rfl⟩
  · simp only [hd, Bool.false_eq_true, if_false] at h
    split at h
    · cases h
    · rename_i disk2 hmade
      cases h
      refine ⟨fun hc => by simp [hd] at hc, fun _ => ht, ?_, rfl, rfl⟩
      have : filename d.root_ = [ts] := by
        rw [ht]
        rfl
      rw [this]
      exact read_symlink_relink _ _ _

theorem reset_loop_keeps_root (l : List Nat) :
    ∀ (d d1 : fsm.DispatchFSM_), fsm.reset_loop l d = Except.ok d1 →
      d1.root_ = d.root_ ∧ d1.options_ = d.options_ := by
  induction l with
  | nil =>
      intro d d1 h
      cases h
      exact ⟨rfl, rfl⟩
  | cons node rest ih =>
      intro d d1 h
      simp only [fsm.reset_loop] at h
      split at h
      · have r := ih _ d1 h
        exact r
      · cases h

theorem assign_next_target_loop_keeps_root (l : List Nat) :
    ∀ (d d1 : fsm.DispatchFSM_), fsm.assign_next_target_loop l d = Except.ok d1 →
      d1.root_ = d.root_ ∧ d1.options_ = d.options_ := by
  induction l with
  | nil =>
      intro d d1 h
      cases h
      exact ⟨rfl, rfl⟩
  | cons i rest ih =>
      intro d d1 h
      simp only [fsm.assign_next_target_loop] at h
      split_ifs at h
      · exact ih d d1 h
      · split at h
        · cases h
        · have r := ih _ d1 h
          exact r

theorem run_keeps_rooted (k : Constants) (now : Int) (ts : String) (m m1 : fsm.DispatchFSM)
    (hts : ts ≠ dispatch_root_dir_name) (hr : fsm.rooted ts m.toDispatchFSM_)
    (h : Dispatch.run k now m = Except.ok m1) : fsm.rooted ts m1.toDispatchFSM_ := by
  have keep : ∀ d : fsm.DispatchFSM_, d.root_ = m.root_ → d.options_ = m.options_ →
      fsm.rooted ts d := by
    intro d e1 e2
    unfold fsm.rooted
    rw [e1, e2]
    exact hr
  unfold Dispatch.run at h
  split_ifs at h
  · cases h
    exact hr
  · cases hst : m.state with
    | Start =>
        rw [fsm_poll_in_Start k now m hst] at h
        cases h
    | SpecCheck =>
        rw [fsm_poll_in_SpecCheck k now m hst] at h
        split_ifs at h <;> cases h <;> exact keep _ rfl rfl
    | Dispatch =>
        rw [fsm_poll_in_Dispatch k now m hst] at h
        split at h
        · rename_i d hd
          cases h
          have c := same_config_dispatch k now _ _ hd
          exact keep _ c.2.2.2.1 c.1
        · cases h
    | Terminate =>
        rw [fsm_poll_in_Terminate k now m hst] at h
        split at h
        · rename_i d hd
          cases h
          unfold fsm.finish at hd
          simp only at hd
          split_ifs at hd <;> cases hd <;> exact keep _ rfl rfl
        · cases h
    | Terminated =>
        rw [fsm_poll_in_Terminated k now m hst] at h
        cases h
        exact hr
    | NextTarget =>
        rw [fsm_poll_in_NextTarget k now m hst] at h
        split at h
        · rename_i d hd
          cases h
          simp only [run_actions, fsm.exec] at hd
          cases hf : fsm.finish now m.toDispatchFSM_ with
          | error e => rw [hf] at hd; cases hd
          | ok df =>
              rw [hf] at hd
              simp only at hd
              have hfo : df.root_ = m.root_ ∧ df.options_ = m.options_ := by
                unfold fsm.finish at hf
                simp only at hf
                split_ifs at hf <;> cases hf <;> exact ⟨rfl, rfl⟩
              cases hre : fsm.reset now (fsm.next_target_clean df) with
              | error e => rw [hre] at hd; cases hd
              | ok dr =>
                  rw [hre] at hd
                  simp only at hd
                  cases ha : fsm.assign_next_target dr with
                  | error e => rw [ha] at hd; cases hd
                  | ok da =>
                      rw [ha] at hd
                      injection hd with hda
                      subst hda
                      obtain ⟨k1, k2⟩ := assign_next_target_loop_keeps_root _ _ _ ha
                      unfold fsm.reset at hre
                      cases hs : fsm.set_up_root_dir (fsm.next_target_clean df) with
                      | error e => rw [hs] at hre; cases hre
                      | ok d0 =>
                          rw [hs] at hre
                          simp only at hre
                          obtain ⟨i1, i2⟩ := reset_loop_keeps_root _ _ _ hre
                          have hrc : fsm.rooted ts (fsm.next_target_clean df) :=
                            keep _ hfo.1 hfo.2
                          obtain ⟨s1, s2, -, s4, -⟩ :=
                            set_up_root_dir_root ts _ d0 hts hrc hs
                          have e1 : da.root_ = d0.root_ := k1.trans i1
                          have e2 : da.options_ = d0.options_ := k2.trans i2
                          unfold fsm.rooted
                          show (da.options_.mode.distributed = true ∧ _) ∨
                            (da.options_.mode.distributed = false ∧ _)
                          rw [e1, e2, s4]
                          cases hdist : (fsm.next_target_clean df).options_.mode.distributed
                          · exact Or.inr ⟨rfl, s2 hdist⟩
                          · obtain ⟨front, rest, -, e⟩ := s1 hdist
                            exact Or.inl ⟨rfl, front, e⟩
        · cases h

theorem runs_keep_rooted (k : Constants) (ts : String) (hts : ts ≠ dispatch_root_dir_name)
    (nows : List Int) :
    ∀ (m mx : fsm.DispatchFSM), fsm.rooted ts m.toDispatchFSM_ →
      Dispatch.runs k nows m = Except.ok mx → fsm.rooted ts mx.toDispatchFSM_ := by
  induction nows with
  | nil =>
      intro m mx hr h
      cases h
      exact hr
  | cons now rest ih =>
      intro m mx hr h
      simp only [Dispatch.runs] at h
      split at h
      · rename_i m1 h1
        exact ih m1 mx (run_keeps_rooted k now ts m m1 hts hr h1) h
      · cases h

/-! ### C23 -/

/-- C23: let `ts` be the timestamp component chosen at construction (it is not the name
`dispatch-root`).  After construction and `start_FSM` the root directory is
`dispatch-root/ts`, in distributed mode possibly followed by one target name, and this
form is kept by every call of `Dispatch::run` and every registration.  Every call of
`set_up_root_dir` on a dispatcher in this form that returns leaves, in distributed mode,
a non-empty target queue behind it and the root `dispatch-root/ts/<file name of the
queue's front>`, which has at most three components (no target directory inside
another), and in dev mode the root `dispatch-root/ts`; in both modes the symlink
`dispatch-root/last` then points to `ts`. -/
theorem C23_root_directory (k : Constants) (ts : String) (hts : ts ≠ dispatch_root_dir_name) :
    (∀ (defaults options : option.Dispatch) (s : String) (now : Int) (disk : FileSystem)
      (master : Nat) (m0 : fsm.DispatchFSM),
      make_dispatch_root s = [dispatch_root_dir_name, ts] →
      Dispatch.start_FSM k now master options
        (fsm.DispatchFSM.construct defaults s now disk) = Except.ok m0 →
      fsm.rooted ts m0.toDispatchFSM_) ∧
    (∀ (d d1 : fsm.DispatchFSM_), fsm.rooted ts d → fsm.set_up_root_dir d = Except.ok d1 →
      (d.options_.mode.distributed = true →
        ∃ front rest, d.next_target_queue_ = front :: rest ∧
          d1.root_ = [dispatch_root_dir_name, ts] ++ string_filename front) ∧
      (d.options_.mode.distributed = false → d1.root_ = [dispatch_root_dir_name, ts]) ∧
      d1.root_.length ≤ 3 ∧
      d1.disk.read_symlink [dispatch_root_dir_name, dispatch_last_root_symlink] = some [ts] ∧
      fsm.rooted ts d1) ∧
    (∀ (nows : List Int) (m mx : fsm.DispatchFSM), fsm.rooted ts m.toDispatchFSM_ →
      Dispatch.runs k nows m = Except.ok mx → fsm.rooted ts mx.toDispatchFSM_) ∧
    (∀ (handle : NodeData) (m m1 : fsm.DispatchFSM), fsm.rooted ts m.toDispatchFSM_ →
      Dispatch.register handle m = Except.ok m1 → fsm.rooted ts m1.toDispatchFSM_) := by
  have hcall : ∀ (d d1 : fsm.DispatchFSM_), fsm.rooted ts d →
      fsm.set_up_root_dir d = Except.ok d1 →
      (d.options_.mode.distributed = true →
        ∃ front rest, d.next_target_queue_ = front :: rest ∧
          d1.root_ = [dispatch_root_dir_name, ts] ++ string_filename front) ∧
      (d.options_.mode.distributed = false → d1.root_ = [dispatch_root_dir_name, ts]) ∧
      d1.root_.length ≤ 3 ∧
      d1.disk.read_symlink [dispatch_root_dir_name, dispatch_last_root_symlink] = some [ts] ∧
      fsm.rooted ts d1 := by
    intro d d1 hr h
    obtain ⟨s1, s2, s3, s4, -⟩ := set_up_root_dir_root ts d d1 hts hr h
    have hform : fsm.rooted ts d1 := by
      unfold fsm.rooted
      rw [s4]
      cases hd : d.options_.mode.distributed
      · exact Or.inr ⟨rfl, s2 hd⟩
      · obtain ⟨front, rest, -, e⟩ := s1 hd
        exact Or.inl ⟨rfl, front, e⟩
    refine ⟨s1, s2, ?_, s3, hform⟩
    rcases hform with ⟨-, t, e⟩ | ⟨-, e⟩
    · rw [e]
      rcases string_filename_cases t with e2 | ⟨x, e2⟩ <;> rw [e2] <;> simp
    · rw [e]
      simp
  refine ⟨?_, hcall, runs_keep_rooted k ts hts, ?_⟩
  · intro defaults options s now disk master m0 hs h
    unfold Dispatch.start_FSM at h
    rw [fsm_start_in_Start k now master options _ rfl] at h
    split at h
    · rename_i d hd
      cases h
      unfold fsm.init at hd
      simp only at hd
      split_ifs at hd with hdev
      · have hdist : options.mode.distributed = false := by simpa using hdev
        have hr0 : fsm.rooted ts
            { (fsm.DispatchFSM.construct defaults s now disk).toDispatchFSM_ with
              exception_log_ :=
                { (fsm.DispatchFSM.construct defaults s now disk).exception_log_ with
                  sinks := (fsm.DispatchFSM.construct defaults s now disk).exception_log_.sinks ++
                    [(fsm.DispatchFSM.construct defaults s now disk).root_ ++
                      [log_dir_name, exception_log_file_name]]
                  auto_flush := true }
              node_error_log_ :=
                { (fsm.DispatchFSM.construct defaults s now disk).node_error_log_ with
                  sinks :=
                    (fsm.DispatchFSM.construct defaults s now disk).node_error_log_.sinks ++
                    [(fsm.DispatchFSM.construct defaults s now disk).root_ ++
                      [log_dir_name, dispatch_node_error_log_file_name]]
                  auto_flush := true }
              master_port_ := master
              options_ := options
              next_target_queue_ := options.test.items
              trace_pool_ := TracePool.fresh } := Or.inr ⟨hdist, hs⟩
        exact (hcall _ d hr0 hd).2.2.2.2
      · cases hd
        have hdist : options.mode.distributed = true := by simpa using hdev
        exact Or.inl ⟨hdist, "", by rw [← hs]; rfl⟩
    · cases h
  · intro handle m m1 hr h
    unfold Dispatch.register at h
    simp only at h
    split at h
    · cases h
      exact hr
    · cases h

/-- C23, witness: scenario S3, constructed at the timestamp `ts`, after fifteen calls of
`Dispatch::run`, two of which were rotations. -/
theorem C23_root_directory_witness :
    fsm.rooted "ts" (scenario.S3_polled (List.replicate 15 0)).toDispatchFSM_ ∧
    (scenario.S3_polled (List.replicate 15 0)).root_ = ["dispatch-root", "ts", "t2"] ∧
    (scenario.S3_polled (List.replicate 15 0)).disk.read_symlink ["dispatch-root", "last"] =
      some ["ts"] :=
  ⟨(C23_root_directory scenario.k0 "ts" (by decide)).2.2.1 (List.replicate 15 0)
      (scenario.S3_polled []) (scenario.S3_polled (List.replicate 15 0))
      (Or.inl ⟨rfl, "", rfl⟩) rfl, rfl, rfl⟩

/-! ### One processed event of a VM machine -/

theorem select_row_fired {S T G A C : Type} (R : C → C → Prop) (hr : ∀ c, R c c)
    (ht : ∀ a b c, R a b → R b c → R a c) (atom : G → C → Bool × C)
    (ha : ∀ g c, R c (atom g c).2) :
    ∀ (rows : List (Row S T G A)) (c : C) (r : Row S T G A),
      (select_row atom rows c).1 = some r →
      ∃ c0, R c c0 ∧ (r.guard.eval atom c0).1 = true ∧
        (select_row atom rows c).2 = (r.guard.eval atom c0).2 := by
  intro rows
  induction rows with
  | nil =>
      intro c r h
      simp [select_row] at h
  | cons x xs ih =>
      intro c r h
      simp only [select_row] at h ⊢
      by_cases hg : (x.guard.eval atom c).1 = true
      · rw [if_pos hg] at h ⊢
        simp only [Option.some.injEq] at h
        subst h
        exact ⟨c, hr c, hg, rfl⟩
      · rw [if_neg hg] at h ⊢
        obtain ⟨c0, h1, h2, h3⟩ := ih _ r h
        exact ⟨c0, ht _ _ _ (eval_rel R hr ht atom ha x.guard c) h1, h2, h3⟩

theorem vm_process_event_fired (ev : vm.Event) (m : vm.NodeFSM) (sys : Sys)
    (r : vm.NodeFSM × Sys) (h : vm.process_event ev m sys = Except.ok r)
    (R : vm.Ctx → vm.Ctx → Prop) (hr : ∀ c, R c c)
    (ht : ∀ a b c, R a b → R b c → R a c) (hg : ∀ g c, R c (vm.guard ev g c).2) :
    (r.1.state = m.state ∧ R (m.toVMNodeFSM_, sys) (r.1.toVMNodeFSM_, r.2)) ∨
    ∃ row c0 c1, row ∈ vm.transition_table ∧ row.source = m.state ∧ row.event = ev.tag ∧
      row.target = r.1.state ∧ R (m.toVMNodeFSM_, sys) c0 ∧
      (row.guard.eval (vm.guard ev) c0).1 = true ∧
      run_actions (vm.exec ev) row.action (row.guard.eval (vm.guard ev) c0).2 = Except.ok c1 ∧
      c1 = (r.1.toVMNodeFSM_, r.2) := by
  unfold vm.process_event at h
  split_ifs at h
  simp only [vm.fired_row] at h
  split at h
  · simp only [Except.ok.injEq] at h
    rw [← h]
    exact Or.inl ⟨rfl, select_row_rel R hr ht (vm.guard ev) hg _ _⟩
  · rename_i row hrow
    split at h
    · rename_i c hc
      simp only [Except.ok.injEq] at h
      rw [← h]
      obtain ⟨a, b, e⟩ := candidate_rows_mem _ _ _ _ (select_row_mem _ _ _ _ hrow)
      obtain ⟨c0, f1, f2, f3⟩ := select_row_fired R hr ht (vm.guard ev) hg _ _ _ hrow
      rw [f3] at hc
      exact Or.inr ⟨row, c0, c, a, b, e, rfl, f1, f2, hc, rfl⟩
    · cases h

theorem run_actions_rel_on {A C : Type} (R : C → C → Prop) (hr : ∀ c, R c c)
    (ht : ∀ a b c, R a b → R b c → R a c) (exec : A → C → Except Fault C) :
    ∀ (as : List A), (∀ a ∈ as, ∀ c c1, exec a c = Except.ok c1 → R c c1) →
      ∀ (c c1 : C), run_actions exec as c = Except.ok c1 → R c c1 := by
  intro as
  induction as with
  | nil =>
      intro _ c c1 h
      simp only [run_actions, Except.ok.injEq] at h
      rw [← h]
      exact hr c
  | cons a as ih =>
      intro he c c1 h
      simp only [run_actions] at h
      cases hx : exec a c with
      | ok c2 =>
          rw [hx] at h
          exact ht _ _ _ (he a (List.mem_cons_self _ _) c c2 hx)
            (ih (fun b hb => he b (List.mem_cons_of_mem _ hb)) c2 c1 h)
      | error e =>
          rw [hx] at h
          cases h

theorem vm_process_event_rel (ev : vm.Event) (m : vm.NodeFSM) (sys : Sys)
    (r : vm.NodeFSM × Sys) (h : vm.process_event ev m sys = Except.ok r)
    (R : vm.Ctx → vm.Ctx → Prop) (hr : ∀ c, R c c)
    (ht : ∀ a b c, R a b → R b c → R a c) (hg : ∀ g c, R c (vm.guard ev g c).2)
    (he : ∀ row ∈ vm.transition_table, row.source = m.state → ∀ a ∈ row.action,
      ∀ c c1, vm.exec ev a c = Except.ok c1 → R c c1) :
    R (m.toVMNodeFSM_, sys) (r.1.toVMNodeFSM_, r.2) := by
  rcases vm_process_event_fired ev m sys r h R hr ht hg with ⟨-, h1⟩ |
    ⟨row, c0, c1, a1, a2, -, -, a5, -, a7, a8⟩
  · exact h1
  · rw [← a8]
    exact ht _ _ _ a5 (ht _ _ _ (eval_rel R hr ht (vm.guard ev) hg row.guard c0)
      (run_actions_rel_on R hr ht (vm.exec ev) row.action (he row a1 a2) _ _ a7))

/-! ### The flag `first` of a VM machine -/

theorem vm_guard_first (ev : vm.Event) (g : vm.Guard) (c : vm.Ctx) :
    (vm.guard ev g c).2.1.first_ = c.1.first_ := by
  cases g with
  | is_image_valid =>
      cases ev with
      | image p =>
          obtain ⟨b, w, h1, -, h3⟩ := vm_is_image_valid_spec p c
          simp only [vm.guard, h1]
          exact h3
      | _ => rfl
  | _ => rfl

theorem vm_exec_first (ev : vm.Event) (a : vm.Action) (c c1 : vm.Ctx)
    (ha : a ≠ vm.Action.init) (h : vm.exec ev a c = Except.ok c1) :
    c1.1.first_ = c.1.first_ := by
  cases a <;> cases ev <;> simp only [vm.exec, Except.ok.injEq] at h <;>
    first
    | exact absurd rfl ha
    | (rw [← h])
    | skip
  · unfold vm.update_image at h
    split_ifs at h
    simp only [Except.ok.injEq] at h
    rw [← h]
  · split_ifs at h <;> simp only [Except.ok.injEq] at h <;> rw [← h]

theorem vm_init_only_from_Start :
    ∀ row ∈ vm.transition_table, row.source ≠ vm.State.Start →
      ∀ a ∈ row.action, a ≠ vm.Action.init := by
  decide

theorem vm_process_event_first (ev : vm.Event) (m : vm.NodeFSM) (sys : Sys)
    (r : vm.NodeFSM × Sys) (h : vm.process_event ev m sys = Except.ok r)
    (hs : m.state ≠ vm.State.Start) : r.1.first_ = m.first_ :=
  vm_process_event_rel ev m sys r h (fun c c1 => c1.1.first_ = c.1.first_) (fun _ => rfl)
    (fun _ _ _ h1 h2 => h2.trans h1) (vm_guard_first ev)
    (fun row hrow hsrc a ha c c1 hx =>
      vm_exec_first ev a c c1 (vm_init_only_from_Start row hrow (hsrc ▸ hs) a ha) hx)

theorem vm_into_RxGuestData (ev : vm.Event) (row : vm.TRow) (c : vm.Ctx)
    (hrow : row ∈ vm.transition_table) (ht : row.target = vm.State.RxGuestData)
    (hg : (row.guard.eval (vm.guard ev) c).1 = true) : c.1.first_ = true := by
  have hl : row ∈ vm.transition_table.filter
      (fun x => decide (x.target = vm.State.RxGuestData)) :=
    List.mem_filter.mpr ⟨hrow, by simp [ht]⟩
  have hrows : vm.transition_table.filter (fun x => decide (x.target = vm.State.RxGuestData)) =
      [ ⟨vm.State.TxConfig, vm.EventTag.config, vm.State.RxGuestData, [vm.Action.tx_config],
          GuardExpr.And_ (GuardExpr.Not_ (GuardExpr.atom vm.Guard.do_update))
            (GuardExpr.atom vm.Guard.is_first)⟩,
        ⟨vm.State.ValidateImage, vm.EventTag.image, vm.State.RxGuestData, [],
          GuardExpr.And_ (GuardExpr.atom vm.Guard.is_image_valid)
            (GuardExpr.atom vm.Guard.is_first)⟩,
        ⟨vm.State.UpdateImage, vm.EventTag.image, vm.State.RxGuestData,
          [vm.Action.update_image_info, vm.Action.update_image],
          GuardExpr.atom vm.Guard.is_first⟩ ] := by decide
  rw [hrows] at hl
  simp only [List.mem_cons, List.mem_singleton, List.not_mem_nil, or_false] at hl
  rcases hl with e | e | e <;> subst e
  · simp only [GuardExpr.eval, vm.guard] at hg
    split_ifs at hg
    exact hg
  · simp only [GuardExpr.eval] at hg
    split_ifs at hg
    simp only [vm.guard] at hg
    rw [← vm_guard_first ev vm.Guard.is_image_valid c]
    exact hg
  · exact hg

theorem vm_targets :
    (∀ row ∈ vm.transition_table, row.target ≠ vm.State.Start) ∧
    (∀ row ∈ vm.transition_table, row.target = vm.State.GuestDataRxed →
      row.source = vm.State.RxGuestData) := by
  decide

theorem vm_process_event_not_first (ev : vm.Event) (m : vm.NodeFSM) (sys : Sys)
    (r : vm.NodeFSM × Sys) (h : vm.process_event ev m sys = Except.ok r)
    (hf : m.first_ = false) (h0 : m.state ≠ vm.State.Start)
    (h1 : m.state ≠ vm.State.RxGuestData) (h2 : m.state ≠ vm.State.GuestDataRxed) :
    r.1.first_ = false ∧ r.1.state ≠ vm.State.Start ∧ r.1.state ≠ vm.State.RxGuestData ∧
      r.1.state ≠ vm.State.GuestDataRxed := by
  refine ⟨(vm_process_event_first ev m sys r h h0).trans hf, ?_⟩
  rcases vm_process_event_fired ev m sys r h (fun c c1 => c1.1.first_ = c.1.first_)
    (fun _ => rfl) (fun _ _ _ x y => y.trans x) (vm_guard_first ev) with ⟨e, -⟩ |
    ⟨row, c0, c1, a1, a2, -, a4, a5, a6, -, -⟩
  · rw [e]
    exact ⟨h0, h1, h2⟩
  · rw [← a4]
    refine ⟨vm_targets.1 row a1, ?_, ?_⟩
    · intro hc
      have := vm_into_RxGuestData ev row c0 a1 hc a6
      rw [a5] at this
      simp only at this
      rw [hf] at this
      cases this
    · intro hc
      exact h1 (a2 ▸ vm_targets.2 row a1 hc)

theorem vm_process_events_not_first (evs : List vm.Event) :
    ∀ (m : vm.NodeFSM) (sys : Sys) (r : vm.NodeFSM × Sys),
      vm.process_events evs m sys = Except.ok r → m.first_ = false →
      m.state ≠ vm.State.Start → m.state ≠ vm.State.RxGuestData →
      m.state ≠ vm.State.GuestDataRxed →
      r.1.first_ = false ∧ r.1.state ≠ vm.State.Start ∧ r.1.state ≠ vm.State.RxGuestData ∧
        r.1.state ≠ vm.State.GuestDataRxed := by
  induction evs with
  | nil =>
      intro m sys r h hf h0 h1 h2
      cases h
      exact ⟨hf, h0, h1, h2⟩
  | cons ev rest ih =>
      intro m sys r h hf h0 h1 h2
      simp only [vm.process_events] at h
      split at h
      · rename_i r1 hr1
        obtain ⟨b0, b1, b2, b3⟩ := vm_process_event_not_first ev m sys r1 hr1 hf h0 h1 h2
        exact ih r1.1 r1.2 r h b0 b1 b2 b3
      · cases h

/-! ### C25 -/

/-- C25: every VM machine that `register_node_fsm` appends has `first = false`; and a VM
machine with `first = false` that is in `TxConfig` (or in any state other than `Start`,
`RxGuestData` and `GuestDataRxed`) is, after every sequence of events it processes and
with whatever the worker reports, still a machine with `first = false` in a state other
than `RxGuestData` and `GuestDataRxed`. -/
theorem C25_guest_data_states_unreachable :
    (∀ (node : Nat) (options : option.Dispatch) (sys : Sys) (vms : List vm.NodeFSM)
      (svms : List svm.NodeFSM) (l : List vm.NodeFSM × List svm.NodeFSM),
      (register_node_fsm node options sys vms svms).2 = Except.ok l →
      ∃ added, l.1 = vms ++ added ∧ ∀ v ∈ added, v.first_ = false ∧ v.state = vm.State.TxConfig) ∧
    (∀ (evs : List vm.Event) (m : vm.NodeFSM) (sys : Sys) (r : vm.NodeFSM × Sys),
      m.first_ = false →
      (m.state ≠ vm.State.Start ∧ m.state ≠ vm.State.RxGuestData ∧
        m.state ≠ vm.State.GuestDataRxed) →
      vm.process_events evs m sys = Except.ok r →
      r.1.first_ = false ∧ r.1.state ≠ vm.State.RxGuestData ∧
        r.1.state ≠ vm.State.GuestDataRxed) := by
  constructor
  · intro node options sys vms svms l h
    obtain ⟨-, -, e, -⟩ := register_node_fsm_result node options sys vms svms l h
    refine ⟨_, e, ?_⟩
    intro v hv
    split_ifs at hv
    · simp only [List.mem_singleton] at hv
      subst hv
      exact ⟨rfl, rfl⟩
    · cases hv
  · intro evs m sys r hf hs h
    obtain ⟨b0, -, b2, b3⟩ := vm_process_events_not_first evs m sys r h hf hs.1 hs.2.1 hs.2.2
    exact ⟨b0, b2, b3⟩

/-- C25, witness: the machine `register_node_fsm` builds for handle 0, given `config` and
two polls. -/
theorem C25_guest_data_states_unreachable_witness :
    ∃ r, vm.process_events [vm.Event.config (scenario.opts true false []), vm.Event.poll,
        vm.Event.poll] (vm_machine_for 0 (scenario.opts true false []))
        (scenario.members true false []
          [scenario.handle packet_type.cluster_request_vm_node]).sys = Except.ok r ∧
      r.1.state = vm.State.StatusRxed ∧
      r.1.first_ = false ∧ r.1.state ≠ vm.State.RxGuestData ∧
        r.1.state ≠ vm.State.GuestDataRxed :=
  ⟨_, rfl, rfl, C25_guest_data_states_unreachable.2
    [vm.Event.config (scenario.opts true false []), vm.Event.poll, vm.Event.poll]
    (vm_machine_for 0 (scenario.opts true false []))
    (scenario.members true false [] [scenario.handle packet_type.cluster_request_vm_node]).sys
    _ rfl (by decide) rfl⟩

/-! ### Requests for the image info -/

theorem sum_map_update_at_le {α : Type} (g : α → Nat) (f : α → α) (k : Nat)
    (hf : ∀ a, g (f a) ≤ g a + k) :
    ∀ (i : Nat) (l : List α), ((update_at f i l).map g).sum ≤ (l.map g).sum + k := by
  intro i l
  induction l generalizing i with
  | nil => cases i <;> simp [update_at]
  | cons x xs ih =>
      cases i with
      | zero =>
          simp only [update_at, List.map_cons, List.sum_cons]
          have := hf x
          omega
      | succ i =>
          simp only [update_at, List.map_cons, List.sum_cons]
          have := ih i
          omega

theorem requests_with_node_le (sys : Sys) (i : Nat) (f : NodeData → NodeData) (k : Nat)
    (hf : ∀ n : NodeData,
      ((f n).server.written.map (fun p => p.type)).count packet_type.cluster_image_info_request ≤
        (n.server.written.map (fun p => p.type)).count packet_type.cluster_image_info_request +
          k) :
    (sys.with_node i f).image_info_requests ≤ sys.image_info_requests + k :=
  sum_map_update_at_le _ f k hf i sys.nodes

theorem requests_write (sys : Sys) (i : Nat) (t : packet_type) (pl : Payload)
    (ht : t ≠ packet_type.cluster_image_info_request) :
    (sys.with_node i (fun n => n.write t pl)).image_info_requests ≤ sys.image_info_requests := by
  refine requests_with_node_le sys i _ 0 ?_
  intro n
  simp [NodeData.write, List.count_append, List.count_singleton, ht.symm]

theorem requests_exchange (sys : Sys) (i : Nat) (t t2 : packet_type)
    (ht : t ≠ packet_type.cluster_image_info_request) :
    (sys.with_node i (fun n => (n.write t Payload.empty).read t2)).image_info_requests ≤
      sys.image_info_requests := by
  refine requests_with_node_le sys i _ 0 ?_
  intro n
  simp [NodeData.write, NodeData.read, List.count_append, List.count_singleton, ht.symm]

theorem requests_poll (sys : Sys) (i : Nat) :
    (cluster.poll sys i).image_info_requests ≤ sys.image_info_requests := by
  refine requests_with_node_le sys i _ 0 ?_
  intro n
  simp [NodeData.write, NodeData.read, List.count_append, List.count_singleton]

theorem requests_image_info (sys : Sys) (i : Nat) :
    (receive_image_info sys i).2.image_info_requests ≤ sys.image_info_requests + 1 := by
  refine requests_with_node_le sys i _ 1 ?_
  intro n
  simp [NodeData.write, NodeData.read, List.count_append, List.count_singleton]

theorem vm_guard_requests (ev : vm.Event) (g : vm.Guard) (c : vm.Ctx) :
    (∀ x, c.1.image_info_ = some x → (vm.guard ev g c).2.1.image_info_ = some x) ∧
    (vm.guard ev g c).2.2.image_info_requests + vm.requests_left (vm.guard ev g c).2.1 ≤
      c.2.image_info_requests + vm.requests_left c.1 := by
  obtain ⟨⟨n, f, tr, er, ii, u, di⟩, sys⟩ := c
  cases g with
  | is_image_valid =>
      cases ev with
      | image p =>
          cases ii with
          | some w =>
              simp only [vm.guard, vm.is_image_valid]
              split_ifs <;> exact ⟨fun _ hx => hx, le_refl _⟩
          | none =>
              have hreq := requests_image_info sys n
              simp only [vm.guard, vm.is_image_valid]
              split_ifs <;> refine ⟨fun x hx => (by cases hx), ?_⟩ <;>
                simp only [vm.requests_left, Option.isSome_some, Option.isSome_none, if_true,
                  Bool.false_eq_true, if_false, Nat.add_zero] <;> exact hreq
      | _ => exact ⟨fun _ hx => hx, le_refl _⟩
  | _ => exact ⟨fun _ hx => hx, le_refl _⟩

theorem vm_exec_requests (ev : vm.Event) (a : vm.Action) (c c1 : vm.Ctx)
    (h : vm.exec ev a c = Except.ok c1) :
    c1.1.image_info_ = c.1.image_info_ ∧ c1.2.image_info_requests ≤ c.2.image_info_requests := by
  cases a <;> cases ev <;> simp only [vm.exec, Except.ok.injEq] at h <;>
    first
    | (rw [← h]; first
        | exact ⟨rfl, le_refl _⟩
        | exact ⟨rfl, requests_write _ _ _ _ (by decide)⟩
        | exact ⟨rfl, requests_exchange _ _ _ _ (by decide)⟩
        | exact ⟨rfl, requests_poll _ _⟩)
    | skip
  · unfold vm.update_image at h
    split_ifs at h
    simp only [Except.ok.injEq] at h
    rw [← h]
    exact ⟨rfl, requests_write _ _ _ _ (by decide)⟩
  · split_ifs at h <;> simp only [Except.ok.injEq] at h <;> rw [← h]
    · exact ⟨rfl, le_refl _⟩
    · refine ⟨rfl, ?_⟩
      unfold transmit_tests
      split
      · exact le_refl _
      · exact requests_write _ _ _ _ (by decide)

theorem vm_process_event_requests (ev : vm.Event) (m : vm.NodeFSM) (sys : Sys)
    (r : vm.NodeFSM × Sys) (h : vm.process_event ev m sys = Except.ok r) :
    (∀ x, m.image_info_ = some x → r.1.image_info_ = some x) ∧
    r.2.image_info_requests + vm.requests_left r.1.toVMNodeFSM_ ≤
      sys.image_info_requests + vm.requests_left m.toVMNodeFSM_ :=
  vm_process_event_rel ev m sys r h
    (fun c c1 => (∀ x, c.1.image_info_ = some x → c1.1.image_info_ = some x) ∧
      c1.2.image_info_requests + vm.requests_left c1.1 ≤
        c.2.image_info_requests + vm.requests_left c.1)
    (fun _ => ⟨fun _ hx => hx, le_refl _⟩)
    (fun _ _ _ h1 h2 => ⟨fun x hx => h2.1 x (h1.1 x hx), le_trans h2.2 h1.2⟩)
    (vm_guard_requests ev)
    (fun _ _ _ a _ c c1 hx => by
      obtain ⟨e1, e2⟩ := vm_exec_requests ev a c c1 hx
      refine ⟨fun x hx => (by rw [e1]; exact hx), ?_⟩
      simp only [vm.requests_left, e1]
      omega)

theorem vm_process_events_requests (evs : List vm.Event) :
    ∀ (m : vm.NodeFSM) (sys : Sys) (r : vm.NodeFSM × Sys),
      vm.process_events evs m sys = Except.ok r →
      (∀ x, m.image_info_ = some x → r.1.image_info_ = some x) ∧
      r.2.image_info_requests + vm.requests_left r.1.toVMNodeFSM_ ≤
        sys.image_info_requests + vm.requests_left m.toVMNodeFSM_ := by
  induction evs with
  | nil =>
      intro m sys r h
      cases h
      exact ⟨fun _ hx => hx, le_refl _⟩
  | cons ev rest ih =>
      intro m sys r h
      simp only [vm.process_events] at h
      split at h
      · rename_i r1 hr1
        obtain ⟨a1, a2⟩ := vm_process_event_requests ev m sys r1 hr1
        obtain ⟨b1, b2⟩ := ih r1.1 r1.2 r h
        exact ⟨fun x hx => b1 x (a1 x hx), le_trans b2 a2⟩
      · cases h

/-! ### C24 -/

/-- C24: over any sequence of events processed by one VM machine the guard
`is_image_valid` sends `cluster_image_info_request` at most once.  The number of such
requests written grows by at most one, and not at all when a reply is already cached; a
cached reply stays what it is whatever event is processed, no guard or action clearing
or replacing it; the first evaluation caches the worker's reply; and an evaluation that
finds a reply cached compares the info of the configured image with it (false when its
file name is empty or the two differ) and changes nothing. -/
theorem C24_image_info_requested_at_most_once (evs : List vm.Event) (m : vm.NodeFSM)
    (sys : Sys) (r : vm.NodeFSM × Sys) (h : vm.process_events evs m sys = Except.ok r) :
    r.2.image_info_requests ≤ sys.image_info_requests + 1 ∧
    (∀ x, m.image_info_ = some x →
      r.1.image_info_ = some x ∧ r.2.image_info_requests ≤ sys.image_info_requests) ∧
    (∀ (p : Path) (c : vm.Ctx), c.1.image_info_ = Option.none →
      (vm.is_image_valid p c).2.1.image_info_ =
        some (c.2.acquire c.1.node_).server.remote.image_info) ∧
    (∀ (p : Path) (c : vm.Ctx) (x : ImageInfo), c.1.image_info_ = some x →
      vm.is_image_valid p c =
        (!x.file_name_.isEmpty && decide (c.2.disk.image_info_of p = x), c)) := by
  obtain ⟨a1, a2⟩ := vm_process_events_requests evs m sys r h
  refine ⟨?_, ?_, ?_, ?_⟩
  · have : vm.requests_left m.toVMNodeFSM_ ≤ 1 := by
      unfold vm.requests_left
      split_ifs <;> omega
    omega
  · intro x hx
    refine ⟨a1 x hx, ?_⟩
    have : vm.requests_left m.toVMNodeFSM_ = 0 := by
      simp [vm.requests_left, hx]
    omega
  · intro p c hc
    obtain ⟨⟨n, f, tr, er, ii, u, di⟩, s⟩ := c
    simp only at hc
    subst hc
    simp only [vm.is_image_valid, receive_image_info]
    split_ifs <;> rfl
  · intro p c x hc
    obtain ⟨⟨n, f, tr, er, ii, u, di⟩, s⟩ := c
    simp only at hc
    subst hc
    simp only [vm.is_image_valid]
    split_ifs with h1 h2
    · simp [h1]
    · have : ¬ (s.disk.image_info_of p = x) := h2
      simp [h1, this]
    · have : s.disk.image_info_of p = x := by
        by_contra hne
        exact h2 hne
      simp [h1, this]

/-- C24, witness: a machine that updates the image is given `config`, twice `image` and
`poll`; the guard is evaluated three times and one request is written. -/
theorem C24_image_info_requested_at_most_once_witness :
    ∃ r, vm.process_events [vm.Event.config (scenario.opts true true []),
        vm.Event.image ["img"], vm.Event.image ["img"], vm.Event.poll]
        (vm_machine_for 0 (scenario.opts true true [])) scenario.sys_with_image = Except.ok r ∧
      r.1.state = vm.State.RxStatus ∧ r.2.image_info_requests = 1 ∧
      r.2.image_info_requests ≤ scenario.sys_with_image.image_info_requests + 1 :=
  ⟨_, rfl, rfl, rfl,
    (C24_image_info_requested_at_most_once [vm.Event.config (scenario.opts true true []),
      vm.Event.image ["img"], vm.Event.image ["img"], vm.Event.poll]
      (vm_machine_for 0 (scenario.opts true true [])) scenario.sys_with_image _ rfl).1⟩

/-! ### What a VM machine writes -/

theorem wrote_refl (S : packet_type → Prop) (c : vm.Ctx) : vm.wrote S c c :=
  ⟨rfl, rfl, [], by simp, fun _ h => by cases h⟩

theorem wrote_trans (S : packet_type → Prop) (a b c : vm.Ctx) (h1 : vm.wrote S a b)
    (h2 : vm.wrote S b c) : vm.wrote S a c := by
  obtain ⟨n1, l1, x1, e1, s1⟩ := h1
  obtain ⟨n2, l2, x2, e2, s2⟩ := h2
  refine ⟨n2.trans n1, l2.trans l1, x1 ++ x2, ?_, ?_⟩
  · rw [n1] at e2
    rw [e2, e1, List.append_assoc]
  · intro t ht
    rcases List.mem_append.mp ht with h | h
    · exact s1 t h
    · exact s2 t h

theorem wrote_with_node (S : packet_type → Prop) (m : vm.VMNodeFSM_) (m1 : vm.VMNodeFSM_)
    (sys : Sys) (f : NodeData → NodeData) (extra : List packet_type)
    (hn : m1.node_ = m.node_)
    (hf : ∀ n : NodeData, (f n).server.written.map (fun p => p.type) =
      n.server.written.map (fun p => p.type) ++ extra)
    (hS : ∀ t ∈ extra, S t) :
    vm.wrote S (m, sys) (m1, sys.with_node m.node_ f) := by
  refine ⟨hn, with_node_length _ _ _, ?_⟩
  unfold Sys.written_types
  rw [acquire_with_node]
  split_ifs with hc
  · exact ⟨extra, hf _, hS⟩
  · exact ⟨[], by simp, fun _ h => by cases h⟩

theorem wrote_mono (S S1 : packet_type → Prop) (hS : ∀ t, S t → S1 t) (c c1 : vm.Ctx)
    (h : vm.wrote S c c1) : vm.wrote S1 c c1 := by
  obtain ⟨a, b, x, e, s⟩ := h
  exact ⟨a, b, x, e, fun t ht => hS t (s t ht)⟩

theorem written_types_write (sys : Sys) (i : Nat) (t : packet_type) (pl : Payload)
    (hi : i < sys.nodes.length) :
    (sys.with_node i (fun n => n.write t pl)).written_types i = sys.written_types i ++ [t] := by
  unfold Sys.written_types
  rw [acquire_with_node_self _ _ _ hi]
  simp [NodeData.write]

theorem vm_guard_wrote (S : packet_type → Prop)
    (hS : S packet_type.cluster_image_info_request) (ev : vm.Event) (g : vm.Guard)
    (c : vm.Ctx) : vm.wrote S c (vm.guard ev g c).2 := by
  obtain ⟨⟨n, f, tr, er, ii, u, di⟩, sys⟩ := c
  cases g with
  | is_image_valid =>
      cases ev with
      | image p =>
          cases ii with
          | some w =>
              simp only [vm.guard, vm.is_image_valid]
              split_ifs <;> exact wrote_refl S _
          | none =>
              simp only [vm.guard, vm.is_image_valid, receive_image_info]
              split_ifs <;>
                exact wrote_with_node S _ _ sys _ [packet_type.cluster_image_info_request] rfl
                  (fun n => by simp [NodeData.write, NodeData.read])
                  (fun t ht => by rw [List.mem_singleton.mp ht]; exact hS)
      | _ => exact wrote_refl S _
  | _ => exact wrote_refl S _

theorem vm_exec_wrote (ev : vm.Event) (a : vm.Action) (c c1 : vm.Ctx)
    (ha : a ≠ vm.Action.init) (h : vm.exec ev a c = Except.ok c1) :
    vm.wrote (fun t => t ∈ vm.action_packets a) c c1 := by
  obtain ⟨m, sys⟩ := c
  cases a <;> cases ev <;> simp only [vm.exec, Except.ok.injEq] at h <;>
    first
    | exact absurd rfl ha
    | (rw [← h]; first
        | exact wrote_refl _ _
        | (refine wrote_with_node _ _ _ sys _ [packet_type.cluster_config] rfl (fun n => ?_)
            (fun t ht => ?_)
           · simp [NodeData.write, NodeData.read]
           · rw [List.mem_singleton.mp ht]
             simp [vm.action_packets])
        | (refine wrote_with_node _ _ _ sys _ [packet_type.cluster_image_info] rfl (fun n => ?_)
            (fun t ht => ?_)
           · simp [NodeData.write, NodeData.read]
           · rw [List.mem_singleton.mp ht]
             simp [vm.action_packets])
        | (refine wrote_with_node _ _ _ sys _ [packet_type.cluster_commence] rfl (fun n => ?_)
            (fun t ht => ?_)
           · simp [NodeData.write, NodeData.read]
           · rw [List.mem_singleton.mp ht]
             simp [vm.action_packets])
        | (refine wrote_with_node _ _ _ sys _ [packet_type.cluster_status_request] rfl (fun n => ?_)
            (fun t ht => ?_)
           · simp [NodeData.write, NodeData.read]
           · rw [List.mem_singleton.mp ht]
             simp [vm.action_packets])
        | (refine wrote_with_node _ _ _ sys _ [packet_type.cluster_trace_request] rfl (fun n => ?_)
            (fun t ht => ?_)
           · simp [NodeData.write, NodeData.read]
           · rw [List.mem_singleton.mp ht]
             simp [vm.action_packets])
        | (refine wrote_with_node _ _ _ sys _ [packet_type.cluster_error_log_request] rfl (fun n => ?_)
            (fun t ht => ?_)
           · simp [NodeData.write, NodeData.read]
           · rw [List.mem_singleton.mp ht]
             simp [vm.action_packets]))
    | skip
  · unfold vm.update_image at h
    split_ifs at h
    simp only [Except.ok.injEq] at h
    rw [← h]
    exact wrote_with_node _ m m { sys with disk := _ } _ [packet_type.cluster_image] rfl
      (fun n => by simp [NodeData.write])
      (fun t ht => by rw [List.mem_singleton.mp ht]; simp [vm.action_packets])
  · split_ifs at h <;> simp only [Except.ok.injEq] at h <;> rw [← h]
    · exact wrote_refl _ _
    · unfold transmit_tests
      split
      · exact wrote_refl _ _
      · exact wrote_with_node _ _ _ sys _ [packet_type.cluster_test_case] rfl
          (fun n => by simp [NodeData.write])
          (fun t ht => by rw [List.mem_singleton.mp ht]; simp [vm.action_packets])

theorem vm_rows_of_stage_two :
    ∀ row ∈ vm.transition_table,
      (vm.stage row.source = 2 → row.source ≠ vm.State.Commence →
        vm.stage row.target = 2 ∧
        ∀ a ∈ row.action, a ≠ vm.Action.init ∧ ∀ t ∈ vm.action_packets a,
          t ∈ [packet_type.cluster_image_info_request, packet_type.cluster_image_info,
            packet_type.cluster_image]) := by
  decide

theorem vm_rows_of_stage_three :
    ∀ row ∈ vm.transition_table,
      (vm.stage row.source = 3 →
        vm.stage row.target = 3 ∧
        ∀ a ∈ row.action, a ≠ vm.Action.init ∧ ∀ t ∈ vm.action_packets a,
          t ≠ packet_type.cluster_config ∧ t ≠ packet_type.cluster_commence) := by
  decide

theorem vm_process_event_in_TxConfig (ev : vm.Event) (m : vm.NodeFSM) (sys : Sys)
    (r : vm.NodeFSM × Sys) (h : vm.process_event ev m sys = Except.ok r)
    (hs : m.state = vm.State.TxConfig) :
    r = (m, sys) ∨
    (vm.stage r.1.state = 2 ∧ r.1.node_ = m.node_ ∧
      ∃ o, r.2 = transmit_config sys m.node_ o) := by
  obtain ⟨mm, st⟩ := m
  simp only at hs
  subst hs
  cases ev with
  | config o =>
      cases hu : mm.update_image_ <;> cases hf : mm.first_ <;> cases hd : mm.distributed_ <;>
        simp [vm.process_event, vm.fired_row, vm.Event.tag, vm_candidate_rows_TxConfig,
          select_row, GuardExpr.eval, vm.guard, hu, hd, hf, run_actions, vm.exec] at h <;>
        first
        | exact Or.inl h.symm
        | (rw [← h]; exact Or.inr ⟨rfl, rfl, o, rfl⟩)
  | start n f u di =>
      have hc : candidate_rows vm.transition_table vm.State.TxConfig vm.EventTag.start = [] := by
        decide
      simp [vm.process_event, vm.Event.tag, hc] at h
  | poll =>
      have hc : candidate_rows vm.transition_table vm.State.TxConfig vm.EventTag.poll = [] := by
        decide
      simp [vm.process_event, vm.Event.tag, hc] at h
  | image p =>
      have hc : candidate_rows vm.transition_table vm.State.TxConfig vm.EventTag.image = [] := by
        decide
      simp [vm.process_event, vm.Event.tag, hc] at h
  | trace =>
      have hc : candidate_rows vm.transition_table vm.State.TxConfig vm.EventTag.trace = [] := by
        decide
      simp [vm.process_event, vm.Event.tag, hc] at h
  | test ts =>
      have hc : candidate_rows vm.transition_table vm.State.TxConfig vm.EventTag.test = [] := by
        decide
      simp [vm.process_event, vm.Event.tag, hc] at h

theorem vm_process_event_in_Commence (ev : vm.Event) (m : vm.NodeFSM) (sys : Sys)
    (r : vm.NodeFSM × Sys) (h : vm.process_event ev m sys = Except.ok r)
    (hs : m.state = vm.State.Commence) :
    r = ({ m with state := vm.State.RxStatus }, transmit_commencement sys m.node_) := by
  obtain ⟨mm, st⟩ := m
  simp only at hs
  subst hs
  have hp : candidate_rows vm.transition_table vm.State.Commence vm.EventTag.poll =
      [⟨vm.State.Commence, vm.EventTag.poll, vm.State.RxStatus, [vm.Action.commence],
        GuardExpr.none⟩] := by decide
  cases ev with
  | poll =>
      simp [vm.process_event, vm.fired_row, vm.Event.tag, hp, select_row, GuardExpr.eval,
        run_actions, vm.exec] at h
      exact h.symm
  | config o =>
      have hc : candidate_rows vm.transition_table vm.State.Commence vm.EventTag.config = [] := by
        decide
      simp [vm.process_event, vm.Event.tag, hc] at h
  | start n f u di =>
      have hc : candidate_rows vm.transition_table vm.State.Commence vm.EventTag.start = [] := by
        decide
      simp [vm.process_event, vm.Event.tag, hc] at h
  | image p =>
      have hc : candidate_rows vm.transition_table vm.State.Commence vm.EventTag.image = [] := by
        decide
      simp [vm.process_event, vm.Event.tag, hc] at h
  | trace =>
      have hc : candidate_rows vm.transition_table vm.State.Commence vm.EventTag.trace = [] := by
        decide
      simp [vm.process_event, vm.Event.tag, hc] at h
  | test ts =>
      have hc : candidate_rows vm.transition_table vm.State.Commence vm.EventTag.test = [] := by
        decide
      simp [vm.process_event, vm.Event.tag, hc] at h

theorem vm_process_event_staged (ev : vm.Event) (m : vm.NodeFSM) (sys : Sys)
    (r : vm.NodeFSM × Sys) (h : vm.process_event ev m sys = Except.ok r)
    (S : packet_type → Prop) (hS : S packet_type.cluster_image_info_request) (n : Nat)
    (hn : vm.stage m.state = n)
    (hrows : ∀ row ∈ vm.transition_table, row.source = m.state →
      vm.stage row.target = n ∧
      ∀ a ∈ row.action, a ≠ vm.Action.init ∧ ∀ t ∈ vm.action_packets a, S t) :
    vm.stage r.1.state = n ∧ vm.wrote S (m.toVMNodeFSM_, sys) (r.1.toVMNodeFSM_, r.2) := by
  constructor
  · rcases vm_process_event_one_transition ev m sys r h with e | ⟨row, a1, a2, -, a4⟩
    · rw [e]
      exact hn
    · rw [← a4]
      exact (hrows row a1 a2).1
  · exact vm_process_event_rel ev m sys r h (vm.wrote S) (wrote_refl S) (wrote_trans S)
      (vm_guard_wrote S hS ev)
      (fun row hrow hsrc a ha c c1 hx =>
        wrote_mono _ S ((hrows row hrow hsrc).2 a ha).2 c c1
          (vm_exec_wrote ev a c c1 ((hrows row hrow hsrc).2 a ha).1 hx))

theorem vm_process_event_shape (ev : vm.Event) (m : vm.NodeFSM) (sys : Sys)
    (r : vm.NodeFSM × Sys) (base l : List packet_type)
    (h : vm.process_event ev m sys = Except.ok r)
    (hn : m.node_ < sys.nodes.length) (hl : sys.written_types m.node_ = base ++ l)
    (hsh : vm.protocol_shape m.state l) :
    r.1.node_ = m.node_ ∧ r.1.node_ < r.2.nodes.length ∧
    vm.stage m.state ≤ vm.stage r.1.state ∧
    ∃ l1, r.2.written_types m.node_ = base ++ l1 ∧ vm.protocol_shape r.1.state l1 := by
  rcases hsh with ⟨h1, e⟩ | ⟨h2, setup, e, hs⟩ | ⟨h3, setup, rest, e, hs, hr⟩
  · have hst : m.state = vm.State.TxConfig := by
      cases hc : m.state <;> rw [hc] at h1 <;> first | rfl | cases h1
    rcases vm_process_event_in_TxConfig ev m sys r h hst with hx | ⟨a, b, o, hx⟩
    · rw [hx]
      exact ⟨rfl, hn, le_refl _, l, hl, Or.inl ⟨h1, e⟩⟩
    · refine ⟨b, ?_, by omega, [packet_type.cluster_config], ?_, Or.inr (Or.inl ⟨a, [], rfl, ?_⟩)⟩
      · rw [b, hx]
        simp [transmit_config, with_node_length, hn]
      · rw [hx, transmit_config, written_types_write _ _ _ _ hn, hl, e, List.append_nil]
      · intro t ht
        cases ht
  · by_cases hc : m.state = vm.State.Commence
    · have hx := vm_process_event_in_Commence ev m sys r h hc
      rw [hx]
      have hle : vm.stage m.state ≤ 3 := by
        rw [hc]
        decide
      refine ⟨rfl, ?_, hle,
        l ++ [packet_type.cluster_commence], ?_, Or.inr (Or.inr ⟨rfl, setup, [], ?_, hs, ?_⟩)⟩
      · simp [transmit_commencement, with_node_length, hn]
      · rw [transmit_commencement, written_types_write _ _ _ _ hn, hl, List.append_assoc]
      · rw [e]
      · intro t ht
        cases ht
    · obtain ⟨a, b, c, x, e2, hx⟩ := vm_process_event_staged ev m sys r h vm.setup_packet
        (by unfold vm.setup_packet; decide) 2 h2
        (fun row hrow hsrc => vm_rows_of_stage_two row hrow (hsrc ▸ h2) (hsrc ▸ hc))
      simp only at b c e2
      refine ⟨b, by rw [b, c]; exact hn, by omega, l ++ x, ?_,
        Or.inr (Or.inl ⟨a, setup ++ x, by rw [e]; simp, ?_⟩)⟩
      · rw [e2, hl, List.append_assoc]
      · intro t ht
        rcases List.mem_append.mp ht with h5 | h5
        · exact hs t h5
        · exact hx t h5
  · obtain ⟨a, b, c, x, e2, hx⟩ := vm_process_event_staged ev m sys r h
      (fun t => t ≠ packet_type.cluster_config ∧ t ≠ packet_type.cluster_commence)
      (by decide) 3 h3
      (fun row hrow hsrc => vm_rows_of_stage_three row hrow (hsrc ▸ h3))
    simp only at b c e2
    refine ⟨b, by rw [b, c]; exact hn, by omega, l ++ x, ?_,
      Or.inr (Or.inr ⟨a, setup, rest ++ x, by rw [e]; simp, hs, ?_⟩)⟩
    · rw [e2, hl, List.append_assoc]
    · intro t ht
      rcases List.mem_append.mp ht with h5 | h5
      · exact hr t h5
      · exact hx t h5

theorem vm_process_events_shape (evs : List vm.Event) :
    ∀ (m : vm.NodeFSM) (sys : Sys) (r : vm.NodeFSM × Sys) (base l : List packet_type),
      vm.process_events evs m sys = Except.ok r →
      m.node_ < sys.nodes.length → sys.written_types m.node_ = base ++ l →
      vm.protocol_shape m.state l →
      vm.stage m.state ≤ vm.stage r.1.state ∧
      ∃ l1, r.2.written_types m.node_ = base ++ l1 ∧ vm.protocol_shape r.1.state l1 := by
  induction evs with
  | nil =>
      intro m sys r base l h _ hl hsh
      cases h
      exact ⟨le_refl _, l, hl, hsh⟩
  | cons ev rest ih =>
      intro m sys r base l h hn hl hsh
      simp only [vm.process_events] at h
      split at h
      · rename_i r1 hr1
        obtain ⟨a, b, c, l1, e1, s1⟩ := vm_process_event_shape ev m sys r1 base l hr1 hn hl hsh
        obtain ⟨c2, l2, e2, s2⟩ := ih r1.1 r1.2 r base l1 h b (a ▸ e1) s1
        exact ⟨le_trans c c2, l2, a ▸ e2, s2⟩
      · cases h

theorem protocol_shape_order (s : vm.State) (l : List packet_type)
    (h : vm.protocol_shape s l) :
    l.count packet_type.cluster_config ≤ 1 ∧ l.count packet_type.cluster_commence ≤ 1 ∧
    ∀ pre post, l = pre ++ packet_type.cluster_commence :: post →
      packet_type.cluster_config ∈ pre ∧
      ∀ t ∈ pre, t ≠ packet_type.cluster_status_request ∧
        t ≠ packet_type.cluster_trace_request ∧ t ≠ packet_type.cluster_test_case ∧
        t ≠ packet_type.cluster_error_log_request := by
  have hset : ∀ setup : List packet_type, (∀ t ∈ setup, vm.setup_packet t) →
      packet_type.cluster_config ∉ setup ∧ packet_type.cluster_commence ∉ setup ∧
      ∀ t ∈ packet_type.cluster_config :: setup, t ≠ packet_type.cluster_status_request ∧
        t ≠ packet_type.cluster_trace_request ∧ t ≠ packet_type.cluster_test_case ∧
        t ≠ packet_type.cluster_error_log_request := by
    intro setup hs
    refine ⟨fun hc => ?_, fun hc => ?_, fun t ht => ?_⟩
    · have := hs _ hc
      revert this
      unfold vm.setup_packet
      decide
    · have := hs _ hc
      revert this
      unfold vm.setup_packet
      decide
    · rcases List.mem_cons.mp ht with h1 | h1
      · rw [h1]
        decide
      · have := hs t h1
        unfold vm.setup_packet at this
        simp only [List.mem_cons, List.mem_singleton, List.not_mem_nil, or_false] at this
        rcases this with e | e | e <;> rw [e] <;> decide
  rcases h with ⟨-, e⟩ | ⟨-, setup, e, hs⟩ | ⟨-, setup, rest, e, hs, hr⟩
  · subst e
    refine ⟨by simp, by simp, fun pre post hc => ?_⟩
    simp at hc
  · obtain ⟨n1, n2, n3⟩ := hset setup hs
    subst e
    refine ⟨?_, ?_, fun pre post hc => ?_⟩
    · simp [List.count_cons, List.count_eq_zero_of_not_mem n1]
    · simp [List.count_cons, List.count_eq_zero_of_not_mem n2]
    · exfalso
      have : packet_type.cluster_commence ∈ packet_type.cluster_config :: setup := by
        rw [hc]
        simp
      rcases List.mem_cons.mp this with h1 | h1
      · cases h1
      · exact n2 h1
  · obtain ⟨n1, n2, n3⟩ := hset setup hs
    have r1 : packet_type.cluster_config ∉ rest := fun hc => (hr _ hc).1 rfl
    have r2 : packet_type.cluster_commence ∉ rest := fun hc => (hr _ hc).2 rfl
    subst e
    refine ⟨?_, ?_, fun pre post hc => ?_⟩
    · simp [List.count_cons, List.count_append, List.count_eq_zero_of_not_mem n1,
        List.count_eq_zero_of_not_mem r1]
    · simp [List.count_cons, List.count_append, List.count_eq_zero_of_not_mem n2,
        List.count_eq_zero_of_not_mem r2]
    · have hpre : pre = packet_type.cluster_config :: setup := by
        have hnot : packet_type.cluster_commence ∉ packet_type.cluster_config :: setup := by
          intro hm
          rcases List.mem_cons.mp hm with h1 | h1
          · cases h1
          · exact n2 h1
        have hc2 : (packet_type.cluster_config :: setup) ++
            packet_type.cluster_commence :: rest = pre ++ packet_type.cluster_commence :: post := by
          rw [← hc]
        by_contra hne
        rcases List.append_eq_append_iff.mp hc2 with ⟨a, h1, h2⟩ | ⟨a, h1, h2⟩
        · cases a with
          | nil =>
              simp at h1
              exact hne h1
          | cons x xs =>
              simp only [List.cons_append, List.cons.injEq] at h2
              have : packet_type.cluster_commence ∈ rest := by
                rw [h2.2]
                simp
              exact r2 this
        · cases a with
          | nil =>
              simp at h1
              exact hne h1.symm
          | cons x xs =>
              simp only [List.cons_append, List.cons.injEq] at h2
              have : packet_type.cluster_commence ∈ packet_type.cluster_config :: setup := by
                rw [h1, ← h2.1]
                simp
              exact hnot this
      rw [hpre]
      exact ⟨List.mem_cons_self _ _, n3⟩

/-! ### C26 -/

/-- C26: a VM machine that is in one of `RxStatus`, `StatusRxed`, `RxTrace`, `TraceRxed`,
`TxTest`, `TestTxed`, `ErrorRxed` (where the row `Commence -> RxStatus` leads) stays in
this set whatever events it processes.  For a machine registered in `TxConfig` on a
worker handle of the registrar, what it writes to the worker over any sequence of events
is, as a list `l` of packet types: nothing while in `TxConfig`; then the configuration
followed by setup packets (image-info request, image info, image); then, once in the
loop, the commencement and after it packets that are neither a configuration nor a
commencement.  So the configuration is written at most once, the commencement at most
once, the configuration stands before the commencement, and no request for status,
traces or errors and no test cases stand before the commencement. -/
theorem C26_protocol_order (evs : List vm.Event) (m : vm.NodeFSM) (sys : Sys)
    (r : vm.NodeFSM × Sys) (h : vm.process_events evs m sys = Except.ok r) :
    (vm.stage m.state = 3 → vm.stage r.1.state = 3) ∧
    (m.state = vm.State.TxConfig → m.node_ < sys.nodes.length →
      ∃ l, r.2.written_types m.node_ = sys.written_types m.node_ ++ l ∧
        vm.protocol_shape r.1.state l ∧
        l.count packet_type.cluster_config ≤ 1 ∧ l.count packet_type.cluster_commence ≤ 1 ∧
        ∀ pre post, l = pre ++ packet_type.cluster_commence :: post →
          packet_type.cluster_config ∈ pre ∧
          ∀ t ∈ pre, t ≠ packet_type.cluster_status_request ∧
            t ≠ packet_type.cluster_trace_request ∧ t ≠ packet_type.cluster_test_case ∧
            t ≠ packet_type.cluster_error_log_request) := by
  constructor
  · intro h3
    have key : ∀ (es : List vm.Event) (v : vm.NodeFSM) (s : Sys) (w : vm.NodeFSM × Sys),
        vm.process_events es v s = Except.ok w → vm.stage v.state = 3 →
        vm.stage w.1.state = 3 := by
      intro es
      induction es with
      | nil =>
          intro v s w hw hv
          cases hw
          exact hv
      | cons e rest ih =>
          intro v s w hw hv
          simp only [vm.process_events] at hw
          split at hw
          · rename_i w1 hw1
            refine ih w1.1 w1.2 w hw ?_
            rcases vm_process_event_one_transition e v s w1 hw1 with e1 | ⟨row, a1, a2, -, a4⟩
            · rw [e1]
              exact hv
            · rw [← a4]
              exact (vm_rows_of_stage_three row a1 (a2 ▸ hv)).1
          · cases hw
    exact key evs m sys r h h3
  · intro hs hn
    obtain ⟨-, l, e, sh⟩ := vm_process_events_shape evs m sys r (sys.written_types m.node_) []
      h hn (by simp) (Or.inl ⟨by rw [hs]; rfl, rfl⟩)
    exact ⟨l, e, sh, protocol_shape_order _ l sh⟩

/-- C26, witness: the machine registered for handle 0 is given `config`, four polls,
`trace`, `test` and one more poll; it writes the configuration, the commencement and
then the requests of the loop. -/
theorem C26_protocol_order_witness :
    ∃ r, vm.process_events [vm.Event.config (scenario.opts true false []), vm.Event.poll,
        vm.Event.poll, vm.Event.poll, vm.Event.poll, vm.Event.trace, vm.Event.test [],
        vm.Event.poll]
        (vm_machine_for 0 (scenario.opts true false []))
        (scenario.members true false []
          [scenario.handle packet_type.cluster_request_vm_node]).sys = Except.ok r ∧
      r.2.written_types 0 =
        [packet_type.cluster_config, packet_type.cluster_commence,
          packet_type.cluster_status_request, packet_type.cluster_trace_request,
          packet_type.cluster_status_request] ∧
      ∃ l, r.2.written_types 0 = (scenario.members true false []
          [scenario.handle packet_type.cluster_request_vm_node]).sys.written_types 0 ++ l ∧
        vm.protocol_shape r.1.state l ∧
        l.count packet_type.cluster_config ≤ 1 ∧ l.count packet_type.cluster_commence ≤ 1 ∧
        ∀ pre post, l = pre ++ packet_type.cluster_commence :: post →
          packet_type.cluster_config ∈ pre ∧
          ∀ t ∈ pre, t ≠ packet_type.cluster_status_request ∧
            t ≠ packet_type.cluster_trace_request ∧ t ≠ packet_type.cluster_test_case ∧
            t ≠ packet_type.cluster_error_log_request :=
  ⟨_, rfl, rfl,
    (C26_protocol_order [vm.Event.config (scenario.opts true false []), vm.Event.poll,
        vm.Event.poll, vm.Event.poll, vm.Event.poll, vm.Event.trace, vm.Event.test [],
        vm.Event.poll]
      (vm_machine_for 0 (scenario.opts true false []))
      (scenario.members true false [] [scenario.handle packet_type.cluster_request_vm_node]).sys
      _ rfl).2 rfl (by decide)⟩



theorem every_op_append (ok : List LockId → LockOp → Bool) (a b : List LockOp) :
    ∀ held, every_op ok held (a ++ b) =
      (every_op ok held a && every_op ok (locks_after held a) b) := by
  induction a with
  | nil => intro held; simp [every_op, locks_after]
  | cons op rest ih =>
      intro held
      have r := ih (op.step held)
      rw [List.cons_append, every_op, r, every_op, Bool.and_assoc]
      rfl

theorem locks_after_append (a b : List LockOp) (held : List LockId) :
    locks_after held (a ++ b) = locks_after (locks_after held a) b := by
  simp [locks_after, List.foldl_append]

/-- The steps of `register_node_fsm` under the registrar's lock: no packet, one lock at a
time, and the registrar's lock alone is held afterwards. -/
theorem register_node_fsm_ops_locks (i : Nat) (t : packet_type) :
    every_op io_under_registrar [LockId.registrar] (register_node_fsm_ops i t).1 = true ∧
    every_op one_node_lock [LockId.registrar] (register_node_fsm_ops i t).1 = true ∧
    locks_after [LockId.registrar] (register_node_fsm_ops i t).1 = [LockId.registrar] := by
  cases t <;>
    simp [register_node_fsm_ops, every_op, io_under_registrar, one_node_lock, locks_after,
      LockOp.step, LockId.is_node]

/-- The node loop of `reset` under the registrar's lock: every packet is written with
the registrar's lock and the handle's lock held, one handle lock at a time, and the
registrar's lock alone is held when the loop is left. -/
theorem reset_loop_ops_locks (nodes : List NodeData) :
    ∀ i, every_op io_under_registrar [LockId.registrar] (reset_loop_ops i nodes) = true ∧
      every_op one_node_lock [LockId.registrar] (reset_loop_ops i nodes) = true ∧
      locks_after [LockId.registrar] (reset_loop_ops i nodes) = [LockId.registrar] := by
  induction nodes with
  | nil => intro i; simp [reset_loop_ops, every_op, locks_after]
  | cons n rest ih =>
      intro i
      obtain ⟨r1, r2, r3⟩ := register_node_fsm_ops_locks i n.type
      obtain ⟨l1, l2, l3⟩ := ih (i + 1)
      have head : locks_after [LockId.registrar]
          [LockOp.acquire (LockId.node i), LockOp.io i packet_type.cluster_reset,
           LockOp.release (LockId.node i)] = [LockId.registrar] := by
        simp [locks_after, LockOp.step]
      simp only [reset_loop_ops, every_op_append, locks_after_append, head, r1, r2, r3]
      refine ⟨?_, ?_, ?_⟩
      · split_ifs <;> simp [every_op, io_under_registrar, LockOp.step, l1]
      · split_ifs <;> simp [every_op, one_node_lock, LockOp.step, LockId.is_node, l2]
      · split_ifs
        · exact l3
        · rfl

/-- The node loop of `assign_next_target` under the registrar's lock, as
`reset_loop_ops_locks`. -/
theorem assign_next_target_loop_ops_locks (nodes : List NodeData) :
    ∀ i queue,
      every_op io_under_registrar [LockId.registrar]
        (assign_next_target_loop_ops i nodes queue) = true ∧
      every_op one_node_lock [LockId.registrar]
        (assign_next_target_loop_ops i nodes queue) = true ∧
      locks_after [LockId.registrar] (assign_next_target_loop_ops i nodes queue) =
        [LockId.registrar] := by
  induction nodes with
  | nil => intro i queue; simp [assign_next_target_loop_ops, every_op, locks_after]
  | cons n rest ih =>
      intro i queue
      have head : locks_after [LockId.registrar]
          [LockOp.acquire (LockId.node i), LockOp.io i packet_type.cluster_next_target,
           LockOp.release (LockId.node i)] = [LockId.registrar] := by
        simp [locks_after, LockOp.step]
      have skip : locks_after [LockId.registrar]
          [LockOp.acquire (LockId.node i), LockOp.release (LockId.node i)] =
            [LockId.registrar] := by
        simp [locks_after, LockOp.step]
      by_cases ht : n.type = packet_type.cluster_request_vm_node
      · cases queue with
        | zero =>
            simp [assign_next_target_loop_ops, ht, every_op, io_under_registrar, one_node_lock,
              LockOp.step, LockId.is_node, locks_after]
        | succ q =>
            obtain ⟨l1, l2, l3⟩ := ih (i + 1) q
            simp only [assign_next_target_loop_ops, ht, ne_eq, not_true_eq_false, if_false,
              every_op_append, locks_after_append, head, l1, l2, l3]
            simp [every_op, io_under_registrar, one_node_lock, LockOp.step, LockId.is_node]
      · obtain ⟨l1, l2, l3⟩ := ih (i + 1) queue
        simp only [assign_next_target_loop_ops, ht, ne_eq, not_false_eq_true, if_true,
          every_op_append, locks_after_append, skip, l1, l2, l3]
        simp [every_op, io_under_registrar, one_node_lock, LockOp.step, LockId.is_node]

/-- A loop that takes each handle's lock for one iteration, under the registrar's lock:
one handle lock at a time, and the registrar's lock alone is held when the loop is
left. -/
theorem node_loop_ops_locks (stop : NodeData → Bool) (nodes : List NodeData) :
    ∀ i, every_op one_node_lock [LockId.registrar] (node_loop_ops stop i nodes) = true ∧
      locks_after [LockId.registrar] (node_loop_ops stop i nodes) = [LockId.registrar] := by
  induction nodes with
  | nil => intro i; simp [node_loop_ops, every_op, locks_after]
  | cons n rest ih =>
      intro i
      obtain ⟨l1, l2⟩ := ih (i + 1)
      have skip : locks_after [LockId.registrar]
          [LockOp.acquire (LockId.node i), LockOp.release (LockId.node i)] =
            [LockId.registrar] := by
        simp [locks_after, LockOp.step]
      simp only [node_loop_ops, every_op_append, locks_after_append, skip]
      constructor
      · split_ifs <;> simp [every_op, one_node_lock, LockOp.step, LockId.is_node, l1]
      · split_ifs
        · rfl
        · exact l2

/-- A list of steps between taking and giving back the registrar's lock satisfies a
condition on steps that holds of those two steps, when the steps between satisfy it under
the registrar's lock. -/
theorem every_op_under_registrar (ok : List LockId → LockOp → Bool) (ops : List LockOp)
    (held : List LockId) (h1 : ok held (LockOp.acquire LockId.registrar) = true)
    (h2 : every_op ok (held ++ [LockId.registrar]) ops = true)
    (h3 : ok (locks_after (held ++ [LockId.registrar]) ops)
      (LockOp.release LockId.registrar) = true) :
    every_op ok held ([LockOp.acquire LockId.registrar] ++ ops ++
      [LockOp.release LockId.registrar]) = true := by
  rw [every_op_append, every_op_append]
  simp [every_op, h1, LockOp.step, locks_after, h2]
  simpa [locks_after, LockOp.step] using h3

/-! ### C27: the registrar's lock and the packets written to workers -/

/-- C27 (as claimed, refuted): with one VM worker registered, action `reset` writes
`cluster_reset` and action `assign_next_target` writes `cluster_next_target` while the
registrar's lock is held. -/
theorem C27_registrar_lock_held_while_writing :
    every_op io_without_registrar []
      (reset_ops [scenario.handle packet_type.cluster_request_vm_node]) = false ∧
    every_op io_without_registrar []
      (assign_next_target_ops [scenario.handle packet_type.cluster_request_vm_node] 1) =
        false ∧
    locks_after [] ((reset_ops [scenario.handle packet_type.cluster_request_vm_node]).take 6) =
      [LockId.registrar, LockId.node 0] ∧
    (reset_ops [scenario.handle packet_type.cluster_request_vm_node]).get? 6 =
      some (LockOp.io 0 packet_type.cluster_reset) := by
  decide

/-- C27 (amended): in the actions `reset` and `assign_next_target` the registrar's lock
is held for the whole node loop: for every registrar and every length of the target
queue, each packet written by the two actions is written while exactly the registrar's
lock and, taken after it, the lock of the addressed handle are held; and as soon as the
registrar holds a handle (for `assign_next_target`: a VM handle first, and a target in
the queue) a packet is written under the registrar's lock. -/
theorem C27_packets_written_under_registrar_lock (nodes rest : List NodeData) (n : NodeData)
    (queue : Nat) :
    every_op io_under_registrar [] (reset_ops nodes) = true ∧
    every_op io_under_registrar [] (assign_next_target_ops nodes queue) = true ∧
    every_op io_without_registrar [] (reset_ops (n :: rest)) = false ∧
    every_op io_without_registrar []
      (assign_next_target_ops
        ({ n with type := packet_type.cluster_request_vm_node } :: rest) (queue + 1)) =
        false := by
  obtain ⟨r1, _, r3⟩ := reset_loop_ops_locks nodes 0
  obtain ⟨a1, _, a3⟩ := assign_next_target_loop_ops_locks nodes 0 queue
  refine ⟨?_, ?_, ?_, ?_⟩
  · rw [reset_ops, every_op_append, every_op_append]
    have head : locks_after []
        [LockOp.acquire LockId.vm_node_fsms, LockOp.release LockId.vm_node_fsms,
         LockOp.acquire LockId.svm_node_fsms, LockOp.release LockId.svm_node_fsms,
         LockOp.acquire LockId.registrar] = [LockId.registrar] := by
      simp [locks_after, LockOp.step]
    rw [head, r1]
    simp [every_op, io_under_registrar]
  · exact every_op_under_registrar _ _ [] rfl a1 rfl
  · simp [reset_ops, reset_loop_ops, every_op, io_without_registrar, LockOp.step]
  · simp [assign_next_target_ops, assign_next_target_loop_ops, every_op, io_without_registrar,
      LockOp.step]

/-! ### C28: one worker handle lock at a time -/

/-- C28 (as claimed, refuted): the comparator of `sort_by_trace` and `sort_by_test` on
the handles at positions 0 and 1 takes the second handle's lock while it holds the
first one's, whichever operand is evaluated first. -/
theorem C28_comparator_holds_two_handle_locks :
    every_op one_node_lock [] (compare_ops 0 1 true) = false ∧
    every_op one_node_lock [] (compare_ops 0 1 false) = false ∧
    locks_after [] ((compare_ops 0 1 true).take 2) = [LockId.node 0, LockId.node 1] ∧
    locks_after [] ((compare_ops 0 1 false).take 2) = [LockId.node 1, LockId.node 0] := by
  decide

/-- C28 (amended): the node loops of `are_node_queues_empty`, `are_nodes_inactive`,
`display_status`, `reset` and `assign_next_target` never take the lock of a worker
handle while the lock of another one is held, for every registrar; the comparator of
`sort_by_trace` and `sort_by_test` on two different handles does, in either order of
evaluation: after its second step the locks of both handles are held. -/
theorem C28_one_handle_lock_in_node_loops (nodes : List NodeData) (queue lhs rhs : Nat)
    (lhs_first : Bool) (h : lhs ≠ rhs) :
    every_op one_node_lock [] (are_node_queues_empty_ops nodes) = true ∧
    every_op one_node_lock [] (are_nodes_inactive_ops nodes) = true ∧
    every_op one_node_lock [] (display_status_ops nodes) = true ∧
    every_op one_node_lock [] (reset_ops nodes) = true ∧
    every_op one_node_lock [] (assign_next_target_ops nodes queue) = true ∧
    every_op one_node_lock [] (compare_ops lhs rhs lhs_first) = false ∧
    (locks_after [] ((compare_ops lhs rhs lhs_first).take 2)).filter LockId.is_node =
      (if lhs_first then [LockId.node lhs, LockId.node rhs]
       else [LockId.node rhs, LockId.node lhs]) := by
  obtain ⟨_, r2, r3⟩ := reset_loop_ops_locks nodes 0
  obtain ⟨_, a2, a3⟩ := assign_next_target_loop_ops_locks nodes 0 queue
  refine ⟨?_, ?_, ?_, ?_, ?_, ?_, ?_⟩
  · obtain ⟨l1, l2⟩ := node_loop_ops_locks
      (fun n => decide (n.status.test_case_count ≠ 0 ∨ n.status.trace_count ≠ 0)) nodes 0
    exact every_op_under_registrar _ _ [] rfl l1 rfl
  · obtain ⟨l1, l2⟩ := node_loop_ops_locks (fun n => n.status.active) nodes 0
    exact every_op_under_registrar _ _ [] rfl l1 rfl
  · obtain ⟨l1, l2⟩ := node_loop_ops_locks (fun _ => false) nodes 0
    have once := every_op_under_registrar one_node_lock
      (node_loop_ops (fun _ => false) 0 nodes) [] rfl l1 rfl
    have after : locks_after [] ([LockOp.acquire LockId.registrar] ++
        node_loop_ops (fun _ => false) 0 nodes ++ [LockOp.release LockId.registrar]) = [] := by
      rw [locks_after_append, locks_after_append]
      have e : locks_after [] [LockOp.acquire LockId.registrar] = [LockId.registrar] := rfl
      rw [e, l2]
      decide
    have split : display_status_ops nodes =
        ([LockOp.acquire LockId.registrar] ++ node_loop_ops (fun _ => false) 0 nodes ++
          [LockOp.release LockId.registrar]) ++
        ([LockOp.acquire LockId.registrar] ++ node_loop_ops (fun _ => false) 0 nodes ++
          [LockOp.release LockId.registrar]) := by
      simp [display_status_ops]
    rw [split, every_op_append, after, once]
    rfl
  · rw [reset_ops, every_op_append, every_op_append]
    have head : locks_after []
        [LockOp.acquire LockId.vm_node_fsms, LockOp.release LockId.vm_node_fsms,
         LockOp.acquire LockId.svm_node_fsms, LockOp.release LockId.svm_node_fsms,
         LockOp.acquire LockId.registrar] = [LockId.registrar] := by
      simp [locks_after, LockOp.step]
    rw [head, r2]
    simp [every_op, one_node_lock]
  · exact every_op_under_registrar _ _ [] rfl a2 rfl
  · have h2 : rhs ≠ lhs := fun e => h e.symm
    cases lhs_first <;>
      simp [compare_ops, every_op, one_node_lock, LockOp.step, LockId.is_node, h, h2]
  · cases lhs_first <;>
      simp [compare_ops, locks_after, LockOp.step, LockId.is_node]

/-- Witness for C28: a registrar of a VM and an SVM handle, one target queued, the
comparator on the handles at positions 0 and 1 with the left operand first. -/
theorem C28_one_handle_lock_in_node_loops_witness :
    every_op one_node_lock []
      (are_node_queues_empty_ops
        [scenario.handle packet_type.cluster_request_vm_node, scenario.svm_handle]) = true ∧
    every_op one_node_lock []
      (are_nodes_inactive_ops
        [scenario.handle packet_type.cluster_request_vm_node, scenario.svm_handle]) = true ∧
    every_op one_node_lock []
      (display_status_ops
        [scenario.handle packet_type.cluster_request_vm_node, scenario.svm_handle]) = true ∧
    every_op one_node_lock []
      (reset_ops
        [scenario.handle packet_type.cluster_request_vm_node, scenario.svm_handle]) = true ∧
    every_op one_node_lock []
      (assign_next_target_ops
        [scenario.handle packet_type.cluster_request_vm_node, scenario.svm_handle] 1) = true ∧
    every_op one_node_lock [] (compare_ops 0 1 true) = false ∧
    (locks_after [] ((compare_ops 0 1 true).take 2)).filter LockId.is_node =
      (if true then [LockId.node 0, LockId.node 1]
       else [LockId.node 1, LockId.node 0]) :=
  C28_one_handle_lock_in_node_loops
    [scenario.handle packet_type.cluster_request_vm_node, scenario.svm_handle] 1 0 1 true
    (by decide)

/-! ### C38 -/

/-- C38: while the registrar holds no handle, `Dispatch::run` returns the dispatcher as it
found it: no event is delivered, so the state, the flag `first`, both pools, the target
and the target queue (and every other member) are unchanged.  This is so also when a poll
would change the machine: with no handle and empty pools `is_converged` and
`is_target_expired` hold, and a delivered poll would take a machine in `SpecCheck` with an
empty target queue to `Terminate`. -/
theorem C38_run_without_nodes (k : Constants) (now : Int) (m : fsm.DispatchFSM)
    (h : m.node_registrar_ = []) :
    Dispatch.run k now m = Except.ok m ∧
    (m.test_pool_.count_next = 0 → m.trace_pool_.count_next = 0 →
      fsm.is_converged m.toDispatchFSM_ = true ∧
      fsm.is_target_expired m.toDispatchFSM_ now = true ∧
      (m.state = fsm.State.SpecCheck → m.next_target_queue_ = [] →
        ∃ m1, fsm.process_event k now fsm.Event.poll m = Except.ok m1 ∧
          m1.state = fsm.State.Terminate)) := by
  constructor
  · simp [Dispatch.run, Dispatch.has_nodes, h]
  · intro h1 h2
    have hc : fsm.is_converged m.toDispatchFSM_ = true := by
      simp [fsm.is_converged, fsm.are_all_queues_empty, fsm.are_node_queues_empty,
        fsm.are_nodes_inactive, h, h1, h2, fsm.are_node_queues_empty_loop,
        fsm.are_nodes_inactive_loop]
    have he : fsm.is_target_expired m.toDispatchFSM_ now = true := by
      simp [fsm.is_target_expired, hc]
    refine ⟨hc, he, ?_⟩
    intro hs hq
    rw [fsm_poll_in_SpecCheck k now m hs]
    simp [he, fsm.have_next_target, hq]

/-- C38, witness: a dispatcher in distributed mode, in `SpecCheck`, with no worker, empty
pools and an empty target queue: `run` leaves it as it is, though a poll would take it to
`Terminate`. -/
theorem C38_run_without_nodes_witness :
    Dispatch.run scenario.k0 0
        (scenario.machine fsm.State.SpecCheck (scenario.members true false [] [])) =
      Except.ok (scenario.machine fsm.State.SpecCheck (scenario.members true false [] [])) ∧
    ∃ m1, fsm.process_event scenario.k0 0 fsm.Event.poll
        (scenario.machine fsm.State.SpecCheck (scenario.members true false [] [])) =
          Except.ok m1 ∧ m1.state = fsm.State.Terminate :=
  ⟨(C38_run_without_nodes scenario.k0 0
      (scenario.machine fsm.State.SpecCheck (scenario.members true false [] [])) rfl).1,
   ((C38_run_without_nodes scenario.k0 0
      (scenario.machine fsm.State.SpecCheck (scenario.members true false [] [])) rfl).2
      rfl rfl).2.2 rfl rfl⟩

/-! ### C39 -/

/-- C39 (as claimed, refuted): `register_node_fsm` on a handle of an unrecognized type
throws, and the handle, inactive before the call, is marked active after it. -/
theorem C39_active_flag_set_before_the_throw :
    (register_node_fsm 0 (scenario.opts true false [])
      { nodes := [scenario.handle (packet_type.other 7)], disk := scenario.disk0 } [] []).2 =
      Except.error Fault.node_type_not_recognized ∧
    (scenario.handle (packet_type.other 7)).status.active = false ∧
    ((register_node_fsm 0 (scenario.opts true false [])
      { nodes := [scenario.handle (packet_type.other 7)], disk := scenario.disk0 } [] []).1.acquire
        0).status.active = true := by
  refine ⟨by rfl, by rfl, by rfl⟩

/-- C39 (amended): `register_node_fsm` called on a handle whose type is neither
`cluster_request_vm_node` nor `cluster_request_svm_node` throws "node type not
recognized" and returns no machine list; it leaves the disk, every other handle, and the
type, the connection and the status of the handle itself as they were, except that the
handle's `active` flag is set: the flag is assigned before the type is looked at. -/
theorem C39_register_unrecognized_node (node : Nat) (options : option.Dispatch) (sys : Sys)
    (vms : List vm.NodeFSM) (svms : List svm.NodeFSM)
    (hv : (sys.acquire node).type ≠ packet_type.cluster_request_vm_node)
    (hs : (sys.acquire node).type ≠ packet_type.cluster_request_svm_node) :
    (register_node_fsm node options sys vms svms).2 =
      Except.error Fault.node_type_not_recognized ∧
    (register_node_fsm node options sys vms svms).1 =
      sys.with_node node (fun n => { n with status := { n.status with active := true } }) ∧
    (register_node_fsm node options sys vms svms).1.disk = sys.disk ∧
    (∀ j, j ≠ node →
      (register_node_fsm node options sys vms svms).1.acquire j = sys.acquire j) ∧
    (node < sys.nodes.length →
      (register_node_fsm node options sys vms svms).1.acquire node =
        { sys.acquire node with status := { (sys.acquire node).status with active := true } }) := by
  have ht : ((sys.with_node node
      (fun n => { n with status := { n.status with active := true } })).acquire node).type =
      (sys.acquire node).type := acquire_with_node_type sys node node _ (fun _ => rfl)
  have key : register_node_fsm node options sys vms svms =
      (sys.with_node node (fun n => { n with status := { n.status with active := true } }),
        Except.error Fault.node_type_not_recognized) := by
    unfold register_node_fsm
    simp only [ht]
  rw [key]
  refine ⟨rfl, rfl, rfl, ?_, ?_⟩
  · intro j hj
    rw [acquire_with_node]
    simp [Ne.symm hj]
  · intro hn
    exact acquire_with_node_self sys node _ hn

/-- C39, witness: a handle of the unrecognized type 7 at position 0. -/
theorem C39_register_unrecognized_node_witness :
    (register_node_fsm 0 (scenario.opts true false [])
      { nodes := [scenario.handle (packet_type.other 7)], disk := scenario.disk0 } [] []).2 =
      Except.error Fault.node_type_not_recognized ∧
    (register_node_fsm 0 (scenario.opts true false [])
      { nodes := [scenario.handle (packet_type.other 7)], disk := scenario.disk0 } [] []).1.acquire
        0 =
      { scenario.handle (packet_type.other 7) with
        status := { (scenario.handle (packet_type.other 7)).status with active := true } } :=
  ⟨(C39_register_unrecognized_node 0 (scenario.opts true false [])
      { nodes := [scenario.handle (packet_type.other 7)], disk := scenario.disk0 } [] []
      (by decide) (by decide)).1,
   (C39_register_unrecognized_node 0 (scenario.opts true false [])
      { nodes := [scenario.handle (packet_type.other 7)], disk := scenario.disk0 } [] []
      (by decide) (by decide)).2.2.2.2 (by decide)⟩

/-! ### C40 -/

/-- C40: `receive_errors` on a handle of the registrar writes one packet, of type
`cluster_error_log_request` with the handle's id and no payload, and reads one reply,
which it has checked against the packet type `cluster_test_case`; `receive_tests` has
its reply checked against the same type; nothing else of the handle changes, and the
errors returned are what the worker hands out. -/
theorem C40_receive_errors_expects_test_case (sys : Sys) (node : Nat)
    (h : node < sys.nodes.length) :
    ((receive_errors sys node).2.acquire node).server.written =
      (sys.acquire node).server.written ++
        [⟨(sys.acquire node).status.id, packet_type.cluster_error_log_request, Payload.empty⟩] ∧
    ((receive_errors sys node).2.acquire node).server.expected =
      (sys.acquire node).server.expected ++ [packet_type.cluster_test_case] ∧
    ((receive_tests sys node).2.acquire node).server.expected =
      (sys.acquire node).server.expected ++ [packet_type.cluster_test_case] ∧
    ((receive_errors sys node).2.acquire node).server.expected =
      ((receive_tests sys node).2.acquire node).server.expected ∧
    ((receive_errors sys node).2.acquire node).status = (sys.acquire node).status ∧
    ((receive_errors sys node).2.acquire node).type = (sys.acquire node).type ∧
    (receive_errors sys node).1 = (sys.acquire node).server.remote.errors := by
  simp only [receive_errors, receive_tests, acquire_with_node_self sys node _ h]
  simp [NodeData.write, NodeData.read]

/-- C40, witness: the VM handle of the examples. -/
theorem C40_receive_errors_expects_test_case_witness :
    ((receive_errors scenario.sys_with_image 0).2.acquire 0).server.expected =
      ((receive_tests scenario.sys_with_image 0).2.acquire 0).server.expected ∧
    ((receive_errors scenario.sys_with_image 0).2.acquire 0).server.expected =
      [packet_type.cluster_test_case] :=
  ⟨(C40_receive_errors_expects_test_case scenario.sys_with_image 0 (by decide)).2.2.2.1,
   (C40_receive_errors_expects_test_case scenario.sys_with_image 0 (by decide)).2.1⟩

/-! ### The `Error` states -/

theorem vm_no_row_into_Error : ∀ r ∈ vm.transition_table, r.target ≠ vm.State.Error := by
  decide

theorem svm_no_row_into_Error : ∀ r ∈ svm.transition_table, r.target ≠ svm.State.Error := by
  decide

theorem vm_one_step_not_Error (v v1 : vm.NodeFSM) (h : vm.one_step v v1)
    (hv : v.state ≠ vm.State.Error) : v1.state ≠ vm.State.Error := by
  obtain ⟨ev, v0, s, s1, -, -, hone⟩ := h
  rcases hone with e | ⟨row, hrow, -, -, ht⟩
  · rw [e]
    exact hv
  · rw [← ht]
    exact vm_no_row_into_Error row hrow

theorem svm_one_step_not_Error (v v1 : svm.NodeFSM) (h : svm.one_step v v1)
    (hv : v.state ≠ svm.State.Error) : v1.state ≠ svm.State.Error := by
  obtain ⟨ev, v0, s, s1, -, -, hone⟩ := h
  rcases hone with e | ⟨row, hrow, -, -, ht⟩
  · rw [e]
    exact hv
  · rw [← ht]
    exact svm_no_row_into_Error row hrow

theorem forall₂_keeps {α : Type} (R : α → α → Prop) (P : α → Prop)
    (hR : ∀ a b, R a b → P a → P b) :
    ∀ (l l1 : List α), List.Forall₂ R l l1 → (∀ a ∈ l, P a) → ∀ b ∈ l1, P b := by
  intro l l1 h
  induction h with
  | nil => intro _ b hb; cases hb
  | cons hab _ ih =>
      intro hl b hb
      rcases List.mem_cons.1 hb with e | hb
      · rw [e]
        exact hR _ _ hab (hl _ (List.mem_cons_self _ _))
      · exact ih (fun a ha => hl a (List.mem_cons_of_mem _ ha)) b hb

theorem run_keeps_no_machine_in_Error (k : Constants) (now : Int) (m m1 : fsm.DispatchFSM)
    (h : Dispatch.run k now m = Except.ok m1)
    (hm : fsm.no_machine_in_Error m.toDispatchFSM_) :
    fsm.no_machine_in_Error m1.toDispatchFSM_ := by
  rcases run_machines k now m m1 h with ⟨e1, e2, -, -⟩ | ⟨-, f1, f2⟩ | ⟨-, n1, n2⟩
  · unfold fsm.no_machine_in_Error
    rw [e1, e2]
    exact hm
  · exact ⟨forall₂_keeps _ _ vm_one_step_not_Error _ _ f1 hm.1,
      forall₂_keeps _ _ svm_one_step_not_Error _ _ f2 hm.2⟩
  · constructor
    · intro v hv
      obtain ⟨node, e⟩ := n1 v hv
      rw [e]
      simp [vm_machine_for]
    · intro v hv
      obtain ⟨node, e⟩ := n2 v hv
      rw [e]
      simp [svm_machine_for]

theorem runs_keep_no_machine_in_Error (k : Constants) (nows : List Int) :
    ∀ (m mx : fsm.DispatchFSM), Dispatch.runs k nows m = Except.ok mx →
      fsm.no_machine_in_Error m.toDispatchFSM_ → fsm.no_machine_in_Error mx.toDispatchFSM_ := by
  induction nows with
  | nil =>
      intro m mx h hm
      cases h
      exact hm
  | cons now rest ih =>
      intro m mx h hm
      simp only [Dispatch.runs] at h
      cases h1 : Dispatch.run k now m with
      | error e => rw [h1] at h; cases h
      | ok m1 =>
          rw [h1] at h
          exact ih m1 mx h (run_keeps_no_machine_in_Error k now m m1 h1 hm)

theorem register_keeps_no_machine_in_Error (handle : NodeData) (m m1 : fsm.DispatchFSM)
    (h : Dispatch.register handle m = Except.ok m1)
    (hm : fsm.no_machine_in_Error m.toDispatchFSM_) :
    fsm.no_machine_in_Error m1.toDispatchFSM_ := by
  unfold Dispatch.register at h
  simp only at h
  split at h
  · rename_i l hl
    cases h
    obtain ⟨-, -, e1, e2⟩ := register_node_fsm_result _ _ _ _ _ l hl
    constructor
    · intro v hv
      simp only [e1, List.mem_append] at hv
      rcases hv with hv | hv
      · exact hm.1 v hv
      · split_ifs at hv
        · simp only [List.mem_singleton] at hv
          rw [hv]
          simp [vm_machine_for]
        · cases hv
    · intro v hv
      simp only [e2, List.mem_append] at hv
      rcases hv with hv | hv
      · exact hm.2 v hv
      · split_ifs at hv
        · simp only [List.mem_singleton] at hv
          rw [hv]
          simp [svm_machine_for]
        · cases hv
  · cases h

/-! ### C35 -/

/-- C35: no row of the VM table and no row of the SVM table has `Error` as its target; a
worker machine that is not in `Error` is not in `Error` after any event it processes,
whatever the worker reports; a dispatcher none of whose worker machines is in `Error`
(as after construction) has none in `Error` after any registration and any sequence of
calls of `Dispatch::run`; and the action `dispatch` gives every machine of both lists one
event, skipping none. -/
theorem C35_Error_states_unreachable (k : Constants) :
    (∀ r ∈ vm.transition_table, r.target ≠ vm.State.Error) ∧
    (∀ r ∈ svm.transition_table, r.target ≠ svm.State.Error) ∧
    (∀ (evs : List vm.Event) (m : vm.NodeFSM) (sys : Sys) (r : vm.NodeFSM × Sys),
      m.state ≠ vm.State.Error → vm.process_events evs m sys = Except.ok r →
      r.1.state ≠ vm.State.Error) ∧
    (∀ (ev : svm.Event) (m : svm.NodeFSM) (sys : Sys) (r : svm.NodeFSM × Sys),
      m.state ≠ svm.State.Error → svm.process_event ev m sys = Except.ok r →
      r.1.state ≠ svm.State.Error) ∧
    (∀ (defaults : option.Dispatch) (s : String) (now : Int) (disk : FileSystem),
      fsm.no_machine_in_Error (fsm.DispatchFSM.construct defaults s now disk).toDispatchFSM_) ∧
    (∀ (handle : NodeData) (m m1 : fsm.DispatchFSM),
      fsm.no_machine_in_Error m.toDispatchFSM_ → Dispatch.register handle m = Except.ok m1 →
      fsm.no_machine_in_Error m1.toDispatchFSM_) ∧
    (∀ (nows : List Int) (m mx : fsm.DispatchFSM),
      fsm.no_machine_in_Error m.toDispatchFSM_ → Dispatch.runs k nows m = Except.ok mx →
      fsm.no_machine_in_Error mx.toDispatchFSM_) ∧
    (∀ (now : Int) (d d1 : fsm.DispatchFSM_), fsm.dispatch k now d = Except.ok d1 →
      List.Forall₂ vm.one_step d.vm_node_fsms_ d1.vm_node_fsms_ ∧
      List.Forall₂ svm.one_step d.svm_node_fsms_ d1.svm_node_fsms_) := by
  refine ⟨vm_no_row_into_Error, svm_no_row_into_Error, ?_, ?_, ?_, ?_, ?_, ?_⟩
  · intro evs
    induction evs with
    | nil =>
        intro m sys r hm h
        cases h
        exact hm
    | cons ev rest ih =>
        intro m sys r hm h
        simp only [vm.process_events] at h
        cases h1 : vm.process_event ev m sys with
        | error e => rw [h1] at h; cases h
        | ok r1 =>
            rw [h1] at h
            refine ih r1.1 r1.2 r ?_ h
            rcases vm_process_event_one_transition ev m sys r1 h1 with e | ⟨row, hrow, -, -, ht⟩
            · rw [e]
              exact hm
            · rw [← ht]
              exact vm_no_row_into_Error row hrow
  · intro ev m sys r hm h
    rcases svm_process_event_one_transition ev m sys r h with e | ⟨row, hrow, -, -, ht⟩
    · rw [e]
      exact hm
    · rw [← ht]
      exact svm_no_row_into_Error row hrow
  · intro defaults s now disk
    constructor <;> intro v hv <;> cases hv
  · intro handle m m1 hm h
    exact register_keeps_no_machine_in_Error handle m m1 h hm
  · intro nows m mx hm h
    exact runs_keep_no_machine_in_Error k nows m mx h hm
  · intro now d d1 h
    have st := dispatch_step k now d d1 h
    exact ⟨st.1, st.2.1⟩

/-- C35, witness: scenario S3 after fifteen calls of `Dispatch::run`, two of them
rotations: no worker machine is in `Error`. -/
theorem C35_Error_states_unreachable_witness :
    fsm.no_machine_in_Error (scenario.S3_polled (List.replicate 15 0)).toDispatchFSM_ :=
  (C35_Error_states_unreachable scenario.k0).2.2.2.2.2.2.1 (List.replicate 15 0)
    (scenario.S3_polled []) (scenario.S3_polled (List.replicate 15 0))
    (by
      constructor
      · intro v hv
        have e : (scenario.S3_polled []).vm_node_fsms_ =
            [vm_machine_for 0 scenario.S3_options] := rfl
        rw [e] at hv
        simp only [List.mem_singleton] at hv
        rw [hv]
        simp [vm_machine_for]
      · intro v hv
        have e : (scenario.S3_polled []).svm_node_fsms_ = [svm_machine_for 1] := rfl
        rw [e] at hv
        simp only [List.mem_singleton] at hv
        rw [hv]
        simp [svm_machine_for])
    rfl

/-! ### Row selection does not depend on the order of the rows -/

theorem select_row_settled {S T G A C : Type} (atom : G → C → Bool × C) (c c1 : C) :
    ∀ (l : List (Row S T G A)),
      (∀ r ∈ l, r.guard.eval atom c1 = ((r.guard.eval atom c).1, c1)) →
      select_row atom l c1 = ((l.filter (fun r => (r.guard.eval atom c).1)).head?, c1) := by
  intro l
  induction l with
  | nil => intro _; rfl
  | cons r rs ih =>
      intro h
      have hr := h r (List.mem_cons_self _ _)
      have hrs := ih (fun x hx => h x (List.mem_cons_of_mem _ hx))
      simp only [select_row, hr]
      cases hb : (r.guard.eval atom c).1
      · simp [List.filter, hb, hrs]
      · simp [List.filter, hb]

theorem select_row_first_enabled {S T G A C : Type} (atom : G → C → Bool × C) (c c1 : C)
    (l : List (Row S T G A))
    (h : ∀ r ∈ l, (r.guard.eval atom c).2 = c1 ∧
      r.guard.eval atom c1 = ((r.guard.eval atom c).1, c1)) :
    select_row atom l c =
      ((l.filter (fun r => (r.guard.eval atom c).1)).head?, if l.isEmpty then c else c1) := by
  cases l with
  | nil => rfl
  | cons r rs =>
      have hr := h r (List.mem_cons_self _ _)
      have hrs := select_row_settled atom c c1 rs
        (fun x hx => (h x (List.mem_cons_of_mem _ hx)).2)
      simp only [select_row, hr.1, hrs]
      cases hb : (r.guard.eval atom c).1
      · simp [List.filter, hb]
      · simp [List.filter, hb]

theorem select_row_perm {S T G A C : Type} (atom : G → C → Bool × C) (c c1 : C)
    (l l1 : List (Row S T G A))
    (h : ∀ r ∈ l, (r.guard.eval atom c).2 = c1 ∧
      r.guard.eval atom c1 = ((r.guard.eval atom c).1, c1))
    (hone : (l.filter (fun r => (r.guard.eval atom c).1)).length ≤ 1)
    (hp : l1.Perm l) : select_row atom l1 c = select_row atom l c := by
  have h1 : ∀ r ∈ l1, (r.guard.eval atom c).2 = c1 ∧
      r.guard.eval atom c1 = ((r.guard.eval atom c).1, c1) :=
    fun r hr => h r (hp.mem_iff.1 hr)
  rw [select_row_first_enabled atom c c1 l h, select_row_first_enabled atom c c1 l1 h1]
  have hf := hp.filter (fun r => (r.guard.eval atom c).1)
  have he : l1.filter (fun r => (r.guard.eval atom c).1) =
      l.filter (fun r => (r.guard.eval atom c).1) := by
    generalize l.filter (fun r => (r.guard.eval atom c).1) = a at hf hone
    generalize l1.filter (fun r => (r.guard.eval atom c).1) = b at hf
    match a, hone with
    | [], _ => exact hf.eq_nil
    | [x], _ => exact hf.eq_singleton
  have hn : l1.isEmpty = l.isEmpty := by
    cases l with
    | nil =>
        rw [hp.eq_nil]
    | cons x xs =>
        cases l1 with
        | nil => exact absurd hp.symm.eq_nil (by simp)
        | cons y ys => rfl
  rw [he, hn]

theorem vm_one_guard_under (s : vm.State) (t : vm.EventTag) :
    ∀ distributed update first valid trace error : Bool,
      ((candidate_rows vm.transition_table s t).filter (fun r =>
        (r.guard.eval (vm.guard_under distributed update first valid trace error) ()).1)).length
        ≤ 1 := by
  cases s <;> cases t <;> decide

theorem svm_one_guard_under (s : svm.State) (t : svm.EventTag) :
    ∀ tests error : Bool,
      ((candidate_rows svm.transition_table s t).filter (fun r =>
        (r.guard.eval (svm.guard_under tests error) ()).1)).length ≤ 1 := by
  cases s <;> cases t <;> decide

theorem eval_under {G C : Type} (atom : G → C → Bool × C) (val : G → Unit → Bool × Unit)
    (c : C) :
    ∀ e : GuardExpr G, (∀ g ∈ e.atoms, atom g c = ((val g ()).1, c)) →
      e.eval atom c = ((e.eval val ()).1, c) := by
  intro e
  induction e with
  | none => intro _; rfl
  | atom g => intro h; exact h g (List.mem_singleton_self g)
  | Not_ e ih =>
      intro h
      simp only [GuardExpr.eval, ih h]
  | And_ a b iha ihb =>
      intro h
      have ha := iha (fun g hg => h g (List.mem_append_left _ hg))
      have hb := ihb (fun g hg => h g (List.mem_append_right _ hg))
      simp only [GuardExpr.eval, ha]
      cases (a.eval val ()).1 <;> simp [hb]
  | Or_ a b iha ihb =>
      intro h
      have ha := iha (fun g hg => h g (List.mem_append_left _ hg))
      have hb := ihb (fun g hg => h g (List.mem_append_right _ hg))
      simp only [GuardExpr.eval, ha]
      cases (a.eval val ()).1 <;> simp [hb]

theorem vm_is_image_valid_rows :
    ∀ r ∈ vm.transition_table, vm.Guard.is_image_valid ∈ r.guard.atoms →
      r.source = vm.State.ValidateImage ∧ r.event = vm.EventTag.image := by
  decide

theorem vm_guard_of_pure (ev : vm.Event) (c : vm.Ctx) (g : vm.Guard)
    (h : g = vm.Guard.is_image_valid → ∀ p, ev ≠ vm.Event.image p) :
    vm.guard ev g c = ((vm.guard_of ev c g ()).1, c) := by
  cases g
  case is_image_valid =>
    cases ev
    case image p => exact absurd rfl (h rfl p)
    all_goals rfl
  all_goals rfl

theorem vm_rows_settled (ev : vm.Event) (m : vm.NodeFSM) (sys : Sys) :
    ∃ c1, (∀ r ∈ candidate_rows vm.transition_table m.state ev.tag,
        (r.guard.eval (vm.guard ev) (m.toVMNodeFSM_, sys)).2 = c1 ∧
        r.guard.eval (vm.guard ev) c1 =
          ((r.guard.eval (vm.guard ev) (m.toVMNodeFSM_, sys)).1, c1)) ∧
      (vm.enabled_rows ev m sys).length ≤ 1 := by
  by_cases hv : m.state = vm.State.ValidateImage ∧ ∃ p, ev = vm.Event.image p
  · obtain ⟨hs, p, hp⟩ := hv
    subst hp
    obtain ⟨b, w, h1, h2, h3⟩ := vm_is_image_valid_spec p (m.toVMNodeFSM_, sys)
    refine ⟨w, ?_, ?_⟩
    · rw [hs]
      simp only [vm.Event.tag, vm_candidate_rows_ValidateImage]
      cases b <;> cases hf : w.1.first_ <;>
        simp [GuardExpr.eval, vm.guard, h1, h2, hf]
    · cases b <;> cases hf : w.1.first_ <;>
        simp [vm.enabled_rows, hs, vm.Event.tag, vm_candidate_rows_ValidateImage,
          GuardExpr.eval, vm.guard, h1, h2, hf]
  · have key : ∀ r ∈ candidate_rows vm.transition_table m.state ev.tag,
        r.guard.eval (vm.guard ev) (m.toVMNodeFSM_, sys) =
          ((r.guard.eval (vm.guard_of ev (m.toVMNodeFSM_, sys)) ()).1,
            (m.toVMNodeFSM_, sys)) := by
      intro r hr
      obtain ⟨ht, hs, he⟩ := candidate_rows_mem _ _ _ r hr
      refine eval_under _ _ _ r.guard (fun g hg => vm_guard_of_pure ev _ g ?_)
      intro hgv p hp
      rw [hgv] at hg
      obtain ⟨a1, a2⟩ := vm_is_image_valid_rows r ht hg
      exact hv ⟨hs.symm.trans a1, p, hp⟩
    refine ⟨(m.toVMNodeFSM_, sys), ?_, ?_⟩
    · intro r hr
      rw [key r hr]
      exact ⟨rfl, rfl⟩
    · have hf : vm.enabled_rows ev m sys =
          (candidate_rows vm.transition_table m.state ev.tag).filter (fun r =>
            (r.guard.eval (vm.guard_of ev (m.toVMNodeFSM_, sys)) ()).1) := by
        unfold vm.enabled_rows
        apply List.filter_congr
        intro r hr
        rw [key r hr]
      rw [hf]
      exact vm_one_guard_under _ _ _ _ _ _ _ _

theorem svm_rows_settled (ev : svm.Event) (m : svm.NodeFSM) (sys : Sys) :
    (∀ r ∈ candidate_rows svm.transition_table m.state ev.tag,
        (r.guard.eval (svm.guard ev) (m.toSVMNodeFSM_, sys)).2 = (m.toSVMNodeFSM_, sys) ∧
        r.guard.eval (svm.guard ev) (m.toSVMNodeFSM_, sys) =
          ((r.guard.eval (svm.guard ev) (m.toSVMNodeFSM_, sys)).1, (m.toSVMNodeFSM_, sys))) ∧
      (svm.enabled_rows ev m sys).length ≤ 1 := by
  have key : ∀ e : GuardExpr svm.Guard,
      e.eval (svm.guard ev) (m.toSVMNodeFSM_, sys) =
        ((e.eval (svm.guard_of (m.toSVMNodeFSM_, sys)) ()).1, (m.toSVMNodeFSM_, sys)) := by
    intro e
    refine eval_under _ _ _ e (fun g _ => ?_)
    cases g <;> rfl
  refine ⟨fun r _ => ?_, ?_⟩
  · rw [key r.guard]
    exact ⟨rfl, rfl⟩
  · have hf : svm.enabled_rows ev m sys =
        (candidate_rows svm.transition_table m.state ev.tag).filter (fun r =>
          (r.guard.eval (svm.guard_of (m.toSVMNodeFSM_, sys)) ()).1) := by
      unfold svm.enabled_rows
      apply List.filter_congr
      intro r _
      rw [key r.guard]
    rw [hf]
    exact svm_one_guard_under _ _ _ _

/-! ### C34 -/

/-- C34: in the VM table and in the SVM table, for every state, every event type and
every valuation of the predicates the guards read, at most one row of the state for the
event has its guard true.  For a machine with its handles, whatever the flags and the
stored status: at most one row is enabled for an event; the row that fires, if any, is
that row; and trying the rows of the state in any other order selects the same row and
leaves the same context behind, so the next state and the actions run do not depend on
the order in which the rows are tried. -/
theorem C34_at_most_one_row_enabled (ev : vm.Event) (m : vm.NodeFSM) (sev : svm.Event)
    (sm : svm.NodeFSM) (sys : Sys) :
    (∀ (s : vm.State) (t : vm.EventTag) (distributed update first valid trace error : Bool),
      ((candidate_rows vm.transition_table s t).filter (fun r =>
        (r.guard.eval (vm.guard_under distributed update first valid trace error) ()).1)).length
        ≤ 1) ∧
    (∀ (s : svm.State) (t : svm.EventTag) (tests error : Bool),
      ((candidate_rows svm.transition_table s t).filter (fun r =>
        (r.guard.eval (svm.guard_under tests error) ()).1)).length ≤ 1) ∧
    (vm.enabled_rows ev m sys).length ≤ 1 ∧
    (vm.fired_row ev m sys).1 = (vm.enabled_rows ev m sys).head? ∧
    (∀ rows, rows.Perm (candidate_rows vm.transition_table m.state ev.tag) →
      select_row (vm.guard ev) rows (m.toVMNodeFSM_, sys) = vm.fired_row ev m sys) ∧
    (svm.enabled_rows sev sm sys).length ≤ 1 ∧
    (svm.fired_row sev sm sys).1 = (svm.enabled_rows sev sm sys).head? ∧
    (∀ rows, rows.Perm (candidate_rows svm.transition_table sm.state sev.tag) →
      select_row (svm.guard sev) rows (sm.toSVMNodeFSM_, sys) = svm.fired_row sev sm sys) := by
  obtain ⟨c1, v1, v2⟩ := vm_rows_settled ev m sys
  obtain ⟨s1, s2⟩ := svm_rows_settled sev sm sys
  refine ⟨vm_one_guard_under, svm_one_guard_under, v2, ?_, ?_, s2, ?_, ?_⟩
  · unfold vm.fired_row vm.enabled_rows
    rw [select_row_first_enabled _ _ c1 _ v1]
  · intro rows hp
    exact select_row_perm _ _ c1 _ _ v1 v2 hp
  · unfold svm.fired_row svm.enabled_rows
    rw [select_row_first_enabled _ _ _ _ s1]
  · intro rows hp
    exact select_row_perm _ _ _ _ _ s1 s2 hp

/-- C34, witness: for a VM machine in `RxTrace` whose handle shows a pending trace, the
two rows tried in declaration order select the row that the machine fires (the row to
`TraceRxed`). -/
theorem C34_at_most_one_row_enabled_witness :
    select_row (vm.guard vm.Event.poll)
        (candidate_rows vm.transition_table vm.State.RxTrace vm.EventTag.poll).reverse
        ((scenario.vm_in vm.State.RxTrace false false true).toVMNodeFSM_,
          { nodes := [scenario.handle_with packet_type.cluster_request_vm_node true 1 0 0],
            disk := scenario.disk0 }) =
      vm.fired_row vm.Event.poll (scenario.vm_in vm.State.RxTrace false false true)
        { nodes := [scenario.handle_with packet_type.cluster_request_vm_node true 1 0 0],
          disk := scenario.disk0 } ∧
    (vm.fired_row vm.Event.poll (scenario.vm_in vm.State.RxTrace false false true)
        { nodes := [scenario.handle_with packet_type.cluster_request_vm_node true 1 0 0],
          disk := scenario.disk0 }).1.map (fun r => r.target) = some vm.State.TraceRxed :=
  ⟨(C34_at_most_one_row_enabled vm.Event.poll (scenario.vm_in vm.State.RxTrace false false true)
      svm.Event.poll (scenario.svm_in svm.State.RxTest)
      { nodes := [scenario.handle_with packet_type.cluster_request_vm_node true 1 0 0],
        disk := scenario.disk0 }).2.2.2.2.1 _ (List.reverse_perm _), by decide⟩

/-! ### The top-up loops end -/

theorem next_test_cases (d : fsm.DispatchFSM_) :
    (d.test_pool_.next_ = [] ∧ fsm.next_test d = (Option.none, d)) ∨
    ∃ t rest, d.test_pool_.next_ = t :: rest ∧
      fsm.next_test d = (some t, { d with test_pool_ := { d.test_pool_ with next_ := rest } }) := by
  cases hn : d.test_pool_.next_ with
  | nil =>
      left
      simp [fsm.next_test, TestPool.next, hn]
  | cons t rest =>
      right
      exact ⟨t, rest, rfl, by simp [fsm.next_test, TestPool.next, hn]⟩

theorem next_trace_cases (d : fsm.DispatchFSM_) :
    (d.trace_pool_.next_ = [] ∧ fsm.next_trace d = (Except.ok Option.none, d)) ∨
    ∃ p rest, d.trace_pool_.next_ = p :: rest ∧
      fsm.next_trace d = ((fsm.from_trace_file d.disk p).map some,
        { d with trace_pool_ := { d.trace_pool_ with next_ := rest } }) := by
  cases hn : d.trace_pool_.next_ with
  | nil =>
      left
      simp [fsm.next_trace, TracePool.next, hn]
  | cons p rest =>
      right
      refine ⟨p, rest, rfl, ?_⟩
      simp only [fsm.next_trace, TracePool.next, hn]
      cases fsm.from_trace_file d.disk p <;> rfl

theorem top_up_tests_calls_eq (k : Constants) (fuel : Nat) :
    ∀ (c : Nat) (d : fsm.DispatchFSM_),
      k.vm_test_multiplier - c ≤ fuel ∨ d.test_pool_.next_.length + 1 ≤ fuel →
      fsm.top_up_tests_calls k fuel c d =
        some (min (k.vm_test_multiplier - c) (d.test_pool_.next_.length + 1)) := by
  induction fuel with
  | zero =>
      intro c d h
      have h0 : k.vm_test_multiplier - c = 0 := by omega
      have hc : ¬ c < 1 * k.vm_test_multiplier := by omega
      simp only [fsm.top_up_tests_calls, if_neg hc, h0, Nat.zero_min]
  | succ fuel ih =>
      intro c d h
      unfold fsm.top_up_tests_calls
      by_cases hc : c < 1 * k.vm_test_multiplier
      · rw [if_pos hc]
        rcases next_test_cases d with ⟨hn, e⟩ | ⟨t, rest, hn, e⟩
        · simp only [e, hn, List.length_nil]
          congr 1
          omega
        · rw [hn] at h
          simp only [List.length_cons] at h
          simp only [e, hn, List.length_cons]
          rw [ih (c + 1) _ (by simp only []; omega)]
          simp only [Option.map_some']
          congr 1
          omega
      · rw [if_neg hc]
        congr 1
        omega

theorem top_up_tests_fuel (k : Constants) (fuel : Nat) :
    ∀ (c n : Nat) (ts : List TestCase) (d : fsm.DispatchFSM_) (more : Nat),
      fsm.top_up_tests_calls k fuel c d = some n →
      fsm.top_up_tests k (fuel + more) c ts d = fsm.top_up_tests k fuel c ts d := by
  induction fuel with
  | zero =>
      intro c n ts d more h
      simp only [fsm.top_up_tests_calls] at h
      split_ifs at h with hc
      cases more with
      | zero => rfl
      | succ m =>
          simp only [Nat.zero_add]
          unfold fsm.top_up_tests
          rw [if_neg hc]
  | succ fuel ih =>
      intro c n ts d more h
      have ef : fuel + 1 + more = (fuel + more) + 1 := by omega
      rw [ef]
      unfold fsm.top_up_tests_calls at h
      unfold fsm.top_up_tests
      by_cases hc : c < 1 * k.vm_test_multiplier
      · rw [if_pos hc] at h
        rw [if_pos hc, if_pos hc]
        rcases next_test_cases d with ⟨hn, e⟩ | ⟨t, rest, hn, e⟩
        · simp only [e]
        · simp only [e] at h ⊢
          cases h2 : fsm.top_up_tests_calls k fuel (c + 1)
              { d with test_pool_ := { d.test_pool_ with next_ := rest } } with
          | none => rw [h2] at h; cases h
          | some n2 => exact ih (c + 1) n2 _ _ more h2
      · rw [if_neg hc, if_neg hc]

theorem top_up_traces_calls_bound (k : Constants) (fuel : Nat) :
    ∀ (c : Nat) (d : fsm.DispatchFSM_), d.trace_pool_.next_.length + 1 ≤ fuel →
      ∃ n, fsm.top_up_traces_calls k fuel c d = some n ∧ n ≤ d.trace_pool_.next_.length + 1 := by
  induction fuel with
  | zero =>
      intro c d h
      omega
  | succ fuel ih =>
      intro c d h
      unfold fsm.top_up_traces_calls
      by_cases hc : c < 1 * k.vm_trace_multiplier
      · rw [if_pos hc]
        rcases next_trace_cases d with ⟨hn, e⟩ | ⟨p, rest, hn, e⟩
        · simp only [e]
          exact ⟨1, rfl, by omega⟩
        · rw [hn] at h
          simp only [List.length_cons] at h
          simp only [e, hn, List.length_cons]
          cases fsm.from_trace_file d.disk p with
          | error x =>
              obtain ⟨n, a1, a2⟩ := ih c
                { d with
                  trace_pool_ := { d.trace_pool_ with next_ := rest }
                  exception_log_ := { d.exception_log_ with
                    entries := d.exception_log_.entries ++ [log.Entry.exception x] } }
                (by simp only []; omega)
              simp only [Except.map]
              rw [a1]
              exact ⟨n + 1, rfl, by simp only [] at a2; omega⟩
          | ok t =>
              obtain ⟨n, a1, a2⟩ := ih (c + 1)
                { d with trace_pool_ := { d.trace_pool_ with next_ := rest } }
                (by simp only []; omega)
              simp only [Except.map]
              rw [a1]
              exact ⟨n + 1, rfl, by simp only [] at a2; omega⟩
      · rw [if_neg hc]
        exact ⟨0, rfl, by omega⟩

theorem top_up_traces_fuel (k : Constants) (fuel : Nat) :
    ∀ (c n : Nat) (ts : List Trace) (d : fsm.DispatchFSM_) (more : Nat),
      fsm.top_up_traces_calls k fuel c d = some n →
      fsm.top_up_traces k (fuel + more) c ts d = fsm.top_up_traces k fuel c ts d ∧
      fsm.top_up_traces_calls k (fuel + more) c d = some n := by
  induction fuel with
  | zero =>
      intro c n ts d more h
      simp only [fsm.top_up_traces_calls] at h
      split_ifs at h with hc
      cases more with
      | zero => exact ⟨rfl, by simp only [Nat.add_zero, fsm.top_up_traces_calls, if_neg hc, h]⟩
      | succ m =>
          simp only [Nat.zero_add]
          unfold fsm.top_up_traces fsm.top_up_traces_calls
          rw [if_neg hc, if_neg hc]
          exact ⟨rfl, h⟩
  | succ fuel ih =>
      intro c n ts d more h
      have ef : fuel + 1 + more = (fuel + more) + 1 := by omega
      rw [ef]
      unfold fsm.top_up_traces_calls at h ⊢
      unfold fsm.top_up_traces
      by_cases hc : c < 1 * k.vm_trace_multiplier
      · rw [if_pos hc] at h
        rw [if_pos hc, if_pos hc, if_pos hc]
        rcases next_trace_cases d with ⟨hn, e⟩ | ⟨p, rest, hn, e⟩
        · rw [e] at h ⊢
          exact ⟨rfl, h⟩
        · rw [e] at h ⊢
          cases hft : fsm.from_trace_file d.disk p with
          | error x =>
              rw [hft] at h
              simp only [Except.map] at h ⊢
              cases h2 : fsm.top_up_traces_calls k fuel c
                  { d with
                    trace_pool_ := { d.trace_pool_ with next_ := rest }
                    exception_log_ := { d.exception_log_ with
                      entries := d.exception_log_.entries ++ [log.Entry.exception x] } } with
              | none => rw [h2] at h; cases h
              | some n2 =>
                  rw [h2] at h
                  obtain ⟨a1, a2⟩ := ih c n2 ts _ more h2
                  rw [a2]
                  exact ⟨a1, h⟩
          | ok t =>
              rw [hft] at h
              simp only [Except.map] at h ⊢
              cases h2 : fsm.top_up_traces_calls k fuel (c + 1)
                  { d with trace_pool_ := { d.trace_pool_ with next_ := rest } } with
              | none => rw [h2] at h; cases h
              | some n2 =>
                  rw [h2] at h
                  obtain ⟨a1, a2⟩ := ih (c + 1) n2 (ts ++ [t]) _ more h2
                  rw [a2]
                  exact ⟨a1, h⟩
      · rw [if_neg hc] at h
        rw [if_neg hc, if_neg hc, if_neg hc]
        exact ⟨rfl, h⟩

theorem top_up_tests_same (k : Constants) (f1 f2 c n1 n2 : Nat) (ts : List TestCase)
    (d : fsm.DispatchFSM_) (h1 : fsm.top_up_tests_calls k f1 c d = some n1)
    (h2 : fsm.top_up_tests_calls k f2 c d = some n2) :
    fsm.top_up_tests k f1 c ts d = fsm.top_up_tests k f2 c ts d := by
  by_cases h : f1 ≤ f2
  · obtain ⟨more, rfl⟩ := Nat.exists_eq_add_of_le h
    exact (top_up_tests_fuel k f1 c n1 ts d more h1).symm
  · obtain ⟨more, rfl⟩ := Nat.exists_eq_add_of_le (Nat.le_of_not_le h)
    exact top_up_tests_fuel k f2 c n2 ts d more h2

/-! ### C37 -/

/-- C37: the two top-up loops of the dispatch action end, for every pool state and every
reported count `c`.  The `tx_test` loop ends after a number `n` of calls of `next_test`
that is at most `count_next + 1` of the test pool (and at most `vm_test_multiplier - c`):
with any bound on the passes from `count_next + 1` on the loop ends within it, after `n`
calls and with the result the dispatch action computes.  The `tx_trace` loop ends after
a number of calls of `next_trace` that is at most `count_next + 1` of the trace pool, also
when calls throw, and with the same result for any bound from `count_next + 1` on.  The
pools meet the assumption: a call of `next_test` or `next_trace` returns nothing and
leaves the pool alone, or lowers `count_next` by one (`next_trace` also when it
throws). -/
theorem C37_top_up_loops_terminate (k : Constants) (d : fsm.DispatchFSM_) (c : Nat) :
    (∃ n, n ≤ d.test_pool_.count_next + 1 ∧ n ≤ k.vm_test_multiplier - c ∧
      fsm.top_up_tests_calls k k.vm_test_multiplier c d = some n ∧
      ∀ fuel, d.test_pool_.count_next + 1 ≤ fuel →
        fsm.top_up_tests_calls k fuel c d = some n ∧
        ∀ ts, fsm.top_up_tests k fuel c ts d =
          fsm.top_up_tests k k.vm_test_multiplier c ts d) ∧
    (∃ n, n ≤ d.trace_pool_.count_next + 1 ∧
      ∀ fuel, d.trace_pool_.count_next + 1 ≤ fuel →
        fsm.top_up_traces_calls k fuel c d = some n ∧
        ∀ ts, fsm.top_up_traces k fuel c ts d =
          fsm.top_up_traces k (d.trace_pool_.count_next + 1) c ts d) ∧
    (((fsm.next_test d).1 = Option.none ∧ (fsm.next_test d).2 = d) ∨
      (fsm.next_test d).2.test_pool_.count_next + 1 = d.test_pool_.count_next) ∧
    (((fsm.next_trace d).1 = Except.ok Option.none ∧ (fsm.next_trace d).2 = d) ∨
      (fsm.next_trace d).2.trace_pool_.count_next + 1 = d.trace_pool_.count_next) := by
  refine ⟨?_, ?_, ?_, ?_⟩
  · have h0 := top_up_tests_calls_eq k k.vm_test_multiplier c d (Or.inl (by omega))
    refine ⟨_, Nat.min_le_right _ _, Nat.min_le_left _ _, h0, ?_⟩
    intro fuel hf
    have h1 := top_up_tests_calls_eq k fuel c d (Or.inr hf)
    exact ⟨h1, fun ts => top_up_tests_same k _ _ c _ _ ts d h1 h0⟩
  · obtain ⟨n, a1, a2⟩ := top_up_traces_calls_bound k (d.trace_pool_.count_next + 1) c d
      (le_refl _)
    refine ⟨n, a2, ?_⟩
    intro fuel hf
    obtain ⟨more, rfl⟩ := Nat.exists_eq_add_of_le hf
    exact ⟨(top_up_traces_fuel k _ c n [] d more a1).2,
      fun ts => (top_up_traces_fuel k _ c n ts d more a1).1⟩
  · rcases next_test_cases d with ⟨hn, e⟩ | ⟨t, rest, hn, e⟩
    · left
      rw [e]
      exact ⟨rfl, rfl⟩
    · right
      rw [e]
      simp [TestPool.count_next, hn]
  · rcases next_trace_cases d with ⟨hn, e⟩ | ⟨p, rest, hn, e⟩
    · left
      rw [e]
      exact ⟨rfl, rfl⟩
    · right
      rw [e]
      simp [TracePool.count_next, hn]

/-- C37, witness (scenario S6): the trace pool dispenses `u1`, whose file is gone, and
`u2`; with the reported count 0 and the multiplier 2 the loop calls `next_trace` three
times (the third call returns nothing), which is `count_next + 1`. -/
theorem C37_top_up_loops_terminate_witness :
    fsm.top_up_traces_calls scenario.k0 3 0 scenario.S6_members = some 3 ∧
    ∃ n, n ≤ scenario.S6_members.trace_pool_.count_next + 1 ∧
      ∀ fuel, scenario.S6_members.trace_pool_.count_next + 1 ≤ fuel →
        fsm.top_up_traces_calls scenario.k0 fuel 0 scenario.S6_members = some n ∧
        ∀ ts, fsm.top_up_traces scenario.k0 fuel 0 ts scenario.S6_members =
          fsm.top_up_traces scenario.k0 (scenario.S6_members.trace_pool_.count_next + 1) 0 ts
            scenario.S6_members :=
  ⟨by rfl, (C37_top_up_loops_terminate scenario.k0 scenario.S6_members 0).2.1⟩

/-! ### The target assigned by `assign_next_target` -/

/-- C32 (the code at the failing inputs): in distributed mode with an empty
`options.test.items`, one VM and one SVM worker, the first poll takes the Dispatch machine
from `SpecCheck` to `NextTarget` (the flag `first` is set) with an empty target queue, and
the second poll, which runs the action sequence of `NextTarget`, reads the front of the
empty queue in `set_up_root_dir`.  With one target queued and two VM workers the second
poll reads the front of the empty queue in `assign_next_target`, for the second VM
worker; the action alone does so as well. -/
theorem C32_front_of_empty_queue_is_read :
    scenario.observe (Dispatch.runs scenario.k0 [0]
        (scenario.cluster (scenario.opts true false [])
          (scenario.handle packet_type.cluster_request_vm_node) scenario.svm_handle)) =
      some (fsm.State.NextTarget, [(vm.State.TxConfig, [])], [(svm.State.TxConfig, [])],
        [], [], "", []) ∧
    scenario.fault_of (Dispatch.runs scenario.k0 [0, 0]
        (scenario.cluster (scenario.opts true false [])
          (scenario.handle packet_type.cluster_request_vm_node) scenario.svm_handle)) =
      some Fault.front_of_empty_queue ∧
    (match fsm.set_up_root_dir (scenario.cluster (scenario.opts true false [])
        (scenario.handle packet_type.cluster_request_vm_node)
        scenario.svm_handle).toDispatchFSM_ with
      | Except.ok _ => Option.none
      | Except.error e => some e) = some Fault.front_of_empty_queue ∧
    scenario.observe (Dispatch.runs scenario.k0 [0]
        (scenario.cluster (scenario.opts true false ["t1"])
          (scenario.handle packet_type.cluster_request_vm_node)
          (scenario.handle packet_type.cluster_request_vm_node))) =
      some (fsm.State.NextTarget, [(vm.State.TxConfig, []), (vm.State.TxConfig, [])], [],
        [], [], "", ["t1"]) ∧
    scenario.fault_of (Dispatch.runs scenario.k0 [0, 0]
        (scenario.cluster (scenario.opts true false ["t1"])
          (scenario.handle packet_type.cluster_request_vm_node)
          (scenario.handle packet_type.cluster_request_vm_node))) =
      some Fault.front_of_empty_queue ∧
    (match fsm.assign_next_target (scenario.cluster (scenario.opts true false ["t1"])
        (scenario.handle packet_type.cluster_request_vm_node)
        (scenario.handle packet_type.cluster_request_vm_node)).toDispatchFSM_ with
      | Except.ok _ => Option.none
      | Except.error e => some e) = some Fault.front_of_empty_queue := by
  refine ⟨by rfl, by rfl, by rfl, by rfl, by rfl, by rfl⟩

/-! ### Error buffers -/

theorem drain_errors_result (subdir : String) (fuel : Nat) :
    ∀ (es : List log.NodeError) (d : fsm.DispatchFSM_) (r : List log.NodeError × fsm.DispatchFSM_),
      fsm.drain_errors subdir fuel es d = Except.ok r → es.length ≤ fuel →
      r.1 = [] ∧ r.2.target_ = d.target_ ∧
      r.2.node_error_log_.entries = d.node_error_log_.entries ++
        es.map (fun e => log.Entry.node_error d.target_ e.log) ∧
      r.2.disk.files.map Prod.snd = d.disk.files.map Prod.snd ++
        es.map (fun e => FileContent.text e.log) := by
  induction fuel with
  | zero =>
      intro es d r h hl
      have e0 : es = [] := List.length_eq_zero.1 (Nat.le_zero.1 hl)
      subst e0
      simp only [fsm.drain_errors, Except.ok.injEq] at h
      rw [← h]
      simp
  | succ fuel ih =>
      intro es d r h hl
      unfold fsm.drain_errors at h
      cases es with
      | nil =>
          simp only [List.isEmpty_nil, Bool.not_true, Bool.false_eq_true, if_false,
            Except.ok.injEq] at h
          rw [← h]
          simp
      | cons e es =>
          simp only [List.isEmpty_cons, Bool.not_false, if_true, fsm.pop_error] at h
          rw [write_target_log_result] at h
          split_ifs at h
          · obtain ⟨a1, a2, a3, a4⟩ := ih es _ r h (by simpa using hl)
            refine ⟨a1, a2, ?_, ?_⟩
            · rw [a3]
              simp
            · rw [a4]
              simp

theorem vm_guard_errors (ev : vm.Event) (g : vm.Guard) (c : vm.Ctx) :
    (vm.guard ev g c).2.1.errors_ = c.1.errors_ := by
  cases g with
  | is_image_valid =>
      cases ev with
      | image p =>
          obtain ⟨⟨n, f, tr, er, ii, u, di⟩, sys⟩ := c
          cases ii with
          | none =>
            simp only [vm.guard, vm.is_image_valid]
            split_ifs <;> rfl
          | some i =>
            simp only [vm.guard, vm.is_image_valid]
            split_ifs <;> rfl
      | _ => rfl
  | _ => rfl

theorem vm_exec_errors (ev : vm.Event) (a : vm.Action) (c c1 : vm.Ctx)
    (ha : a ≠ vm.Action.rx_error) (h : vm.exec ev a c = Except.ok c1) :
    c1.1.errors_ = c.1.errors_ := by
  cases a <;> cases ev <;> simp only [vm.exec, Except.ok.injEq] at h <;>
    first
    | exact absurd rfl ha
    | (rw [← h])
    | skip
  · unfold vm.update_image at h
    split_ifs at h
    simp only [Except.ok.injEq] at h
    rw [← h]
  · split_ifs at h <;> simp only [Except.ok.injEq] at h <;> rw [← h]

theorem vm_rx_error_rows :
    ∀ row ∈ vm.transition_table, vm.Action.rx_error ∈ row.action →
      row.target = vm.State.ErrorRxed ∧ row.source = vm.State.TestTxed ∧
      row.event = vm.EventTag.poll := by
  decide

theorem svm_rx_error_rows :
    ∀ row ∈ svm.transition_table, svm.Action.rx_error ∈ row.action →
      row.target = svm.State.ErrorRxed ∧
      (row.source = svm.State.RxTest ∨ row.source = svm.State.TestRxed) := by
  decide

theorem vm_process_event_errors (ev : vm.Event) (m : vm.NodeFSM) (sys : Sys)
    (r : vm.NodeFSM × Sys) (h : vm.process_event ev m sys = Except.ok r)
    (hm : m.errors_ = []) : vm.errors_pending_only_in_ErrorRxed r.1 := by
  rcases vm_process_event_fired ev m sys r h
      (fun c c1 => c1.1.errors_ = c.1.errors_) (fun _ => rfl)
      (fun a b c h1 h2 => h2.trans h1) (vm_guard_errors ev) with ⟨-, h1⟩ |
    ⟨row, c0, c1, a1, -, -, a4, a5, -, a7, a8⟩
  · exact Or.inr (h1.trans hm)
  · by_cases hx : vm.Action.rx_error ∈ row.action
    · exact Or.inl (a4.symm.trans (vm_rx_error_rows row a1 hx).1)
    · right
      have e1 : (row.guard.eval (vm.guard ev) c0).2.1.errors_ = c0.1.errors_ :=
        eval_rel (fun c c1 : vm.Ctx => c1.1.errors_ = c.1.errors_) (fun _ => rfl)
          (fun a b c h1 h2 => h2.trans h1) (vm.guard ev) (vm_guard_errors ev) row.guard c0
      have e2 : c1.1.errors_ = (row.guard.eval (vm.guard ev) c0).2.1.errors_ :=
        run_actions_rel_on (fun c c1 : vm.Ctx => c1.1.errors_ = c.1.errors_) (fun _ => rfl)
          (fun a b c h1 h2 => h2.trans h1) (vm.exec ev) row.action
          (fun a ha c c1 hc => vm_exec_errors ev a c c1 (fun e => hx (e ▸ ha)) hc) _ _ a7
      have e3 : r.1.errors_ = c1.1.errors_ := by rw [a8]
      rw [e3, e2, e1, a5]
      exact hm

theorem vm_flag_error_rxed (nfsm : vm.NodeFSM) :
    nfsm.is_flag_active vm.Flag.error_rxed = true ↔ nfsm.state = vm.State.ErrorRxed := by
  unfold vm.NodeFSM.is_flag_active
  cases nfsm.state <;> decide

theorem dispatch_vm_event_errors (k : Constants) (d d1 : fsm.DispatchFSM_)
    (v n1 : vm.NodeFSM) (ev : vm.Event)
    (h : fsm.dispatch_vm_event k d v = Except.ok (ev, n1, d1))
    (hv : vm.errors_pending_only_in_ErrorRxed v) :
    n1.errors_ = [] ∧
    (v.state ≠ vm.State.ErrorRxed → d1.node_error_log_ = d.node_error_log_) ∧
    (v.state = vm.State.ErrorRxed →
      d1.node_error_log_.entries = d.node_error_log_.entries ++
        v.errors_.map (fun e => log.Entry.node_error d.target_ e.log) ∧
      d1.disk.files.map Prod.snd = d.disk.files.map Prod.snd ++
        v.errors_.map (fun e => FileContent.text e.log)) := by
  have hne : v.state ≠ vm.State.ErrorRxed → v.errors_ = [] := by
    intro hs
    rcases hv with hv | hv
    · exact absurd hv hs
    · exact hv
  unfold fsm.dispatch_vm_event at h
  split_ifs at h with f1 f2 f3 f4 f5
  · have hs : v.state ≠ vm.State.ErrorRxed := by
      rw [(vm_flag_trace_rxed v).1 f1]
      decide
    cases h1 : fsm.to_trace_pool d v.traces_ with
    | error x => rw [h1] at h; cases h
    | ok d2 =>
        rw [h1] at h
        simp only [Except.ok.injEq, Prod.mk.injEq] at h
        obtain ⟨-, rfl, rfl⟩ := h
        obtain ⟨e, -⟩ := to_trace_pool_shape _ _ _ h1
        refine ⟨hne hs, fun _ => ?_, fun hc => absurd hc hs⟩
        rw [e]
  · have hs : v.state ≠ vm.State.ErrorRxed := by
      intro hc
      simp [vm.NodeFSM.is_flag_active, hc, vm.flag_list] at f2
    simp only [Except.ok.injEq, Prod.mk.injEq] at h
    obtain ⟨-, rfl, rfl⟩ := h
    refine ⟨hne hs, fun _ => ?_, fun hc => absurd hc hs⟩
    rw [top_up_tests_result k k.vm_test_multiplier _ [] d (by omega)]
  · have hs : v.state = vm.State.ErrorRxed := (vm_flag_error_rxed v).1 f3
    cases h1 : fsm.drain_errors dispatch_log_vm_dir_name v.errors_.length v.errors_ d with
    | error x => rw [h1] at h; cases h
    | ok r =>
        rw [h1] at h
        simp only [Except.ok.injEq, Prod.mk.injEq] at h
        obtain ⟨-, rfl, rfl⟩ := h
        obtain ⟨a1, -, a3, a4⟩ := drain_errors_result _ _ _ _ _ h1 (le_refl _)
        exact ⟨a1, fun hc => absurd hs hc, fun _ => ⟨a3, a4⟩⟩
  · have hs : v.state ≠ vm.State.ErrorRxed := fun hc => f3 ((vm_flag_error_rxed v).2 hc)
    simp only [Except.ok.injEq, Prod.mk.injEq] at h
    obtain ⟨-, rfl, rfl⟩ := h
    exact ⟨hne hs, fun _ => rfl, fun hc => absurd hc hs⟩
  · have hs : v.state ≠ vm.State.ErrorRxed := fun hc => f3 ((vm_flag_error_rxed v).2 hc)
    simp only [Except.ok.injEq, Prod.mk.injEq] at h
    obtain ⟨-, rfl, rfl⟩ := h
    exact ⟨hne hs, fun _ => rfl, fun hc => absurd hc hs⟩
  · have hs : v.state ≠ vm.State.ErrorRxed := fun hc => f3 ((vm_flag_error_rxed v).2 hc)
    simp only [Except.ok.injEq, Prod.mk.injEq] at h
    obtain ⟨-, rfl, rfl⟩ := h
    exact ⟨hne hs, fun _ => rfl, fun hc => absurd hc hs⟩

theorem dispatch_vm_errors (k : Constants) (d : fsm.DispatchFSM_) (v : vm.NodeFSM)
    (r : vm.NodeFSM × fsm.DispatchFSM_) (h : fsm.dispatch_vm k d v = Except.ok r)
    (hv : vm.errors_pending_only_in_ErrorRxed v) :
    vm.errors_pending_only_in_ErrorRxed r.1 ∧
    (v.state ≠ vm.State.ErrorRxed → r.2.node_error_log_ = d.node_error_log_) ∧
    (v.state = vm.State.ErrorRxed →
      r.1.errors_ = [] ∧ r.1.state = vm.State.RxStatus ∧
      r.2.node_error_log_.entries = d.node_error_log_.entries ++
        v.errors_.map (fun e => log.Entry.node_error d.target_ e.log) ∧
      r.2.disk.files.map Prod.snd = d.disk.files.map Prod.snd ++
        v.errors_.map (fun e => FileContent.text e.log)) := by
  unfold fsm.dispatch_vm at h
  cases h1 : fsm.dispatch_vm_event k d v with
  | error x => rw [h1] at h; cases h
  | ok w =>
      obtain ⟨ev, n1, d1⟩ := w
      rw [h1] at h
      simp only at h
      obtain ⟨b1, b2, b3⟩ := dispatch_vm_event_errors k d d1 v n1 ev h1 hv
      obtain ⟨-, -, b4, -, -⟩ := dispatch_vm_event_step k d d1 v n1 ev h1
      cases h2 : vm.process_event ev n1 d1.sys with
      | error x => rw [h2] at h; cases h
      | ok w =>
          rw [h2] at h
          simp only [Except.ok.injEq] at h
          rw [← h]
          refine ⟨vm_process_event_errors ev n1 d1.sys w h2 b1, b2, ?_⟩
          intro hs
          obtain ⟨c1, c2⟩ := b3 hs
          have hev : ev = vm.Event.poll := by
            unfold fsm.dispatch_vm_event at h1
            have f1 : v.is_flag_active vm.Flag.trace_rxed = false := by
              simp [vm.NodeFSM.is_flag_active, hs, vm.flag_list]
            have f2 : v.is_flag_active vm.Flag.tx_test = false := by
              simp [vm.NodeFSM.is_flag_active, hs, vm.flag_list]
            have f3 : v.is_flag_active vm.Flag.error_rxed = true := by
              simp [vm.NodeFSM.is_flag_active, hs, vm.flag_list]
            rw [f1, f2, f3] at h1
            simp only [Bool.false_eq_true, if_false, if_true] at h1
            split at h1
            · simp only [Except.ok.injEq, Prod.mk.injEq] at h1
              exact h1.1.symm
            · cases h1
          subst hev
          rw [vm_process_event_ErrorRxed n1 d1.sys (b4.trans hs)] at h2
          simp only [Except.ok.injEq] at h2
          rw [← h2]
          exact ⟨b1, rfl, c1, c2⟩

theorem dispatch_vm_loop_errors (k : Constants) (l : List vm.NodeFSM) :
    ∀ (done : List vm.NodeFSM) (d : fsm.DispatchFSM_) (r : List vm.NodeFSM × fsm.DispatchFSM_),
      fsm.dispatch_vm_loop k l done d = Except.ok r →
      (∀ v ∈ done, vm.errors_pending_only_in_ErrorRxed v) →
      (∀ v ∈ l, vm.errors_pending_only_in_ErrorRxed v) →
      ∀ v ∈ r.1, vm.errors_pending_only_in_ErrorRxed v := by
  induction l with
  | nil =>
      intro done d r h hd _
      simp only [fsm.dispatch_vm_loop, Except.ok.injEq] at h
      rw [← h]
      exact hd
  | cons x xs ih =>
      intro done d r h hd hl
      simp only [fsm.dispatch_vm_loop] at h
      cases h1 : fsm.dispatch_vm k d x with
      | error e => rw [h1] at h; cases h
      | ok w =>
          rw [h1] at h
          have hx := (dispatch_vm_errors k d x w h1 (hl x (List.mem_cons_self _ _))).1
          refine ih _ _ r h ?_ (fun v hv => hl v (List.mem_cons_of_mem _ hv))
          intro v hv
          rcases List.mem_append.1 hv with hv | hv
          · exact hd v hv
          · rw [List.mem_singleton.1 hv]
            exact hx

theorem svm_process_event_fired (ev : svm.Event) (m : svm.NodeFSM) (sys : Sys)
    (r : svm.NodeFSM × Sys) (h : svm.process_event ev m sys = Except.ok r) :
    r = (m, sys) ∨
    ∃ row c1, row ∈ svm.transition_table ∧ row.source = m.state ∧ row.target = r.1.state ∧
      run_actions (svm.exec ev) row.action (m.toSVMNodeFSM_, sys) = Except.ok c1 ∧
      c1 = (r.1.toSVMNodeFSM_, r.2) := by
  have pure : ∀ c : svm.Ctx,
      (select_row (svm.guard ev) (candidate_rows svm.transition_table m.state ev.tag) c).2 = c :=
    fun c => select_row_rel (fun a b : svm.Ctx => b = a) (fun _ => rfl)
      (fun a b c h1 h2 => h2.trans h1) (svm.guard ev) (fun g c => by cases g <;> rfl) _ c
  unfold svm.process_event at h
  split_ifs at h
  simp only [svm.fired_row] at h
  split at h
  · simp only [Except.ok.injEq] at h
    rw [← h, pure]
    exact Or.inl rfl
  · rename_i row hrow
    rw [pure] at h
    split at h
    · rename_i c hc
      simp only [Except.ok.injEq] at h
      rw [← h]
      obtain ⟨a, b, -⟩ := candidate_rows_mem _ _ _ _ (select_row_mem _ _ _ _ hrow)
      exact Or.inr ⟨row, c, a, b, rfl, hc, rfl⟩
    · cases h

theorem svm_exec_errors (ev : svm.Event) (a : svm.Action) (c c1 : svm.Ctx)
    (ha : a ≠ svm.Action.rx_error) (h : svm.exec ev a c = Except.ok c1) :
    c1.1.errors_ = c.1.errors_ := by
  cases a <;> cases ev <;> simp only [svm.exec, Except.ok.injEq] at h <;>
    first
    | exact absurd rfl ha
    | (rw [← h])
    | (split_ifs at h <;> simp only [Except.ok.injEq] at h <;> rw [← h])

theorem svm_process_event_errors (ev : svm.Event) (m : svm.NodeFSM) (sys : Sys)
    (r : svm.NodeFSM × Sys) (h : svm.process_event ev m sys = Except.ok r)
    (hm : m.errors_ = []) : svm.errors_pending_only_in_ErrorRxed r.1 := by
  rcases svm_process_event_fired ev m sys r h with e | ⟨row, c1, a1, -, a3, a4, a5⟩
  · rw [e]
    exact Or.inr hm
  · by_cases hx : svm.Action.rx_error ∈ row.action
    · exact Or.inl (a3.symm.trans (svm_rx_error_rows row a1 hx).1)
    · right
      have e2 : c1.1.errors_ = m.errors_ :=
        run_actions_rel_on (fun c c1 : svm.Ctx => c1.1.errors_ = c.1.errors_) (fun _ => rfl)
          (fun a b c h1 h2 => h2.trans h1) (svm.exec ev) row.action
          (fun a ha c c1 hc => svm_exec_errors ev a c c1 (fun e => hx (e ▸ ha)) hc) _ _ a4
      have e3 : r.1.errors_ = c1.1.errors_ := by rw [a5]
      rw [e3, e2]
      exact hm

theorem svm_flag_error_rxed (nfsm : svm.NodeFSM) :
    nfsm.is_flag_active (svm.Flag.vm vm.Flag.error_rxed) = true ↔
      nfsm.state = svm.State.ErrorRxed := by
  unfold svm.NodeFSM.is_flag_active
  cases nfsm.state <;> decide

theorem svm_process_event_ErrorRxed (m : svm.NodeFSM) (sys : Sys)
    (hst : m.state = svm.State.ErrorRxed) :
    svm.process_event svm.Event.poll m sys =
      Except.ok ({ m with state := svm.State.RxStatus }, sys) := by
  obtain ⟨⟨n, ts, er⟩, st⟩ := m
  simp only at hst
  subst hst
  have hrows : candidate_rows svm.transition_table svm.State.ErrorRxed svm.EventTag.poll =
      [⟨svm.State.ErrorRxed, svm.EventTag.poll, svm.State.RxStatus, [], GuardExpr.none⟩] := by
    decide
  simp [svm.process_event, svm.fired_row, svm.Event.tag, hrows, select_row, GuardExpr.eval,
    run_actions]

theorem dispatch_svm_event_errors (k : Constants) (d d1 : fsm.DispatchFSM_)
    (v n1 : svm.NodeFSM) (ev : svm.Event)
    (h : fsm.dispatch_svm_event k d v = Except.ok (ev, n1, d1))
    (hv : svm.errors_pending_only_in_ErrorRxed v) :
    n1.errors_ = [] ∧
    (v.state ≠ svm.State.ErrorRxed → d1.node_error_log_ = d.node_error_log_) ∧
    (v.state = svm.State.ErrorRxed →
      ev = svm.Event.poll ∧
      d1.node_error_log_.entries = d.node_error_log_.entries ++
        v.errors_.map (fun e => log.Entry.node_error d.target_ e.log) ∧
      d1.disk.files.map Prod.snd = d.disk.files.map Prod.snd ++
        v.errors_.map (fun e => FileContent.text e.log)) := by
  have hne : v.state ≠ svm.State.ErrorRxed → v.errors_ = [] := by
    intro hs
    rcases hv with hv | hv
    · exact absurd hv hs
    · exact hv
  unfold fsm.dispatch_svm_event at h
  split_ifs at h with f1 f2 f3 f4
  · have hs : v.state ≠ svm.State.ErrorRxed := by
      rw [(svm_flag_test_rxed v).1 f1]
      decide
    simp only [Except.ok.injEq, Prod.mk.injEq] at h
    obtain ⟨-, rfl, rfl⟩ := h
    exact ⟨hne hs, fun _ => rfl, fun hc => absurd hc hs⟩
  · have hs : v.state ≠ svm.State.ErrorRxed := by
      intro hc
      simp [svm.NodeFSM.is_flag_active, hc, svm.flag_list] at f2
    simp only [Except.ok.injEq, Prod.mk.injEq] at h
    obtain ⟨-, rfl, rfl⟩ := h
    obtain ⟨consumed, rest, -, e2, -, -⟩ :=
      top_up_traces_result k d.trace_pool_.next_ (d.trace_pool_.count_next + 1)
        (v.node_status d.sys).trace_count [] d rfl (by simp [TracePool.count_next])
    refine ⟨hne hs, fun _ => ?_, fun hc => absurd hc hs⟩
    rw [e2]
  · have hs : v.state = svm.State.ErrorRxed := (svm_flag_error_rxed v).1 f3
    cases h1 : fsm.drain_errors dispatch_log_svm_dir_name v.errors_.length v.errors_ d with
    | error x => rw [h1] at h; cases h
    | ok r =>
        rw [h1] at h
        simp only [Except.ok.injEq, Prod.mk.injEq] at h
        obtain ⟨rfl, rfl, rfl⟩ := h
        obtain ⟨a1, -, a3, a4⟩ := drain_errors_result _ _ _ _ _ h1 (le_refl _)
        exact ⟨a1, fun hc => absurd hs hc, fun _ => ⟨rfl, a3, a4⟩⟩
  · have hs : v.state ≠ svm.State.ErrorRxed := fun hc => f3 ((svm_flag_error_rxed v).2 hc)
    simp only [Except.ok.injEq, Prod.mk.injEq] at h
    obtain ⟨-, rfl, rfl⟩ := h
    exact ⟨hne hs, fun _ => rfl, fun hc => absurd hc hs⟩
  · have hs : v.state ≠ svm.State.ErrorRxed := fun hc => f3 ((svm_flag_error_rxed v).2 hc)
    simp only [Except.ok.injEq, Prod.mk.injEq] at h
    obtain ⟨-, rfl, rfl⟩ := h
    exact ⟨hne hs, fun _ => rfl, fun hc => absurd hc hs⟩

theorem dispatch_svm_errors (k : Constants) (d : fsm.DispatchFSM_) (v : svm.NodeFSM)
    (r : svm.NodeFSM × fsm.DispatchFSM_) (h : fsm.dispatch_svm k d v = Except.ok r)
    (hv : svm.errors_pending_only_in_ErrorRxed v) :
    svm.errors_pending_only_in_ErrorRxed r.1 ∧
    (v.state ≠ svm.State.ErrorRxed → r.2.node_error_log_ = d.node_error_log_) ∧
    (v.state = svm.State.ErrorRxed →
      r.1.errors_ = [] ∧ r.1.state = svm.State.RxStatus ∧
      r.2.node_error_log_.entries = d.node_error_log_.entries ++
        v.errors_.map (fun e => log.Entry.node_error d.target_ e.log) ∧
      r.2.disk.files.map Prod.snd = d.disk.files.map Prod.snd ++
        v.errors_.map (fun e => FileContent.text e.log)) := by
  unfold fsm.dispatch_svm at h
  cases h1 : fsm.dispatch_svm_event k d v with
  | error x => rw [h1] at h; cases h
  | ok w =>
      obtain ⟨ev, n1, d1⟩ := w
      rw [h1] at h
      simp only at h
      obtain ⟨b1, b2, b3⟩ := dispatch_svm_event_errors k d d1 v n1 ev h1 hv
      obtain ⟨-, -, b4, -, -⟩ := dispatch_svm_event_step k d d1 v n1 ev h1
      cases h2 : svm.process_event ev n1 d1.sys with
      | error x => rw [h2] at h; cases h
      | ok w =>
          rw [h2] at h
          simp only [Except.ok.injEq] at h
          rw [← h]
          refine ⟨svm_process_event_errors ev n1 d1.sys w h2 b1, b2, ?_⟩
          intro hs
          obtain ⟨hev, c1, c2⟩ := b3 hs
          subst hev
          rw [svm_process_event_ErrorRxed n1 d1.sys (b4.trans hs)] at h2
          simp only [Except.ok.injEq] at h2
          rw [← h2]
          exact ⟨b1, rfl, c1, c2⟩

theorem dispatch_svm_loop_errors (k : Constants) (l : List svm.NodeFSM) :
    ∀ (done : List svm.NodeFSM) (d : fsm.DispatchFSM_)
      (r : List svm.NodeFSM × fsm.DispatchFSM_),
      fsm.dispatch_svm_loop k l done d = Except.ok r →
      (∀ v ∈ done, svm.errors_pending_only_in_ErrorRxed v) →
      (∀ v ∈ l, svm.errors_pending_only_in_ErrorRxed v) →
      ∀ v ∈ r.1, svm.errors_pending_only_in_ErrorRxed v := by
  induction l with
  | nil =>
      intro done d r h hd _
      simp only [fsm.dispatch_svm_loop, Except.ok.injEq] at h
      rw [← h]
      exact hd
  | cons x xs ih =>
      intro done d r h hd hl
      simp only [fsm.dispatch_svm_loop] at h
      cases h1 : fsm.dispatch_svm k d x with
      | error e => rw [h1] at h; cases h
      | ok w =>
          rw [h1] at h
          have hx := (dispatch_svm_errors k d x w h1 (hl x (List.mem_cons_self _ _))).1
          refine ih _ _ r h ?_ (fun v hv => hl v (List.mem_cons_of_mem _ hv))
          intro v hv
          rcases List.mem_append.1 hv with hv | hv
          · exact hd v hv
          · rw [List.mem_singleton.1 hv]
            exact hx

theorem dispatch_errors (k : Constants) (now : Int) (d d1 : fsm.DispatchFSM_)
    (h : fsm.dispatch k now d = Except.ok d1)
    (hd : fsm.errors_pending_only_in_ErrorRxed d) :
    fsm.errors_pending_only_in_ErrorRxed d1 := by
  unfold fsm.dispatch at h
  cases h1 : fsm.dispatch_vm_loop k d.vm_node_fsms_ [] d with
  | error e => rw [h1] at h; cases h
  | ok v =>
      obtain ⟨vms, da⟩ := v
      rw [h1] at h
      simp only at h
      have hvm := dispatch_vm_loop_errors k _ _ _ _ h1 (fun v hv => by cases hv) hd.1
      obtain ⟨pa, -⟩ := dispatch_vm_loop_step k _ _ _ _ h1
      have hsv : da.svm_node_fsms_ = d.svm_node_fsms_ := by
        have e := pa.1
        simp only at e
        rw [e]
      cases h2 : fsm.dispatch_svm_loop k da.svm_node_fsms_ [] { da with vm_node_fsms_ := vms } with
      | error e => rw [h2] at h; cases h
      | ok w =>
          obtain ⟨svms, db⟩ := w
          rw [h2] at h
          simp only [Except.ok.injEq] at h
          have hsvm := dispatch_svm_loop_errors k _ _ _ _ h2 (fun v hv => by cases hv)
            (by rw [hsv]; exact hd.2)
          obtain ⟨pb, -⟩ := dispatch_svm_loop_step k _ _ _ _ h2
          have hvb : db.vm_node_fsms_ = vms := by
            have e := pb.1
            simp only at e
            rw [e]
          rw [← h]
          have w1 := write_statistics_keeps
            { { db with svm_node_fsms_ := svms, first_ := false } with
              console := db.console ++
                [fsm.status_table { db with svm_node_fsms_ := svms, first_ := false } now] } now
          constructor
          · intro v hv
            rw [w1.1] at hv
            exact hvm v (hvb ▸ hv)
          · intro v hv
            rw [w1.2.1] at hv
            exact hsvm v hv

theorem run_keeps_errors_pending (k : Constants) (now : Int) (m m1 : fsm.DispatchFSM)
    (h : Dispatch.run k now m = Except.ok m1)
    (hm : fsm.errors_pending_only_in_ErrorRxed m.toDispatchFSM_) :
    fsm.errors_pending_only_in_ErrorRxed m1.toDispatchFSM_ := by
  rcases run_machines k now m m1 h with ⟨e1, e2, -, -⟩ | ⟨hst, -, -⟩ | ⟨-, n1, n2⟩
  · unfold fsm.errors_pending_only_in_ErrorRxed
    rw [e1, e2]
    exact hm
  · unfold Dispatch.run at h
    split_ifs at h
    · cases h
      exact hm
    · rw [fsm_poll_in_Dispatch k now m hst] at h
      split at h
      · rename_i d hd
        cases h
        exact dispatch_errors k now _ d hd hm
      · cases h
  · constructor
    · intro v hv
      obtain ⟨node, e⟩ := n1 v hv
      rw [e]
      exact Or.inr rfl
    · intro v hv
      obtain ⟨node, e⟩ := n2 v hv
      rw [e]
      exact Or.inr rfl

theorem runs_keep_errors_pending (k : Constants) (nows : List Int) :
    ∀ (m mx : fsm.DispatchFSM), Dispatch.runs k nows m = Except.ok mx →
      fsm.errors_pending_only_in_ErrorRxed m.toDispatchFSM_ →
      fsm.errors_pending_only_in_ErrorRxed mx.toDispatchFSM_ := by
  induction nows with
  | nil =>
      intro m mx h hm
      cases h
      exact hm
  | cons now rest ih =>
      intro m mx h hm
      simp only [Dispatch.runs] at h
      cases h1 : Dispatch.run k now m with
      | error e => rw [h1] at h; cases h
      | ok m1 =>
          rw [h1] at h
          exact ih m1 mx h (run_keeps_errors_pending k now m m1 h1 hm)

theorem register_keeps_errors_pending (handle : NodeData) (m m1 : fsm.DispatchFSM)
    (h : Dispatch.register handle m = Except.ok m1)
    (hm : fsm.errors_pending_only_in_ErrorRxed m.toDispatchFSM_) :
    fsm.errors_pending_only_in_ErrorRxed m1.toDispatchFSM_ := by
  unfold Dispatch.register at h
  simp only at h
  split at h
  · rename_i l hl
    cases h
    obtain ⟨-, -, e1, e2⟩ := register_node_fsm_result _ _ _ _ _ l hl
    constructor
    · intro v hv
      simp only [e1, List.mem_append] at hv
      rcases hv with hv | hv
      · exact hm.1 v hv
      · split_ifs at hv
        · simp only [List.mem_singleton] at hv
          rw [hv]
          exact Or.inr rfl
        · cases hv
    · intro v hv
      simp only [e2, List.mem_append] at hv
      rcases hv with hv | hv
      · exact hm.2 v hv
      · split_ifs at hv
        · simp only [List.mem_singleton] at hv
          rw [hv]
          exact Or.inr rfl
        · cases hv
  · cases h

/-! ### C36 -/

/-- C36 (as claimed, refuted): with a failing VM worker the VM machine has received the
error `e1` after fifteen polls and is in `ErrorRxed`, the error not yet logged.  The next
poll comes 2000 s later: the target has expired, the Dispatch machine goes to
`NextTarget`, and the poll after that runs `reset`, which replaces the machine: the error
`e1` is in no buffer and in no log (the only file is the finish log of `t1`).  With two
polls at 0 s instead, the error is logged once. -/
theorem C36_errors_dropped_by_reset :
    scenario.observe_errors (scenario.failing_polled (List.replicate 15 0)) =
      some (fsm.State.SpecCheck, [(vm.State.ErrorRxed, [⟨"e1"⟩])], [], []) ∧
    scenario.observe_errors (scenario.failing_polled (List.replicate 15 0 ++ [2000000000000])) =
      some (fsm.State.NextTarget, [(vm.State.ErrorRxed, [⟨"e1"⟩])], [], []) ∧
    scenario.observe_errors
        (scenario.failing_polled (List.replicate 15 0 ++ [2000000000000, 2000000000000])) =
      some (fsm.State.Dispatch, [(vm.State.TxConfig, [])], [],
        [["dispatch-root", "ts", "t1", "log", "finish"]]) ∧
    scenario.observe_errors (scenario.failing_polled (List.replicate 17 0)) =
      some (fsm.State.SpecCheck, [(vm.State.RxStatus, [])],
        [log.Entry.node_error "t1" "e1"], [["dispatch-root", "ts", "t1", "log", "vm", "1"]]) := by
  refine ⟨by rfl, by rfl, by rfl, by rfl⟩

/-- C36 (amended): at the start of every dispatch pass the error buffer of each worker
machine is empty unless the machine is in `ErrorRxed`: this holds after construction and
is kept by every registration and every call of `Dispatch::run`.  The action `rx_error`
stands only on rows into `ErrorRxed` that leave another state, and the buffer of a machine
is empty when the dispatch action delivers its event, so `rx_error` never replaces an
error that was not logged.  A machine found in `ErrorRxed` by the dispatch action has
every buffered error logged once in that pass (one entry in the node-error log, tagged
with the current target, and one log file per error, in order) and leaves with an empty
buffer for `RxStatus`; a machine found in another state has nothing logged.  So an error
received is logged at most once, and exactly once if the dispatch action visits the
machine again before the next `reset`. -/
theorem C36_errors_logged_at_most_once (k : Constants) :
    (∀ (defaults : option.Dispatch) (s : String) (now : Int) (disk : FileSystem),
      fsm.errors_pending_only_in_ErrorRxed
        (fsm.DispatchFSM.construct defaults s now disk).toDispatchFSM_) ∧
    (∀ (handle : NodeData) (m m1 : fsm.DispatchFSM),
      fsm.errors_pending_only_in_ErrorRxed m.toDispatchFSM_ →
      Dispatch.register handle m = Except.ok m1 →
      fsm.errors_pending_only_in_ErrorRxed m1.toDispatchFSM_) ∧
    (∀ (nows : List Int) (m mx : fsm.DispatchFSM),
      fsm.errors_pending_only_in_ErrorRxed m.toDispatchFSM_ →
      Dispatch.runs k nows m = Except.ok mx →
      fsm.errors_pending_only_in_ErrorRxed mx.toDispatchFSM_) ∧
    (∀ row ∈ vm.transition_table, vm.Action.rx_error ∈ row.action →
      row.target = vm.State.ErrorRxed ∧ row.source = vm.State.TestTxed ∧
      row.event = vm.EventTag.poll) ∧
    (∀ row ∈ svm.transition_table, svm.Action.rx_error ∈ row.action →
      row.target = svm.State.ErrorRxed ∧
      (row.source = svm.State.RxTest ∨ row.source = svm.State.TestRxed)) ∧
    (∀ (d d1 : fsm.DispatchFSM_) (v n1 : vm.NodeFSM) (ev : vm.Event),
      vm.errors_pending_only_in_ErrorRxed v →
      fsm.dispatch_vm_event k d v = Except.ok (ev, n1, d1) → n1.errors_ = []) ∧
    (∀ (d : fsm.DispatchFSM_) (v : vm.NodeFSM) (r : vm.NodeFSM × fsm.DispatchFSM_),
      vm.errors_pending_only_in_ErrorRxed v → fsm.dispatch_vm k d v = Except.ok r →
      vm.errors_pending_only_in_ErrorRxed r.1 ∧
      (v.state ≠ vm.State.ErrorRxed → r.2.node_error_log_ = d.node_error_log_) ∧
      (v.state = vm.State.ErrorRxed →
        r.1.errors_ = [] ∧ r.1.state = vm.State.RxStatus ∧
        r.2.node_error_log_.entries = d.node_error_log_.entries ++
          v.errors_.map (fun e => log.Entry.node_error d.target_ e.log) ∧
        r.2.disk.files.map Prod.snd = d.disk.files.map Prod.snd ++
          v.errors_.map (fun e => FileContent.text e.log))) ∧
    (∀ (d d1 : fsm.DispatchFSM_) (v n1 : svm.NodeFSM) (ev : svm.Event),
      svm.errors_pending_only_in_ErrorRxed v →
      fsm.dispatch_svm_event k d v = Except.ok (ev, n1, d1) → n1.errors_ = []) ∧
    (∀ (d : fsm.DispatchFSM_) (v : svm.NodeFSM) (r : svm.NodeFSM × fsm.DispatchFSM_),
      svm.errors_pending_only_in_ErrorRxed v → fsm.dispatch_svm k d v = Except.ok r →
      svm.errors_pending_only_in_ErrorRxed r.1 ∧
      (v.state ≠ svm.State.ErrorRxed → r.2.node_error_log_ = d.node_error_log_) ∧
      (v.state = svm.State.ErrorRxed →
        r.1.errors_ = [] ∧ r.1.state = svm.State.RxStatus ∧
        r.2.node_error_log_.entries = d.node_error_log_.entries ++
          v.errors_.map (fun e => log.Entry.node_error d.target_ e.log) ∧
        r.2.disk.files.map Prod.snd = d.disk.files.map Prod.snd ++
          v.errors_.map (fun e => FileContent.text e.log))) := by
  refine ⟨?_, ?_, ?_, vm_rx_error_rows, svm_rx_error_rows, ?_, ?_, ?_, ?_⟩
  · intro defaults s now disk
    constructor <;> intro v hv <;> cases hv
  · intro handle m m1 hm h
    exact register_keeps_errors_pending handle m m1 h hm
  · intro nows m mx hm h
    exact runs_keep_errors_pending k nows m mx h hm
  · intro d d1 v n1 ev hv h
    exact (dispatch_vm_event_errors k d d1 v n1 ev h hv).1
  · intro d v r hv h
    exact dispatch_vm_errors k d v r h hv
  · intro d d1 v n1 ev hv h
    exact (dispatch_svm_event_errors k d d1 v n1 ev h hv).1
  · intro d v r hv h
    exact dispatch_svm_errors k d v r h hv

/-- C36, witness: a VM machine in `ErrorRxed` that holds three errors (scenario S4) is
visited by the dispatch action: the three errors are appended to the node-error log,
tagged `t1`, and the machine leaves for `RxStatus` with an empty buffer. -/
theorem C36_errors_logged_at_most_once_witness :
    ∃ r, fsm.dispatch_vm scenario.k0 scenario.S4_members scenario.S4_machine = Except.ok r ∧
      r.1.errors_ = [] ∧ r.1.state = vm.State.RxStatus ∧
      r.2.node_error_log_.entries = scenario.S4_members.node_error_log_.entries ++
        scenario.S4_machine.errors_.map
          (fun e => log.Entry.node_error scenario.S4_members.target_ e.log) ∧
      r.2.node_error_log_.entries =
        [log.Entry.node_error "t1" "e1", log.Entry.node_error "t1" "e2",
         log.Entry.node_error "t1" "e3"] :=
  ⟨_, rfl,
    (((C36_errors_logged_at_most_once scenario.k0).2.2.2.2.2.2.1 scenario.S4_members
      scenario.S4_machine _ (Or.inl rfl) rfl).2.2 rfl).1,
    (((C36_errors_logged_at_most_once scenario.k0).2.2.2.2.2.2.1 scenario.S4_members
      scenario.S4_machine _ (Or.inl rfl) rfl).2.2 rfl).2.1,
    (((C36_errors_logged_at_most_once scenario.k0).2.2.2.2.2.2.1 scenario.S4_members
      scenario.S4_machine _ (Or.inl rfl) rfl).2.2 rfl).2.2.1,
    rfl⟩

theorem eval_guard_clocked_const (now : Int) (e : GuardExpr fsm.Guard) :
    ∀ (d : fsm.DispatchFSM_) (n : Nat),
      (e.eval (fsm.guard now) d).2 = d ∧
      ∃ n1, e.eval (fsm.guard_clocked (fun _ => now)) (d, n) =
        ((e.eval (fsm.guard now) d).1, (d, n1)) := by
  induction e with
  | none => intro d n; exact ⟨rfl, n, rfl⟩
  | atom g =>
      intro d n
      cases g
      · exact ⟨rfl, n, rfl⟩
      · exact ⟨rfl, n, rfl⟩
      · exact ⟨rfl, n, rfl⟩
      · exact ⟨rfl, n + 1, rfl⟩
  | Not_ a iha =>
      intro d n
      obtain ⟨h1, n1, h2⟩ := iha d n
      refine ⟨by simp [GuardExpr.eval, h1], n1, ?_⟩
      simp [GuardExpr.eval, h2]
  | And_ a b iha ihb =>
      intro d n
      obtain ⟨h1, n1, h2⟩ := iha d n
      obtain ⟨h3, n2, h4⟩ := ihb d n1
      cases hv : (a.eval (fsm.guard now) d).1
      · refine ⟨by simp [GuardExpr.eval, hv, h1], n1, ?_⟩
        simp [GuardExpr.eval, h2, hv]
      · refine ⟨by simp [GuardExpr.eval, hv, h1, h3], n2, ?_⟩
        simp [GuardExpr.eval, h2, hv, h1, h4]
  | Or_ a b iha ihb =>
      intro d n
      obtain ⟨h1, n1, h2⟩ := iha d n
      obtain ⟨h3, n2, h4⟩ := ihb d n1
      cases hv : (a.eval (fsm.guard now) d).1
      · refine ⟨by simp [GuardExpr.eval, hv, h1, h3], n2, ?_⟩
        simp [GuardExpr.eval, h2, hv, h1, h4]
      · refine ⟨by simp [GuardExpr.eval, hv, h1], n1, ?_⟩
        simp [GuardExpr.eval, h2, hv]

theorem select_row_guard_clocked_const (now : Int) (rows : List fsm.TRow) :
    ∀ (d : fsm.DispatchFSM_) (n : Nat),
      (select_row (fsm.guard now) rows d).2 = d ∧
      ∃ n1, select_row (fsm.guard_clocked (fun _ => now)) rows (d, n) =
        ((select_row (fsm.guard now) rows d).1, (d, n1)) := by
  induction rows with
  | nil => intro d n; exact ⟨rfl, n, rfl⟩
  | cons r rs ih =>
      intro d n
      obtain ⟨h1, n1, h2⟩ := eval_guard_clocked_const now r.guard d n
      obtain ⟨h3, n2, h4⟩ := ih d n1
      cases hv : (r.guard.eval (fsm.guard now) d).1
      · refine ⟨by simp [select_row, hv, h1, h3], n2, ?_⟩
        simp [select_row, h2, hv, h1, h4]
      · refine ⟨by simp [select_row, hv, h1], n1, ?_⟩
        simp [select_row, h2, hv]

/-- When every clock reading taken while an event is processed returns the same value,
the event is processed as by `fsm.process_event` at that value. -/
theorem process_event_clocked_const (k : Constants) (now : Int) (ev : fsm.Event)
    (m : fsm.DispatchFSM) :
    fsm.process_event_clocked k (fun _ => now) ev m = fsm.process_event k now ev m := by
  obtain ⟨h1, n1, h2⟩ := select_row_guard_clocked_const now
    (candidate_rows fsm.transition_table m.state ev.tag) m.toDispatchFSM_ 0
  unfold fsm.process_event_clocked fsm.process_event
  simp only [fsm.fired_row_clocked, fsm.fired_row, h2, h1]
  try rfl

/-- A poll in `SpecCheck` with one clock reading per evaluation of `is_target_expired`:
the row to `Terminate` takes reading 0; the row to `Dispatch` takes reading 1 unless
`is_dev_mode` or `is_first` settles it; the row to `NextTarget` takes reading 2; when all
three reject, the machine stays as it is. -/
theorem fsm_poll_clocked_in_SpecCheck (k : Constants) (clock : Nat → Int)
    (m : fsm.DispatchFSM) (h : m.state = fsm.State.SpecCheck) :
    fsm.process_event_clocked k clock fsm.Event.poll m =
      if fsm.is_target_expired m.toDispatchFSM_ (clock 0) &&
          !fsm.have_next_target m.toDispatchFSM_ then
        Except.ok { toDispatchFSM_ := fsm.next_target_clean m.toDispatchFSM_,
                    state := fsm.State.Terminate }
      else if fsm.is_dev_mode m.toDispatchFSM_ ||
          (!fsm.is_first m.toDispatchFSM_ &&
            !fsm.is_target_expired m.toDispatchFSM_ (clock 1)) then
        Except.ok { m with state := fsm.State.Dispatch }
      else if fsm.is_first m.toDispatchFSM_ ||
          (fsm.is_target_expired m.toDispatchFSM_ (clock 2) &&
            fsm.have_next_target m.toDispatchFSM_) then
        Except.ok { m with state := fsm.State.NextTarget }
      else Except.ok m := by
  unfold fsm.process_event_clocked
  simp only [h, fsm.Event.tag, fsm.fired_row_clocked, fsm_candidate_rows_SpecCheck]
  cases he0 : fsm.is_target_expired m.toDispatchFSM_ (clock 0) <;>
  cases he1 : fsm.is_target_expired m.toDispatchFSM_ (clock 1) <;>
  cases he2 : fsm.is_target_expired m.toDispatchFSM_ (clock 2) <;>
  cases hn : fsm.have_next_target m.toDispatchFSM_ <;>
  cases hd : fsm.is_dev_mode m.toDispatchFSM_ <;>
  cases hf : fsm.is_first m.toDispatchFSM_ <;>
  (simp [select_row, GuardExpr.eval, fsm.guard_clocked, he0, he1, he2, hn, hd, hf, run_actions,
    fsm.exec]; try (rw [← h]))

/-! ### C31 -/

/-- C31, counterexample: a poll in `SpecCheck` that leaves the machine in `SpecCheck`.
The dispatcher runs in distributed mode after its first target, with an empty target
queue and an active worker, and the 1000th second since the start of the target passes
between the first and the second evaluation of `is_target_expired`: the row to
`Terminate` finds the target not expired, the rows to `Dispatch` and to `NextTarget` find
it expired, no row fires and `Dispatch::run` returns with the machine in `SpecCheck`.
With either reading alone the same poll leaves `SpecCheck`. -/
theorem C31_poll_stays_in_SpecCheck :
    scenario.late_target.state = fsm.State.SpecCheck ∧
    (fsm.fired_row_clocked scenario.straddling_clock fsm.Event.poll
      scenario.late_target).1 = Option.none ∧
    (fsm.fired_row_clocked scenario.straddling_clock fsm.Event.poll
      scenario.late_target).2.2 = 3 ∧
    fsm.state_after (fsm.process_event_clocked scenario.k0 scenario.straddling_clock
      fsm.Event.poll scenario.late_target) = some fsm.State.SpecCheck ∧
    fsm.state_after (Dispatch.run_clocked scenario.k0 scenario.straddling_clock
      scenario.late_target) = some fsm.State.SpecCheck ∧
    fsm.state_after (fsm.process_event_clocked scenario.k0 (fun _ => 999999999999)
      fsm.Event.poll scenario.late_target) = some fsm.State.Dispatch ∧
    fsm.state_after (fsm.process_event_clocked scenario.k0 (fun _ => 1000000000000)
      fsm.Event.poll scenario.late_target) = some fsm.State.Terminate := by
  refine ⟨rfl, ?_, ?_, ?_, ?_, ?_, ?_⟩ <;> decide

/-- C31, amended: under every valuation of (dev_mode, first, target_expired,
have_next_target) at least one of the three guards out of `SpecCheck` is true, and a poll
in `SpecCheck` is processed without a fault.  `is_target_expired` reads the clock at each
of its up to three evaluations during the poll (`clock 0`, `clock 1`, `clock 2`).  The
machine leaves `SpecCheck`, for `NextTarget`, `Dispatch` or `Terminate`, when these
evaluations agree, and also when `is_dev_mode` or `is_first` holds; it stays in
`SpecCheck`, unchanged, exactly when neither holds, the first evaluation does not let the
row to `Terminate` fire, the second finds the target expired and the third does not let
the row to `NextTarget` fire.  With a single reading for the whole poll the event is
processed as by `fsm.process_event`, and `Dispatch::run` leaves `SpecCheck` when a worker
is registered. -/
theorem C31_poll_leaves_SpecCheck_on_agreeing_readings (k : Constants) (clock : Nat → Int)
    (m : fsm.DispatchFSM) (h : m.state = fsm.State.SpecCheck) :
    (∀ dev first expired next : Bool, fsm.spec_check_enabled dev first expired next ≠ []) ∧
    (∃ m1, fsm.process_event_clocked k clock fsm.Event.poll m = Except.ok m1 ∧
      (m1.state = fsm.State.SpecCheck ∨ m1.state = fsm.State.NextTarget ∨
        m1.state = fsm.State.Dispatch ∨ m1.state = fsm.State.Terminate) ∧
      (m1.state = fsm.State.SpecCheck → m1 = m) ∧
      (m1.state = fsm.State.SpecCheck ↔
        fsm.is_dev_mode m.toDispatchFSM_ = false ∧ fsm.is_first m.toDispatchFSM_ = false ∧
        (fsm.is_target_expired m.toDispatchFSM_ (clock 0) &&
          !fsm.have_next_target m.toDispatchFSM_) = false ∧
        fsm.is_target_expired m.toDispatchFSM_ (clock 1) = true ∧
        (fsm.is_target_expired m.toDispatchFSM_ (clock 2) &&
          fsm.have_next_target m.toDispatchFSM_) = false) ∧
      ((fsm.is_target_expired m.toDispatchFSM_ (clock 1) =
            fsm.is_target_expired m.toDispatchFSM_ (clock 0) ∧
          fsm.is_target_expired m.toDispatchFSM_ (clock 2) =
            fsm.is_target_expired m.toDispatchFSM_ (clock 0)) →
        m1.state ≠ fsm.State.SpecCheck) ∧
      (fsm.is_dev_mode m.toDispatchFSM_ = true ∨ fsm.is_first m.toDispatchFSM_ = true →
        m1.state ≠ fsm.State.SpecCheck)) ∧
    (∀ now : Int, (∀ i, clock i = now) →
      fsm.process_event_clocked k clock fsm.Event.poll m =
        fsm.process_event k now fsm.Event.poll m ∧
      ∃ m1, fsm.process_event k now fsm.Event.poll m = Except.ok m1 ∧
        m1.state ≠ fsm.State.SpecCheck ∧
        (Dispatch.has_nodes m = true →
          Dispatch.run_clocked k clock m = Except.ok m1 ∧
          Dispatch.run k now m = Except.ok m1)) := by
  refine ⟨by decide, ?_, ?_⟩
  · rw [fsm_poll_clocked_in_SpecCheck k clock m h]
    cases he0 : fsm.is_target_expired m.toDispatchFSM_ (clock 0) <;>
    cases he1 : fsm.is_target_expired m.toDispatchFSM_ (clock 1) <;>
    cases he2 : fsm.is_target_expired m.toDispatchFSM_ (clock 2) <;>
    cases hn : fsm.have_next_target m.toDispatchFSM_ <;>
    cases hd : fsm.is_dev_mode m.toDispatchFSM_ <;>
    cases hf : fsm.is_first m.toDispatchFSM_ <;>
    simp [h]
  · intro now hc
    have e : clock = fun _ => now := funext hc
    subst e
    have hp : ∃ m1, fsm.process_event k now fsm.Event.poll m = Except.ok m1 ∧
        m1.state ≠ fsm.State.SpecCheck := by
      rw [fsm_poll_in_SpecCheck k now m h]
      split_ifs
      · exact ⟨_, rfl, by simp⟩
      · exact ⟨_, rfl, by simp⟩
      · exact ⟨_, rfl, by simp⟩
    obtain ⟨m1, e1, ne⟩ := hp
    refine ⟨process_event_clocked_const k now _ m, m1, e1, ne, ?_⟩
    intro hn
    constructor
    · simp [Dispatch.run_clocked, hn, process_event_clocked_const, e1]
    · simp [Dispatch.run, hn, e1]

/-- C31, witness: the poll of the counterexample, whose readings straddle the expiry, and
the readings it takes. -/
theorem C31_poll_leaves_SpecCheck_on_agreeing_readings_witness :
    scenario.late_target.state = fsm.State.SpecCheck ∧
    ∃ m1, fsm.process_event_clocked scenario.k0 scenario.straddling_clock fsm.Event.poll
        scenario.late_target = Except.ok m1 ∧
      (m1.state = fsm.State.SpecCheck ∨ m1.state = fsm.State.NextTarget ∨
        m1.state = fsm.State.Dispatch ∨ m1.state = fsm.State.Terminate) ∧
      (m1.state = fsm.State.SpecCheck → m1 = scenario.late_target) ∧
      (m1.state = fsm.State.SpecCheck ↔
        fsm.is_dev_mode scenario.late_target.toDispatchFSM_ = false ∧
        fsm.is_first scenario.late_target.toDispatchFSM_ = false ∧
        (fsm.is_target_expired scenario.late_target.toDispatchFSM_
            (scenario.straddling_clock 0) &&
          !fsm.have_next_target scenario.late_target.toDispatchFSM_) = false ∧
        fsm.is_target_expired scenario.late_target.toDispatchFSM_
          (scenario.straddling_clock 1) = true ∧
        (fsm.is_target_expired scenario.late_target.toDispatchFSM_
            (scenario.straddling_clock 2) &&
          fsm.have_next_target scenario.late_target.toDispatchFSM_) = false) ∧
      ((fsm.is_target_expired scenario.late_target.toDispatchFSM_
            (scenario.straddling_clock 1) =
            fsm.is_target_expired scenario.late_target.toDispatchFSM_
              (scenario.straddling_clock 0) ∧
          fsm.is_target_expired scenario.late_target.toDispatchFSM_
            (scenario.straddling_clock 2) =
            fsm.is_target_expired scenario.late_target.toDispatchFSM_
              (scenario.straddling_clock 0)) →
        m1.state ≠ fsm.State.SpecCheck) ∧
      (fsm.is_dev_mode scenario.late_target.toDispatchFSM_ = true ∨
          fsm.is_first scenario.late_target.toDispatchFSM_ = true →
        m1.state ≠ fsm.State.SpecCheck) :=
  ⟨rfl, (C31_poll_leaves_SpecCheck_on_agreeing_readings scenario.k0
    scenario.straddling_clock scenario.late_target rfl).2.1⟩

theorem dispatch_vm_event_machine (k : Constants) (d d1 : fsm.DispatchFSM_)
    (v n1 : vm.NodeFSM) (ev : vm.Event)
    (h : fsm.dispatch_vm_event k d v = Except.ok (ev, n1, d1)) :
    n1 = { v with errors_ := n1.errors_ } := by
  unfold fsm.dispatch_vm_event at h
  split_ifs at h
  · split at h
    · simp only [Except.ok.injEq, Prod.mk.injEq] at h
      rw [← h.2.1]
    · cases h
  · simp only [Except.ok.injEq, Prod.mk.injEq] at h
    rw [← h.2.1]
  · split at h
    · simp only [Except.ok.injEq, Prod.mk.injEq] at h
      rw [← h.2.1]
    · cases h
  · simp only [Except.ok.injEq, Prod.mk.injEq] at h
    rw [← h.2.1]
  · simp only [Except.ok.injEq, Prod.mk.injEq] at h
    rw [← h.2.1]
  · simp only [Except.ok.injEq, Prod.mk.injEq] at h
    rw [← h.2.1]

theorem dispatch_svm_event_machine (k : Constants) (d d1 : fsm.DispatchFSM_)
    (v n1 : svm.NodeFSM) (ev : svm.Event)
    (h : fsm.dispatch_svm_event k d v = Except.ok (ev, n1, d1)) :
    n1 = { v with errors_ := n1.errors_ } := by
  unfold fsm.dispatch_svm_event at h
  split_ifs at h
  · simp only [Except.ok.injEq, Prod.mk.injEq] at h
    rw [← h.2.1]
  · simp only [Except.ok.injEq, Prod.mk.injEq] at h
    rw [← h.2.1]
  · split at h
    · simp only [Except.ok.injEq, Prod.mk.injEq] at h
      rw [← h.2.1]
    · cases h
  · simp only [Except.ok.injEq, Prod.mk.injEq] at h
    rw [← h.2.1]
  · simp only [Except.ok.injEq, Prod.mk.injEq] at h
    rw [← h.2.1]

theorem dispatch_vm_visit (k : Constants) (d : fsm.DispatchFSM_) (v : vm.NodeFSM)
    (r : vm.NodeFSM × fsm.DispatchFSM_) (h : fsm.dispatch_vm k d v = Except.ok r) :
    fsm.vm_visit k d v r.1 r.2 := by
  unfold fsm.dispatch_vm at h
  cases h1 : fsm.dispatch_vm_event k d v with
  | error x => rw [h1] at h; cases h
  | ok w =>
      obtain ⟨ev, n1, d1⟩ := w
      rw [h1] at h
      simp only at h
      cases h2 : vm.process_event ev n1 d1.sys with
      | error x => rw [h2] at h; cases h
      | ok w =>
          rw [h2] at h
          simp only [Except.ok.injEq] at h
          rw [← h]
          obtain ⟨-, -, hs, -, -⟩ := dispatch_vm_event_step k d d1 v n1 ev h1
          have hone := vm_process_event_one_transition ev n1 d1.sys w h2
          rw [hs] at hone
          exact ⟨ev, n1, d1, w.2, h1, dispatch_vm_event_machine k d d1 v n1 ev h1, h2, rfl,
            hone⟩

theorem dispatch_svm_visit (k : Constants) (d : fsm.DispatchFSM_) (v : svm.NodeFSM)
    (r : svm.NodeFSM × fsm.DispatchFSM_) (h : fsm.dispatch_svm k d v = Except.ok r) :
    fsm.svm_visit k d v r.1 r.2 := by
  unfold fsm.dispatch_svm at h
  cases h1 : fsm.dispatch_svm_event k d v with
  | error x => rw [h1] at h; cases h
  | ok w =>
      obtain ⟨ev, n1, d1⟩ := w
      rw [h1] at h
      simp only at h
      cases h2 : svm.process_event ev n1 d1.sys with
      | error x => rw [h2] at h; cases h
      | ok w =>
          rw [h2] at h
          simp only [Except.ok.injEq] at h
          rw [← h]
          obtain ⟨-, -, hs, -, -⟩ := dispatch_svm_event_step k d d1 v n1 ev h1
          have hone := svm_process_event_one_transition ev n1 d1.sys w h2
          rw [hs] at hone
          exact ⟨ev, n1, d1, w.2, h1, dispatch_svm_event_machine k d d1 v n1 ev h1, h2, rfl,
            hone⟩

theorem dispatch_vm_loop_visits (k : Constants) (l : List vm.NodeFSM) :
    ∀ (done : List vm.NodeFSM) (d : fsm.DispatchFSM_) (r : List vm.NodeFSM × fsm.DispatchFSM_),
      fsm.dispatch_vm_loop k l done d = Except.ok r →
      ∃ res, r.1 = done ++ res ∧ fsm.vm_visits k d l res r.2 := by
  induction l with
  | nil =>
      intro done d r h
      simp only [fsm.dispatch_vm_loop, Except.ok.injEq] at h
      rw [← h]
      exact ⟨[], by simp, fsm.vm_visits.nil d⟩
  | cons x xs ih =>
      intro done d r h
      simp only [fsm.dispatch_vm_loop] at h
      cases h1 : fsm.dispatch_vm k d x with
      | error e => rw [h1] at h; cases h
      | ok v =>
          rw [h1] at h
          obtain ⟨res, e2, f2⟩ := ih _ _ _ h
          exact ⟨v.1 :: res, by rw [e2]; simp,
            fsm.vm_visits.cons (dispatch_vm_visit k d x v h1) f2⟩

theorem dispatch_svm_loop_visits (k : Constants) (l : List svm.NodeFSM) :
    ∀ (done : List svm.NodeFSM) (d : fsm.DispatchFSM_)
      (r : List svm.NodeFSM × fsm.DispatchFSM_),
      fsm.dispatch_svm_loop k l done d = Except.ok r →
      ∃ res, r.1 = done ++ res ∧ fsm.svm_visits k d l res r.2 := by
  induction l with
  | nil =>
      intro done d r h
      simp only [fsm.dispatch_svm_loop, Except.ok.injEq] at h
      rw [← h]
      exact ⟨[], by simp, fsm.svm_visits.nil d⟩
  | cons x xs ih =>
      intro done d r h
      simp only [fsm.dispatch_svm_loop] at h
      cases h1 : fsm.dispatch_svm k d x with
      | error e => rw [h1] at h; cases h
      | ok v =>
          rw [h1] at h
          obtain ⟨res, e2, f2⟩ := ih _ _ _ h
          exact ⟨v.1 :: res, by rw [e2]; simp,
            fsm.svm_visits.cons (dispatch_svm_visit k d x v h1) f2⟩

theorem vm_visit_functional (k : Constants) (d d1 d2 : fsm.DispatchFSM_) (v v1 v2 : vm.NodeFSM)
    (h1 : fsm.vm_visit k d v v1 d1) (h2 : fsm.vm_visit k d v v2 d2) : v1 = v2 ∧ d1 = d2 := by
  obtain ⟨ev, v0, d0, s1, e1, -, p1, q1, -⟩ := h1
  obtain ⟨ev2, v02, d02, s2, e2, -, p2, q2, -⟩ := h2
  rw [e1] at e2
  simp only [Except.ok.injEq, Prod.mk.injEq] at e2
  obtain ⟨rfl, rfl, rfl⟩ := e2
  rw [p1] at p2
  simp only [Except.ok.injEq, Prod.mk.injEq] at p2
  obtain ⟨rfl, rfl⟩ := p2
  exact ⟨rfl, q1.trans q2.symm⟩

theorem svm_visit_functional (k : Constants) (d d1 d2 : fsm.DispatchFSM_)
    (v v1 v2 : svm.NodeFSM)
    (h1 : fsm.svm_visit k d v v1 d1) (h2 : fsm.svm_visit k d v v2 d2) : v1 = v2 ∧ d1 = d2 := by
  obtain ⟨ev, v0, d0, s1, e1, -, p1, q1, -⟩ := h1
  obtain ⟨ev2, v02, d02, s2, e2, -, p2, q2, -⟩ := h2
  rw [e1] at e2
  simp only [Except.ok.injEq, Prod.mk.injEq] at e2
  obtain ⟨rfl, rfl, rfl⟩ := e2
  rw [p1] at p2
  simp only [Except.ok.injEq, Prod.mk.injEq] at p2
  obtain ⟨rfl, rfl⟩ := p2
  exact ⟨rfl, q1.trans q2.symm⟩

/-- The visits of one `for_each` over the VM machines determine the machines and the
dispatcher they leave. -/
theorem vm_visits_functional (k : Constants) (d da : fsm.DispatchFSM_)
    (l l1 : List vm.NodeFSM) (h1 : fsm.vm_visits k d l l1 da) :
    ∀ (l2 : List vm.NodeFSM) (db : fsm.DispatchFSM_), fsm.vm_visits k d l l2 db →
      l2 = l1 ∧ db = da := by
  induction h1 with
  | nil d =>
      intro l2 db h2
      cases h2
      exact ⟨rfl, rfl⟩
  | cons hv _ ih =>
      intro l2 db h2
      cases h2 with
      | cons hv2 hr2 =>
          obtain ⟨rfl, rfl⟩ := vm_visit_functional k _ _ _ _ _ _ hv hv2
          obtain ⟨rfl, rfl⟩ := ih _ _ hr2
          exact ⟨rfl, rfl⟩

/-- The visits of one `for_each` over the SVM machines determine the machines and the
dispatcher they leave. -/
theorem svm_visits_functional (k : Constants) (d da : fsm.DispatchFSM_)
    (l l1 : List svm.NodeFSM) (h1 : fsm.svm_visits k d l l1 da) :
    ∀ (l2 : List svm.NodeFSM) (db : fsm.DispatchFSM_), fsm.svm_visits k d l l2 db →
      l2 = l1 ∧ db = da := by
  induction h1 with
  | nil d =>
      intro l2 db h2
      cases h2
      exact ⟨rfl, rfl⟩
  | cons hv _ ih =>
      intro l2 db h2
      cases h2 with
      | cons hv2 hr2 =>
          obtain ⟨rfl, rfl⟩ := svm_visit_functional k _ _ _ _ _ _ hv hv2
          obtain ⟨rfl, rfl⟩ := ih _ _ hr2
          exact ⟨rfl, rfl⟩

theorem vm_visits_states (k : Constants) (d da : fsm.DispatchFSM_)
    (l l1 : List vm.NodeFSM) (h : fsm.vm_visits k d l l1 da) :
    List.Forall₂ (fun v v1 => v1.state = v.state ∨ ∃ row ∈ vm.transition_table,
      row.source = v.state ∧ row.target = v1.state) l l1 := by
  induction h with
  | nil d => exact List.Forall₂.nil
  | cons hv _ ih =>
      obtain ⟨ev, v0, d0, s1, -, -, -, -, hr⟩ := hv
      refine List.Forall₂.cons ?_ ih
      rcases hr with hr | ⟨row, hm, a, -, c⟩
      · exact Or.inl hr
      · exact Or.inr ⟨row, hm, a, c⟩

theorem svm_visits_states (k : Constants) (d da : fsm.DispatchFSM_)
    (l l1 : List svm.NodeFSM) (h : fsm.svm_visits k d l l1 da) :
    List.Forall₂ (fun v v1 => v1.state = v.state ∨ ∃ row ∈ svm.transition_table,
      row.source = v.state ∧ row.target = v1.state) l l1 := by
  induction h with
  | nil d => exact List.Forall₂.nil
  | cons hv _ ih =>
      obtain ⟨ev, v0, d0, s1, -, -, -, -, hr⟩ := hv
      refine List.Forall₂.cons ?_ ih
      rcases hr with hr | ⟨row, hm, a, -, c⟩
      · exact Or.inl hr
      · exact Or.inr ⟨row, hm, a, c⟩

/-- One pass of action `dispatch`: the VM machines are visited once each, starting from
the dispatcher as the action found it, then the SVM machines once each, starting from the
dispatcher as the VM visits left it. -/
theorem dispatch_visits (k : Constants) (now : Int) (d d1 : fsm.DispatchFSM_)
    (h : fsm.dispatch k now d = Except.ok d1) :
    ∃ da db, fsm.vm_visits k d d.vm_node_fsms_ d1.vm_node_fsms_ da ∧
      fsm.svm_visits k { da with vm_node_fsms_ := d1.vm_node_fsms_ } d.svm_node_fsms_
        d1.svm_node_fsms_ db := by
  unfold fsm.dispatch at h
  cases h1 : fsm.dispatch_vm_loop k d.vm_node_fsms_ [] d with
  | error e => rw [h1] at h; cases h
  | ok v =>
      obtain ⟨vms, da⟩ := v
      rw [h1] at h
      simp only at h
      obtain ⟨pa, -, -, -⟩ := dispatch_vm_loop_step k _ _ _ _ h1
      obtain ⟨res, ea, fa⟩ := dispatch_vm_loop_visits k _ _ _ _ h1
      simp only [List.nil_append] at ea
      subst ea
      have pa1 : fsm.pass_step d da := pa
      have hsv : da.svm_node_fsms_ = d.svm_node_fsms_ := by rw [pa1.1]
      cases h2 : fsm.dispatch_svm_loop k da.svm_node_fsms_ []
          { da with vm_node_fsms_ := vms } with
      | error e => rw [h2] at h; cases h
      | ok w =>
          obtain ⟨svms, db⟩ := w
          rw [h2] at h
          simp only [Except.ok.injEq] at h
          obtain ⟨pb, -, -, -⟩ := dispatch_svm_loop_step k _ _ _ _ h2
          obtain ⟨res2, eb, fb⟩ := dispatch_svm_loop_visits k _ _ _ _ h2
          simp only [List.nil_append] at eb
          subst eb
          have pb1 : fsm.pass_step { da with vm_node_fsms_ := vms } db := pb
          have hvm : db.vm_node_fsms_ = vms := by rw [pb1.1]
          obtain ⟨w1, w2, w3, w4, w5, w6⟩ := dispatch_tail_fields db svms now
          conv at fb => arg 3; rw [hsv]
          subst h
          rw [w1, w2, hvm]
          exact ⟨da, db, fa, fb⟩

/-! ### C18 -/

/-- C18: during one call of `Dispatch::run` every worker machine processes at most one
event, and so makes at most one transition.  A call that finds the Dispatch machine in
`Dispatch` with a worker registered visits the VM machines in list order and then the SVM
machines in list order, each machine once: the visit works on the machine as the call
found it and on the dispatcher as the visit before it left it, gives the machine exactly
one event in one call of `process_event`, and the machine the call leaves at that position
is the one this `process_event` returned, whose state is the old state or the target of
one row out of the old state on that event; the visits determine the machines the call
leaves.  A call in any state other than `Dispatch`
and `NextTarget`, in particular in `SpecCheck` or in `Terminate`, and a call with no
worker registered leave all machines and all worker handles as they were.  A call in
`NextTarget` with workers registered replaces the machines by new ones, each of which has
processed its `start` event and nothing else. -/
theorem C18_one_visit_per_worker_machine (k : Constants) (now : Int) (m m1 : fsm.DispatchFSM)
    (h : Dispatch.run k now m = Except.ok m1) :
    (m.state = fsm.State.Dispatch → Dispatch.has_nodes m = true →
      (∃ da db,
        fsm.vm_visits k m.toDispatchFSM_ m.vm_node_fsms_ m1.vm_node_fsms_ da ∧
        fsm.svm_visits k { da with vm_node_fsms_ := m1.vm_node_fsms_ } m.svm_node_fsms_
          m1.svm_node_fsms_ db ∧
        (∀ l dc, fsm.vm_visits k m.toDispatchFSM_ m.vm_node_fsms_ l dc →
          l = m1.vm_node_fsms_ ∧ dc = da) ∧
        (∀ l dc, fsm.svm_visits k { da with vm_node_fsms_ := m1.vm_node_fsms_ }
            m.svm_node_fsms_ l dc → l = m1.svm_node_fsms_ ∧ dc = db)) ∧
      List.Forall₂ (fun v v1 => v1.state = v.state ∨ ∃ row ∈ vm.transition_table,
        row.source = v.state ∧ row.target = v1.state) m.vm_node_fsms_ m1.vm_node_fsms_ ∧
      List.Forall₂ (fun v v1 => v1.state = v.state ∨ ∃ row ∈ svm.transition_table,
        row.source = v.state ∧ row.target = v1.state) m.svm_node_fsms_ m1.svm_node_fsms_) ∧
    ((m.state ≠ fsm.State.Dispatch ∧ m.state ≠ fsm.State.NextTarget) ∨
        Dispatch.has_nodes m = false →
      m1.vm_node_fsms_ = m.vm_node_fsms_ ∧ m1.svm_node_fsms_ = m.svm_node_fsms_ ∧
      m1.node_registrar_ = m.node_registrar_) ∧
    (m.state = fsm.State.SpecCheck ∨ m.state = fsm.State.Terminate →
      m1.vm_node_fsms_ = m.vm_node_fsms_ ∧ m1.svm_node_fsms_ = m.svm_node_fsms_ ∧
      m1.node_registrar_ = m.node_registrar_) ∧
    (m.state = fsm.State.NextTarget → Dispatch.has_nodes m = true →
      (∀ v ∈ m1.vm_node_fsms_, ∃ node, v = vm_machine_for node m.options_ ∧
        ∀ s, vm.process_event
          (vm.Event.start node false m.options_.vm.image.update m.options_.mode.distributed)
          vm.NodeFSM.fresh s = Except.ok (v, s)) ∧
      (∀ v ∈ m1.svm_node_fsms_, ∃ node, v = svm_machine_for node ∧
        ∀ s, svm.process_event (svm.Event.start node) svm.NodeFSM.fresh s =
          Except.ok (v, s))) := by
  have hvis : m.state = fsm.State.Dispatch → Dispatch.has_nodes m = true →
      (∃ da db,
        fsm.vm_visits k m.toDispatchFSM_ m.vm_node_fsms_ m1.vm_node_fsms_ da ∧
        fsm.svm_visits k { da with vm_node_fsms_ := m1.vm_node_fsms_ } m.svm_node_fsms_
          m1.svm_node_fsms_ db ∧
        (∀ l dc, fsm.vm_visits k m.toDispatchFSM_ m.vm_node_fsms_ l dc →
          l = m1.vm_node_fsms_ ∧ dc = da) ∧
        (∀ l dc, fsm.svm_visits k { da with vm_node_fsms_ := m1.vm_node_fsms_ }
            m.svm_node_fsms_ l dc → l = m1.svm_node_fsms_ ∧ dc = db)) ∧
      List.Forall₂ (fun v v1 => v1.state = v.state ∨ ∃ row ∈ vm.transition_table,
        row.source = v.state ∧ row.target = v1.state) m.vm_node_fsms_ m1.vm_node_fsms_ ∧
      List.Forall₂ (fun v v1 => v1.state = v.state ∨ ∃ row ∈ svm.transition_table,
        row.source = v.state ∧ row.target = v1.state) m.svm_node_fsms_ m1.svm_node_fsms_ := by
    intro hst hn
    have h2 := h
    unfold Dispatch.run at h2
    rw [hn] at h2
    simp only [Bool.not_true, Bool.false_eq_true, if_false] at h2
    rw [fsm_poll_in_Dispatch k now m hst] at h2
    split at h2
    · rename_i d hd
      cases h2
      obtain ⟨da, db, fa, fb⟩ := dispatch_visits k now _ d hd
      exact ⟨⟨da, db, fa, fb, vm_visits_functional k _ _ _ _ fa,
        svm_visits_functional k _ _ _ _ fb⟩, vm_visits_states k _ _ _ _ fa,
        svm_visits_states k _ _ _ _ fb⟩
    · cases h2
  rcases run_machines k now m m1 h with ⟨e1, e2, e3, e4⟩ | ⟨e1, e2, e3⟩ | ⟨e1, e2, e3⟩
  · refine ⟨hvis, fun _ => ⟨e1, e2, e3⟩, fun _ => ⟨e1, e2, e3⟩, fun hc hn => ?_⟩
    rcases e4 with e4 | e4
    · rw [hn] at e4
      cases e4
    · exact absurd hc e4.1
  · refine ⟨hvis, ?_, ?_, ?_⟩
    · rintro (hc | hc)
      · exact absurd e1 hc.1
      · have h2 := h
        unfold Dispatch.run at h2
        rw [hc] at h2
        simp only [Bool.not_false, if_true] at h2
        cases h2
        exact ⟨rfl, rfl, rfl⟩
    · rintro (hc | hc) <;> rw [e1] at hc <;> cases hc
    · intro hc
      rw [e1] at hc
      cases hc
  · refine ⟨hvis, ?_, ?_, ?_⟩
    · rintro (hc | hc)
      · exact absurd e1 hc.2
      · have h2 := h
        unfold Dispatch.run at h2
        rw [hc] at h2
        simp only [Bool.not_false, if_true] at h2
        cases h2
        exact ⟨rfl, rfl, rfl⟩
    · rintro (hc | hc) <;> rw [e1] at hc <;> cases hc
    · intro _ _
      constructor
      · intro v hv
        obtain ⟨node, e⟩ := e2 v hv
        exact ⟨node, e, fun s => by rw [vm_start_on_fresh, e]; rfl⟩
      · intro v hv
        obtain ⟨node, e⟩ := e3 v hv
        exact ⟨node, e, fun s => by rw [svm_start_on_fresh, e]; rfl⟩

/-- C18, witness: the third call of `Dispatch::run` in scenario S3, which finds the
Dispatch machine in `Dispatch` and visits the VM machine and the SVM machine once each;
the VM machine goes from `TxConfig` to `Commence`. -/
theorem C18_one_visit_per_worker_machine_witness :
    (∃ da db,
      fsm.vm_visits scenario.k0 (scenario.S3_polled [0, 0]).toDispatchFSM_
        (scenario.S3_polled [0, 0]).vm_node_fsms_
        (scenario.S3_polled [0, 0, 0]).vm_node_fsms_ da ∧
      fsm.svm_visits scenario.k0
        { da with vm_node_fsms_ := (scenario.S3_polled [0, 0, 0]).vm_node_fsms_ }
        (scenario.S3_polled [0, 0]).svm_node_fsms_
        (scenario.S3_polled [0, 0, 0]).svm_node_fsms_ db ∧
      (∀ l dc, fsm.vm_visits scenario.k0 (scenario.S3_polled [0, 0]).toDispatchFSM_
          (scenario.S3_polled [0, 0]).vm_node_fsms_ l dc →
        l = (scenario.S3_polled [0, 0, 0]).vm_node_fsms_ ∧ dc = da) ∧
      (∀ l dc, fsm.svm_visits scenario.k0
          { da with vm_node_fsms_ := (scenario.S3_polled [0, 0, 0]).vm_node_fsms_ }
          (scenario.S3_polled [0, 0]).svm_node_fsms_ l dc →
        l = (scenario.S3_polled [0, 0, 0]).svm_node_fsms_ ∧ dc = db)) ∧
    (scenario.S3_polled [0, 0]).state = fsm.State.Dispatch ∧
    (scenario.S3_polled [0, 0]).vm_node_fsms_.map (fun v => v.state) = [vm.State.TxConfig] ∧
    (scenario.S3_polled [0, 0, 0]).vm_node_fsms_.map (fun v => v.state) = [vm.State.Commence] :=
  ⟨((C18_one_visit_per_worker_machine scenario.k0 0 (scenario.S3_polled [0, 0])
      (scenario.S3_polled [0, 0, 0]) rfl).1 rfl rfl).1, rfl, rfl, rfl⟩

end cluster
end crete
